import Mathlib

/-!
# SVG World Map: hierarchy builder, selection state machine and style resolver

A shallow embedding of `src/src/svg-world-map.js`.

Modelling conventions

* The loaded SVG document is an arena `List DomNode`, listed in document order.  A node
  is named by its index; `parent = none` marks a direct child of `baseNode`.  Every node
  has one parent, as in a DOM tree.
* JavaScript `undefined` is `none`.  Node identity (`==` on two nodes) is equality of
  indices.
* `removeChild` records the node in `removed`; `parentNode`, `childNodes` and
  `getElementById` read the live tree, that is the arena minus the detached nodes.
* A JavaScript object used as a dictionary is an association list of its own properties
  in insertion order (`Obj`).  That is the order in which JavaScript enumerates them when
  no key is a canonical array index (`isArrayIndex`); `enumKeys` gives the order in
  general, array indices coming first in numeric order.
* A read `o[k]` is the lookup `objGet` among the own properties.  A plain object also
  inherits the members of `Object.prototype` (`inheritedNames`): the operations called
  with an identifier from outside (`countryOver`, `countryOut`, `countryClick`) test for
  them; node ids, keys of the country data and keys of update data are taken not to be
  such names, and a property that depends on it says so in a hypothesis.
* An uncaught `TypeError` ends the running handler and keeps the mutations made so far:
  operations return `Except MapState MapState`, `.error s` carrying the state reached
  when the fault was raised.
* Strings are ordered by UTF-16 code units, as `Array.prototype.sort` does; `substr`
  counts characters.  `toLowerCase` lowers ASCII letters, which is what JavaScript does
  on a string of ASCII characters; the lowercase form of an element id, which depends on
  the Unicode case mapping, is taken from the document (`DomNode.lowerId`).
* Country-data records hold string values under keys that are not property names the
  widget itself reads from a node (`id`, `country`, `provinces`, `border`,
  `updateColor`, ...); the merged record is kept in the field `data`.
* Registered callbacks (`window[options.mapClick]`, ...) only observe: a call is
  recorded in `log` and does not touch the map state.
-/

namespace SvgWorldMap

/-! ## JavaScript helpers -/

/-- Dictionary object: own properties in enumeration order. -/
abbrev Obj (α : Type) := List (String × α)

/-- Property read `o[k]`. -/
def objGet {α : Type} : Obj α → String → Option α
  | [], _ => none
  | (k', v) :: rest, k => if k' = k then some v else objGet rest k

/-- Property write `o[k] = v`: an existing key keeps its place, a new key goes last. -/
def objSet {α : Type} : Obj α → String → α → Obj α
  | [], k, v => [(k, v)]
  | (k', v') :: rest, k, v =>
    if k' = k then (k', v) :: rest else (k', v') :: objSet rest k v

/-- Property removal `delete o[k]`. -/
def objDelete {α : Type} (o : Obj α) (k : String) : Obj α :=
  o.filter (fun e => !(e.1 == k))

/-- The own keys of `o` in insertion order: what `Object.keys(o)` yields when no key is a
canonical array index. -/
def objKeys {α : Type} (o : Obj α) : List String := o.map Prod.fst

/-- The property names that a plain object inherits from `Object.prototype`: on an object
without own property `k`, the read `o[k]` of one of them yields the inherited member and
not `undefined`. -/
def inheritedNames : List String :=
  ["constructor", "__defineGetter__", "__defineSetter__", "hasOwnProperty",
   "__lookupGetter__", "__lookupSetter__", "isPrototypeOf", "propertyIsEnumerable",
   "toString", "valueOf", "__proto__", "toLocaleString"]

/-- The call `s.substr(0, n)`. -/
def substr0 (s : String) (n : Nat) : String := ⟨s.data.take n⟩

/-- The call `s.toLowerCase()` on a string of ASCII characters: the letters `A` to `Z` are
lowered, every other character is kept. -/
def toLowerCase (s : String) : String := ⟨s.data.map Char.toLower⟩

/-- White space and line terminators, as `trim()` and the conversion of a string to a
number remove them. -/
def isJsSpace (c : Char) : Bool :=
  c.toNat = 9 || c.toNat = 10 || c.toNat = 11 || c.toNat = 12 || c.toNat = 13 ||
  c.toNat = 32 || c.toNat = 160 || c.toNat = 5760 ||
  (8192 ≤ c.toNat && c.toNat ≤ 8202) || c.toNat = 8232 || c.toNat = 8233 ||
  c.toNat = 8239 || c.toNat = 8287 || c.toNat = 12288 || c.toNat = 65279

/-- The call `s.trim()` on a character list. -/
def trimChars (l : List Char) : List Char :=
  ((l.dropWhile isJsSpace).reverse.dropWhile isJsSpace).reverse

/-- The UTF-16 code units of a character. -/
def utf16Units (c : Char) : List Nat :=
  if c.toNat < 65536 then [c.toNat]
  else [55296 + (c.toNat - 65536) / 1024, 56320 + (c.toNat - 65536) % 1024]

/-- The UTF-16 code units of a string. -/
def codeUnits (s : String) : List Nat := s.data.foldr (fun c acc => utf16Units c ++ acc) []

/-- Lexicographic order on code unit sequences. -/
def unitsLt : List Nat → List Nat → Bool
  | [], [] => false
  | [], _ :: _ => true
  | _ :: _, [] => false
  | a :: as, b :: bs => if a < b then true else if b < a then false else unitsLt as bs

/-- The comparison `a < b` of two strings, by UTF-16 code units. -/
def jsLt (a b : String) : Bool := unitsLt (codeUnits a) (codeUnits b)

/-- Insertion of a key into an ascending key list (helper of `sortKeys`). -/
def insertKey (k : String) : List String → List String
  | [] => [k]
  | x :: xs => if jsLt k x then k :: x :: xs else x :: insertKey k xs

/-- The call `keys.sort()` with the default (string) comparison. -/
def sortKeys (ks : List String) : List String := ks.foldr insertKey []

/-- The reducer of `sortObject`: `object[key] = input[key]`. -/
def copyKey {α : Type} (input : Obj α) (object : Obj α) (key : String) : Obj α :=
  match objGet input key with
  | some v => objSet object key v
  | none => object

/-- Helper function for object alphabetical sort (`sortObject`). -/
def sortObject {α : Type} (input : Obj α) : Obj α :=
  (sortKeys (objKeys input)).foldl (copyKey input) []

/-- The value of a decimal digit character. -/
def digitValue (c : Char) : Nat := c.toNat - '0'.toNat

/-- The number written by a list of decimal digits. -/
def digitsValue (ds : List Char) : Nat := ds.foldl (fun acc c => 10 * acc + digitValue c) 0

/-- Whether a property key is a canonical array index: the decimal numeral, without
leading zero, of an integer below `2^32 - 1`. -/
def isArrayIndex (k : String) : Bool :=
  !k.data.isEmpty && k.data.all Char.isDigit &&
    (k.data.length == 1 || k.data.head? != some '0') &&
    decide (digitsValue k.data < 2 ^ 32 - 1)

/-- Insertion of an array index into a list of array indices ascending by value. -/
def insertIndex (k : String) : List String → List String
  | [] => [k]
  | x :: xs =>
    if digitsValue k.data < digitsValue x.data then k :: x :: xs else x :: insertIndex k xs

/-- The order in which `for (k in o)` and `Object.keys(o)` enumerate the own keys of `o`:
the array indices first, ascending by value, then the other keys in insertion order. -/
def enumKeys {α : Type} (o : Obj α) : List String :=
  ((objKeys o).filter isArrayIndex).foldr insertIndex [] ++
    (objKeys o).filter (fun k => !isArrayIndex k)

/-! ## The document -/

/-- DOM node types the widget distinguishes. -/
inductive NodeKind where
  | element
  | text
  | other
  deriving DecidableEq, Repr

/-- A node of the loaded SVG document, as found in the asset. -/
structure DomNode where
  /-- The `nodeType` of the node. -/
  kind : NodeKind
  /-- The `id` of an element, the empty string when the attribute is absent. -/
  id : String
  /-- The `tagName` of an element. -/
  tagName : String
  /-- The parent node, `none` for a direct child of `baseNode`. -/
  parent : Option Nat
  /-- Attribute `fill` in the asset. -/
  fill : Option String := none
  /-- Attribute `stroke` in the asset. -/
  stroke : Option String := none
  /-- Attribute `stroke-width` in the asset. -/
  strokeWidth : Option String := none
  /-- Attribute `display` in the asset. -/
  display : Option String := none
  /-- Attribute `font-size` in the asset. -/
  fontSize : Option String := none
  /-- The `textContent` of the node in the asset. -/
  textContent : String := ""
  /-- The value of `id.toLowerCase()`: the ASCII lowering unless the asset says otherwise,
  as it has to for an id with a cased letter outside ASCII. -/
  lowerId : String := toLowerCase id
  deriving Repr

/-- The property `node.id`: undefined on text and comment nodes. -/
def idOf (doc : List DomNode) (n : Nat) : Option String :=
  match doc[n]? with
  | some d => if d.kind = NodeKind.element then some d.id else none
  | none => none

/-- The value of `node.id.toLowerCase()` for an element. -/
def lowerIdOf (doc : List DomNode) (n : Nat) : String :=
  match doc[n]? with
  | some d => if d.kind = NodeKind.element then d.lowerId else "undefined"
  | none => "undefined"

/-- The property `node.tagName`: undefined on text and comment nodes. -/
def tagOf (doc : List DomNode) (n : Nat) : Option String :=
  match doc[n]? with
  | some d => if d.kind = NodeKind.element then some d.tagName else none
  | none => none

/-- Whether the node is an element (has `setAttribute`). -/
def isElement (doc : List DomNode) (n : Nat) : Bool :=
  match doc[n]? with
  | some d => decide (d.kind = NodeKind.element)
  | none => false

/-- Whether the node is a text node (`nodeType == Node.TEXT_NODE`). -/
def isTextNode (doc : List DomNode) (n : Nat) : Bool :=
  match doc[n]? with
  | some d => decide (d.kind = NodeKind.text)
  | none => false

/-- The parent of a node in the asset. -/
def parentOf (doc : List DomNode) (n : Nat) : Option Nat :=
  match doc[n]? with
  | some d => d.parent
  | none => none

/-- The `childNodes` of a node, in document order. -/
def childNodes (doc : List DomNode) (n : Nat) : List Nat :=
  (List.range doc.length).filter (fun i => parentOf doc i == some n)

/-- The `childNodes` of `baseNode`, in document order. -/
def baseChildNodes (doc : List DomNode) : List Nat :=
  (List.range doc.length).filter
    (fun i => match doc[i]? with
      | some d => d.parent.isNone
      | none => false)

/-! ## Options and state -/

/-- A per-state palette of the options (`out`, `over`, `click`). -/
structure Palette where
  out : String
  over : String
  click : String
  deriving Repr

/-- Palette lookup `palette[event]`. -/
def Palette.pick (p : Palette) (event : String) : String :=
  if event = "out" then p.out
  else if event = "over" then p.over
  else if event = "click" then p.click
  else "undefined"

/-- The widget options read by the modelled code. -/
structure Options where
  showOcean : Bool := true
  showAntarctica : Bool := true
  showLabels : Bool := true
  showMicroLabels : Bool := false
  showMicroStates : Bool := true
  showInfoBox : Bool := false
  backgroundImage : String := ""
  oceanColor : String := "#D8EBFF"
  worldColor : String := "#FFFFFF"
  labelFill : Palette := ⟨"#666666", "#333333", "#000000"⟩
  countryStroke : Palette := ⟨"#FFFFFF", "#FFFFFF", "#333333"⟩
  countryStrokeWidth : Palette := ⟨"0.5", "1", "1"⟩
  provinceFill : Palette := ⟨"#B9B9B9", "#FFFFFF", "#666666"⟩
  provinceStroke : Palette := ⟨"#FFFFFF", "#FFFFFF", "#666666"⟩
  provinceStrokeWidth : Palette := ⟨"0.1", "0.5", "0.5"⟩
  groupCountries : Bool := true
  groupBy : List String := ["region"]
  mapOut : String := "mapOut"
  mapOver : String := "mapOver"
  mapClick : String := "mapClick"
  mapCoords : String := "mapCoords"
  mapDate : String := "mapDate"
  mapTable : String := "mapTable"
  deriving Repr

/-- A JavaScript number as `Number(text)` yields it for a cell of digits, commas and dots:
a non-negative integer that a double holds, `Infinity`, `NaN`, or a decimal with a
fraction part, which is kept as written and not evaluated. -/
inductive JsNum where
  | int (n : Nat)
  | infinity
  | nan
  | decimal (whole fraction : String)
  deriving DecidableEq, Repr

/-- The variable `columnText` of `parseHTMLTable`: the stripped cell text, or the number
it was converted to. -/
inductive CellText where
  | text (s : String)
  | num (n : JsNum)
  deriving DecidableEq, Repr

/-- A value stored in `rowData`: the cell text, or the object `{ data, color }` of a cell
with a background colour. -/
inductive CellVal where
  | plain (t : CellText)
  | shaded (data : CellText) (color : String)
  deriving DecidableEq, Repr

/-- A value stored in `tableData`: a row object, or the text under the key `error`. -/
inductive TableVal where
  | row (r : List (String × CellVal))
  | message (text : String)
  deriving DecidableEq, Repr

/-- Argument handed to a registered callback. -/
inductive JsArg where
  | node (n : Nat)
  | str (s : String)
  | num (n : Int)
  | undefined
  | bool (b : Bool)
  | table (d : List (String × TableVal))
  deriving DecidableEq, Repr

/-- The `parentNode` of a node: another node, `baseNode`, or `null` once detached. -/
inductive ParentRef where
  | node (k : Nat)
  | base
  | null
  deriving DecidableEq, Repr

/-- The widget state: module globals plus the mutable part of every node. -/
structure MapState where
  /-- The document as loaded. -/
  doc : List DomNode
  /-- Module global `options`. -/
  opts : Options
  /-- Module global `countryData`. -/
  countryData : Obj (Obj String)
  /-- Names of the global functions the page defines (`typeof window[name] === "function"`). -/
  globalFns : List String
  /-- Module global `countries`. -/
  countries : Obj Nat
  /-- Module global `countryLabels`. -/
  countryLabels : Obj Nat
  /-- Module global `countryGroups`. -/
  countryGroups : Obj (Obj (Obj Nat))
  /-- Module global `selectedCountry`. -/
  selectedCountry : Option Nat
  /-- Nodes detached from the document by `removeChild`. -/
  removed : List Nat
  /-- Nodes carrying the mouse listeners of `initMapControls`. -/
  listeners : List Nat
  /-- Attribute `fill`. -/
  fill : Nat → Option String
  /-- Attribute `stroke`. -/
  stroke : Nat → Option String
  /-- Attribute `stroke-width`. -/
  strokeWidth : Nat → Option String
  /-- Attribute `display`. -/
  display : Nat → Option String
  /-- Inline `style.fill`. -/
  styleFill : Nat → Option String
  /-- Inline `style.stroke`. -/
  styleStroke : Nat → Option String
  /-- Property `textContent`. -/
  textContent : Nat → String
  /-- Expando `country`. -/
  country : Nat → Option Nat
  /-- Expando `province`. -/
  province : Nat → Option Nat
  /-- Expando `border`. -/
  border : Nat → Option Nat
  /-- Expando `provinces`. -/
  provinces : Nat → Option (List Nat)
  /-- Expando `updateColor`. -/
  updateColor : Nat → Option String
  /-- Expando `microstate`. -/
  microstate : Nat → Option Bool
  /-- Country-data record merged into the node. -/
  data : Nat → Obj String
  /-- The `style.display` of the info box, `none` while `infoBox` is undefined. -/
  infoBoxDisplay : Option String
  /-- The `style.display` of the tooltip. -/
  tooltipDisplay : String
  /-- Calls made to registered callbacks, oldest first: function name and argument. -/
  log : List (String × JsArg)

/-- Function update at one node. -/
def setAt {α : Type} (f : Nat → α) (n : Nat) (v : α) : Nat → α :=
  fun i => if i = n then v else f i

/-- The state an event turn leaves behind, whether or not it raised a fault. -/
def after (r : Except MapState MapState) : MapState :=
  match r with
  | .ok s => s
  | .error s => s

/-- Whether the event turn raised a fault. -/
def faulted (r : Except MapState MapState) : Bool :=
  match r with
  | .ok _ => false
  | .error _ => true

/-- Sequencing inside a handler: a fault in the first step ends the handler. -/
def andThen {β : Type} (r : Except MapState MapState) (f : MapState → Except MapState β) :
    Except MapState β :=
  match r with
  | .error e => .error e
  | .ok s => f s

/-- The property `node.parentNode`. -/
def parentNode (s : MapState) (n : Nat) : ParentRef :=
  if n ∈ s.removed then ParentRef.null
  else match parentOf s.doc n with
    | some k => ParentRef.node k
    | none => ParentRef.base

/-- The property `node.childNodes` in the live tree: the children of the loaded document
minus those that `removeChild` has detached. -/
def liveChildNodes (s : MapState) (n : Nat) : List Nat :=
  (childNodes s.doc n).filter (fun i => !decide (i ∈ s.removed))

/-! ## Style resolver -/

/-- The test `event.substr(0, 1) == '#' || event.substr(0, 3) == 'rgb'`. -/
def isLiteralColor (event : String) : Bool :=
  substr0 event 1 == "#" || substr0 event 3 == "rgb"

/-- The test `path == path.country.border || path.parentNode == path.country.border`,
for a node `n` whose country is `c`. -/
def isBorderPath (s : MapState) (n c : Nat) : Bool :=
  s.border c == some n ||
    (match parentNode s n, s.border c with
     | ParentRef.node k, some b => k == b
     | ParentRef.null, none => true
     | _, _ => false)

/-- The first condition of `pathSetAttributes`: a state event that is not suppressed. -/
def paletteApplies (s : MapState) (n : Nat) (event : String) : Bool :=
  event == "click" ||
    ((event == "out" || event == "over") &&
      !(some n == s.selectedCountry) && !(s.country n == s.selectedCountry))

/-- The branch "Country border" of `pathSetAttributes`: stroke and stroke width from the
country palette, no fill. -/
def strokeBorder (s : MapState) (n : Nat) (event : String) : MapState :=
  { s with
    stroke := setAt s.stroke n (some (s.opts.countryStroke.pick event))
    strokeWidth := setAt s.strokeWidth n (some (s.opts.countryStrokeWidth.pick event)) }

/-- The branch "Other provinces" of `pathSetAttributes`: fill (the recorded `updateColor`
if there is one), stroke and stroke width from the province palette. -/
def fillProvince (s : MapState) (n : Nat) (event : String) : MapState :=
  { s with
    fill := setAt s.fill n
      (some (match s.updateColor n with
        | some u => u
        | none => s.opts.provinceFill.pick event))
    stroke := setAt s.stroke n (some (s.opts.provinceStroke.pick event))
    strokeWidth := setAt s.strokeWidth n (some (s.opts.provinceStrokeWidth.pick event)) }

/-- The branch "Set color to path directly" of `pathSetAttributes`. -/
def fillDirect (s : MapState) (n : Nat) (event : String) : MapState :=
  { s with fill := setAt s.fill n (some event) }

/-- Set all attributes for a path (`pathSetAttributes`). -/
def pathSetAttributes (s : MapState) (path : Option Nat) (event : String) :
    Except MapState MapState :=
  match path with
  | none => .ok s
  | some n =>
    if idOf s.doc n ≠ some "World" ∧ idOf s.doc n ≠ some "Ocean" then
      if paletteApplies s n event then
        match s.country n with
        | none => .error s
        | some c =>
          if ¬ isElement s.doc n then .error s
          else if isBorderPath s n c then .ok (strokeBorder s n event)
          else .ok (fillProvince s n event)
      else if isLiteralColor event then
        if ¬ isElement s.doc n then .error s
        else .ok (fillDirect s n event)
      else .ok s
    else .ok s

/-- Set country label color (`setLabelFill`). -/
def setLabelFill (s : MapState) (id : String) (event : String) : MapState :=
  match objGet s.countryLabels id with
  | some l => { s with fill := setAt s.fill l (some (s.opts.labelFill.pick event)) }
  | none => s

/-! ## Callbacks, info box -/

/-- The test `window[name] && typeof(window[name]) === "function"`. -/
def isFunction (s : MapState) (name : String) : Bool := decide (name ∈ s.globalFns)

/-- A node or `undefined` as a callback argument. -/
def argOf (path : Option Nat) : JsArg :=
  match path with
  | some n => JsArg.node n
  | none => JsArg.undefined

/-- Fire the (custom) callback functions (`callBack`). -/
def callBack (s : MapState) (event : String) (data : JsArg) : MapState :=
  if event = "over" ∧ isFunction s s.opts.mapOver then
    { s with log := s.log ++ [(s.opts.mapOver, data)] }
  else if event = "out" ∧ isFunction s s.opts.mapOut then
    { s with log := s.log ++ [(s.opts.mapOut, data)] }
  else if event = "click" ∧ isFunction s s.opts.mapClick then
    { s with log := s.log ++
        [(s.opts.mapClick, if data = JsArg.undefined then JsArg.str "" else data)] }
  else if event = "coords" ∧ isFunction s s.opts.mapCoords then
    { s with log := s.log ++ [(s.opts.mapCoords, data)] }
  else if event = "date" ∧ isFunction s s.opts.mapDate then
    { s with log := s.log ++ [(s.opts.mapDate, data)] }
  else if event = "table" ∧ isFunction s s.opts.mapTable then
    { s with log := s.log ++ [(s.opts.mapTable, data)] }
  else s

/-- Update info box (`updateInfoBox`): the visibility of the box and the fault raised by
`path.id` or `path.country.name`; the text placed in the box is not modelled. -/
def updateInfoBox (s : MapState) (event : String) (path : Option Nat) :
    Except MapState MapState :=
  match s.infoBoxDisplay with
  | none => .ok s
  | some _ =>
    if event = "over" then
      match path with
      | none => .error s
      | some n =>
        if idOf s.doc n ≠ some "World" ∧ idOf s.doc n ≠ some "Ocean" then
          match s.country n with
          | none => .error s
          | some _ => .ok { s with infoBoxDisplay := some "block" }
        else .ok { s with infoBoxDisplay := some "none" }
    else .ok { s with infoBoxDisplay := some "none" }

/-! ## Selection and hover state machine -/

/-- The assignment `selectedCountry = path`. -/
def setSelected (s : MapState) (path : Option Nat) : MapState :=
  { s with selectedCountry := path }


/-- The loop `list.forEach(f)`, stopping at the first fault. -/
def forEach (f : MapState → Nat → Except MapState MapState) :
    List Nat → MapState → Except MapState MapState
  | [], s => .ok s
  | x :: xs, s =>
    match f s x with
    | .ok s1 => forEach f xs s1
    | .error e => .error e

/-- The body shared by the province loops of `countryOver`, `countryOut`, `countryClick`
and `resetOldSelected`: style the province, then each of its subprovinces. -/
def styleProvince (event : String) (s : MapState) (province : Nat) :
    Except MapState MapState :=
  andThen (pathSetAttributes s (some province) event) fun s1 =>
    match s1.provinces province with
    | some subs => forEach (fun s2 sub => pathSetAttributes s2 (some sub) event) subs s1
    | none => .ok s1

/-- The inner loop of `findProvinceById` over one country's provinces. -/
def findInProvinces (s : MapState) (id : String) : List Nat → Option Nat
  | [] => none
  | p :: ps => if idOf s.doc p = some id then some p else findInProvinces s id ps

/-- The outer loop of `findProvinceById` over the country index. -/
def findInCountries (s : MapState) (id : String) : List (String × Nat) → Option Nat
  | [] => none
  | (_, c) :: rest =>
    match s.provinces c with
    | some ps =>
      (match findInProvinces s id ps with
       | some p => some p
       | none => findInCountries s id rest)
    | none => findInCountries s id rest

/-- Find path in countries (`findProvinceById`). -/
def findProvinceById (s : MapState) (id : String) : Option Nat :=
  findInCountries s id s.countries

/-- The property key a value of `node.id` is converted to. -/
def idKey (id : Option String) : String :=
  match id with
  | some k => k
  | none => "undefined"

/-- The guarded loop `if (node.provinces != undefined) node.provinces.forEach(...)`. -/
def styleProvincesOf (event : String) (s : MapState) (n : Nat) : Except MapState MapState :=
  match s.provinces n with
  | some ps => forEach (styleProvince event) ps s
  | none => .ok s

/-- Reset the old selectedCountry (`resetOldSelected`). -/
def resetOldSelected (s : MapState) (selectedOld : Option Nat) : Except MapState MapState :=
  match selectedOld with
  | none => .ok s
  | some old =>
    andThen (pathSetAttributes s (some old) "out") fun s1 =>
        andThen (styleProvincesOf "out" s1 old) fun s2 =>
          .ok (setLabelFill s2 (idKey (idOf s2.doc old)) "out")

/-- Map click handling (`provinceClick`), `target` being `event.srcElement`. -/
def provinceClick (s : MapState) (target : Nat) : Except MapState MapState :=
  let selectedOld := s.selectedCountry
  andThen (if s.selectedCountry = some target then
             pathSetAttributes (setSelected s none) (some target) "out"
           else
             pathSetAttributes (setSelected s (some target)) (some target) "click") fun s1 =>
    andThen (resetOldSelected s1 selectedOld) fun s2 =>
      .ok (callBack s2 "click" (argOf s2.selectedCountry))

/-- The styling part of `provinceOverOut`: the block guarded by `country != undefined`. -/
def hoverTarget (s : MapState) (overout : String) (target : Nat) :
    Except MapState MapState :=
  if s.country target ≠ none ∧ some target ≠ s.selectedCountry then
    andThen (pathSetAttributes s (some target) overout) fun s1 =>
      if tagOf s1.doc target = some "circle" ∧ overout = "out" then
        .ok { s1 with fill := setAt s1.fill target none
                      stroke := setAt s1.stroke target none }
      else .ok s1
  else .ok s

/-- Map country hover handling (`provinceOverOut`), `target` being `event.srcElement`. -/
def provinceOverOut (s : MapState) (overout : String) (target : Nat) :
    Except MapState MapState :=
  andThen (hoverTarget s overout target) fun s1 =>
    andThen (updateInfoBox s1 overout (some target)) fun s2 =>
      .ok (callBack s2 overout (JsArg.node target))

/-- Hover over function for calling home from the outside (`window.countryOver`).  For an
identifier that is no own key of `countries` but a name inherited from `Object.prototype`,
`countries[id]` is the inherited member, which has no `provinces`: the call
`country.provinces.forEach` raises before anything is changed. -/
def countryOver (s : MapState) (id : String) : Except MapState MapState :=
  match objGet s.countries id with
  | some c =>
    if some c ≠ s.selectedCountry then
      match s.provinces c with
      | none => .error s
      | some ps =>
        andThen (forEach (styleProvince "over") ps s) fun s1 =>
          let s2 := setLabelFill s1 id "over"
          match objGet s2.countryData id with
          | none => .error s2
          | some _ => .ok { s2 with tooltipDisplay := "block" }
    else
      match findProvinceById s id with
      | some p => styleProvince "over" s p
      | none => .ok s
  | none =>
    if id ∈ inheritedNames then .error s
    else
      match findProvinceById s id with
      | some p => styleProvince "over" s p
      | none => .ok s

/-- Hover out function for calling home from the outside (`window.countryOut`); an
inherited name raises as in `countryOver`. -/
def countryOut (s : MapState) (id : String) : Except MapState MapState :=
  match objGet s.countries id with
  | some c =>
    if some c ≠ s.selectedCountry then
      match s.provinces c with
      | none => .error s
      | some ps =>
        andThen (forEach (styleProvince "out") ps s) fun s1 =>
          .ok { setLabelFill s1 id "out" with tooltipDisplay := "none" }
    else
      match findProvinceById s id with
      | some p => styleProvince "out" s p
      | none => .ok s
  | none =>
    if id ∈ inheritedNames then .error s
    else
      match findProvinceById s id with
      | some p => styleProvince "out" s p
      | none => .ok s

/-- The tail of `window.countryClick`: store the new selection, reset the old one, call
back. -/
def finishClick (s : MapState) (country selectedOld : Option Nat) :
    Except MapState MapState :=
  andThen (resetOldSelected (setSelected s country) selectedOld) fun s1 =>
    .ok (callBack s1 "click" (argOf country))

/-- The else branch of `window.countryClick`: province-level addressing. -/
def clickProvinceById (s : MapState) (id : String) : Except MapState MapState :=
  let country := findProvinceById s id
  andThen (pathSetAttributes s country "click") fun s1 =>
    finishClick s1 country s.selectedCountry

/-- Click function for calling home from the outside (`window.countryClick`).  For an
identifier that is no own key of `countries` but a name inherited from `Object.prototype`,
`countries[id]` is the inherited member, which differs from the selection and has no
`provinces`: the call `country.provinces.forEach` raises before anything is changed. -/
def countryClick (s : MapState) (id : String) : Except MapState MapState :=
  match objGet s.countries id with
  | some c =>
    if some c ≠ s.selectedCountry then
      match s.provinces c with
      | none => .error s
      | some ps =>
        andThen (forEach (styleProvince "click") ps s) fun s1 =>
          finishClick (setLabelFill s1 id "click") (some c) s.selectedCountry
    else clickProvinceById s id
  | none => if id ∈ inheritedNames then .error s else clickProvinceById s id

/-! ## Data-driven colouring -/

/-- The assignment `node.updateColor = color`, or `delete node.updateColor` for `none`. -/
def recordColor (s : MapState) (n : Nat) (color : Option String) : MapState :=
  { s with updateColor := setAt s.updateColor n color }

/-- The statements `node.updateColor = color; pathSetAttributes(node, color)`. -/
def colorPath (color : String) (s : MapState) (n : Nat) : Except MapState MapState :=
  pathSetAttributes (recordColor s n (some color)) (some n) color

/-- The province loop body of `window.updateMapData`. -/
def colorProvince (color : String) (s : MapState) (province : Nat) :
    Except MapState MapState :=
  andThen (colorPath color s province) fun s1 =>
    match s1.provinces province with
    | some subs => forEach (colorPath color) subs s1
    | none => .ok s1

/-- The lookup at the head of the loop of `window.updateMapData`: the country index
first, otherwise the province scan. -/
def lookupTarget (s : MapState) (id : String) : Option Nat :=
  match objGet s.countries id with
  | some c => some c
  | none => findProvinceById s id

/-- One iteration of the loop of `window.updateMapData`, for the entry `id: color`.  The
keys of the update data are taken not to be names inherited from `Object.prototype`. -/
def updateEntry (s : MapState) (id : String) (color : String) : Except MapState MapState :=
  match lookupTarget s id with
  | none => .ok s
  | some c =>
    match s.provinces c with
    | none => colorPath color s c
    | some ps => forEach (colorProvince color) ps s

/-- Update function for calling home from the outside (`window.updateMapData`). -/
def updateMapData : MapState → Obj String → Except MapState MapState
  | s, [] => .ok s
  | s, (id, color) :: rest =>
    andThen (updateEntry s id color) fun s1 =>
      updateMapData s1 rest

/-- The statements of `window.resetMap` for one province or subprovince:
`if (node.updateColor != undefined) { delete node.updateColor; pathSetAttributes(node, 'out'); }`. -/
def resetPath (s : MapState) (n : Nat) : Except MapState MapState :=
  match s.updateColor n with
  | some _ => pathSetAttributes (recordColor s n none) (some n) "out"
  | none => .ok s

/-- The province loop body of `window.resetMap`. -/
def resetProvince (s : MapState) (province : Nat) : Except MapState MapState :=
  andThen (resetPath s province) fun s1 =>
    match s1.provinces province with
    | some subs => forEach resetPath subs s1
    | none => .ok s1

/-- The country loop body of `window.resetMap`. -/
def resetCountry (s : MapState) (c : Nat) : Except MapState MapState :=
  match s.provinces c with
  | some ps => forEach resetProvince ps s
  | none => .ok s

/-- Reset all colors and fills (`window.resetMap`). -/
def resetMap (s : MapState) : Except MapState MapState :=
  forEach resetCountry (s.countries.map Prod.snd) s

/-! ## Hierarchy builder -/

/-- The widget state right after the asset is loaded, before `initMapCountries`. -/
def loadState (doc : List DomNode) (opts : Options) (countryData : Obj (Obj String))
    (globalFns : List String) : MapState :=
  { doc := doc
    opts := opts
    countryData := countryData
    globalFns := globalFns
    countries := []
    countryLabels := []
    countryGroups := []
    selectedCountry := none
    removed := []
    listeners := []
    fill := fun n => match doc[n]? with
      | some d => d.fill
      | none => none
    stroke := fun n => match doc[n]? with
      | some d => d.stroke
      | none => none
    strokeWidth := fun n => match doc[n]? with
      | some d => d.strokeWidth
      | none => none
    display := fun n => match doc[n]? with
      | some d => d.display
      | none => none
    styleFill := fun _ => none
    styleStroke := fun _ => none
    textContent := fun n => match doc[n]? with
      | some d => d.textContent
      | none => ""
    country := fun _ => none
    province := fun _ => none
    border := fun _ => none
    provinces := fun _ => none
    updateColor := fun _ => none
    microstate := fun _ => none
    data := fun _ => []
    infoBoxDisplay := none
    tooltipDisplay := "none"
    log := [] }

/-- Whether the node or one of its ancestors was detached from the document. -/
def isDetached (s : MapState) : Nat → Nat → Bool
  | 0, n => decide (n ∈ s.removed)
  | fuel + 1, n =>
    decide (n ∈ s.removed) ||
      (match parentOf s.doc n with
       | some p => isDetached s fuel p
       | none => false)

/-- The call `baseNode.getElementById(id)`: the first attached element with that id. -/
def getElementById (s : MapState) (id : String) : Option Nat :=
  (List.range s.doc.length).find?
    (fun n => idOf s.doc n == some id && !isDetached s s.doc.length n)

/-- The admission test of the first loop of `initMapCountries`. -/
def admitted (doc : List DomNode) (n : Nat) : Bool :=
  match idOf doc n with
  | none => false
  | some id =>
    !(substr0 id 1 == "_") &&
      (tagOf doc n == some "g" || tagOf doc n == some "path" || tagOf doc n == some "rect")

/-- The first loop of `initMapCountries`: `countries[node.id] = node` for admitted nodes. -/
def indexCountries (doc : List DomNode) : List Nat → Obj Nat → Obj Nat
  | [], countries => countries
  | n :: rest, countries =>
    if admitted doc n then indexCountries doc rest (objSet countries (idKey (idOf doc n)) n)
    else indexCountries doc rest countries

/-! ### Elementary writes of the hierarchy builder -/

/-- The assignment `node.style.fill = value`. -/
def setStyleFill (s : MapState) (n : Nat) (value : String) : MapState :=
  { s with styleFill := setAt s.styleFill n (some value) }

/-- The assignment `node.style.stroke = value`. -/
def setStyleStroke (s : MapState) (n : Nat) (value : String) : MapState :=
  { s with styleStroke := setAt s.styleStroke n (some value) }

/-- The call `node.setAttribute('display', value)`. -/
def setDisplay (s : MapState) (n : Nat) (value : String) : MapState :=
  { s with display := setAt s.display n (some value) }

/-- The call `node.setAttribute('fill', value)`. -/
def setFill (s : MapState) (n : Nat) (value : String) : MapState :=
  { s with fill := setAt s.fill n (some value) }

/-- The assignment `node.textContent = value`. -/
def setText (s : MapState) (n : Nat) (value : String) : MapState :=
  { s with textContent := setAt s.textContent n value }

/-- The assignment `node.microstate = value`. -/
def setMicrostate (s : MapState) (n : Nat) (value : Bool) : MapState :=
  { s with microstate := setAt s.microstate n (some value) }

/-- The assignment `countryLabels[key] = label`. -/
def putLabel (s : MapState) (key : String) (label : Nat) : MapState :=
  { s with countryLabels := objSet s.countryLabels key label }

/-- The call `parent.removeChild(node)`. -/
def detach (s : MapState) (n : Nat) : MapState :=
  { s with removed := n :: s.removed }

/-- The statement `delete countries[key]`. -/
def dropCountry (s : MapState) (key : String) : MapState :=
  { s with countries := objDelete s.countries key }

/-- The statement `delete countryLabels[key]`. -/
def dropLabel (s : MapState) (key : String) : MapState :=
  { s with countryLabels := objDelete s.countryLabels key }

/-- The assignments `node.country = c; node.province = p`. -/
def adopt (s : MapState) (n c p : Nat) : MapState :=
  { s with country := setAt s.country n (some c), province := setAt s.province n (some p) }

/-- The assignment `node.country = c`. -/
def setCountry (s : MapState) (n c : Nat) : MapState :=
  { s with country := setAt s.country n (some c) }

/-- The assignment `country.border = child`. -/
def setBorder (s : MapState) (c child : Nat) : MapState :=
  { s with border := setAt s.border c (some child) }

/-- The assignment `node.provinces = list`. -/
def setProvinces (s : MapState) (n : Nat) (list : List Nat) : MapState :=
  { s with provinces := setAt s.provinces n (some list) }

/-- The merge `for (var key in currentCountryData) node[key] = currentCountryData[key]`. -/
def mergeData (s : MapState) (n : Nat) (record : Obj String) : MapState :=
  { s with data := setAt s.data n (record.foldl (fun acc e => objSet acc e.1 e.2) (s.data n)) }

/-! ### The steps of `initMapCountries` -/

/-- The block `if (options.showOcean == false)` of `initMapCountries`. -/
def hideOcean (s : MapState) (o : Nat) : MapState :=
  if s.opts.showOcean = false then setStyleStroke (setStyleFill s o "none") o "none" else s

/-- The block `if (options.backgroundImage != '')` of `initMapCountries`: the image is
inserted before the node found for `World`, and World and Ocean become transparent. -/
def addBackground (s : MapState) (w o : Nat) : Except MapState MapState :=
  if s.opts.backgroundImage ≠ "" then
    match getElementById s "World" with
    | none =>
      .ok (setStyleFill (setStyleFill s w "rgba(255, 255, 255, 0)") o "rgba(255, 255, 255, 0)")
    | some world =>
      if parentNode s world = ParentRef.base then
        .ok (setStyleFill (setStyleFill s w "rgba(255, 255, 255, 0)") o "rgba(255, 255, 255, 0)")
      else .error s
  else .ok s

/-- World and ocean settings of `initMapCountries`, background image included. -/
def styleBackground (s : MapState) : Except MapState MapState :=
  match objGet s.countries "World" with
  | none => .error s
  | some w =>
    match objGet s.countries "Ocean" with
    | none => .error (setStyleFill s w s.opts.worldColor)
    | some o =>
      addBackground
        (hideOcean (setStyleFill (setStyleFill s w s.opts.worldColor) o s.opts.oceanColor) o) w o

/-- The value of a character as a digit of the radix, if it is one. -/
def radixDigit (radix : Nat) (c : Char) : Option Nat :=
  (if c.isDigit = true then some (c.toNat - 48)
   else if 97 ≤ c.toNat ∧ c.toNat ≤ 122 then some (c.toNat - 87)
   else if 65 ≤ c.toNat ∧ c.toNat ≤ 90 then some (c.toNat - 55)
   else none).filter (fun v => decide (v < radix))

/-- The number written by a list of digits of the radix, `none` when a character is no
digit of it. -/
def radixValue (radix : Nat) (ds : List Char) : Option Nat :=
  ds.foldl
    (fun acc c =>
      match acc, radixDigit radix c with
      | some a, some d => some (radix * a + d)
      | _, _ => none)
    (some 0)

/-- The exponent written after `e` or `E` in a decimal literal: digits with an optional
sign. -/
def exponentOf (l : List Char) : Option Int :=
  match l with
  | '+' :: ds => if !ds.isEmpty && ds.all Char.isDigit then some (digitsValue ds) else none
  | '-' :: ds => if !ds.isEmpty && ds.all Char.isDigit then some (-(digitsValue ds : Int)) else none
  | ds => if !ds.isEmpty && ds.all Char.isDigit then some (digitsValue ds) else none

/-- Whether the decimal `n * 10^e` converts to the double 2.  The conversion rounds to the
nearest double; the doubles next to 2 are `2 - 2^-52` and `2 + 2^-51`, and a tie goes to 2,
whose significand is even: the values from `2 - 2^-53` to `2 + 2^-52` convert to 2. -/
def roundsToTwo (n : Nat) (e : Int) : Bool :=
  match e with
  | Int.ofNat k => n * 10 ^ k == 2
  | Int.negSucc k =>
    decide ((2 ^ 54 - 1) * 10 ^ (k + 1) ≤ n * 2 ^ 53) &&
      decide (n * 2 ^ 53 ≤ (2 ^ 54 + 2) * 10 ^ (k + 1))

/-- Whether an unsigned decimal literal of the string-to-number grammar (digits with an
optional fraction and an optional exponent part) converts to the number 2; `Infinity` and
every text that is no such literal do not. -/
def decimalIsTwo (l : List Char) : Bool :=
  let whole := l.takeWhile Char.isDigit
  let afterWhole := l.dropWhile Char.isDigit
  let frac := match afterWhole with
    | '.' :: t => t.takeWhile Char.isDigit
    | _ => []
  let tail := match afterWhole with
    | '.' :: t => t.dropWhile Char.isDigit
    | t => t
  !(whole.isEmpty && frac.isEmpty) &&
    (match tail with
     | [] => roundsToTwo (digitsValue (whole ++ frac)) (-(frac.length : Int))
     | 'e' :: x | 'E' :: x =>
       (match exponentOf x with
        | some k => roundsToTwo (digitsValue (whole ++ frac)) (k - (frac.length : Int))
        | none => false)
     | _ => false)

/-- Whether a hexadecimal, octal or binary integer literal of the string-to-number grammar
writes the number 2. -/
def nonDecimalIsTwo (l : List Char) : Bool :=
  match l with
  | '0' :: 'x' :: ds | '0' :: 'X' :: ds => !ds.isEmpty && radixValue 16 ds == some 2
  | '0' :: 'o' :: ds | '0' :: 'O' :: ds => !ds.isEmpty && radixValue 8 ds == some 2
  | '0' :: 'b' :: ds | '0' :: 'B' :: ds => !ds.isEmpty && radixValue 2 ds == some 2
  | _ => false

/-- The test `attr == 2` on an attribute value.  `null` is not 2.  A string is converted
to a number: white space is trimmed; the rest is a decimal literal with an optional sign,
or an unsigned hexadecimal, octal or binary literal; any other text gives `NaN`, the empty
text 0, and a literal with the sign `-` a number that is not positive. -/
def looseEqualsTwo (attr : Option String) : Bool :=
  match attr with
  | none => false
  | some t =>
    match trimChars t.data with
    | '+' :: u => decimalIsTwo u
    | '-' :: _ => false
    | u => decimalIsTwo u || nonDecimalIsTwo u

/-- The attribute `font-size` of a node in the asset. -/
def fontSizeOf (doc : List DomNode) (n : Nat) : Option String :=
  match doc[n]? with
  | some d => d.fontSize
  | none => none

/-- The statements of `sortLabels` that set the custom country name of a label. -/
def renameLabel (s : MapState) (label : Nat) (record : Obj String) : MapState :=
  if objGet record "name" ≠ some (s.textContent label) then
    setText s label (match objGet record "name" with
      | some v => v
      | none => "")
  else s

/-- The body of the first loop of `sortLabels`, for one child of the label layer. -/
def sortLabel (s : MapState) (label : Nat) : Except MapState MapState :=
  if tagOf s.doc label = some "text" then
    match objGet s.countryData (substr0 (idKey (idOf s.doc label)) 2) with
    | none => .error (putLabel s (substr0 (idKey (idOf s.doc label)) 2) label)
    | some record =>
      .ok (setMicrostate
        (setFill
          (renameLabel (putLabel s (substr0 (idKey (idOf s.doc label)) 2) label) label record)
          label s.opts.labelFill.out)
        label (looseEqualsTwo (fontSizeOf s.doc label)))
  else .ok s

/-- The statement `if (options.showMicroLabels == false) label.setAttribute('display',
'none')` of `sortLabels`. -/
def hideMicroLabel (s : MapState) (label : Nat) : MapState :=
  if s.opts.showMicroLabels = false then setDisplay s label "none" else s

/-- The body of the second loop of `sortLabels`, for one entry of `countryLabels`. -/
def hideMicrostate (s : MapState) (label : Nat) : Except MapState MapState :=
  if s.microstate label = some true then
    if s.opts.showMicroStates = false then
      match objGet s.countries (substr0 (idKey (idOf s.doc label)) 2) with
      | none => .error (hideMicroLabel s label)
      | some c => .ok (setDisplay (hideMicroLabel s label) c "none")
    else .ok (hideMicroLabel s label)
  else .ok s

/-- Get microstates from labels (`sortLabels`). -/
def sortLabels (s : MapState) : Except MapState MapState :=
  match objGet s.countries "labels" with
  | none => .error s
  | some layer =>
    andThen (forEach sortLabel (liveChildNodes s layer) s) fun s1 =>
      forEach hideMicrostate (s1.countryLabels.map Prod.snd) s1

/-- The branch `updateLabels == 'all'` of `window.toggleMapLabels`. -/
def toggleAllLabels (s : MapState) : Except MapState MapState :=
  match getElementById s "labels" with
  | none => .error s
  | some labelGroup =>
    if s.display labelGroup = none ∨ s.display labelGroup = some "block" then
      .ok (setDisplay s labelGroup "none")
    else
      .ok (setDisplay s labelGroup "block")

/-- The second half of the block guarded by `options.showAntarctica == false`: the label
`AQ-label` is removed from the label layer and from `countryLabels`. -/
def removeAntarcticaLabel (s : MapState) : Except MapState MapState :=
  match getElementById s "labels", getElementById s "AQ-label" with
  | some layer, some label =>
    if parentNode s label = ParentRef.node layer then .ok (dropLabel (detach s label) "AQ")
    else .error s
  | _, _ => .error s

/-- The block of `initMapCountries` guarded by `options.showAntarctica == false`. -/
def removeAntarctica (s : MapState) : Except MapState MapState :=
  match getElementById s "AQ" with
  | none => .error s
  | some aq =>
    if parentNode s aq ≠ ParentRef.base then .error s
    else removeAntarcticaLabel (dropCountry (detach s aq) "AQ")

/-- The loop over the children of a border group in `sortProvinces`. -/
def sortBorderChild (c child : Nat) (s : MapState) (grandchild : Nat) :
    Except MapState MapState :=
  if ¬ isTextNode s.doc grandchild then
    pathSetAttributes (adopt s grandchild c child) (some grandchild) "out"
  else .ok s

/-- The loop over the children of a grouped province in `sortProvinces`: the state and
the local array `subprovinces`. -/
def sortGrandchildren (c child : Nat) :
    List Nat → MapState → List Nat → Except MapState (MapState × List Nat)
  | [], s, subprovinces => .ok (s, subprovinces)
  | grandchild :: rest, s, subprovinces =>
    if tagOf s.doc grandchild = some "path" then
      andThen (pathSetAttributes (adopt s grandchild c child) (some grandchild) "out") fun s2 =>
        sortGrandchildren c child rest s2
          (if s.fill grandchild ≠ some "none" then subprovinces ++ [grandchild]
           else subprovinces)
    else sortGrandchildren c child rest (adopt s grandchild c child) subprovinces

/-- The border branch of the child loop of `sortProvinces`. -/
def sortBorder (c child : Nat) (s : MapState) : Except MapState MapState :=
  if tagOf s.doc child ≠ some "g" then
    pathSetAttributes (setBorder s c child) (some child) "out"
  else forEach (sortBorderChild c child) (liveChildNodes s child) (setBorder s c child)

/-- The identifier that marks the border child of the country `k`: `k.id.toLowerCase()`. -/
def borderId (doc : List DomNode) (k : Nat) : String := lowerIdOf doc k

/-- The loop over the children of a country in `sortProvinces`: the state and the local
array `provinces`. -/
def sortChildren (c : Nat) :
    List Nat → MapState → List Nat → Except MapState (MapState × List Nat)
  | [], s, provinces => .ok (s, provinces)
  | child :: rest, s, provinces =>
    if idOf s.doc child = some (borderId s.doc c) then
      andThen (sortBorder c child (adopt s child c child)) fun s3 =>
        sortChildren c rest s3 provinces
    else if tagOf s.doc child = some "path" then
      andThen (pathSetAttributes (adopt s child c child) (some child) "out") fun s2 =>
        sortChildren c rest s2 (provinces ++ [child])
    else if tagOf s.doc child = some "g" then
      match sortGrandchildren c child (liveChildNodes s child) (adopt s child c child) [] with
      | .error e => .error e
      | .ok (s2, subprovinces) =>
        sortChildren c rest (setProvinces s2 child subprovinces) (provinces ++ [child])
    else sortChildren c rest (adopt s child c child) provinces

/-- The head of the country loop body of `sortProvinces`: the country data is merged into
the node and the node becomes its own country. -/
def enterCountry (s : MapState) (c : Nat) : MapState :=
  setCountry
    (match objGet s.countryData (idKey (idOf s.doc c)) with
     | some record => mergeData s c record
     | none => s)
    c c

/-- The body of the country loop of `sortProvinces`. -/
def sortCountry (s : MapState) (c : Nat) : Except MapState MapState :=
  match sortChildren c (liveChildNodes s c) (enterCountry s c) [] with
  | .error e => .error e
  | .ok (s3, provinces) => .ok (setProvinces s3 c provinces)

/-- Map controls (`initMapControls`): the mouse listeners go on every indexed node. -/
def initMapControls (s : MapState) : MapState :=
  { s with listeners := s.listeners ++ s.countries.map Prod.snd }

/-- Pre-sort provinces and subprovinces in countries (`sortProvinces`). -/
def sortProvinces (s : MapState) : Except MapState MapState :=
  andThen (forEach sortCountry (s.countries.map Prod.snd) s) fun s1 =>
    .ok (initMapControls s1)

/-- The statements of `buildCountryGroups` for one country and one grouping key. -/
def addToGroup (record : Obj String) (id : String) (c : Nat)
    (groups : Obj (Obj (Obj Nat))) (mainGroup : String) : Obj (Obj (Obj Nat)) :=
  let subGroup := idKey (objGet record mainGroup)
  let main := match objGet groups mainGroup with
    | some m => m
    | none => []
  if objGet record mainGroup ≠ some "" then
    let sub := match objGet main subGroup with
      | some b => b
      | none => []
    objSet groups mainGroup (objSet main subGroup (objSet sub id c))
  else objSet groups mainGroup main

/-- The country loop body of `buildCountryGroups`. -/
def groupCountry (s : MapState) (groups : Obj (Obj (Obj Nat))) (e : String × Nat) :
    Obj (Obj (Obj Nat)) :=
  match objGet s.countryData (idKey (idOf s.doc e.2)) with
  | some record => s.opts.groupBy.foldl (addToGroup record (idKey (idOf s.doc e.2)) e.2) groups
  | none => groups

/-- Build groups of countries with countryData (`buildCountryGroups`). -/
def buildCountryGroups (s : MapState) : MapState :=
  { s with countryGroups :=
      (s.countries.foldl (groupCountry s) s.countryGroups).map (fun g => (g.1, sortObject g.2)) }

/-- The first loop of `initMapCountries`, filling `countries`. -/
def indexMap (s : MapState) : MapState :=
  { s with countries := indexCountries s.doc (baseChildNodes s.doc) s.countries }

/-- The statement `countries = sortObject(countries)`. -/
def sortCountries (s : MapState) : MapState :=
  { s with countries := sortObject s.countries }

/-- The tail of `initMapCountries`: the index is sorted and the groups are built. -/
def finishInit (s : MapState) : MapState :=
  if s.opts.groupCountries = true then buildCountryGroups (sortCountries s) else sortCountries s

/-- Init countries on SVG map (`initMapCountries`).  The overlay group for shapes and the
background image element are new nodes outside the asset and are left out. -/
def initMapCountries (s : MapState) : Except MapState MapState :=
  andThen (styleBackground (indexMap s)) fun s2 =>
    andThen (sortLabels s2) fun s3 =>
      andThen (if s3.opts.showAntarctica = false then removeAntarctica s3 else .ok s3) fun s4 =>
        andThen (if s4.opts.showLabels = true then toggleAllLabels s4 else .ok s4) fun s5 =>
          andThen (sortProvinces (dropCountry s5 "labels")) fun s6 =>
            .ok (finishInit s6)

/-- The map load of `svgWorldMap`: `initMapCountries`, then the info box if configured. -/
def svgWorldMap (doc : List DomNode) (opts : Options) (countryData : Obj (Obj String))
    (globalFns : List String) : Except MapState MapState :=
  andThen (initMapCountries (loadState doc opts countryData globalFns)) fun s =>
    .ok (if s.opts.showInfoBox = true then { s with infoBoxDisplay := some "none" } else s)

/-! ## A small map used for concrete runs -/

/-- An element of the sample asset. -/
def el (id tag : String) (parent : Option Nat) : DomNode :=
  { kind := NodeKind.element, id := id, tagName := tag, parent := parent }

/-- Sample asset: `World`, `Ocean`, Antarctica with one province, Germany with a border
path, a flat province and a grouped province with one subprovince, France with one
province, and the label layer. -/
def demoDoc : List DomNode :=
  [ el "World" "rect" none, el "Ocean" "rect" none,
    el "AQ" "g" none, el "AQ-x" "path" (some 2),
    el "DE" "g" none, el "de" "path" (some 4), el "DE-BY" "path" (some 4),
    el "DE-NW" "g" (some 4), el "DE-NW-1" "path" (some 7),
    el "FR" "g" none, el "FR-A" "path" (some 9),
    el "labels" "g" none,
    { el "AQ-label" "text" (some 11) with fontSize := some "6" },
    { el "DE-label" "text" (some 11) with fontSize := some "6" },
    { el "FR-label" "text" (some 11) with fontSize := some "2" } ]

/-- Sample country data. -/
def demoData : Obj (Obj String) :=
  [ ("AQ", [("name", "Antarctica"), ("region", "AN")]),
    ("DE", [("name", "Germany"), ("region", "EU")]),
    ("FR", [("name", "France"), ("region", "EU")]) ]

/-- The sample map after loading, with a click callback registered. -/
def demo : MapState := after (svgWorldMap demoDoc {} demoData ["mapClick"])

/-! ## Notions used to state and prove the properties -/

/-- What the code relies on for an entry `p` of the list `n.provinces` of a built map: `p`
is an element other than a circle, is not named `World` or `Ocean`, shares the country of
`n`, and is not styled as a border. -/
def PartOk (s : MapState) (n p : Nat) : Prop :=
  isElement s.doc p = true ∧ idOf s.doc p ≠ some "World" ∧ idOf s.doc p ≠ some "Ocean" ∧
  tagOf s.doc p ≠ some "circle" ∧ s.country p = s.country n ∧
  (s.country p).map (isBorderPath s p) = some false

/-- The shape of the hierarchy that `initMapCountries` builds from an asset whose ids
`World` and `Ocean` occur at the top level only: every index entry is keyed by
its node id, refers to itself as its country and has a `provinces` list; the entries of
every `provinces` list satisfy `PartOk`; every label is keyed by the first two characters
of its id and has no country. -/
def Built (s : MapState) : Prop :=
  (∀ e ∈ s.countries,
    idOf s.doc e.2 = some e.1 ∧ s.country e.2 = some e.2 ∧ (s.provinces e.2).isSome = true) ∧
  (∀ n, n < s.doc.length → ∀ p ∈ (s.provinces n).getD [], PartOk s n p) ∧
  (∀ e ∈ s.countryLabels,
    s.country e.2 = none ∧ substr0 (idKey (idOf s.doc e.2)) 2 = e.1)

instance instDecidablePartOk (s : MapState) (n p : Nat) : Decidable (PartOk s n p) := by
  unfold PartOk
  infer_instance

instance instDecidableBuilt (s : MapState) : Decidable (Built s) := by
  unfold Built
  infer_instance

/-- A province list with the subprovinces of each entry inlined after it: the order in
which the province loops visit the nodes. -/
def expand (s : MapState) : List Nat → List Nat
  | [] => []
  | p :: ps => p :: ((s.provinces p).getD [] ++ expand s ps)

/-- The provinces and subprovinces of a node, in loop order. -/
def partsOf (s : MapState) (n : Nat) : List Nat := expand s ((s.provinces n).getD [])

/-- The state left by `pathSetAttributes(path, event)`. -/
def restyle (s : MapState) (n : Nat) (event : String) : MapState :=
  after (pathSetAttributes s (some n) event)

/-- The province branch of `pathSetAttributes` applied to a list of nodes in turn. -/
def paintAll (event : String) (s : MapState) (l : List Nat) : MapState :=
  l.foldl (fun t n => fillProvince t n event) s

/-- The conditions under which `pathSetAttributes(n, event)` takes the province branch. -/
def CanPaint (s : MapState) (event : String) (n : Nat) : Prop :=
  idOf s.doc n ≠ some "World" ∧ idOf s.doc n ≠ some "Ocean" ∧ isElement s.doc n = true ∧
  paletteApplies s n event = true ∧ (s.country n).map (isBorderPath s n) = some false

/-- The node carries the province palette of `event`, the fill being the override
`updateColor` when there is one. -/
def Painted (s : MapState) (event : String) (n : Nat) : Prop :=
  s.fill n = some ((s.updateColor n).getD (s.opts.provinceFill.pick event)) ∧
  s.stroke n = some (s.opts.provinceStroke.pick event) ∧
  s.strokeWidth n = some (s.opts.provinceStrokeWidth.pick event)

/-- A hover or activation event: the three operations called with an identifier, and the
three mouse listeners of `initMapControls` with their target node. -/
inductive Transition where
  | countryOver (id : String)
  | countryOut (id : String)
  | countryClick (id : String)
  | provinceOver (target : Nat)
  | provinceOut (target : Nat)
  | provinceClick (target : Nat)
  deriving Repr

/-- The state after one event turn; a fault ends the turn and keeps what was done. -/
def step (s : MapState) : Transition → MapState
  | Transition.countryOver id => after (countryOver s id)
  | Transition.countryOut id => after (countryOut s id)
  | Transition.countryClick id => after (countryClick s id)
  | Transition.provinceOver target => after (provinceOverOut s "over" target)
  | Transition.provinceOut target => after (provinceOverOut s "out" target)
  | Transition.provinceClick target => after (provinceClick s target)

/-- The state after a sequence of event turns. -/
def run (s : MapState) (ts : List Transition) : MapState := ts.foldl step s

/-- A property of the state kept by every elementary mutation that the hover and
activation handlers perform. -/
structure Stable (P : MapState → Prop) : Prop where
  border : ∀ s n event, P s → P (strokeBorder s n event)
  paint : ∀ s n event, P s → P (fillProvince s n event)
  label : ∀ s id event, P s → P (setLabelFill s id event)
  select : ∀ s path, P s → P (setSelected s path)
  call : ∀ s event data, P s → P (callBack s event data)
  circle : ∀ s n, tagOf s.doc n = some "circle" → P s →
    P { s with fill := setAt s.fill n none, stroke := setAt s.stroke n none }
  info : ∀ s d, P s → P { s with infoBoxDisplay := d }
  tip : ∀ s d, P s → P { s with tooltipDisplay := d }

/-- What `updateMapData` keeps true of a node `n` that a literal colour `c` may be
assigned to: the document and the label index are untouched, and whenever the override
of `n` is `c` its fill is `c`. -/
def ColorInv (doc0 : List DomNode) (labels0 : Obj Nat) (n : Nat) (c : String)
    (s : MapState) : Prop :=
  s.doc = doc0 ∧ s.countryLabels = labels0 ∧ (s.updateColor n = some c → s.fill n = some c)

/-- The override and the fill of `n` are both `c`, in a state with the given document and
label index. -/
def Overridden (doc0 : List DomNode) (labels0 : Obj Nat) (n : Nat) (c : String)
    (s : MapState) : Prop :=
  s.doc = doc0 ∧ s.countryLabels = labels0 ∧ s.updateColor n = some c ∧ s.fill n = some c

/-- The nodes that `window.updateMapData` assigns the colour of the entry `id` to, in the
order of the loops: the node found for `id` when it has no `provinces` list, otherwise its
provinces, each followed by its subprovinces. -/
def updateTargets (s : MapState) (id : String) : List Nat :=
  match lookupTarget s id with
  | none => []
  | some k =>
    match s.provinces k with
    | none => [k]
    | some ps => expand s ps

/-- The state `t` has the document, hierarchy, country index, selection and options of
`s`. -/
def SameShape (s t : MapState) : Prop :=
  t.doc = s.doc ∧ t.country = s.country ∧ t.border = s.border ∧ t.removed = s.removed ∧
  t.provinces = s.provinces ∧ t.selectedCountry = s.selectedCountry ∧ t.opts = s.opts ∧
  t.countries = s.countries

/-- What makes `pathSetAttributes(x, 'out')` repaint the node `x` in the state `s`: it is
not a background node, not styled as a border, and neither it nor its country is the
selection. -/
def Repaintable (s : MapState) (x : Nat) : Prop :=
  idOf s.doc x ≠ some "World" ∧ idOf s.doc x ≠ some "Ocean" ∧ isElement s.doc x = true ∧
  s.selectedCountry ≠ some x ∧
  ∃ c, s.country x = some c ∧ isBorderPath s x c = false ∧ s.selectedCountry ≠ some c

/-- The label index that the first loop of `sortLabels` builds from the children of the
label layer: a function of the document alone. -/
def labelFold (doc : List DomNode) : List Nat → Obj Nat → Obj Nat
  | [], acc => acc
  | x :: xs, acc =>
    labelFold doc xs
      (if tagOf doc x = some "text" then objSet acc (substr0 (idKey (idOf doc x)) 2) x
       else acc)

/-- The nodes whose expandos `sortProvinces` writes while it handles the country `c`: the
country, its children and its grandchildren. -/
def InFamily (doc : List DomNode) (c m : Nat) : Prop :=
  m = c ∨ parentOf doc m = some c ∨ ∃ q, parentOf doc m = some q ∧ parentOf doc q = some c

/-- The node `p` is a child of `k` other than its border, or a child of such a child. -/
def OffBorder (doc : List DomNode) (p k : Nat) : Prop :=
  (parentOf doc p = some k ∧ idOf doc p ≠ some (borderId doc k)) ∨
  ∃ q, parentOf doc p = some q ∧ parentOf doc q = some k ∧ idOf doc q ≠ some (borderId doc k)

/-- The hierarchy expandos are consistent with the document: an entry `p` of a list
`n.provinces` is a child element of `n` that was not detached, not a circle, and both have
the same top-level country `k`, of which `p` is not the border nor a child of the border;
a border is a child of its country named by the lowercase country id. -/
def Wired (s : MapState) : Prop :=
  (∀ n p, p ∈ (s.provinces n).getD [] →
    parentOf s.doc p = some n ∧ (isElement s.doc p = true ∧ p ∉ s.removed) ∧
    tagOf s.doc p ≠ some "circle" ∧
    ∃ k, parentOf s.doc k = none ∧ s.country p = some k ∧ s.country n = some k ∧
      OffBorder s.doc p k) ∧
  (∀ k b, s.border k = some b →
    parentOf s.doc b = some k ∧ idOf s.doc b = some (borderId s.doc k))

/-- What the statements of `sortProvinces` that handle the children of the country `c`
may change: the document, the indices, the options, the selection, the detached nodes
and the overrides stay; a `country` expando equal to `c` stays; top-level nodes keep
their `country` and `provinces`; outside the family of `c` every `country` stays. -/
def SortStep (c : Nat) (s t : MapState) : Prop :=
  t.doc = s.doc ∧ t.countries = s.countries ∧ t.countryLabels = s.countryLabels ∧
  t.opts = s.opts ∧ t.countryData = s.countryData ∧
  t.selectedCountry = s.selectedCountry ∧ t.removed = s.removed ∧
  t.updateColor = s.updateColor ∧
  (∀ m, s.country m = some c → t.country m = some c) ∧
  (∀ m, parentOf s.doc m = none → t.country m = s.country m ∧ t.provinces m = s.provinces m) ∧
  (∀ m, ¬ InFamily s.doc c m → t.country m = s.country m)

/-- The local array of the child loops of `sortProvinces`: live children of `parent` that
are elements other than circles and whose country is `c`. -/
def AccOk (s : MapState) (c parent : Nat) (acc : List Nat) : Prop :=
  ∀ p ∈ acc, parentOf s.doc p = some parent ∧ (isElement s.doc p = true ∧ p ∉ s.removed) ∧
    tagOf s.doc p ≠ some "circle" ∧ s.country p = some c

/-- The hierarchy of one country as `sortProvinces` leaves it: the country refers to
itself and its `provinces` list has no repetition. -/
def CountryOk (s : MapState) (c : Nat) : Prop :=
  s.country c = some c ∧ ∃ ps, s.provinces c = some ps ∧ ps.Nodup

/-- The state `t` has the document, options, country data, country index, selection and
the hierarchy expandos of `s`. -/
def Keeps (s t : MapState) : Prop :=
  t.doc = s.doc ∧ t.opts = s.opts ∧ t.countryData = s.countryData ∧
  t.countries = s.countries ∧ t.country = s.country ∧ t.provinces = s.provinces ∧
  t.border = s.border ∧ t.selectedCountry = s.selectedCountry

/-! ## Time controls

The globals `currDate`, `ticks`, `speed`, `timeData`, `maxDates`, `loop` and `paused`,
together with the map they drive and what the control widgets show.  `maxDates` and
`currDate` hold a number or `false` (`none`); counters are taken to stay below `2^53`,
where JavaScript numbers are exact integers.  The slider handler, which stores the
slider text in `currDate`, is left out. -/

/-- What the element `map-date` shows: a date key or the date index. -/
inductive DateShown where
  | key (k : Option String)
  | count (c : Option Int)
  deriving DecidableEq, Repr

/-- The state of the time controls. -/
structure TimeState where
  /-- The map that `svgMap.update` and `svgMap.date` act on. -/
  map : MapState
  /-- Global `currDate`. -/
  currDate : Option Int
  /-- Global `ticks`. -/
  ticks : Nat
  /-- Global `speed`. -/
  speed : Nat
  /-- Global `timeData`: `false`, or the array of one-key objects `{ date: update }`. -/
  timeData : Option (List (Obj (Obj String)))
  /-- Global `maxDates`. -/
  maxDates : Option Int
  /-- Global `loop`. -/
  loop : Bool
  /-- Global `paused`. -/
  paused : Bool
  /-- The icon class shown in `map-control-play-pause`. -/
  playIcon : String
  /-- The `value` of `map-slider`. -/
  sliderValue : Option Int
  /-- The content of `map-date`. -/
  dateShown : DateShown

/-- The state a handler of the time controls ends in, fault or not. -/
def afterT (r : Except TimeState TimeState) : TimeState :=
  match r with
  | .ok t => t
  | .error t => t

/-- Whether a handler of the time controls raised a fault. -/
def faultedT (r : Except TimeState TimeState) : Bool :=
  match r with
  | .ok _ => false
  | .error _ => true

/-- The number a value of `currDate` or `maxDates` converts to: `false` is 0. -/
def dateNum (d : Option Int) : Int :=
  match d with
  | some n => n
  | none => 0

/-- The test `maxDates == false`: true of `false` and, by loose equality, of `0`. -/
def looseFalse (d : Option Int) : Bool :=
  match d with
  | none => true
  | some n => n == 0

/-- The argument `currDate` of the date callback. -/
def dateArg (d : Option Int) : JsArg :=
  match d with
  | some n => JsArg.num n
  | none => JsArg.bool false

/-- The read `timeData[currDate]`. -/
def dateEntry (data : List (Obj (Obj String))) (d : Option Int) : Option (Obj (Obj String)) :=
  match d with
  | none => none
  | some n => if 0 ≤ n then data[n.toNat]? else none

/-- The initial value of the globals, for a map and controls that show nothing yet. -/
def timeGlobals (map : MapState) : TimeState :=
  { map := map, currDate := some 0, ticks := 0, speed := 10, timeData := none,
    maxDates := none, loop := false, paused := true, playIcon := "flaticon-play",
    sliderValue := none, dateShown := DateShown.count none }

/-- The argument `initTimeData` of `svgWorldMapTimeControls`. -/
inductive TimeInput where
  | array (a : List (Obj (Obj String)))
  | object (o : Obj (Obj String))

/-- The conversion of the time data from object to array. -/
def timeArray (input : TimeInput) : List (Obj (Obj String)) :=
  match input with
  | TimeInput.array a => a
  | TimeInput.object o => (objKeys o).filterMap (fun k => (objGet o k).map (fun v => [(k, v)]))

/-- The assignment `currDate = d`. -/
def setDate (t : TimeState) (d : Option Int) : TimeState := { t with currDate := d }

/-- The assignment `paused = b`. -/
def setPaused (t : TimeState) (b : Bool) : TimeState := { t with paused := b }

/-- The assignment `loop = b`. -/
def setLoop (t : TimeState) (b : Bool) : TimeState := { t with loop := b }

/-- The assignment `speed = n`. -/
def setSpeed (t : TimeState) (n : Nat) : TimeState := { t with speed := n }

/-- The assignments `timeData = data; maxDates = timeData.length-1`. -/
def setTimeData (t : TimeState) (data : List (Obj (Obj String))) : TimeState :=
  { t with timeData := some data, maxDates := some ((data.length : Int) - 1) }

/-- Time controls (`svgWorldMapTimeControls`): the assignments to the globals. -/
def svgWorldMapTimeControls (t : TimeState) (timePause timeLoop : Bool)
    (initTimeData : Option TimeInput) : TimeState :=
  let t1 := match initTimeData with
    | some input => setTimeData t (timeArray input)
    | none => t
  let t2 := if timePause = false then setPaused t1 false else t1
  if timeLoop = true then setLoop t2 true else t2

/-- The call `svgMap.update(timeData[currDate][dateKey])` of `updateControls`, `dateKey`
being the first key of the entry. -/
def updateFromEntry (map : MapState) (entry : Obj (Obj String)) : Except MapState MapState :=
  match entry with
  | [] => .ok map
  | (_, update) :: _ => updateMapData map update

/-- The statements of `updateControls` that show the date of a time series entry. -/
def showEntry (t : TimeState) (entry : Obj (Obj String)) : TimeState :=
  { t with sliderValue := t.currDate, dateShown := DateShown.key ((objKeys entry).head?) }

/-- The statement of `updateControls` that shows the date index when there is no series. -/
def showCount (t : TimeState) : TimeState :=
  { t with dateShown := DateShown.count t.currDate }

/-- The map as a call through `svgMap` left it. -/
def withMap (t : TimeState) (map : MapState) : TimeState := { t with map := map }

/-- The play or pause icon that `updateControls` puts on the button. -/
def showIcon (t : TimeState) : TimeState :=
  { t with playIcon := if t.paused = true then "flaticon-play" else "flaticon-pause" }

/-- Update controls output (`updateControls`). -/
def updateControls (t : TimeState) : Except TimeState TimeState :=
  match (showIcon t).timeData with
  | some (x :: xs) =>
    (match dateEntry (x :: xs) (showIcon t).currDate with
     | none => .error (showIcon t)
     | some entry =>
       match updateFromEntry (showIcon t).map entry with
       | .error m => .error (withMap (showEntry (showIcon t) entry) m)
       | .ok m =>
         .ok (withMap (showEntry (showIcon t) entry)
           (callBack m "date" (dateArg (showIcon t).currDate))))
  | _ =>
    .ok (withMap (showCount (showIcon t))
      (callBack (showIcon t).map "date" (dateArg (showIcon t).currDate)))

/-- The assignments of `increaseTimeTicks` that a firing tick makes before it calls
`updateControls`. -/
def advanceDate (t : TimeState) : TimeState :=
  if dateNum t.currDate < dateNum t.maxDates ∨ looseFalse t.maxDates = true then
    setDate t (some (dateNum t.currDate + 1))
  else if t.loop = true then setDate t (some 0)
  else setPaused t true

/-- The statement `ticks++`. -/
def countTick (t : TimeState) : TimeState := { t with ticks := t.ticks + 1 }

/-- The test `speed == 1 || (ticks % speed) == 1` of `increaseTimeTicks`. -/
def tickFires (speed ticks : Nat) : Bool := speed == 1 || ticks % speed == 1

/-- 'Tick'-logic for time per speed (`increaseTimeTicks`). -/
def increaseTimeTicks (t : TimeState) : Except TimeState TimeState :=
  if tickFires (countTick t).speed (countTick t).ticks = true then
    updateControls (advanceDate (countTick t))
  else .ok (countTick t)

/-- The state after `n` calls of `increaseTimeTicks`. -/
def advances : Nat → TimeState → TimeState
  | 0, t => t
  | n + 1, t => advances n (afterT (increaseTimeTicks t))

/-- Play and pause controls (`window.clickPlayPause`). -/
def clickPlayPause (t : TimeState) : Except TimeState TimeState :=
  updateControls (setPaused t (!t.paused))

/-- The assignment to `currDate` in `window.clickControl`, `controlid` being the id of the
parent of `event.srcElement`. -/
def controlDate (t : TimeState) (controlid : String) : TimeState :=
  if controlid = "map-control-start" then setDate t (some 0)
  else if controlid = "map-control-end" then setDate t t.maxDates
  else if controlid = "map-control-back" ∧ 0 < dateNum t.currDate then
    setDate t (some (dateNum t.currDate - 1))
  else if controlid = "map-control-forward" ∧ dateNum t.currDate < dateNum t.maxDates then
    setDate t (some (dateNum t.currDate + 1))
  else t

/-- Controls for play, pause, forward, back, start, end (`window.clickControl`). -/
def clickControl (t : TimeState) (controlid : String) : Except TimeState TimeState :=
  updateControls (setPaused (controlDate t controlid) true)

/-- Speed controls (`window.clickSpeed`). -/
def clickSpeed (t : TimeState) (speedid : String) : TimeState :=
  if speedid = "map-control-faster" ∧ 1 < t.speed then setSpeed t (t.speed - 1)
  else if speedid = "map-control-slower" ∧ t.speed < 20 then setSpeed t (t.speed + 1)
  else t

/-- The callback of the interval timer (`initDayTimer`). -/
def timerTick (t : TimeState) : Except TimeState TimeState :=
  if t.paused = false then increaseTimeTicks t else .ok t

/-- The date index lies in the series: `0 <= currDate <= maxDates`. -/
def DateInRange (t : TimeState) : Prop :=
  ∃ d m : Int, t.currDate = some d ∧ t.maxDates = some m ∧ 0 ≤ d ∧ d ≤ m

/-! ## String helpers of the name lookup and the table parser

Strings are taken to hold characters of the Basic Multilingual Plane, so that a character
is one UTF-16 unit.  Case-insensitive tests compare with ASCII letters only; no other
character matches or lowercases to one of the ASCII characters tested for. -/

/-- The call `s.substr(n)`. -/
def substrFrom (s : String) (n : Nat) : String := ⟨s.data.drop n⟩

/-- The call `s.substr(-n)`. -/
def substrLast (s : String) (n : Nat) : String := ⟨s.data.drop (s.data.length - n)⟩

/-- The call `s.substr(-n, 1)`. -/
def charFromEnd (s : String) (n : Nat) : String :=
  ⟨(s.data.drop (s.data.length - n)).take 1⟩

/-- The call `s.substr(0, s.length - n)`. -/
def dropLast (s : String) (n : Nat) : String := ⟨s.data.take (s.data.length - n)⟩

/-- Line terminators, which `.` does not match. -/
def isLineTerminator (c : Char) : Bool :=
  c.toNat = 10 || c.toNat = 13 || c.toNat = 8232 || c.toNat = 8233

/-- The call `s.trim()`. -/
def jsTrim (s : String) : String := ⟨trimChars s.data⟩

/-- Whether the list starts with the pattern, ASCII letters compared without case. -/
def startsWithCI : List Char → List Char → Bool
  | [], _ => true
  | _ :: _, [] => false
  | p :: ps, c :: cs => p.toLower == c.toLower && startsWithCI ps cs

/-- The call `s.replace(/(pattern)/ig, replacement)` for a pattern without special
characters; `skip` counts the characters of a match still to be passed over. -/
def replaceCI (pattern replacement : List Char) : Nat → List Char → List Char
  | _, [] => []
  | skip + 1, _ :: rest => replaceCI pattern replacement skip rest
  | 0, c :: rest =>
    if pattern ≠ [] ∧ startsWithCI pattern (c :: rest) = true then
      replacement ++ replaceCI pattern replacement (pattern.length - 1) rest
    else c :: replaceCI pattern replacement 0 rest

/-- One past the position of the last `close` in the list, if it occurs. -/
def afterLast (close : Char) : List Char → Option Nat
  | [] => none
  | c :: rest =>
    match afterLast close rest with
    | some k => some (k + 1)
    | none => if c = close then some 1 else none

/-- The call `s.replace(/(\(.*\))/ig, "")`, for the pair `(`, `)` and likewise for `[`,
`]`: a match runs from an opening character to the last closing one on the same line. -/
def stripEnclosed (opening close : Char) : Nat → List Char → List Char
  | _, [] => []
  | skip + 1, _ :: rest => stripEnclosed opening close skip rest
  | 0, c :: rest =>
    if c = opening then
      match afterLast close (rest.takeWhile (fun x => !isLineTerminator x)) with
      | some k => stripEnclosed opening close k rest
      | none => c :: stripEnclosed opening close 0 rest
    else c :: stripEnclosed opening close 0 rest

/-- The call `s.replace(/(<([^>]+)>)/ig, "")`: a match is a `<`, one or more characters
other than `>`, and a `>`. -/
def stripTags : Nat → List Char → List Char
  | _, [] => []
  | skip + 1, _ :: rest => stripTags skip rest
  | 0, c :: rest =>
    if c = '<' ∧ (rest.takeWhile (fun x => x != '>')).length ≠ 0 ∧
        (rest.takeWhile (fun x => x != '>')).length < rest.length then
      stripTags ((rest.takeWhile (fun x => x != '>')).length + 1) rest
    else c :: stripTags 0 rest

/-- Helper function to get text without HTML (`stripHTML`). -/
def stripHTML (input : String) : String :=
  ⟨trimChars (stripTags 0 (stripEnclosed '[' ']' 0
    ((replaceCI "</li><li>".data " ".data 0
      (replaceCI "&nbsp;".data " ".data 0
        (replaceCI "<br>".data " ".data 0 input.data))).filter (fun c => c.toNat != 10))))⟩

/-- The call `s.split(',')`, with the part being read in `current`. -/
def splitComma : List Char → List Char → List String
  | current, [] => [⟨current.reverse⟩]
  | current, c :: rest =>
    if c = ',' then ⟨current.reverse⟩ :: splitComma [] rest
    else splitComma (c :: current) rest

/-! ## Name lookup -/

/-- The four prefix and suffix removals at the head of `findIdByName`, then the removal of
everything in brackets and `trim()`. -/
def cleanName (name : String) : String :=
  let n1 := if toLowerCase (substr0 name 4) = "the " then substrFrom name 4 else name
  let n2 := if toLowerCase (substrLast n1 5) = ", the" then dropLast n1 5 else n1
  let n3 := if charFromEnd n2 2 = " " then dropLast n2 2 else n2
  let n4 := if charFromEnd n3 1 = "†" then dropLast n3 1 else n3
  ⟨trimChars (stripEnclosed '(' ')' 0 n4.data)⟩

/-- The search loop of `findIdByName` over the country data. -/
def searchName : Obj (Obj String) → String → Option String
  | [], _ => none
  | (country, record) :: rest, name =>
    if objGet record "name" = some name then some country
    else
      match objGet record "altnames" with
      | some altnames =>
        if name ∈ splitComma [] altnames.data then some country else searchName rest name
      | none => searchName rest name

/-- Find id by country name (`findIdByName`). -/
def findIdByName (countryData : Obj (Obj String)) (name : String) : Option String :=
  searchName countryData (cleanName name)

/-- Fallback for countryData if no other is passed: the table at the end of the
module. -/
def builtinCountryData : Obj (Obj String) :=
  [
    ("AD", [("name", "Andorra"), ("region", "EU"), ("population", "77,355"), ("GDP", "$3.24 billion")]),
    ("AE", [("name", "Emirados Árabes Unidos"), ("region", "AS"), ("population", "9.9 million"), ("GDP", "$421.14 billion")]),
    ("AF", [("name", "Afeganistão"), ("region", "AS"), ("population", "38.93 million"), ("GDP", "$19.29 billion")]),
    ("AG", [("name", "Antígua e Barbuda"), ("region", "NA"), ("population", "97,929"), ("GDP", "$1.69 billion")]),
    ("AI", [("name", "Anguila"), ("region", "NA"), ("population", "15,003"), ("GDP", "$337.8 million")]),
    ("AL", [("name", "Albânia"), ("region", "EU"), ("population", "2.87 million"), ("GDP", "$15.29 billion")]),
    ("AM", [("name", "Armênia"), ("region", "AS"), ("population", "2.97 million"), ("GDP", "$13.03 billion")]),
    ("AO", [("name", "Angola"), ("region", "AF"), ("population", "32.87 million"), ("GDP", "$88.38 billion")]),
    ("AQ", [("name", "Antártida"), ("region", "AN"), ("population", "Não aplicável"), ("GDP", "Não aplicável")]),
    ("AR", [("name", "Argentina"), ("region", "SA"), ("population", "45.92 million"), ("GDP", "$385.5 billion")]),
    ("AS", [("name", "Samoa Americana"), ("region", "OC"), ("population", "55,312"), ("GDP", "$658 million")]),
    ("AT", [("name", "Áustria"), ("region", "EU"), ("population", "8.79 million"), ("GDP", "$477.7 billion")]),
    ("AU", [("name", "Austrália"), ("region", "OC"), ("population", "25.78 million"), ("GDP", "$1.37 trillion")]),
    ("AW", [("name", "Aruba"), ("region", "SA"), ("population", "107,195"), ("GDP", "$2.52 billion")]),
    ("AX", [("name", "Ilhas Åland"), ("region", "EU"), ("population", "29,489"), ("GDP", "$1.52 billion")]),
    ("AZ", [("name", "Azerbaijão"), ("region", "AS"), ("population", "10.08 million"), ("GDP", "$46.27 billion")]),
    ("BA", [("name", "Bósnia e Herzegovina"), ("region", "EU"), ("population", "3.27 million"), ("GDP", "$20.92 billion")]),
    ("BB", [("name", "Barbados"), ("region", "SA"), ("population", "287,711"), ("GDP", "$5.04 billion")]),
    ("BD", [("name", "Bangladesh"), ("region", "AS"), ("population", "166.37 million"), ("GDP", "$352.4 billion")]),
    ("BE", [("name", "Bélgica"), ("region", "EU"), ("population", "11.48 million"), ("GDP", "$540.3 billion")]),
    ("BF", [("name", "Burkina Faso"), ("region", "AF"), ("population", "21.51 million"), ("GDP", "$16.85 billion")]),
    ("BG", [("name", "Bulgária"), ("region", "EU"), ("population", "6.91 million"), ("GDP", "$67.24 billion")]),
    ("BH", [("name", "Bahrein"), ("region", "AS"), ("population", "1.74 million"), ("GDP", "$37.92 billion")]),
    ("BI", [("name", "Burundi"), ("region", "AF"), ("population", "12.31 million"), ("GDP", "$3.24 billion")]),
    ("BJ", [("name", "Benin"), ("region", "AF"), ("population", "12.12 million"), ("GDP", "$12.16 billion")]),
    ("BL", [("name", "São Bartolomeu"), ("region", "NA"), ("population", "9,877"), ("GDP", "$286.8 million")]),
    ("BM", [("name", "Bermudas"), ("region", "NA"), ("population", "62,506"), ("GDP", "$7.56 billion")]),
    ("BN", [("name", "Brunei"), ("region", "AS"), ("population", "433,285"), ("GDP", "$13.17 billion")]),
    ("BO", [("name", "Bolívia"), ("region", "SA"), ("population", "11.51 million"), ("GDP", "$44.06 billion")]),
    ("BQ", [("name", "Bonaire, Santo Eustáquio e Saba"), ("region", "SA"), ("population", "20,320"), ("GDP", "$506 million")]),
    ("BR", [("name", "Brasil"), ("region", "SA"), ("population", "213.99 million"), ("GDP", "$2.14 trillion")]),
    ("BS", [("name", "Bahamas"), ("region", "NA"), ("population", "396,913"), ("GDP", "$12.14 billion")]),
    ("BT", [("name", "Butão"), ("region", "AS"), ("population", "791,919"), ("GDP", "$2.77 billion")]),
    ("BV", [("name", "Ilha Bouvet"), ("region", "AN"), ("population", "Não aplicável"), ("GDP", "Não aplicável")]),
    ("BW", [("name", "Botsuana"), ("region", "AF"), ("population", "2.35 million"), ("GDP", "$16.88 billion")]),
    ("BY", [("name", "Bielorrússia"), ("region", "EU"), ("population", "9.39 million"), ("GDP", "$60.29 billion")]),
    ("BZ", [("name", "Belize"), ("region", "NA"), ("population", "408,487"), ("GDP", "$1.87 billion")]),
    ("CA", [("name", "Canadá"), ("region", "NA"), ("population", "37.59 million"), ("GDP", "$1.85 trillion")]),
    ("CC", [("name", "Ilhas Cocos (Keeling)"), ("region", "AS"), ("population", "596"), ("GDP", "Não aplicável")]),
    ("CD", [("name", "Congo (Rep. Dem.)"), ("altnames", "República Democrática do Congo"), ("region", "AF"), ("population", "112.6 million"), ("GDP", "$49.47 billion")]),
    ("CF", [("name", "República Centro-Africana"), ("region", "AF"), ("population", "4.9 million"), ("GDP", "$2.39 billion")]),
    ("CG", [("name", "Congo"), ("altnames", "República do Congo"), ("region", "AF"), ("population", "5.53 million"), ("GDP", "$8.23 billion")]),
    ("CH", [("name", "Suíça"), ("region", "EU"), ("population", "8.69 million"), ("GDP", "$703.08 billion")]),
    ("CI", [("name", "Costa do Marfim"), ("region", "AF"), ("population", "26.38 million"), ("GDP", "$52.25 billion")]),
    ("CK", [("name", "Ilhas Cook"), ("region", "OC"), ("population", "17,564"), ("GDP", "$317 million")]),
    ("CL", [("name", "Chile"), ("region", "SA"), ("population", "19.52 million"), ("GDP", "$281.1 billion")]),
    ("CM", [("name", "Camarões"), ("region", "AF"), ("population", "27.64 million"), ("GDP", "$39.36 billion")]),
    ("CN", [("name", "China"), ("region", "AS"), ("population", "1.4 billion"), ("GDP", "$16.64 trillion")]),
    ("CO", [("name", "Colômbia"), ("region", "SA"), ("population", "50.34 million"), ("GDP", "$333.8 billion")]),
    ("CR", [("name", "Costa Rica"), ("region", "NA"), ("population", "5.15 million"), ("GDP", "$61.79 billion")]),
    ("CU", [("name", "Cuba"), ("region", "NA"), ("population", "11.33 million"), ("GDP", "$97.2 billion")]),
    ("CV", [("name", "Cabo Verde"), ("region", "AF"), ("population", "556,000"), ("GDP", "$2.02 billion")]),
    ("CW", [("name", "Curaçao"), ("region", "SA"), ("population", "164,093"), ("GDP", "$3.09 billion")]),
    ("CX", [("name", "Ilha Christmas"), ("region", "AS"), ("population", "2,205"), ("GDP", "Não aplicável")]),
    ("CY", [("name", "Chipre"), ("region", "EU"), ("population", "1.21 million"), ("GDP", "$24.27 billion")]),
    ("CZ", [("name", "República Tcheca"), ("region", "EU"), ("population", "10.71 million"), ("GDP", "$245.2 billion")]),
    ("DE", [("name", "Alemanha"), ("region", "EU"), ("population", "83.02 million"), ("GDP", "$4.24 trillion")]),
    ("DJ", [("name", "Djibuti"), ("region", "AF"), ("population", "1.03 million"), ("GDP", "$2.05 billion")]),
    ("DK", [("name", "Dinamarca"), ("region", "EU"), ("population", "5.85 million"), ("GDP", "$370.9 billion")]),
    ("DM", [("name", "Dominica"), ("region", "NA"), ("population", "71,625"), ("GDP", "$562 million")]),
    ("DO", [("name", "República Dominicana"), ("region", "NA"), ("population", "10.97 million"), ("GDP", "$91.05 billion")]),
    ("DZ", [("name", "Argélia"), ("region", "AF"), ("population", "44.63 million"), ("GDP", "$170.35 billion")]),
    ("EC", [("name", "Equador"), ("region", "SA"), ("population", "17.65 million"), ("GDP", "$109.48 billion")]),
    ("EE", [("name", "Estônia"), ("region", "EU"), ("population", "1.32 million"), ("GDP", "$35.75 billion")]),
    ("EG", [("name", "Egito"), ("region", "AF"), ("population", "104.26 million"), ("GDP", "$394.28 billion")]),
    ("EH", [("name", "Saara Ocidental"), ("altnames", "República Árabe Saaraui Democrática"), ("region", "AF"), ("population", "Não aplicável"), ("GDP", "Não aplicável")]),
    ("ER", [("name", "Eritreia"), ("region", "AF"), ("population", "3.5 million"), ("GDP", "$2.8 billion")]),
    ("ES", [("name", "Espanha"), ("region", "EU"), ("population", "46.94 million"), ("GDP", "$1.4 trillion")]),
    ("ET", [("name", "Etiópia"), ("region", "AF"), ("population", "120 million"), ("GDP", "$96.12 billion")]),
    ("FI", [("name", "Finlândia"), ("region", "EU"), ("population", "5.54 million"), ("GDP", "$306.94 billion")]),
    ("FJ", [("name", "Fiji"), ("region", "OC"), ("population", "896,444"), ("GDP", "$5.72 billion")]),
    ("FK", [("name", "Ilhas Malvinas"), ("region", "SA"), ("population", "2,910"), ("GDP", "$164.5 million")]),
    ("FM", [("name", "Micronésia"), ("region", "OC"), ("population", "105,544"), ("GDP", "$371 million")]),
    ("FO", [("name", "Ilhas Faroe"), ("region", "EU"), ("population", "49,290"), ("GDP", "$3.23 billion")]),
    ("FR", [("name", "França"), ("region", "EU"), ("population", "67.06 million"), ("GDP", "$3.06 trillion")]),
    ("GA", [("name", "Gabão"), ("region", "AF"), ("population", "2.29 million"), ("GDP", "$17.94 billion")]),
    ("GB", [("name", "Reino Unido"), ("region", "EU"), ("population", "67.44 million"), ("GDP", "$3.12 trillion")]),
    ("GD", [("name", "Granada"), ("region", "NA"), ("population", "112,003"), ("GDP", "$1.38 billion")]),
    ("GE", [("name", "Geórgia"), ("region", "AS"), ("population", "3.72 million"), ("GDP", "$17.85 billion")]),
    ("GF", [("name", "Guiana Francesa"), ("region", "SA"), ("population", "298,682"), ("GDP", "$5.5 billion")]),
    ("GG", [("name", "Guernsey"), ("region", "EU"), ("population", "67,052"), ("GDP", "$3.15 billion")]),
    ("GH", [("name", "Gana"), ("region", "AF"), ("population", "31.07 million"), ("GDP", "$71.18 billion")]),
    ("GI", [("name", "Gibraltar"), ("region", "EU"), ("population", "33,701"), ("GDP", "$2.93 billion")]),
    ("GL", [("name", "Groenlândia"), ("region", "NA"), ("population", "56,672"), ("GDP", "$2.72 billion")]),
    ("GM", [("name", "Gâmbia"), ("region", "AF"), ("population", "2.42 million"), ("GDP", "$1.49 billion")]),
    ("GN", [("name", "Guiné"), ("region", "AF"), ("population", "13.13 million"), ("GDP", "$10.05 billion")]),
    ("GP", [("name", "Guadalupe"), ("region", "NA"), ("population", "395,700"), ("GDP", "$9.14 billion")]),
    ("GQ", [("name", "Guiné Equatorial"), ("region", "AF"), ("population", "1.4 million"), ("GDP", "$12.38 billion")]),
    ("GR", [("name", "Grécia"), ("region", "EU"), ("population", "10.42 million"), ("GDP", "$209.85 billion")]),
    ("GS", [("name", "Geórgia do Sul e Ilhas Sandwich do Sul"), ("region", "AN"), ("population", "30"), ("GDP", "Não aplicável")]),
    ("GT", [("name", "Guatemala"), ("region", "NA"), ("population", "17.92 million"), ("GDP", "$85.47 billion")]),
    ("GU", [("name", "Guam"), ("region", "OC"), ("population", "167,294"), ("GDP", "$5.85 billion")]),
    ("GW", [("name", "Guiné-Bissau"), ("region", "AF"), ("population", "2.03 million"), ("GDP", "$1.5 billion")]),
    ("GY", [("name", "Guiana"), ("region", "SA"), ("population", "786,552"), ("GDP", "$3.63 billion")]),
    ("HK", [("name", "Hong Kong"), ("region", "AS"), ("population", "7.55 million"), ("GDP", "$383.4 billion")]),
    ("HM", [("name", "Ilha Heard e Ilhas McDonald"), ("region", "AN"), ("population", "Não aplicável"), ("GDP", "Não aplicável")]),
    ("HN", [("name", "Honduras"), ("region", "NA"), ("population", "9.75 million"), ("GDP", "$26.72 billion")]),
    ("HR", [("name", "Croácia"), ("region", "EU"), ("population", "4.05 million"), ("GDP", "$60.26 billion")]),
    ("HT", [("name", "Haiti"), ("region", "NA"), ("population", "11.4 million"), ("GDP", "$8.7 billion")]),
    ("HU", [("name", "Hungria"), ("region", "EU"), ("population", "9.65 million"), ("GDP", "$171.14 billion")]),
    ("ID", [("name", "Indonésia"), ("region", "AS"), ("population", "276.36 million"), ("GDP", "$1.12 trillion")]),
    ("IE", [("name", "Irlanda"), ("region", "EU"), ("population", "4.98 million"), ("GDP", "$387.89 billion")]),
    ("IL", [("name", "Israel"), ("region", "AS"), ("population", "9.29 million"), ("GDP", "$387.7 billion")]),
    ("IM", [("name", "Ilha de Man"), ("region", "EU"), ("population", "85,033"), ("GDP", "$7.34 billion")]),
    ("IN", [("name", "Índia"), ("region", "AS"), ("population", "1.39 billion"), ("GDP", "$2.91 trillion")]),
    ("IO", [("name", "Território Britânico do Oceano Índico"), ("region", "AS"), ("population", "3,000"), ("GDP", "Não aplicável")]),
    ("IQ", [("name", "Iraque"), ("region", "AS"), ("population", "41.65 million"), ("GDP", "$192.4 billion")]),
    ("IR", [("name", "Irã"), ("region", "AS"), ("population", "85.02 million"), ("GDP", "$445.94 billion")]),
    ("IS", [("name", "Islândia"), ("region", "EU"), ("population", "343,353"), ("GDP", "$31.12 billion")]),
    ("IT", [("name", "Itália"), ("region", "EU"), ("population", "60.36 million"), ("GDP", "$2.44 trillion")]),
    ("JE", [("name", "Jersey"), ("region", "EU"), ("population", "108,488"), ("GDP", "$6.32 billion")]),
    ("JM", [("name", "Jamaica"), ("region", "NA"), ("population", "2.95 million"), ("GDP", "$15.82 billion")]),
    ("JO", [("name", "Jordânia"), ("region", "AS"), ("population", "10.89 million"), ("GDP", "$46.06 billion")]),
    ("JP", [("name", "Japão"), ("region", "AS"), ("population", "126.3 million"), ("GDP", "$5.15 trillion")]),
    ("KE", [("name", "Quênia"), ("region", "AF"), ("population", "54.89 million"), ("GDP", "$95.5 billion")]),
    ("KG", [("name", "Quirguistão"), ("region", "AS"), ("population", "6.66 million"), ("GDP", "$8.75 billion")]),
    ("KH", [("name", "Camboja"), ("region", "AS"), ("population", "16.7 million"), ("GDP", "$29.57 billion")]),
    ("KI", [("name", "Quiribati"), ("region", "OC"), ("population", "119,449"), ("GDP", "$197 million")]),
    ("KM", [("name", "Comores"), ("region", "AF"), ("population", "873,724"), ("GDP", "$1.36 billion")]),
    ("KN", [("name", "São Cristóvão e Neves"), ("region", "NA"), ("population", "53,199"), ("GDP", "$1.04 billion")]),
    ("KP", [("name", "Coreia do Norte"), ("region", "AS"), ("population", "25.67 million"), ("GDP", "Não aplicável")]),
    ("KR", [("name", "Coreia do Sul"), ("region", "AS"), ("population", "51.71 million"), ("GDP", "$1.63 trillion")]),
    ("KW", [("name", "Kuwait"), ("region", "AS"), ("population", "4.33 million"), ("GDP", "$116.38 billion")]),
    ("KY", [("name", "Ilhas Cayman"), ("region", "NA"), ("population", "66,497"), ("GDP", "$4.28 billion")]),
    ("KZ", [("name", "Cazaquistão"), ("region", "AS"), ("population", "19.1 million"), ("GDP", "$184.7 billion")]),
    ("LA", [("name", "Laos"), ("region", "AS"), ("population", "7.53 million"), ("GDP", "$20.56 billion")]),
    ("LB", [("name", "Líbano"), ("region", "AS"), ("population", "6.85 million"), ("GDP", "$55.35 billion")]),
    ("LC", [("name", "Santa Lúcia"), ("region", "NA"), ("population", "184,401"), ("GDP", "$2.03 billion")]),
    ("LI", [("name", "Liechtenstein"), ("region", "EU"), ("population", "38,250"), ("GDP", "$6.83 billion")]),
    ("LK", [("name", "Sri Lanka"), ("region", "AS"), ("population", "21.41 million"), ("GDP", "$84.01 billion")]),
    ("LR", [("name", "Libéria"), ("region", "AF"), ("population", "5.06 million"), ("GDP", "$3.33 billion")]),
    ("LS", [("name", "Lesoto"), ("region", "AF"), ("population", "2.14 million"), ("GDP", "$2.72 billion")]),
    ("LT", [("name", "Lituânia"), ("region", "EU"), ("population", "2.79 million"), ("GDP", "$58.07 billion")]),
    ("LU", [("name", "Luxemburgo"), ("region", "EU"), ("population", "633,120"), ("GDP", "$74.46 billion")]),
    ("LV", [("name", "Letônia"), ("region", "EU"), ("population", "1.88 million"), ("GDP", "$34.3 billion")]),
    ("LY", [("name", "Líbia"), ("region", "AF"), ("population", "6.92 million"), ("GDP", "$72.84 billion")]),
    ("MA", [("name", "Marrocos"), ("region", "AF"), ("population", "37.17 million"), ("GDP", "$120.42 billion")]),
    ("MC", [("name", "Mônaco"), ("region", "EU"), ("population", "38,964"), ("GDP", "$7.67 billion")]),
    ("MD", [("name", "Moldávia"), ("region", "EU"), ("population", "2.64 million"), ("GDP", "$12.29 billion")]),
    ("ME", [("name", "Montenegro"), ("region", "EU"), ("population", "622,218"), ("GDP", "$5.58 billion")]),
    ("MF", [("name", "São Martinho (parte francesa)"), ("region", "NA"), ("population", "38,002"), ("GDP", "$561 million")]),
    ("MG", [("name", "Madagáscar"), ("region", "AF"), ("population", "28.43 million"), ("GDP", "$14.12 billion")]),
    ("MH", [("name", "Ilhas Marshall"), ("region", "OC"), ("population", "59,190"), ("GDP", "$234 million")]),
    ("MK", [("name", "Macedônia do Norte"), ("region", "EU"), ("population", "2.08 million"), ("GDP", "$13.22 billion")]),
    ("ML", [("name", "Mali"), ("region", "AF"), ("population", "20.25 million"), ("GDP", "$18.92 billion")]),
    ("MM", [("name", "Mianmar"), ("region", "AS"), ("population", "54.43 million"), ("GDP", "$81.59 billion")]),
    ("MN", [("name", "Mongólia"), ("region", "AS"), ("population", "3.28 million"), ("GDP", "$13.14 billion")]),
    ("MO", [("name", "Macau"), ("region", "AS"), ("population", "649,335"), ("GDP", "$55.47 billion")]),
    ("MP", [("name", "Ilhas Marianas do Norte"), ("region", "AS"), ("population", "57,216"), ("GDP", "$1.32 billion")]),
    ("MQ", [("name", "Martinica"), ("region", "NA"), ("population", "376,480"), ("GDP", "$9.14 billion")]),
    ("MR", [("name", "Mauritânia"), ("region", "AF"), ("population", "4.62 million"), ("GDP", "$7.44 billion")]),
    ("MS", [("name", "Montserrat"), ("region", "NA"), ("population", "4,989"), ("GDP", "$63.5 million")]),
    ("MT", [("name", "Malta"), ("region", "EU"), ("population", "514,564"), ("GDP", "$16.62 billion")]),
    ("MU", [("name", "Maurício"), ("region", "AF"), ("population", "1.27 million"), ("GDP", "$14.28 billion")]),
    ("MV", [("name", "Maldivas"), ("region", "AS"), ("population", "530,953"), ("GDP", "$5.64 billion")]),
    ("MW", [("name", "Malawi"), ("region", "AF"), ("population", "19.13 million"), ("GDP", "$7.59 billion")]),
    ("MX", [("name", "México"), ("region", "NA"), ("population", "130.26 million"), ("GDP", "$1.28 trillion")]),
    ("MY", [("name", "Malásia"), ("region", "AS"), ("population", "32.73 million"), ("GDP", "$364.7 billion")]),
    ("MZ", [("name", "Moçambique"), ("region", "AF"), ("population", "32.47 million"), ("GDP", "$15.75 billion")]),
    ("NA", [("name", "Namíbia"), ("region", "AF"), ("population", "2.59 million"), ("GDP", "$14.47 billion")]),
    ("NC", [("name", "Nova Caledônia"), ("region", "OC"), ("population", "287,800"), ("GDP", "$10.5 billion")]),
    ("NE", [("name", "Níger"), ("region", "AF"), ("population", "25.13 million"), ("GDP", "$8.11 billion")]),
    ("NF", [("name", "Ilha Norfolk"), ("region", "OC"), ("population", "2,210"), ("GDP", "Não aplicável")]),
    ("NG", [("name", "Nigéria"), ("region", "AF"), ("population", "206.14 million"), ("GDP", "$448.12 billion")]),
    ("NI", [("name", "Nicarágua"), ("region", "NA"), ("population", "6.65 million"), ("GDP", "$14.13 billion")]),
    ("NL", [("name", "Países Baixos"), ("region", "EU"), ("population", "17.48 million"), ("GDP", "$987.5 billion")]),
    ("NO", [("name", "Noruega"), ("region", "EU"), ("population", "5.44 million"), ("GDP", "$434.75 billion")]),
    ("NP", [("name", "Nepal"), ("region", "AS"), ("population", "29.71 million"), ("GDP", "$30.69 billion")]),
    ("NR", [("name", "Nauru"), ("region", "OC"), ("population", "10,824"), ("GDP", "$114 million")]),
    ("NU", [("name", "Niue"), ("region", "OC"), ("population", "1,618"), ("GDP", "Não aplicável")]),
    ("NZ", [("name", "Nova Zelândia"), ("region", "OC"), ("population", "4.92 million"), ("GDP", "$231.82 billion")]),
    ("OM", [("name", "Omã"), ("region", "AS"), ("population", "4.97 million"), ("GDP", "$61.82 billion")]),
    ("PA", [("name", "Panamá"), ("region", "NA"), ("population", "4.42 million"), ("GDP", "$68.73 billion")]),
    ("PE", [("name", "Peru"), ("region", "SA"), ("population", "33.12 million"), ("GDP", "$229.61 billion")]),
    ("PF", [("name", "Polinésia Francesa"), ("region", "OC"), ("population", "280,600"), ("GDP", "$6.49 billion")]),
    ("PG", [("name", "Papua-Nova Guiné"), ("region", "OC"), ("population", "9.17 million"), ("GDP", "$26.89 billion")]),
    ("PH", [("name", "Filipinas"), ("region", "AS"), ("population", "111.05 million"), ("GDP", "$376.8 billion")]),
    ("PK", [("name", "Paquistão"), ("region", "AS"), ("population", "225.20 million"), ("GDP", "$278.22 billion")]),
    ("PL", [("name", "Polônia"), ("region", "EU"), ("population", "37.97 million"), ("GDP", "$614.19 billion")]),
    ("PM", [("name", "Saint Pierre e Miquelon"), ("region", "NA"), ("population", "5,795"), ("GDP", "Não aplicável")]),
    ("PN", [("name", "Pitcairn"), ("region", "OC"), ("population", "47"), ("GDP", "Não aplicável")]),
    ("PR", [("name", "Porto Rico"), ("region", "NA"), ("population", "2.82 million"), ("GDP", "$104.99 billion")]),
    ("PS", [("name", "Palestina"), ("region", "AS"), ("population", "5.10 million"), ("GDP", "$14.50 billion")]),
    ("PT", [("name", "Portugal"), ("region", "EU"), ("population", "10.28 million"), ("GDP", "$237.05 billion")]),
    ("PW", [("name", "Palau"), ("region", "OC"), ("population", "18,008"), ("GDP", "$311 million")]),
    ("PY", [("name", "Paraguai"), ("region", "SA"), ("population", "7.53 million"), ("GDP", "$40.83 billion")]),
    ("QA", [("name", "Catar"), ("region", "AS"), ("population", "2.78 million"), ("GDP", "$156.28 billion")]),
    ("RE", [("name", "Reunião"), ("region", "AF"), ("population", "895,312"), ("GDP", "$8.96 billion")]),
    ("RO", [("name", "Romênia"), ("region", "EU"), ("population", "19.05 million"), ("GDP", "$250.05 billion")]),
    ("RS", [("name", "Sérvia"), ("region", "EU"), ("population", "6.91 million"), ("GDP", "$52.91 billion")]),
    ("RU", [("name", "Rússia"), ("region", "EU"), ("population", "144.48 million"), ("GDP", "$1.72 trillion")]),
    ("RW", [("name", "Ruanda"), ("region", "AF"), ("population", "12.63 million"), ("GDP", "$10.52 billion")]),
    ("SA", [("name", "Arábia Saudita"), ("region", "AS"), ("population", "35.41 million"), ("GDP", "$793.97 billion")]),
    ("SB", [("name", "Ilhas Salomão"), ("region", "OC"), ("population", "703,996"), ("GDP", "$1.42 billion")]),
    ("SC", [("name", "Seicheles"), ("region", "AF"), ("population", "98,347"), ("GDP", "$1.81 billion")]),
    ("SD", [("name", "Sudão"), ("region", "AF"), ("population", "44.91 million"), ("GDP", "$35.47 billion")]),
    ("SE", [("name", "Suécia"), ("region", "EU"), ("population", "10.45 million"), ("GDP", "$530.00 billion")]),
    ("SG", [("name", "Cingapura"), ("region", "AS"), ("population", "5.91 million"), ("GDP", "$372.06 billion")]),
    ("SH", [("name", "Santa Helena, Ascensão e Tristão da Cunha"), ("region", "AF"), ("population", "6,077"), ("GDP", "Não aplicável")]),
    ("SI", [("name", "Eslovênia"), ("region", "EU"), ("population", "2.08 million"), ("GDP", "$65.78 billion")]),
    ("SJ", [("name", "Svalbard e Jan Mayen"), ("region", "EU"), ("population", "2,667"), ("GDP", "Não aplicável")]),
    ("SK", [("name", "Eslováquia"), ("region", "EU"), ("population", "5.46 million"), ("GDP", "$107.08 billion")]),
    ("SL", [("name", "Serra Leoa"), ("region", "AF"), ("population", "8.16 million"), ("GDP", "$3.79 billion")]),
    ("SM", [("name", "San Marino"), ("region", "EU"), ("population", "33,860"), ("GDP", "$2.21 billion")]),
    ("SN", [("name", "Senegal"), ("region", "AF"), ("population", "17.91 million"), ("GDP", "$25.29 billion")]),
    ("SO", [("name", "Somália"), ("region", "AF"), ("population", "16.64 million"), ("GDP", "Não disponível")]),
    ("SR", [("name", "Suriname"), ("region", "SA"), ("population", "591,800"), ("GDP", "$3.71 billion")]),
    ("SS", [("name", "Sudão do Sul"), ("region", "AF"), ("population", "11.06 million"), ("GDP", "$3.63 billion")]),
    ("ST", [("name", "São Tomé e Príncipe"), ("region", "AF"), ("population", "221,415"), ("GDP", "$444 million")]),
    ("SV", [("name", "El Salvador"), ("region", "NA"), ("population", "6.52 million"), ("GDP", "$27.24 billion")]),
    ("SX", [("name", "São Martinho (parte holandesa)"), ("region", "NA"), ("population", "42,106"), ("GDP", "Não aplicável")]),
    ("SY", [("name", "Síria"), ("region", "AS"), ("population", "17.10 million"), ("GDP", "$15.40 billion")]),
    ("SZ", [("name", "Eswatini"), ("region", "AF"), ("population", "1.16 million"), ("GDP", "$5.77 billion")]),
    ("TC", [("name", "Ilhas Turks e Caicos"), ("region", "NA"), ("population", "38,191"), ("GDP", "Não aplicável")]),
    ("TD", [("name", "Chade"), ("region", "AF"), ("population", "16.66 million"), ("GDP", "$15.84 billion")]),
    ("TF", [("name", "Territórios Franceses do Sul"), ("region", "AF"), ("population", "140"), ("GDP", "Não aplicável")]),
    ("TG", [("name", "Togo"), ("region", "AF"), ("population", "8.68 million"), ("GDP", "$5.45 billion")]),
    ("TH", [("name", "Tailândia"), ("region", "AS"), ("population", "69.80 million"), ("GDP", "$543.65 billion")]),
    ("TJ", [("name", "Tajiquistão"), ("region", "AS"), ("population", "9.54 million"), ("GDP", "$8.05 billion")]),
    ("TK", [("name", "Tokelau"), ("region", "OC"), ("population", "1,499"), ("GDP", "Não aplicável")]),
    ("TL", [("name", "Timor-Leste (Timor-Leste)"), ("region", "AS"), ("population", "1.36 million"), ("GDP", "$1.72 billion")]),
    ("TM", [("name", "Turcomenistão"), ("region", "AS"), ("population", "6.03 million"), ("GDP", "$42.32 billion")]),
    ("TN", [("name", "Tunísia"), ("region", "AF"), ("population", "12.21 million"), ("GDP", "$44.26 billion")]),
    ("TO", [("name", "Tonga"), ("region", "AF"), ("population", "106,915"), ("GDP", "$519 million")]),
    ("TR", [("name", "Turquia"), ("region", "AS"), ("population", "84.34 million"), ("GDP", "$761.43 billion")]),
    ("TT", [("name", "Trinidad e Tobago"), ("region", "NA"), ("population", "1.40 million"), ("GDP", "$21.21 billion")]),
    ("TV", [("name", "Tuvalu"), ("region", "OC"), ("population", "11,931"), ("GDP", "$46 million")]),
    ("TW", [("name", "Taiwan"), ("region", "AS"), ("population", "23.58 million"), ("GDP", "$665.77 billion")]),
    ("TZ", [("name", "Tanzânia"), ("region", "AF"), ("population", "61.50 million"), ("GDP", "$63.20 billion")]),
    ("UA", [("name", "Ucrânia"), ("region", "EU"), ("population", "41.61 million"), ("GDP", "$166.97 billion")]),
    ("UG", [("name", "Uganda"), ("region", "AF"), ("population", "47.73 million"), ("GDP", "$34.97 billion")]),
    ("UM", [("name", "Ilhas Menores Distantes dos Estados Unidos"), ("region", "OC"), ("population", "300"), ("GDP", "Não aplicável")]),
    ("US", [("name", "Estados Unidos"), ("region", "NA"), ("population", "332.47 million"), ("GDP", "$22.67 trillion")]),
    ("UY", [("name", "Uruguai"), ("region", "SA"), ("population", "3.48 million"), ("GDP", "$55.89 billion")]),
    ("UZ", [("name", "Uzbequistão"), ("region", "AS"), ("population", "34.40 million"), ("GDP", "$57.84 billion")]),
    ("VA", [("name", "Cidade do Vaticano"), ("region", "EU"), ("population", "800"), ("GDP", "Não aplicável")]),
    ("VC", [("name", "São Vicente e Granadinas"), ("region", "NA"), ("population", "110,608"), ("GDP", "$0.88 billion")]),
    ("VE", [("name", "Venezuela"), ("region", "SA"), ("population", "28.67 million"), ("GDP", "$76.17 billion")]),
    ("VG", [("name", "Ilhas Virgens Britânicas"), ("region", "NA"), ("population", "30,030"), ("GDP", "Não aplicável")]),
    ("VI", [("name", "Ilhas Virgens Americanas"), ("region", "NA"), ("population", "107,268"), ("GDP", "$4.23 billion")]),
    ("VN", [("name", "Vietnã"), ("region", "AS"), ("population", "98.97 million"), ("GDP", "$340.6 billion")]),
    ("VU", [("name", "Vanuatu"), ("region", "OC"), ("population", "307,145"), ("GDP", "$0.92 billion")]),
    ("WF", [("name", "Wallis e Futuna"), ("region", "OC"), ("population", "11,812"), ("GDP", "Não aplicável")]),
    ("WS", [("name", "Samoa"), ("region", "OC"), ("population", "199,424"), ("GDP", "$0.86 billion")]),
    ("XK", [("name", "Kosovo"), ("region", "EU"), ("population", "1.80 million"), ("GDP", "$7.98 billion")]),
    ("YE", [("name", "Iêmen"), ("region", "AS"), ("population", "31.37 million"), ("GDP", "$28.04 billion")]),
    ("YT", [("name", "Mayotte"), ("region", "AF"), ("population", "279,471"), ("GDP", "Não aplicável")]),
    ("ZA", [("name", "África do Sul"), ("region", "AF"), ("population", "60.52 million"), ("GDP", "$283.82 billion")]),
    ("ZM", [("name", "Zâmbia"), ("region", "AF"), ("population", "18.88 million"), ("GDP", "$26.60 billion")]),
    ("ZW", [("name", "Zimbábue"), ("region", "AF"), ("population", "14.86 million"), ("GDP", "$22.34 billion")]) ]

/-! ## Notions used to state the properties of the hierarchy and the groups -/

/-- The attribute `fill` of a node in the asset. -/
def fillOf (doc : List DomNode) (n : Nat) : Option String :=
  match doc[n]? with
  | some d => d.fill
  | none => none

/-- The test `child.id == countries[country].id.toLowerCase()` of `sortProvinces`: the
child is the border of the country `c`. -/
def isBorderChild (doc : List DomNode) (c x : Nat) : Bool :=
  idOf doc x == some (borderId doc c)

/-- The children of the country `c` that the child loop of `sortProvinces` pushes to
`provinces`: not the border, and a path or a group. -/
def isProvinceChild (doc : List DomNode) (c x : Nat) : Bool :=
  !isBorderChild doc c x && (tagOf doc x == some "path" || tagOf doc x == some "g")

/-- The children of a grouped province that the grandchild loop of `sortProvinces` pushes
to `subprovinces`: paths whose attribute `fill`, as given by `fill`, is not `none`. -/
def isSubprovince (doc : List DomNode) (fill : Nat → Option String) (x : Nat) : Bool :=
  tagOf doc x == some "path" && !(fill x == some "none")

/-- The hierarchy below the country `c` as the country loop of `sortProvinces` builds it,
`fill0` being the `fill` attributes and `border0` the border of `c` before the loop: the
province list, the border, and for every grouped province the subprovince list and the
back-references of its children. -/
def SortedCountry (fill0 : Nat → Option String) (border0 : Option Nat) (t : MapState)
    (c : Nat) : Prop :=
  t.provinces c = some ((liveChildNodes t c).filter (isProvinceChild t.doc c)) ∧
  t.border c =
    (((liveChildNodes t c).filter (isBorderChild t.doc c)).getLast?).or border0 ∧
  ∀ g ∈ liveChildNodes t c, isProvinceChild t.doc c g = true → tagOf t.doc g = some "g" →
    t.provinces g = some ((liveChildNodes t g).filter (isSubprovince t.doc fill0)) ∧
    ∀ x ∈ liveChildNodes t g, t.province x = some g ∧ t.country x = some c

/-- The own property `countryGroups[g][v][id]`: the member filed under the identifier
`id` in the subgroup `v` of the group `g`, if there is one. -/
def groupMember (groups : Obj (Obj (Obj Nat))) (g v id : String) : Option Nat :=
  match objGet groups g with
  | none => none
  | some main =>
    match objGet main v with
    | none => none
    | some bucket => objGet bucket id

/-- The keys of the bucket `countryGroups[g][v]`, in insertion order; no key when the
bucket does not exist. -/
def bucketKeys (groups : Obj (Obj (Obj Nat))) (g v : String) : List String :=
  match objGet groups g with
  | none => []
  | some main =>
    match objGet main v with
    | none => []
    | some bucket => objKeys bucket

/-- The identifiers of the bucket `countryGroups[g][v]` in the order in which a loop
`for (id in countryGroups[g][v])` enumerates them; none when the bucket does not exist. -/
def bucketEnum (groups : Obj (Obj (Obj Nat))) (g v : String) : List String :=
  match objGet groups g with
  | none => []
  | some main =>
    match objGet main v with
    | none => []
    | some bucket => enumKeys bucket

/-- No top-level element id, no grouping key and no subgroup that a country-data record
names under a grouping key is a name that a plain object inherits from `Object.prototype`:
the reads and writes of `buildCountryGroups` then concern own properties only. -/
def PlainKeys (doc : List DomNode) (opts : Options) (data : Obj (Obj String)) : Prop :=
  (∀ n, n < doc.length → parentOf doc n = none → idKey (idOf doc n) ∉ inheritedNames) ∧
  (∀ g ∈ opts.groupBy, g ∉ inheritedNames) ∧
  (∀ e ∈ data, ∀ g ∈ opts.groupBy, idKey (objGet e.2 g) ∉ inheritedNames)

instance instDecidablePlainKeys (doc : List DomNode) (opts : Options)
    (data : Obj (Obj String)) : Decidable (PlainKeys doc opts data) := by
  unfold PlainKeys
  infer_instance

/-- The subgroups of `countryGroups[g]`, in insertion order. -/
def subgroupKeys (groups : Obj (Obj (Obj Nat))) (g : String) : List String :=
  match objGet groups g with
  | none => []
  | some main => objKeys main

/-! ## Further sample assets -/

/-- The sample asset with the label of DE rendered at font size 1. -/
def smallLabelDoc : List DomNode :=
  demoDoc.set 13 { el "DE-label" "text" (some 11) with fontSize := some "1" }

/-- The sample asset without the node `World`: a rectangle named `Land` takes its place. -/
def noWorldDoc : List DomNode := demoDoc.set 0 (el "Land" "rect" none)

/-- The sample asset without the node `Ocean`: a rectangle named `Sea` takes its place. -/
def noOceanDoc : List DomNode := demoDoc.set 1 (el "Sea" "rect" none)

/-- The sample asset without the label layer: a group named `tags` takes its place. -/
def noLabelsDoc : List DomNode := demoDoc.set 11 (el "tags" "g" none)

/-- The sample asset without Antarctica and its label. -/
def noAntarcticaDoc : List DomNode :=
  [ el "World" "rect" none, el "Ocean" "rect" none,
    el "FR" "g" none, el "FR-A" "path" (some 2),
    el "labels" "g" none,
    { el "FR-label" "text" (some 4) with fontSize := some "2e0" } ]

/-- An asset with the label of a microstate that has no node of its own: the font size
of the label is written `2e0`. -/
def microLabelDoc : List DomNode :=
  [ el "World" "rect" none, el "Ocean" "rect" none, el "labels" "g" none,
    { el "MC-label" "text" (some 2) with fontSize := some "2e0" } ]

/-- Country data with a record for Monaco only. -/
def monacoData : Obj (Obj String) := [("MC", [("name", "Monaco")])]

/-- An asset whose country DE has a border group that holds a comment node. -/
def commentBorderDoc : List DomNode :=
  [ el "World" "rect" none, el "Ocean" "rect" none,
    el "DE" "g" none, el "de" "g" (some 2),
    { kind := NodeKind.other, id := "", tagName := "", parent := some 3 },
    el "labels" "g" none ]

/-- An asset in which the first element with the id `World` lies inside a group. -/
def nestedWorldDoc : List DomNode :=
  [ el "Ocean" "rect" none, el "frame" "g" none, el "World" "rect" (some 1),
    el "World" "rect" none, el "labels" "g" none ]

/-- The sample data without a record for FR. -/
def noFranceData : Obj (Obj String) :=
  [ ("AQ", [("name", "Antarctica"), ("region", "AN")]),
    ("DE", [("name", "Germany"), ("region", "EU")]) ]

/-! ## Notions used to state the completion of `initMapCountries` -/

/-- What the label loops of `sortLabels` keep on a freshly loaded asset: document, options,
country data and index are the ones given, no node is detached, and only text labels whose
font size compares equal to 2 are flagged as microstates. -/
def LabelInv (doc : List DomNode) (opts : Options) (data : Obj (Obj String))
    (idx : Obj Nat) (s : MapState) : Prop :=
  s.doc = doc ∧ s.opts = opts ∧ s.countryData = data ∧ s.countries = idx ∧
  s.removed = [] ∧
  ∀ x, s.microstate x = some true →
    tagOf doc x = some "text" ∧ looseEqualsTwo (fontSizeOf doc x) = true

/-- Sample asset with an id that has a capital outside ASCII: `World`, `Ocean`, the country
`ÅL` whose lowercase id is `ål`, its border group `ål` with one path, its province group
`Ål` with one filled and one unfilled path, and an empty label layer. -/
def alandDoc : List DomNode :=
  [ el "World" "rect" none, el "Ocean" "rect" none,
    { el "ÅL" "g" none with lowerId := "ål" },
    el "ål" "g" (some 2), el "ål-1" "path" (some 3),
    el "Ål" "g" (some 2), el "Ål-1" "path" (some 5),
    { el "Ål-2" "path" (some 5) with fill := some "none" },
    el "labels" "g" none ]
/-! ## Table parser

The HTML text is given as the tables that `DOMParser` finds in it: for every `table` the
`innerHTML` of its `th` elements and, for every `tr` element, its `td` cells with their
`innerHTML` and `style.backgroundColor`, in document order.  `viaHandle` tells whether
`parseHTMLTable.caller` is not `null`, as it is when the call comes through
`svgMap.table`, which wraps it in a function.  Header texts and row keys are taken not to
be names of properties that every object inherits (`constructor`, `toString`, ...).
Decimal texts are converted to the nearest double, as the engines do. -/

/-- A `td` element: its `innerHTML` and its `style.backgroundColor`, the empty string
when no background colour is set. -/
structure TableCell where
  innerHTML : String
  backgroundColor : String := ""
  deriving DecidableEq, Repr

/-- A `table` element: the `innerHTML` of its `th` elements and the `td` cells of each of
its `tr` elements. -/
structure HtmlTable where
  headers : List String
  rows : List (List TableCell)
  deriving DecidableEq, Repr

/-- The local array `tableKeys` of `parseHTMLTable`. -/
def tableKeys : List String :=
  ["iso", "name", "country", "countries", "state", "states", "nation", "nations",
   "member state", "member states", "country or territory"]

/-- The inner loop of the table search: the table key that the first matching header
of a table gives. -/
def findTableKey (headers : List String) : Option String :=
  (headers.map (fun h => toLowerCase (stripHTML h))).find? (fun t => decide (t ∈ tableKeys))

/-- The loop `loop_table`: the first table with a header that is a table key, and the
key. -/
def findTable : List HtmlTable → Option (HtmlTable × String)
  | [] => none
  | t :: rest =>
    match findTableKey t.headers with
    | some k => some (t, k)
    | none => findTable rest

/-- The test `text.search(new RegExp('(' + pattern + ')', 'gi')) != -1` for a pattern of
letters and blanks. -/
def containsCI (pattern : List Char) : List Char → Bool
  | [] => startsWithCI pattern []
  | c :: rest => startsWithCI pattern (c :: rest) || containsCI pattern rest

/-- The variable `headerKey` after the header loop: the text of the last header that
holds the table key. -/
def headerKeyOf (tableKey : String) (headers : List String) : String :=
  headers.foldl
    (fun key h => if containsCI tableKey.data (stripHTML h).data = true then stripHTML h else key)
    ""

/-- The array `columnKeys` after the header loop: the header texts that are not empty. -/
def columnKeysOf (headers : List String) : List String :=
  (headers.map stripHTML).filter (fun t => t ≠ "")

/-- The number of halvings that bring a natural number below `2^53`, counted up to the
bound `fuel`. -/
def halvings : Nat → Nat → Nat
  | 0, _ => 0
  | fuel + 1, n => if n < 2 ^ 53 then 0 else halvings fuel (n / 2) + 1

/-- The double nearest to a natural number, ties going to the even significand;
`Infinity` from `2^1024 - 2^970` on. -/
def roundToDouble (n : Nat) : JsNum :=
  if n < 2 ^ 53 then JsNum.int n
  else
    let e := halvings 1024 n
    let q := n / 2 ^ e
    let r := n % 2 ^ e
    let q1 := if 2 ^ (e - 1) < r ∨ (r = 2 ^ (e - 1) ∧ q % 2 = 1) then q + 1 else q
    if 2 ^ 1024 ≤ q1 * 2 ^ e then JsNum.infinity else JsNum.int (q1 * 2 ^ e)

/-- The test `/^[0-9,.]*$/.test(columnText)`. -/
def isNumberCell (t : String) : Bool :=
  t.data.all (fun c => c.isDigit || c == ',' || c == '.')

/-- The call `Number(columnText.replace(/,/g, ""))` for a text of digits, commas and
dots. -/
def numberOfCell (t : String) : JsNum :=
  let s := t.data.filter (fun c => c != ',')
  match s.dropWhile Char.isDigit with
  | [] => roundToDouble (digitsValue (s.takeWhile Char.isDigit))
  | '.' :: frac =>
    if frac.all Char.isDigit = true then
      if frac.all (fun c => c == '0') = true then
        if (s.takeWhile Char.isDigit).isEmpty = true ∧ frac.isEmpty = true then JsNum.nan
        else roundToDouble (digitsValue (s.takeWhile Char.isDigit))
      else JsNum.decimal ⟨s.takeWhile Char.isDigit⟩ ⟨frac⟩
    else JsNum.nan
  | _ => JsNum.nan

/-- The characters after `e` or `E` form the rest of an exponent part. -/
def isExponentTail (l : List Char) : Bool :=
  match l with
  | '+' :: ds => !ds.isEmpty && ds.all Char.isDigit
  | '-' :: ds => !ds.isEmpty && ds.all Char.isDigit
  | ds => !ds.isEmpty && ds.all Char.isDigit

/-- An unsigned decimal literal of the string-to-number grammar, `Infinity` included. -/
def isUnsignedDecimal (l : List Char) : Bool :=
  l == "Infinity".data ||
    (let whole := l.takeWhile Char.isDigit
     let afterWhole := l.dropWhile Char.isDigit
     let frac := match afterWhole with
       | '.' :: t => t.takeWhile Char.isDigit
       | _ => []
     let tail := match afterWhole with
       | '.' :: t => t.dropWhile Char.isDigit
       | t => t
     !(whole.isEmpty && frac.isEmpty) &&
       (match tail with
        | [] => true
        | 'e' :: x => isExponentTail x
        | 'E' :: x => isExponentTail x
        | _ => false))

/-- A hexadecimal, octal or binary integer literal of the string-to-number grammar. -/
def isNonDecimal (l : List Char) : Bool :=
  match l with
  | '0' :: 'x' :: ds | '0' :: 'X' :: ds =>
    !ds.isEmpty && ds.all (fun c => c.isDigit || (97 ≤ c.toNat && c.toNat ≤ 102) ||
      (65 ≤ c.toNat && c.toNat ≤ 70))
  | '0' :: 'o' :: ds | '0' :: 'O' :: ds =>
    !ds.isEmpty && ds.all (fun c => 48 ≤ c.toNat && c.toNat ≤ 55)
  | '0' :: 'b' :: ds | '0' :: 'B' :: ds =>
    !ds.isEmpty && ds.all (fun c => c == '0' || c == '1')
  | _ => false

/-- Whether `Number(text)` is a number other than `NaN`: the text, white space trimmed,
is empty or a numeric literal. -/
def isNumericText (l : List Char) : Bool :=
  match trimChars l with
  | [] => true
  | '+' :: u => isUnsignedDecimal u
  | '-' :: u => isUnsignedDecimal u
  | u => isUnsignedDecimal u || isNonDecimal u

/-- The call `isNaN(text)` on a string. -/
def isNaNText (t : String) : Bool := !isNumericText t.data

/-- The call `isNaN(columnKeys[i])`: `undefined` is not a number. -/
def isNaNKey (k : Option String) : Bool :=
  match k with
  | none => true
  | some t => isNaNText t

/-- A result of `parseInt` other than `NaN`: an integer that a double holds, or an
infinity. -/
inductive IntVal where
  | fin (z : Int)
  | inf (negative : Bool)
  deriving DecidableEq, Repr

/-- The double nearest to an integer. -/
def roundInt (z : Int) : IntVal :=
  match roundToDouble z.natAbs with
  | JsNum.int n => IntVal.fin (if z < 0 then -(n : Int) else (n : Int))
  | _ => IntVal.inf (decide (z < 0))

/-- The digits of `parseInt`, after white space, sign and radix mark. -/
def parseDigits (negative : Bool) (radix : Nat) (l : List Char) : Option IntVal :=
  let ds := l.takeWhile (fun c => (radixDigit radix c).isSome)
  if ds.isEmpty = true then none
  else
    match roundToDouble (ds.foldl (fun acc c => radix * acc + (radixDigit radix c).getD 0) 0) with
    | JsNum.int n => some (IntVal.fin (if negative = true then -(n : Int) else (n : Int)))
    | _ => some (IntVal.inf negative)

/-- The radix mark of `parseInt`: `0x` or `0X` selects radix 16. -/
def parseUnsigned (negative : Bool) (l : List Char) : Option IntVal :=
  match l with
  | '0' :: 'x' :: r => parseDigits negative 16 r
  | '0' :: 'X' :: r => parseDigits negative 16 r
  | r => parseDigits negative 10 r

/-- The call `parseInt(text)`, `none` standing for `NaN`. -/
def parseInt (t : String) : Option IntVal :=
  match t.data.dropWhile isJsSpace with
  | '-' :: r => parseUnsigned true r
  | '+' :: r => parseUnsigned false r
  | r => parseUnsigned false r

/-- The sums `x + 1` and `x - 1` on doubles that hold integers. -/
def stepInt (d : Int) (x : IntVal) : IntVal :=
  match x with
  | IntVal.fin z => roundInt (z + d)
  | IntVal.inf b => IntVal.inf b

/-- The comparison `parseInt(a) + d == parseInt(b)`: `NaN` equals nothing. -/
def followsBy (d : Int) (a b : String) : Bool :=
  match parseInt a, parseInt b with
  | some x, some y => stepInt d x == y
  | _, _ => false

/-- The test for time data of `parseHTMLTable`: the second to fourth column keys are
numbers that follow each other, upwards or downwards. -/
def isTimeTable (columnKeys : List String) : Bool :=
  (!isNaNKey columnKeys[1]? && !isNaNKey columnKeys[2]? && !isNaNKey columnKeys[3]?) &&
    (match columnKeys[1]?, columnKeys[2]?, columnKeys[3]? with
     | some a, some b, some c =>
       (followsBy 1 a b && followsBy 1 b c) || (followsBy (-1) a b && followsBy (-1) b c)
     | _, _, _ => false)

/-- The variable `columnText` of a cell that is not empty: the stripped text, converted
to a number when it is made of digits, commas and dots. -/
def cellText (cell : TableCell) : CellText :=
  if isNumberCell (stripHTML cell.innerHTML) = true then
    CellText.num (numberOfCell (stripHTML cell.innerHTML))
  else CellText.text (stripHTML cell.innerHTML)

/-- The statements of the time animation branch that write to `tableData`: the object
`tableData[key]` is created if missing and receives the colour under `countryKey`. -/
def pushColor (tableData : Obj TableVal) (key : String) (countryKey : Option String)
    (color : String) : Obj TableVal :=
  let created := match objGet tableData key with
    | some _ => tableData
    | none => objSet tableData key (TableVal.row [])
  match countryKey, objGet created key with
  | some k, some (TableVal.row r) =>
    objSet created key (TableVal.row (objSet r k (CellVal.plain (CellText.text color))))
  | _, _ => created

/-- The body of the column loop of `parseHTMLTable`, for the cell `cell` at index `c` of a
row whose first cell is `first`: the globals `tableData` and the local `rowData`. -/
def columnStep (countryData : Obj (Obj String)) (viaHandle timeTable : Bool)
    (columnKeys : List String) (first : TableCell)
    (st : Obj TableVal × Obj CellVal) (c : Nat) (cell : TableCell) :
    Obj TableVal × Obj CellVal :=
  if stripHTML cell.innerHTML ≠ "" then
    if cell.backgroundColor ≠ "" then
      if timeTable = true ∧ viaHandle = false then
        (pushColor st.1 (idKey columnKeys[c]?)
            (findIdByName countryData (stripHTML first.innerHTML)) cell.backgroundColor,
          objSet st.2 (idKey (findIdByName countryData (stripHTML first.innerHTML)))
            (CellVal.plain (CellText.text cell.backgroundColor)))
      else
        (st.1, objSet st.2 (idKey columnKeys[c]?)
          (CellVal.shaded (cellText cell) cell.backgroundColor))
    else if viaHandle = true then
      (st.1, objSet st.2 (idKey columnKeys[c]?) (CellVal.plain (cellText cell)))
    else st
  else st

/-- The column loop of `parseHTMLTable` over the cells of a row, from `startColumn` on. -/
def columnLoop (countryData : Obj (Obj String)) (viaHandle timeTable : Bool)
    (columnKeys : List String) (tableData : Obj TableVal) (columns : List TableCell) :
    Obj TableVal × Obj CellVal :=
  match columns with
  | [] => (tableData, [])
  | first :: _ =>
    (columns.enum.drop (if timeTable = true then 1 else 0)).foldl
      (fun st e => columnStep countryData viaHandle timeTable columnKeys first st e.1 e.2)
      (tableData, [])

/-- The test `rowData[headerKey].length > 2`: only a string has a length. -/
def longerThanTwo (v : CellVal) : Bool :=
  match v with
  | CellVal.plain (CellText.text t) => decide (2 < t.length)
  | _ => false

/-- The variable `countryKey` at the end of the row loop, `none` being `undefined`: the
identifier found for a name of more than two characters unless the table key is `iso`,
else the value of the key column as it is. -/
def countryKeyOf (countryData : Obj (Obj String)) (tableKey : String) (v : CellVal) :
    Option CellVal :=
  match v with
  | CellVal.plain (CellText.text t) =>
    if longerThanTwo v = true ∧ tableKey ≠ "iso" then
      (findIdByName countryData t).map (fun k => CellVal.plain (CellText.text k))
    else some v
  | _ => some v

/-- The call `isNaN(countryKey)`: true of `undefined`, of a text that is no numeric
literal, of `NaN` and of an object. -/
def isNaNVal (v : Option CellVal) : Bool :=
  match v with
  | none => true
  | some (CellVal.plain (CellText.text t)) => isNaNText t
  | some (CellVal.plain (CellText.num n)) => n == JsNum.nan
  | some (CellVal.shaded _ _) => true

/-- The property key that `tableData[countryKey]` uses for a `countryKey` that
`isNaN` accepts. -/
def propertyKey (v : Option CellVal) : String :=
  match v with
  | none => "undefined"
  | some (CellVal.plain (CellText.text t)) => t
  | some (CellVal.plain (CellText.num _)) => "NaN"
  | some (CellVal.shaded _ _) => "[object Object]"

/-- The body of the row loop of `parseHTMLTable`, for the cells `columns` of one `tr`. -/
def rowStep (countryData : Obj (Obj String)) (viaHandle timeTable : Bool)
    (tableKey headerKey : String) (columnKeys : List String)
    (tableData : Obj TableVal) (columns : List TableCell) : Obj TableVal :=
  match objGet (columnLoop countryData viaHandle timeTable columnKeys tableData columns).2
      headerKey with
  | some v =>
    if isNaNVal (countryKeyOf countryData tableKey v) = true then
      objSet (columnLoop countryData viaHandle timeTable columnKeys tableData columns).1
        (propertyKey (countryKeyOf countryData tableKey v))
        (TableVal.row
          (columnLoop countryData viaHandle timeTable columnKeys tableData columns).2)
    else (columnLoop countryData viaHandle timeTable columnKeys tableData columns).1
  | none => (columnLoop countryData viaHandle timeTable columnKeys tableData columns).1

/-- The object `{ error: 'No valid data found in ' + tables.length + ' tables' }`. -/
def noValidData (tables : List HtmlTable) : Obj TableVal :=
  [("error", TableVal.message
    ("No valid data found in " ++ toString tables.length ++ " tables"))]

/-- The global `tableData` when `parseHTMLTable` calls the callback. -/
def parseTable (countryData : Obj (Obj String)) (viaHandle : Bool)
    (tables : List HtmlTable) : Obj TableVal :=
  match findTable tables with
  | none => noValidData tables
  | some (table, tableKey) =>
    if (objKeys (table.rows.foldl
          (rowStep countryData viaHandle (isTimeTable (columnKeysOf table.headers)) tableKey
            (headerKeyOf tableKey table.headers) (columnKeysOf table.headers)) [])).head? =
        some "undefined" then
      noValidData tables
    else
      sortObject (table.rows.foldl
        (rowStep countryData viaHandle (isTimeTable (columnKeysOf table.headers)) tableKey
          (headerKeyOf tableKey table.headers) (columnKeysOf table.headers)) [])

/-- Parse HTML for table data (`window.parseHTMLTable`). -/
def parseHTMLTable (s : MapState) (viaHandle : Bool) (tables : List HtmlTable) : MapState :=
  callBack s "table" (JsArg.table (parseTable s.countryData viaHandle tables))

/-- A table with the header cells `ISO` and `Value`, a header row without `td` cells and
one data row with the cells `k` and `v`, without background colour. -/
def isoValueTable (k v : String) : HtmlTable :=
  { headers := ["ISO", "Value"], rows := [[], [{ innerHTML := k }, { innerHTML := v }]] }

/-- A table with the header cells `Country` and `Value` and the data rows
`Germany`, `1` and `Atlantis`, `2`. -/
def atlantisTable : HtmlTable :=
  { headers := ["Country", "Value"],
    rows := [[], [{ innerHTML := "Germany" }, { innerHTML := "1" }],
      [{ innerHTML := "Atlantis" }, { innerHTML := "2" }]] }
/-! ## Literal colours are not state events -/

theorem isLiteralColor_ne_state (event : String) (h : isLiteralColor event = true) :
    event ≠ "click" ∧ event ≠ "out" ∧ event ≠ "over" := by
  refine ⟨?_, ?_, ?_⟩ <;> (rintro rfl; revert h; decide)

theorem paletteApplies_false (s : MapState) (n : Nat) (event : String)
    (h1 : event ≠ "click") (h2 : event ≠ "out") (h3 : event ≠ "over") :
    paletteApplies s n event = false := by
  simp [paletteApplies, h1, h2, h3]

/-! ## Frame lemmas: what the styling steps leave alone -/

@[simp] theorem andThen_ok {β : Type} (s : MapState) (f : MapState → Except MapState β) :
    andThen (.ok s) f = f s := rfl

@[simp] theorem andThen_error {β : Type} (e : MapState) (f : MapState → Except MapState β) :
    andThen (.error e) f = .error e := rfl

theorem restyle_cases (s : MapState) (n : Nat) (event : String) :
    restyle s n event = s ∨ restyle s n event = strokeBorder s n event ∨
    restyle s n event = fillProvince s n event ∨ restyle s n event = fillDirect s n event := by
  simp only [restyle, pathSetAttributes]
  by_cases h1 : idOf s.doc n ≠ some "World" ∧ idOf s.doc n ≠ some "Ocean"
  · rw [if_pos h1]
    by_cases h2 : paletteApplies s n event = true
    · rw [if_pos h2]
      cases hc : s.country n with
      | none => simp [after]
      | some c =>
        by_cases h3 : isElement s.doc n = true <;> by_cases h4 : isBorderPath s n c = true <;>
          simp [after, h3, h4]
    · rw [if_neg h2]
      by_cases h5 : isLiteralColor event = true <;> by_cases h3 : isElement s.doc n = true <;>
        simp [after, h3, h5]
  · rw [if_neg h1]
    simp [after]

@[simp] theorem fillProvince_doc (s : MapState) (n : Nat) (event : String) :
    (fillProvince s n event).doc = s.doc := rfl

@[simp] theorem fillProvince_opts (s : MapState) (n : Nat) (event : String) :
    (fillProvince s n event).opts = s.opts := rfl

@[simp] theorem fillProvince_countryData (s : MapState) (n : Nat) (event : String) :
    (fillProvince s n event).countryData = s.countryData := rfl

@[simp] theorem fillProvince_globalFns (s : MapState) (n : Nat) (event : String) :
    (fillProvince s n event).globalFns = s.globalFns := rfl

@[simp] theorem fillProvince_countries (s : MapState) (n : Nat) (event : String) :
    (fillProvince s n event).countries = s.countries := rfl

@[simp] theorem fillProvince_countryLabels (s : MapState) (n : Nat) (event : String) :
    (fillProvince s n event).countryLabels = s.countryLabels := rfl

@[simp] theorem fillProvince_removed (s : MapState) (n : Nat) (event : String) :
    (fillProvince s n event).removed = s.removed := rfl

@[simp] theorem fillProvince_country (s : MapState) (n : Nat) (event : String) :
    (fillProvince s n event).country = s.country := rfl

@[simp] theorem fillProvince_border (s : MapState) (n : Nat) (event : String) :
    (fillProvince s n event).border = s.border := rfl

@[simp] theorem fillProvince_provinces (s : MapState) (n : Nat) (event : String) :
    (fillProvince s n event).provinces = s.provinces := rfl

@[simp] theorem fillProvince_updateColor (s : MapState) (n : Nat) (event : String) :
    (fillProvince s n event).updateColor = s.updateColor := rfl

@[simp] theorem fillProvince_selectedCountry (s : MapState) (n : Nat) (event : String) :
    (fillProvince s n event).selectedCountry = s.selectedCountry := rfl

@[simp] theorem fillProvince_log (s : MapState) (n : Nat) (event : String) :
    (fillProvince s n event).log = s.log := rfl

@[simp] theorem strokeBorder_doc (s : MapState) (n : Nat) (event : String) :
    (strokeBorder s n event).doc = s.doc := rfl

@[simp] theorem strokeBorder_opts (s : MapState) (n : Nat) (event : String) :
    (strokeBorder s n event).opts = s.opts := rfl

@[simp] theorem strokeBorder_countryData (s : MapState) (n : Nat) (event : String) :
    (strokeBorder s n event).countryData = s.countryData := rfl

@[simp] theorem strokeBorder_globalFns (s : MapState) (n : Nat) (event : String) :
    (strokeBorder s n event).globalFns = s.globalFns := rfl

@[simp] theorem strokeBorder_countries (s : MapState) (n : Nat) (event : String) :
    (strokeBorder s n event).countries = s.countries := rfl

@[simp] theorem strokeBorder_countryLabels (s : MapState) (n : Nat) (event : String) :
    (strokeBorder s n event).countryLabels = s.countryLabels := rfl

@[simp] theorem strokeBorder_removed (s : MapState) (n : Nat) (event : String) :
    (strokeBorder s n event).removed = s.removed := rfl

@[simp] theorem strokeBorder_country (s : MapState) (n : Nat) (event : String) :
    (strokeBorder s n event).country = s.country := rfl

@[simp] theorem strokeBorder_border (s : MapState) (n : Nat) (event : String) :
    (strokeBorder s n event).border = s.border := rfl

@[simp] theorem strokeBorder_provinces (s : MapState) (n : Nat) (event : String) :
    (strokeBorder s n event).provinces = s.provinces := rfl

@[simp] theorem strokeBorder_updateColor (s : MapState) (n : Nat) (event : String) :
    (strokeBorder s n event).updateColor = s.updateColor := rfl

@[simp] theorem strokeBorder_selectedCountry (s : MapState) (n : Nat) (event : String) :
    (strokeBorder s n event).selectedCountry = s.selectedCountry := rfl

@[simp] theorem strokeBorder_log (s : MapState) (n : Nat) (event : String) :
    (strokeBorder s n event).log = s.log := rfl

@[simp] theorem fillDirect_doc (s : MapState) (n : Nat) (event : String) :
    (fillDirect s n event).doc = s.doc := rfl

@[simp] theorem fillDirect_opts (s : MapState) (n : Nat) (event : String) :
    (fillDirect s n event).opts = s.opts := rfl

@[simp] theorem fillDirect_countryData (s : MapState) (n : Nat) (event : String) :
    (fillDirect s n event).countryData = s.countryData := rfl

@[simp] theorem fillDirect_globalFns (s : MapState) (n : Nat) (event : String) :
    (fillDirect s n event).globalFns = s.globalFns := rfl

@[simp] theorem fillDirect_countries (s : MapState) (n : Nat) (event : String) :
    (fillDirect s n event).countries = s.countries := rfl

@[simp] theorem fillDirect_countryLabels (s : MapState) (n : Nat) (event : String) :
    (fillDirect s n event).countryLabels = s.countryLabels := rfl

@[simp] theorem fillDirect_removed (s : MapState) (n : Nat) (event : String) :
    (fillDirect s n event).removed = s.removed := rfl

@[simp] theorem fillDirect_country (s : MapState) (n : Nat) (event : String) :
    (fillDirect s n event).country = s.country := rfl

@[simp] theorem fillDirect_border (s : MapState) (n : Nat) (event : String) :
    (fillDirect s n event).border = s.border := rfl

@[simp] theorem fillDirect_provinces (s : MapState) (n : Nat) (event : String) :
    (fillDirect s n event).provinces = s.provinces := rfl

@[simp] theorem fillDirect_updateColor (s : MapState) (n : Nat) (event : String) :
    (fillDirect s n event).updateColor = s.updateColor := rfl

@[simp] theorem fillDirect_selectedCountry (s : MapState) (n : Nat) (event : String) :
    (fillDirect s n event).selectedCountry = s.selectedCountry := rfl

@[simp] theorem fillDirect_log (s : MapState) (n : Nat) (event : String) :
    (fillDirect s n event).log = s.log := rfl

@[simp] theorem restyle_doc (s : MapState) (n : Nat) (event : String) :
    (restyle s n event).doc = s.doc := by
  rcases restyle_cases s n event with h | h | h | h <;> rw [h] <;> rfl

@[simp] theorem restyle_opts (s : MapState) (n : Nat) (event : String) :
    (restyle s n event).opts = s.opts := by
  rcases restyle_cases s n event with h | h | h | h <;> rw [h] <;> rfl

@[simp] theorem restyle_countryData (s : MapState) (n : Nat) (event : String) :
    (restyle s n event).countryData = s.countryData := by
  rcases restyle_cases s n event with h | h | h | h <;> rw [h] <;> rfl

@[simp] theorem restyle_globalFns (s : MapState) (n : Nat) (event : String) :
    (restyle s n event).globalFns = s.globalFns := by
  rcases restyle_cases s n event with h | h | h | h <;> rw [h] <;> rfl

@[simp] theorem restyle_countries (s : MapState) (n : Nat) (event : String) :
    (restyle s n event).countries = s.countries := by
  rcases restyle_cases s n event with h | h | h | h <;> rw [h] <;> rfl

@[simp] theorem restyle_countryLabels (s : MapState) (n : Nat) (event : String) :
    (restyle s n event).countryLabels = s.countryLabels := by
  rcases restyle_cases s n event with h | h | h | h <;> rw [h] <;> rfl

@[simp] theorem restyle_removed (s : MapState) (n : Nat) (event : String) :
    (restyle s n event).removed = s.removed := by
  rcases restyle_cases s n event with h | h | h | h <;> rw [h] <;> rfl

@[simp] theorem restyle_country (s : MapState) (n : Nat) (event : String) :
    (restyle s n event).country = s.country := by
  rcases restyle_cases s n event with h | h | h | h <;> rw [h] <;> rfl

@[simp] theorem restyle_border (s : MapState) (n : Nat) (event : String) :
    (restyle s n event).border = s.border := by
  rcases restyle_cases s n event with h | h | h | h <;> rw [h] <;> rfl

@[simp] theorem restyle_provinces (s : MapState) (n : Nat) (event : String) :
    (restyle s n event).provinces = s.provinces := by
  rcases restyle_cases s n event with h | h | h | h <;> rw [h] <;> rfl

@[simp] theorem restyle_updateColor (s : MapState) (n : Nat) (event : String) :
    (restyle s n event).updateColor = s.updateColor := by
  rcases restyle_cases s n event with h | h | h | h <;> rw [h] <;> rfl

@[simp] theorem restyle_selectedCountry (s : MapState) (n : Nat) (event : String) :
    (restyle s n event).selectedCountry = s.selectedCountry := by
  rcases restyle_cases s n event with h | h | h | h <;> rw [h] <;> rfl

@[simp] theorem restyle_log (s : MapState) (n : Nat) (event : String) :
    (restyle s n event).log = s.log := by
  rcases restyle_cases s n event with h | h | h | h <;> rw [h] <;> rfl

@[simp] theorem setLabelFill_doc (s : MapState) (id event : String) :
    (setLabelFill s id event).doc = s.doc := by
  unfold setLabelFill; split <;> rfl

@[simp] theorem setLabelFill_opts (s : MapState) (id event : String) :
    (setLabelFill s id event).opts = s.opts := by
  unfold setLabelFill; split <;> rfl

@[simp] theorem setLabelFill_countryData (s : MapState) (id event : String) :
    (setLabelFill s id event).countryData = s.countryData := by
  unfold setLabelFill; split <;> rfl

@[simp] theorem setLabelFill_globalFns (s : MapState) (id event : String) :
    (setLabelFill s id event).globalFns = s.globalFns := by
  unfold setLabelFill; split <;> rfl

@[simp] theorem setLabelFill_countries (s : MapState) (id event : String) :
    (setLabelFill s id event).countries = s.countries := by
  unfold setLabelFill; split <;> rfl

@[simp] theorem setLabelFill_countryLabels (s : MapState) (id event : String) :
    (setLabelFill s id event).countryLabels = s.countryLabels := by
  unfold setLabelFill; split <;> rfl

@[simp] theorem setLabelFill_removed (s : MapState) (id event : String) :
    (setLabelFill s id event).removed = s.removed := by
  unfold setLabelFill; split <;> rfl

@[simp] theorem setLabelFill_country (s : MapState) (id event : String) :
    (setLabelFill s id event).country = s.country := by
  unfold setLabelFill; split <;> rfl

@[simp] theorem setLabelFill_border (s : MapState) (id event : String) :
    (setLabelFill s id event).border = s.border := by
  unfold setLabelFill; split <;> rfl

@[simp] theorem setLabelFill_provinces (s : MapState) (id event : String) :
    (setLabelFill s id event).provinces = s.provinces := by
  unfold setLabelFill; split <;> rfl

@[simp] theorem setLabelFill_updateColor (s : MapState) (id event : String) :
    (setLabelFill s id event).updateColor = s.updateColor := by
  unfold setLabelFill; split <;> rfl

@[simp] theorem setLabelFill_selectedCountry (s : MapState) (id event : String) :
    (setLabelFill s id event).selectedCountry = s.selectedCountry := by
  unfold setLabelFill; split <;> rfl

@[simp] theorem setLabelFill_log (s : MapState) (id event : String) :
    (setLabelFill s id event).log = s.log := by
  unfold setLabelFill; split <;> rfl

@[simp] theorem callBack_doc (s : MapState) (event : String) (data : JsArg) :
    (callBack s event data).doc = s.doc := by
  unfold callBack; split_ifs <;> rfl

@[simp] theorem callBack_opts (s : MapState) (event : String) (data : JsArg) :
    (callBack s event data).opts = s.opts := by
  unfold callBack; split_ifs <;> rfl

@[simp] theorem callBack_countryData (s : MapState) (event : String) (data : JsArg) :
    (callBack s event data).countryData = s.countryData := by
  unfold callBack; split_ifs <;> rfl

@[simp] theorem callBack_globalFns (s : MapState) (event : String) (data : JsArg) :
    (callBack s event data).globalFns = s.globalFns := by
  unfold callBack; split_ifs <;> rfl

@[simp] theorem callBack_countries (s : MapState) (event : String) (data : JsArg) :
    (callBack s event data).countries = s.countries := by
  unfold callBack; split_ifs <;> rfl

@[simp] theorem callBack_countryLabels (s : MapState) (event : String) (data : JsArg) :
    (callBack s event data).countryLabels = s.countryLabels := by
  unfold callBack; split_ifs <;> rfl

@[simp] theorem callBack_removed (s : MapState) (event : String) (data : JsArg) :
    (callBack s event data).removed = s.removed := by
  unfold callBack; split_ifs <;> rfl

@[simp] theorem callBack_country (s : MapState) (event : String) (data : JsArg) :
    (callBack s event data).country = s.country := by
  unfold callBack; split_ifs <;> rfl

@[simp] theorem callBack_border (s : MapState) (event : String) (data : JsArg) :
    (callBack s event data).border = s.border := by
  unfold callBack; split_ifs <;> rfl

@[simp] theorem callBack_provinces (s : MapState) (event : String) (data : JsArg) :
    (callBack s event data).provinces = s.provinces := by
  unfold callBack; split_ifs <;> rfl

@[simp] theorem callBack_updateColor (s : MapState) (event : String) (data : JsArg) :
    (callBack s event data).updateColor = s.updateColor := by
  unfold callBack; split_ifs <;> rfl

@[simp] theorem callBack_selectedCountry (s : MapState) (event : String) (data : JsArg) :
    (callBack s event data).selectedCountry = s.selectedCountry := by
  unfold callBack; split_ifs <;> rfl

@[simp] theorem callBack_fill (s : MapState) (event : String) (data : JsArg) :
    (callBack s event data).fill = s.fill := by
  unfold callBack; split_ifs <;> rfl

@[simp] theorem callBack_stroke (s : MapState) (event : String) (data : JsArg) :
    (callBack s event data).stroke = s.stroke := by
  unfold callBack; split_ifs <;> rfl

@[simp] theorem callBack_strokeWidth (s : MapState) (event : String) (data : JsArg) :
    (callBack s event data).strokeWidth = s.strokeWidth := by
  unfold callBack; split_ifs <;> rfl

@[simp] theorem paintAll_doc (event : String) (s : MapState) (l : List Nat) :
    (paintAll event s l).doc = s.doc := by
  induction l generalizing s with
  | nil => rfl
  | cons x xs ih => simp [paintAll, List.foldl] at ih ⊢; rw [ih]; rfl

@[simp] theorem paintAll_opts (event : String) (s : MapState) (l : List Nat) :
    (paintAll event s l).opts = s.opts := by
  induction l generalizing s with
  | nil => rfl
  | cons x xs ih => simp [paintAll, List.foldl] at ih ⊢; rw [ih]; rfl

@[simp] theorem paintAll_countryData (event : String) (s : MapState) (l : List Nat) :
    (paintAll event s l).countryData = s.countryData := by
  induction l generalizing s with
  | nil => rfl
  | cons x xs ih => simp [paintAll, List.foldl] at ih ⊢; rw [ih]; rfl

@[simp] theorem paintAll_globalFns (event : String) (s : MapState) (l : List Nat) :
    (paintAll event s l).globalFns = s.globalFns := by
  induction l generalizing s with
  | nil => rfl
  | cons x xs ih => simp [paintAll, List.foldl] at ih ⊢; rw [ih]; rfl

@[simp] theorem paintAll_countries (event : String) (s : MapState) (l : List Nat) :
    (paintAll event s l).countries = s.countries := by
  induction l generalizing s with
  | nil => rfl
  | cons x xs ih => simp [paintAll, List.foldl] at ih ⊢; rw [ih]; rfl

@[simp] theorem paintAll_countryLabels (event : String) (s : MapState) (l : List Nat) :
    (paintAll event s l).countryLabels = s.countryLabels := by
  induction l generalizing s with
  | nil => rfl
  | cons x xs ih => simp [paintAll, List.foldl] at ih ⊢; rw [ih]; rfl

@[simp] theorem paintAll_removed (event : String) (s : MapState) (l : List Nat) :
    (paintAll event s l).removed = s.removed := by
  induction l generalizing s with
  | nil => rfl
  | cons x xs ih => simp [paintAll, List.foldl] at ih ⊢; rw [ih]; rfl

@[simp] theorem paintAll_country (event : String) (s : MapState) (l : List Nat) :
    (paintAll event s l).country = s.country := by
  induction l generalizing s with
  | nil => rfl
  | cons x xs ih => simp [paintAll, List.foldl] at ih ⊢; rw [ih]; rfl

@[simp] theorem paintAll_border (event : String) (s : MapState) (l : List Nat) :
    (paintAll event s l).border = s.border := by
  induction l generalizing s with
  | nil => rfl
  | cons x xs ih => simp [paintAll, List.foldl] at ih ⊢; rw [ih]; rfl

@[simp] theorem paintAll_provinces (event : String) (s : MapState) (l : List Nat) :
    (paintAll event s l).provinces = s.provinces := by
  induction l generalizing s with
  | nil => rfl
  | cons x xs ih => simp [paintAll, List.foldl] at ih ⊢; rw [ih]; rfl

@[simp] theorem paintAll_updateColor (event : String) (s : MapState) (l : List Nat) :
    (paintAll event s l).updateColor = s.updateColor := by
  induction l generalizing s with
  | nil => rfl
  | cons x xs ih => simp [paintAll, List.foldl] at ih ⊢; rw [ih]; rfl

@[simp] theorem paintAll_selectedCountry (event : String) (s : MapState) (l : List Nat) :
    (paintAll event s l).selectedCountry = s.selectedCountry := by
  induction l generalizing s with
  | nil => rfl
  | cons x xs ih => simp [paintAll, List.foldl] at ih ⊢; rw [ih]; rfl

@[simp] theorem paintAll_log (event : String) (s : MapState) (l : List Nat) :
    (paintAll event s l).log = s.log := by
  induction l generalizing s with
  | nil => rfl
  | cons x xs ih => simp [paintAll, List.foldl] at ih ⊢; rw [ih]; rfl

@[simp] theorem setSelected_doc (s : MapState) (path : Option Nat) :
    (setSelected s path).doc = s.doc := rfl

@[simp] theorem setSelected_opts (s : MapState) (path : Option Nat) :
    (setSelected s path).opts = s.opts := rfl

@[simp] theorem setSelected_countryData (s : MapState) (path : Option Nat) :
    (setSelected s path).countryData = s.countryData := rfl

@[simp] theorem setSelected_globalFns (s : MapState) (path : Option Nat) :
    (setSelected s path).globalFns = s.globalFns := rfl

@[simp] theorem setSelected_countries (s : MapState) (path : Option Nat) :
    (setSelected s path).countries = s.countries := rfl

@[simp] theorem setSelected_countryLabels (s : MapState) (path : Option Nat) :
    (setSelected s path).countryLabels = s.countryLabels := rfl

@[simp] theorem setSelected_removed (s : MapState) (path : Option Nat) :
    (setSelected s path).removed = s.removed := rfl

@[simp] theorem setSelected_country (s : MapState) (path : Option Nat) :
    (setSelected s path).country = s.country := rfl

@[simp] theorem setSelected_border (s : MapState) (path : Option Nat) :
    (setSelected s path).border = s.border := rfl

@[simp] theorem setSelected_provinces (s : MapState) (path : Option Nat) :
    (setSelected s path).provinces = s.provinces := rfl

@[simp] theorem setSelected_updateColor (s : MapState) (path : Option Nat) :
    (setSelected s path).updateColor = s.updateColor := rfl

@[simp] theorem setSelected_log (s : MapState) (path : Option Nat) :
    (setSelected s path).log = s.log := rfl

@[simp] theorem setSelected_fill (s : MapState) (path : Option Nat) :
    (setSelected s path).fill = s.fill := rfl

@[simp] theorem setSelected_stroke (s : MapState) (path : Option Nat) :
    (setSelected s path).stroke = s.stroke := rfl

@[simp] theorem setSelected_strokeWidth (s : MapState) (path : Option Nat) :
    (setSelected s path).strokeWidth = s.strokeWidth := rfl

@[simp] theorem setSelected_selectedCountry (s : MapState) (path : Option Nat) :
    (setSelected s path).selectedCountry = path := rfl

@[simp] theorem recordColor_doc (s : MapState) (n : Nat) (color : Option String) :
    (recordColor s n color).doc = s.doc := rfl

@[simp] theorem recordColor_opts (s : MapState) (n : Nat) (color : Option String) :
    (recordColor s n color).opts = s.opts := rfl

@[simp] theorem recordColor_countryData (s : MapState) (n : Nat) (color : Option String) :
    (recordColor s n color).countryData = s.countryData := rfl

@[simp] theorem recordColor_globalFns (s : MapState) (n : Nat) (color : Option String) :
    (recordColor s n color).globalFns = s.globalFns := rfl

@[simp] theorem recordColor_countries (s : MapState) (n : Nat) (color : Option String) :
    (recordColor s n color).countries = s.countries := rfl

@[simp] theorem recordColor_countryLabels (s : MapState) (n : Nat) (color : Option String) :
    (recordColor s n color).countryLabels = s.countryLabels := rfl

@[simp] theorem recordColor_removed (s : MapState) (n : Nat) (color : Option String) :
    (recordColor s n color).removed = s.removed := rfl

@[simp] theorem recordColor_country (s : MapState) (n : Nat) (color : Option String) :
    (recordColor s n color).country = s.country := rfl

@[simp] theorem recordColor_border (s : MapState) (n : Nat) (color : Option String) :
    (recordColor s n color).border = s.border := rfl

@[simp] theorem recordColor_provinces (s : MapState) (n : Nat) (color : Option String) :
    (recordColor s n color).provinces = s.provinces := rfl

@[simp] theorem recordColor_selectedCountry (s : MapState) (n : Nat) (color : Option String) :
    (recordColor s n color).selectedCountry = s.selectedCountry := rfl

@[simp] theorem recordColor_log (s : MapState) (n : Nat) (color : Option String) :
    (recordColor s n color).log = s.log := rfl

@[simp] theorem recordColor_fill (s : MapState) (n : Nat) (color : Option String) :
    (recordColor s n color).fill = s.fill := rfl

@[simp] theorem recordColor_stroke (s : MapState) (n : Nat) (color : Option String) :
    (recordColor s n color).stroke = s.stroke := rfl

@[simp] theorem recordColor_strokeWidth (s : MapState) (n : Nat) (color : Option String) :
    (recordColor s n color).strokeWidth = s.strokeWidth := rfl

theorem recordColor_updateColor (s : MapState) (n : Nat) (color : Option String) (m : Nat) :
    (recordColor s n color).updateColor m = if m = n then color else s.updateColor m := rfl
/-! ## The style resolver on state events -/

theorem idOf_lt {doc : List DomNode} {n : Nat} {k : String} (h : idOf doc n = some k) :
    n < doc.length := by
  unfold idOf at h
  cases hd : doc[n]? with
  | none => simp [hd] at h
  | some d => exact (List.getElem?_eq_some.mp hd).1

theorem isElement_lt {doc : List DomNode} {n : Nat} (h : isElement doc n = true) :
    n < doc.length := by
  unfold isElement at h
  cases hd : doc[n]? with
  | none => simp [hd] at h
  | some d => exact (List.getElem?_eq_some.mp hd).1

theorem isElement_of_idOf {doc : List DomNode} {n : Nat} {k : String}
    (h : idOf doc n = some k) : isElement doc n = true := by
  unfold idOf at h
  unfold isElement
  cases hd : doc[n]? with
  | none => simp [hd] at h
  | some d =>
    simp only [hd] at h ⊢
    by_cases hk : d.kind = NodeKind.element
    · simp [hk]
    · simp [hk] at h

theorem objGet_mem {α : Type} {o : Obj α} {k : String} {v : α} (h : objGet o k = some v) :
    (k, v) ∈ o := by
  induction o with
  | nil => simp [objGet] at h
  | cons e rest ih =>
    obtain ⟨k', v'⟩ := e
    simp only [objGet] at h
    by_cases hk : k' = k
    · simp only [hk, if_true, Option.some.injEq] at h
      subst hk; subst h
      exact List.mem_cons_self _ _
    · rw [if_neg hk] at h
      exact List.mem_cons_of_mem _ (ih h)

theorem pick_out (p : Palette) : p.pick "out" = p.out := by simp [Palette.pick]

theorem pick_over (p : Palette) : p.pick "over" = p.over := by
  simp [Palette.pick]

theorem pick_click (p : Palette) : p.pick "click" = p.click := by
  simp [Palette.pick]

theorem pathSetAttributes_canPaint {s : MapState} {event : String} {n : Nat}
    (h : CanPaint s event n) :
    pathSetAttributes s (some n) event = .ok (fillProvince s n event) := by
  obtain ⟨hW, hO, hel, hp, hb⟩ := h
  simp only [pathSetAttributes]
  rw [if_pos ⟨hW, hO⟩, if_pos hp]
  cases hc : s.country n with
  | none => simp [hc] at hb
  | some c =>
    simp only [hc, Option.map_some', Option.some.injEq] at hb
    simp [hel, hb]

theorem canPaint_congr (s t : MapState) (event : String) (n : Nat)
    (hdoc : t.doc = s.doc) (hsel : t.selectedCountry = s.selectedCountry)
    (hc : t.country = s.country) (hb : t.border = s.border) (hr : t.removed = s.removed) :
    CanPaint t event n ↔ CanPaint s event n := by
  have hbp : isBorderPath t n = isBorderPath s n := by
    funext c
    simp only [isBorderPath, parentNode, hdoc, hb, hr]
  simp only [CanPaint, paletteApplies, hbp, hdoc, hsel, hc]

theorem restyle_fill_of_ne (s : MapState) (n m : Nat) (event : String) (h : m ≠ n) :
    (restyle s n event).fill m = s.fill m := by
  rcases restyle_cases s n event with e | e | e | e <;> rw [e] <;>
    simp [strokeBorder, fillProvince, fillDirect, setAt, h]

theorem restyle_stroke_of_ne (s : MapState) (n m : Nat) (event : String) (h : m ≠ n) :
    (restyle s n event).stroke m = s.stroke m := by
  rcases restyle_cases s n event with e | e | e | e <;> rw [e] <;>
    simp [strokeBorder, fillProvince, fillDirect, setAt, h]

theorem restyle_strokeWidth_of_ne (s : MapState) (n m : Nat) (event : String) (h : m ≠ n) :
    (restyle s n event).strokeWidth m = s.strokeWidth m := by
  rcases restyle_cases s n event with e | e | e | e <;> rw [e] <;>
    simp [strokeBorder, fillProvince, fillDirect, setAt, h]

theorem pathSetAttributes_ok_of_country {s : MapState} {n : Nat} (event : String)
    (hel : isElement s.doc n = true) (hc : (s.country n).isSome = true) :
    pathSetAttributes s (some n) event = .ok (restyle s n event) := by
  simp only [restyle, pathSetAttributes]
  by_cases h1 : idOf s.doc n ≠ some "World" ∧ idOf s.doc n ≠ some "Ocean"
  · rw [if_pos h1]
    by_cases h2 : paletteApplies s n event = true
    · rw [if_pos h2]
      cases hcn : s.country n with
      | none => simp [hcn] at hc
      | some c => by_cases h4 : isBorderPath s n c = true <;> simp [after, hel, h4]
    · rw [if_neg h2]
      by_cases h5 : isLiteralColor event = true <;> simp [after, hel, h5]
  · rw [if_neg h1]
    simp [after]

theorem setLabelFill_fill_of_ne (s : MapState) (id event : String) (m : Nat)
    (h : ∀ l, objGet s.countryLabels id = some l → m ≠ l) :
    (setLabelFill s id event).fill m = s.fill m := by
  unfold setLabelFill
  cases hl : objGet s.countryLabels id with
  | none => rfl
  | some l => simp [setAt, h l hl]

theorem setLabelFill_fill_label (s : MapState) (id event : String) (l : Nat)
    (h : objGet s.countryLabels id = some l) :
    (setLabelFill s id event).fill l = some (s.opts.labelFill.pick event) := by
  unfold setLabelFill
  simp [h, setAt]

@[simp] theorem setLabelFill_stroke (s : MapState) (id event : String) :
    (setLabelFill s id event).stroke = s.stroke := by
  unfold setLabelFill; split <;> rfl

@[simp] theorem setLabelFill_strokeWidth (s : MapState) (id event : String) :
    (setLabelFill s id event).strokeWidth = s.strokeWidth := by
  unfold setLabelFill; split <;> rfl

/-! ## Painting a list of nodes -/

theorem paintAll_cons (event : String) (s : MapState) (x : Nat) (xs : List Nat) :
    paintAll event s (x :: xs) = paintAll event (fillProvince s x event) xs := rfl

theorem paintAll_append (event : String) (s : MapState) (l1 l2 : List Nat) :
    paintAll event s (l1 ++ l2) = paintAll event (paintAll event s l1) l2 := by
  simp [paintAll, List.foldl_append]

theorem paintAll_fill_of_not_mem (event : String) (s : MapState) (l : List Nat) (m : Nat)
    (h : m ∉ l) : (paintAll event s l).fill m = s.fill m := by
  induction l generalizing s with
  | nil => rfl
  | cons x xs ih =>
    rw [paintAll_cons, ih _ (fun hm => h (List.mem_cons_of_mem _ hm))]
    have hx : m ≠ x := fun e => h (e ▸ List.mem_cons_self _ _)
    simp [fillProvince, setAt, hx]

theorem paintAll_stroke_of_not_mem (event : String) (s : MapState) (l : List Nat) (m : Nat)
    (h : m ∉ l) : (paintAll event s l).stroke m = s.stroke m := by
  induction l generalizing s with
  | nil => rfl
  | cons x xs ih =>
    rw [paintAll_cons, ih _ (fun hm => h (List.mem_cons_of_mem _ hm))]
    have hx : m ≠ x := fun e => h (e ▸ List.mem_cons_self _ _)
    simp [fillProvince, setAt, hx]

theorem paintAll_strokeWidth_of_not_mem (event : String) (s : MapState) (l : List Nat)
    (m : Nat) (h : m ∉ l) : (paintAll event s l).strokeWidth m = s.strokeWidth m := by
  induction l generalizing s with
  | nil => rfl
  | cons x xs ih =>
    rw [paintAll_cons, ih _ (fun hm => h (List.mem_cons_of_mem _ hm))]
    have hx : m ≠ x := fun e => h (e ▸ List.mem_cons_self _ _)
    simp [fillProvince, setAt, hx]

theorem painted_fillProvince (s : MapState) (n : Nat) (event : String) :
    Painted (fillProvince s n event) event n := by
  unfold Painted
  refine ⟨?_, ?_, ?_⟩
  · cases hu : s.updateColor n <;> simp [fillProvince, setAt, hu]
  · simp [fillProvince, setAt]
  · simp [fillProvince, setAt]

theorem painted_fillProvince_of_painted (s : MapState) (n m : Nat) (event : String)
    (h : Painted s event m) : Painted (fillProvince s n event) event m := by
  by_cases hm : m = n
  · subst hm
    exact painted_fillProvince s m event
  · unfold Painted at h ⊢
    simpa [fillProvince, setAt, hm] using h

theorem painted_paintAll_of_painted (event : String) (s : MapState) (l : List Nat) (m : Nat)
    (h : Painted s event m) : Painted (paintAll event s l) event m := by
  induction l generalizing s with
  | nil => exact h
  | cons x xs ih =>
    rw [paintAll_cons]
    exact ih _ (painted_fillProvince_of_painted s x m event h)

theorem painted_paintAll (event : String) (s : MapState) (l : List Nat) (m : Nat)
    (h : m ∈ l) : Painted (paintAll event s l) event m := by
  induction l generalizing s with
  | nil => simp at h
  | cons x xs ih =>
    rw [paintAll_cons]
    rcases List.mem_cons.mp h with e | e
    · subst e
      exact painted_paintAll_of_painted event _ xs m (painted_fillProvince s m event)
    · exact ih _ e

/-! ## The province loops -/

theorem expand_congr {s t : MapState} (h : t.provinces = s.provinces) (l : List Nat) :
    expand t l = expand s l := by
  induction l with
  | nil => rfl
  | cons x xs ih => simp [expand, h, ih]

theorem mem_expand {s : MapState} {l : List Nat} {x : Nat} :
    x ∈ expand s l ↔ x ∈ l ∨ ∃ q ∈ l, x ∈ (s.provinces q).getD [] := by
  induction l with
  | nil => simp [expand]
  | cons p ps ih =>
    simp only [expand, List.mem_cons, List.mem_append, ih]
    constructor
    · rintro (h | h | h | ⟨q, hq, hx⟩)
      · exact Or.inl (Or.inl h)
      · exact Or.inr ⟨p, Or.inl rfl, h⟩
      · exact Or.inl (Or.inr h)
      · exact Or.inr ⟨q, Or.inr hq, hx⟩
    · rintro ((h | h) | ⟨q, hq | hq, hx⟩)
      · exact Or.inl h
      · exact Or.inr (Or.inr (Or.inl h))
      · subst hq
        exact Or.inr (Or.inl hx)
      · exact Or.inr (Or.inr (Or.inr ⟨q, hq, hx⟩))

theorem forEach_paint (event : String) (l : List Nat) (s : MapState)
    (h : ∀ x ∈ l, CanPaint s event x) :
    forEach (fun s2 sub => pathSetAttributes s2 (some sub) event) l s =
      .ok (paintAll event s l) := by
  induction l generalizing s with
  | nil => rfl
  | cons x xs ih =>
    simp only [forEach]
    rw [pathSetAttributes_canPaint (h x (List.mem_cons_self _ _))]
    simp only []
    rw [paintAll_cons]
    apply ih
    intro y hy
    exact (canPaint_congr _ _ event y rfl rfl rfl rfl rfl).mpr (h y (List.mem_cons_of_mem _ hy))

theorem styleProvince_paint (event : String) (p : Nat) (s : MapState)
    (h : ∀ x ∈ p :: (s.provinces p).getD [], CanPaint s event x) :
    styleProvince event s p = .ok (paintAll event s (p :: (s.provinces p).getD [])) := by
  simp only [styleProvince]
  rw [pathSetAttributes_canPaint (h p (List.mem_cons_self _ _))]
  simp only [andThen_ok, fillProvince_provinces]
  rw [paintAll_cons]
  cases hp : s.provinces p with
  | none => simp [paintAll]
  | some subs =>
    simp only [Option.getD_some]
    apply forEach_paint
    intro y hy
    refine (canPaint_congr _ _ event y rfl rfl rfl rfl rfl).mpr (h y ?_)
    simp [hp, hy]

theorem forEach_styleProvince (event : String) (ps : List Nat) (s : MapState)
    (h : ∀ x ∈ expand s ps, CanPaint s event x) :
    forEach (styleProvince event) ps s = .ok (paintAll event s (expand s ps)) := by
  induction ps generalizing s with
  | nil => rfl
  | cons p rest ih =>
    simp only [forEach]
    have h1 : ∀ x ∈ p :: (s.provinces p).getD [], CanPaint s event x := by
      intro x hx
      apply h
      simp only [expand, List.mem_cons, List.mem_append]
      rcases List.mem_cons.mp hx with e | e
      · exact Or.inl e
      · exact Or.inr (Or.inl e)
    rw [styleProvince_paint event p s h1]
    simp only []
    have hexp : expand s (p :: rest) = (p :: (s.provinces p).getD []) ++ expand s rest := by
      simp [expand]
    rw [hexp, paintAll_append]
    have hcongr : expand (paintAll event s (p :: (s.provinces p).getD [])) rest = expand s rest :=
      expand_congr (paintAll_provinces _ _ _) rest
    rw [← hcongr]
    apply ih
    intro y hy
    rw [hcongr] at hy
    refine (canPaint_congr _ _ event y ?_ ?_ ?_ ?_ ?_).mpr (h y ?_) <;> simp [expand, hy]

/-! ## Consequences of `Built` -/

theorem built_entry {s : MapState} (hb : Built s) {k : String} {c : Nat}
    (h : objGet s.countries k = some c) :
    idOf s.doc c = some k ∧ s.country c = some c ∧ ∃ ps, s.provinces c = some ps := by
  obtain ⟨h1, h2, h3⟩ := hb.1 (k, c) (objGet_mem h)
  refine ⟨h1, h2, ?_⟩
  cases hp : s.provinces c with
  | none => simp [hp] at h3
  | some ps => exact ⟨ps, rfl⟩

theorem built_label {s : MapState} (hb : Built s) {k : String} {l : Nat}
    (h : objGet s.countryLabels k = some l) :
    s.country l = none ∧ substr0 (idKey (idOf s.doc l)) 2 = k :=
  hb.2.2 (k, l) (objGet_mem h)

/-- Facts about a province or subprovince `x` of a node `n` whose country is `c`. -/
theorem built_parts {s : MapState} (hb : Built s) {n c x : Nat} (hn : n < s.doc.length)
    (hc : s.country n = some c) (hx : x ∈ partsOf s n) :
    isElement s.doc x = true ∧ idOf s.doc x ≠ some "World" ∧ idOf s.doc x ≠ some "Ocean" ∧
    tagOf s.doc x ≠ some "circle" ∧ s.country x = some c ∧ isBorderPath s x c = false := by
  have key : ∀ m y, m < s.doc.length → s.country m = some c → y ∈ (s.provinces m).getD [] →
      isElement s.doc y = true ∧ idOf s.doc y ≠ some "World" ∧ idOf s.doc y ≠ some "Ocean" ∧
      tagOf s.doc y ≠ some "circle" ∧ s.country y = some c ∧ isBorderPath s y c = false := by
    intro m y hm hmc hy
    obtain ⟨h1, h2, h3, h4, h5, h6⟩ := hb.2.1 m hm y hy
    rw [hmc] at h5
    rw [h5] at h6
    simp only [Option.map_some', Option.some.injEq] at h6
    exact ⟨h1, h2, h3, h4, h5, h6⟩
  rcases mem_expand.mp hx with h | ⟨q, hq, h⟩
  · exact key n x hn hc h
  · obtain ⟨hq1, _, _, _, hq5, _⟩ := key n q hn hc hq
    exact key q x (isElement_lt hq1) hq5 h

theorem canPaint_click_of_parts {s : MapState} (hb : Built s) {n c x : Nat}
    (hn : n < s.doc.length) (hc : s.country n = some c) (hx : x ∈ partsOf s n) :
    CanPaint s "click" x := by
  obtain ⟨h1, h2, h3, _, h5, h6⟩ := built_parts hb hn hc hx
  refine ⟨h2, h3, h1, ?_, ?_⟩
  · simp [paletteApplies]
  · simp [h5, h6]

theorem canPaint_hover_of_parts {s : MapState} (hb : Built s) {n c x : Nat} (event : String)
    (hev : event = "out" ∨ event = "over")
    (hn : n < s.doc.length) (hc : s.country n = some c) (hx : x ∈ partsOf s n)
    (hsel1 : s.selectedCountry ≠ some x) (hsel2 : s.selectedCountry ≠ some c) :
    CanPaint s event x := by
  obtain ⟨h1, h2, h3, _, h5, h6⟩ := built_parts hb hn hc hx
  refine ⟨h2, h3, h1, ?_, ?_⟩
  · have e1 : (some x == s.selectedCountry) = false := by
      simpa using fun h => hsel1 h.symm
    have e2 : (s.country x == s.selectedCountry) = false := by
      rw [h5]
      simpa using fun h => hsel2 h.symm
    rcases hev with e | e <;> simp [paletteApplies, e, e1, e2]
  · simp [h5, h6]

theorem built_congr {s t : MapState} (hdoc : t.doc = s.doc) (hcs : t.countries = s.countries)
    (hls : t.countryLabels = s.countryLabels) (hc : t.country = s.country)
    (hb : t.border = s.border) (hp : t.provinces = s.provinces) (hr : t.removed = s.removed)
    (h : Built s) : Built t := by
  have hbp : ∀ p, isBorderPath t p = isBorderPath s p := by
    intro p
    funext c
    simp only [isBorderPath, parentNode, hdoc, hb, hr]
  unfold Built PartOk at *
  simp only [hdoc, hcs, hls, hc, hp, hbp]
  exact h

/-! ## Selection exclusivity -/

/-- The result of `countryClick(id)` on an index entry that is not the selection. -/
theorem countryClick_country {s : MapState} (hb : Built s) {id : String} {c : Nat}
    (hc : objGet s.countries id = some c) (hsel : s.selectedCountry ≠ some c) :
    countryClick s id =
      finishClick (setLabelFill (paintAll "click" s (partsOf s c)) id "click") (some c)
        s.selectedCountry := by
  obtain ⟨hid, hcc, ps, hps⟩ := built_entry hb hc
  have hlt : c < s.doc.length := idOf_lt hid
  simp only [countryClick, hc]
  rw [if_pos (fun h => hsel h.symm)]
  simp only [hps]
  have hparts : partsOf s c = expand s ps := by simp [partsOf, hps]
  rw [forEach_styleProvince "click" ps s]
  · simp only [hparts, andThen_ok]
  · intro x hx
    rw [← hparts] at hx
    exact canPaint_click_of_parts hb hlt hcc hx

theorem painted_transport {s t : MapState} {event : String} {x : Nat}
    (hf : t.fill x = s.fill x) (hs : t.stroke x = s.stroke x)
    (hw : t.strokeWidth x = s.strokeWidth x) (hu : t.updateColor = s.updateColor)
    (ho : t.opts = s.opts) (h : Painted s event x) : Painted t event x := by
  unfold Painted at *
  rw [hf, hs, hw, hu, ho]
  exact h

theorem painted_setLabelFill {s : MapState} {event : String} {x : Nat} (id ev : String)
    (hx : ∀ l, objGet s.countryLabels id = some l → x ≠ l) (h : Painted s event x) :
    Painted (setLabelFill s id ev) event x :=
  painted_transport (setLabelFill_fill_of_ne s id ev x hx) (by simp) (by simp) (by simp)
    (by simp) h

theorem painted_callBack {s : MapState} {event : String} {x : Nat} (ev : String) (d : JsArg)
    (h : Painted s event x) : Painted (callBack s ev d) event x :=
  painted_transport (by simp) (by simp) (by simp) (by simp) (by simp) h

theorem painted_setSelected {s : MapState} {event : String} {x : Nat} (p : Option Nat)
    (h : Painted s event x) : Painted (setSelected s p) event x :=
  painted_transport (by simp) (by simp) (by simp) (by simp) (by simp) h

theorem painted_restyle_of_ne {s : MapState} {event : String} {x : Nat} (n : Nat)
    (ev : String) (hx : x ≠ n) (h : Painted s event x) : Painted (restyle s n ev) event x :=
  painted_transport (restyle_fill_of_ne s n x ev hx) (restyle_stroke_of_ne s n x ev hx)
    (restyle_strokeWidth_of_ne s n x ev hx) (by simp) (by simp) h

theorem painted_paintAll_of_not_mem {s : MapState} {event : String} {x : Nat} (ev : String)
    (l : List Nat) (hx : x ∉ l) (h : Painted s event x) : Painted (paintAll ev s l) event x :=
  painted_transport (paintAll_fill_of_not_mem ev s l x hx)
    (paintAll_stroke_of_not_mem ev s l x hx) (paintAll_strokeWidth_of_not_mem ev s l x hx)
    (by simp) (by simp) h

theorem partsOf_congr {s t : MapState} (h : t.provinces = s.provinces) (n : Nat) :
    partsOf t n = partsOf s n := by
  simp [partsOf, h, expand_congr h]

/-! ## Deselecting by a pointer activation -/

theorem restyle_of_applies {s : MapState} {n c : Nat} {event : String}
    (hW : idOf s.doc n ≠ some "World") (hO : idOf s.doc n ≠ some "Ocean")
    (hp : paletteApplies s n event = true) (hc : s.country n = some c)
    (hel : isElement s.doc n = true) :
    restyle s n event =
      if isBorderPath s n c = true then strokeBorder s n event else fillProvince s n event := by
  simp only [restyle, pathSetAttributes]
  rw [if_pos ⟨hW, hO⟩, if_pos hp]
  simp only [hc]
  by_cases h4 : isBorderPath s n c = true <;> simp [after, hel, h4]

theorem restyle_of_background {s : MapState} {n : Nat} (event : String)
    (h : ¬ (idOf s.doc n ≠ some "World" ∧ idOf s.doc n ≠ some "Ocean")) :
    restyle s n event = s := by
  simp only [restyle, pathSetAttributes]
  rw [if_neg h]
  rfl

theorem isBorderPath_congr {s t : MapState} (hdoc : t.doc = s.doc) (hb : t.border = s.border)
    (hr : t.removed = s.removed) (n c : Nat) : isBorderPath t n c = isBorderPath s n c := by
  simp only [isBorderPath, parentNode, hdoc, hb, hr]

/-- The result of `resetOldSelected` on a node with a country, the selection being neither
that country nor one of the node's parts. -/
theorem resetOldSelected_node {s : MapState} (hb : Built s) {n c : Nat}
    (hel : isElement s.doc n = true) (hc : s.country n = some c)
    (hsel : s.selectedCountry ≠ some c)
    (hsel2 : ∀ x ∈ partsOf s n, s.selectedCountry ≠ some x) :
    resetOldSelected s (some n) =
      .ok (setLabelFill (paintAll "out" (restyle s n "out") (partsOf s n))
        (idKey (idOf s.doc n)) "out") := by
  have hlt : n < s.doc.length := isElement_lt hel
  simp only [resetOldSelected]
  rw [pathSetAttributes_ok_of_country "out" hel (by simp [hc])]
  simp only [andThen_ok, styleProvincesOf, restyle_provinces]
  cases hps : s.provinces n with
  | none => simp [partsOf, hps, expand, paintAll]
  | some ps =>
    simp only []
    have hparts : partsOf s n = expand s ps := by simp [partsOf, hps]
    have hexp : expand (restyle s n "out") ps = expand s ps := expand_congr (by simp) ps
    rw [forEach_styleProvince "out" ps (restyle s n "out")]
    · simp [hexp, hparts]
    · intro x hx
      rw [hexp, ← hparts] at hx
      refine (canPaint_congr s _ "out" x (by simp) (by simp) (by simp) (by simp) (by simp)).mpr ?_
      exact canPaint_hover_of_parts hb "out" (Or.inl rfl) hlt hc hx (hsel2 x hx) hsel

/-- The result of `resetOldSelected` on an index entry, the selection being elsewhere. -/
theorem resetOldSelected_country {s : MapState} (hb : Built s) {id : String} {c : Nat}
    (hc : objGet s.countries id = some c) (hsel : s.selectedCountry ≠ some c)
    (hsel2 : ∀ x ∈ partsOf s c, s.selectedCountry ≠ some x) :
    resetOldSelected s (some c) =
      .ok (setLabelFill (paintAll "out" (restyle s c "out") (partsOf s c)) id "out") := by
  obtain ⟨hid, hcc, _, _⟩ := built_entry hb hc
  rw [resetOldSelected_node hb (isElement_of_idOf hid) hcc hsel hsel2, hid]
  rfl

theorem callBack_click_log (s : MapState) (h : isFunction s s.opts.mapClick = true) :
    (callBack s "click" JsArg.undefined).log = s.log ++ [(s.opts.mapClick, JsArg.str "")] := by
  simp [callBack, h]

theorem isFunction_congr {s t : MapState} (h : t.globalFns = s.globalFns) (name : String) :
    isFunction t name = isFunction s name := by
  simp [isFunction, h]

/-- C2 (amended): in a built map, a pointer activation (`provinceClick`) on the element that
is the current selection and carries a country back-reference runs without a fault, sets
the selection to undefined and, when a click callback is registered, calls it once with
the empty string; unless the element is named `World` or `Ocean`, it ends with the `out`
palette: the country stroke and stroke width and its former fill when it is styled as a
border, the province stroke, stroke width and fill (its `updateColor` override if it has
one) otherwise. -/
theorem provinceClick_selected_deselects (s : MapState) (t c : Nat) (hb : Built s)
    (hel : isElement s.doc t = true) (hc : s.country t = some c)
    (hsel : s.selectedCountry = some t) :
    faulted (provinceClick s t) = false ∧
    (after (provinceClick s t)).selectedCountry = none ∧
    (isFunction s s.opts.mapClick = true →
      (after (provinceClick s t)).log = s.log ++ [(s.opts.mapClick, JsArg.str "")]) ∧
    (idOf s.doc t ≠ some "World" → idOf s.doc t ≠ some "Ocean" →
      (isBorderPath s t c = true →
        (after (provinceClick s t)).stroke t = some s.opts.countryStroke.out ∧
        (after (provinceClick s t)).strokeWidth t = some s.opts.countryStrokeWidth.out ∧
        (after (provinceClick s t)).fill t = s.fill t) ∧
      (isBorderPath s t c = false →
        (after (provinceClick s t)).stroke t = some s.opts.provinceStroke.out ∧
        (after (provinceClick s t)).strokeWidth t = some s.opts.provinceStrokeWidth.out ∧
        (after (provinceClick s t)).fill t =
          some ((s.updateColor t).getD s.opts.provinceFill.out))) := by
  obtain ⟨r, hr⟩ : ∃ r, r = restyle (setSelected s none) t "out" := ⟨_, rfl⟩
  have hrb : Built r := by
    rw [hr]
    exact built_congr (by simp) (by simp) (by simp) (by simp) (by simp) (by simp) (by simp) hb
  have hrsel : r.selectedCountry = none := by rw [hr]; simp
  have hrp : r.provinces = s.provinces := by rw [hr]; simp
  have hrdoc : r.doc = s.doc := by rw [hr]; simp
  have hrc : r.country = s.country := by rw [hr]; simp
  obtain ⟨z, hz⟩ : ∃ z, z = setLabelFill (paintAll "out" (restyle r t "out") (partsOf s t))
      (idKey (idOf s.doc t)) "out" := ⟨_, rfl⟩
  have e1 : provinceClick s t = .ok (callBack z "click" JsArg.undefined) := by
    simp only [provinceClick]
    rw [if_pos hsel, pathSetAttributes_ok_of_country "out" (by simpa using hel)
      (by simp [hc]), ← hr]
    simp only [hsel, andThen_ok]
    rw [resetOldSelected_node hrb (by rw [hrdoc]; exact hel) (by rw [hrc]; exact hc)
      (by simp [hrsel]) (by simp [hrsel]), partsOf_congr hrp t, hrdoc, ← hz]
    have : z.selectedCountry = none := by rw [hz]; simp [hrsel]
    simp [this, argOf]
  have hzl : z.log = s.log := by rw [hz, hr]; simp
  have hzo : z.opts = s.opts := by rw [hz, hr]; simp
  have hzg : z.globalFns = s.globalFns := by rw [hz, hr]; simp
  have hzu : z.updateColor = s.updateColor := by rw [hz, hr]; simp
  have htl : ∀ l, objGet (paintAll "out" (restyle r t "out") (partsOf s t)).countryLabels
      (idKey (idOf s.doc t)) = some l → t ≠ l := by
    intro l hl e
    have hl2 : objGet s.countryLabels (idKey (idOf s.doc t)) = some l := by
      rw [hr] at hl
      simpa using hl
    have h1 := (built_label hb hl2).1
    rw [← e, hc] at h1
    exact Option.noConfusion h1
  rw [e1]
  simp only [after, faulted, true_and]
  refine ⟨by rw [callBack_selectedCountry, hz]; simp [hrsel], ?_, ?_⟩
  · intro hf
    rw [callBack_click_log z (by rw [isFunction_congr hzg, hzo]; exact hf), hzl, hzo]
  · intro hW hO
    have hp1 : paletteApplies (setSelected s none) t "out" = true := by
      simp [paletteApplies, hc]
    have hp2 : paletteApplies r t "out" = true := by
      simp [paletteApplies, hrsel, hrc, hc]
    have hb1 : isBorderPath (setSelected s none) t c = isBorderPath s t c :=
      isBorderPath_congr (by simp) (by simp) (by simp) t c
    have hb2 : isBorderPath r t c = isBorderPath s t c :=
      isBorderPath_congr hrdoc (by rw [hr]; simp) (by rw [hr]; simp) t c
    have er : r = if isBorderPath s t c = true then strokeBorder (setSelected s none) t "out"
        else fillProvince (setSelected s none) t "out" := by
      rw [hr, restyle_of_applies (by simpa using hW) (by simpa using hO) hp1
        (by simpa using hc) (by simpa using hel), hb1]
    have er2 : restyle r t "out" =
        if isBorderPath s t c = true then strokeBorder r t "out" else fillProvince r t "out" := by
      rw [restyle_of_applies (by rw [hrdoc]; exact hW) (by rw [hrdoc]; exact hO) hp2
        (by rw [hrc]; exact hc) (by rw [hrdoc]; exact hel), hb2]
    constructor
    · intro hbt
      have htn : t ∉ partsOf s t := by
        intro h
        have := (built_parts hb (isElement_lt hel) hc h).2.2.2.2.2
        rw [hbt] at this
        exact Bool.noConfusion this
      rw [if_pos hbt] at er er2
      simp only [callBack_stroke, callBack_strokeWidth, callBack_fill]
      rw [hz, setLabelFill_stroke, setLabelFill_strokeWidth, setLabelFill_fill_of_ne _ _ _ t htl,
        paintAll_stroke_of_not_mem _ _ _ _ htn, paintAll_strokeWidth_of_not_mem _ _ _ _ htn,
        paintAll_fill_of_not_mem _ _ _ _ htn, er2]
      refine ⟨?_, ?_, ?_⟩
      · simp [strokeBorder, setAt, pick_out, hr]
      · simp [strokeBorder, setAt, pick_out, hr]
      · rw [er]
        simp [strokeBorder]
    · intro hbt
      have hbf : ¬ (isBorderPath s t c = true) := by simp [hbt]
      rw [if_neg hbf] at er er2
      have hP : Painted (callBack z "click" JsArg.undefined) "out" t := by
        apply painted_callBack
        rw [hz]
        apply painted_setLabelFill _ _ htl
        apply painted_paintAll_of_painted
        rw [er2]
        exact painted_fillProvince r t "out"
      obtain ⟨p1, p2, p3⟩ := hP
      rw [callBack_updateColor, callBack_opts, hzu, hzo, pick_out] at p1
      rw [callBack_opts, hzo, pick_out] at p2 p3
      exact ⟨p2, p3, p1⟩

theorem provinceClick_selected_deselects_witness :
    Built (after (provinceClick demo 6)) ∧
    (after (provinceClick demo 6)).selectedCountry = some 6 ∧
    (after (provinceClick (after (provinceClick demo 6)) 6)).selectedCountry = none :=
  ⟨by decide, by decide,
   (provinceClick_selected_deselects (after (provinceClick demo 6)) 6 4 (by decide)
      (by decide) (by decide) (by decide)).2.1⟩

/-- C1: in a built map with nothing selected, `countryClick(A)` followed by
`countryClick(B)` for two distinct keys of the country index runs without a fault and
leaves `countries[B]` as the selection; every province and subprovince of A then has the
`out` stroke, stroke width and fill (its `updateColor` override if it has one), the label
of A the `out` label fill, every province and subprovince of B the `click` stroke, stroke
width and fill, and the label of B the `click` label fill. -/
theorem countryClick_twice_exclusive (s : MapState) (A B : String) (a b : Nat)
    (hb : Built s) (hsel : s.selectedCountry = none)
    (hA : objGet s.countries A = some a) (hB : objGet s.countries B = some b)
    (hAB : A ≠ B) :
    faulted (countryClick s A) = false ∧
    faulted (countryClick (after (countryClick s A)) B) = false ∧
    (after (countryClick (after (countryClick s A)) B)).selectedCountry = some b ∧
    (∀ x ∈ partsOf s a,
      (after (countryClick (after (countryClick s A)) B)).stroke x =
        some s.opts.provinceStroke.out ∧
      (after (countryClick (after (countryClick s A)) B)).strokeWidth x =
        some s.opts.provinceStrokeWidth.out ∧
      (after (countryClick (after (countryClick s A)) B)).fill x =
        some ((s.updateColor x).getD s.opts.provinceFill.out)) ∧
    (∀ l, objGet s.countryLabels A = some l →
      (after (countryClick (after (countryClick s A)) B)).fill l = some s.opts.labelFill.out) ∧
    (∀ x ∈ partsOf s b,
      (after (countryClick (after (countryClick s A)) B)).stroke x =
        some s.opts.provinceStroke.click ∧
      (after (countryClick (after (countryClick s A)) B)).strokeWidth x =
        some s.opts.provinceStrokeWidth.click ∧
      (after (countryClick (after (countryClick s A)) B)).fill x =
        some ((s.updateColor x).getD s.opts.provinceFill.click)) ∧
    (∀ l, objGet s.countryLabels B = some l →
      (after (countryClick (after (countryClick s A)) B)).fill l =
        some s.opts.labelFill.click) := by
  obtain ⟨hida, hca, _, _⟩ := built_entry hb hA
  obtain ⟨hidb, hcb, _, _⟩ := built_entry hb hB
  have hab : a ≠ b := by
    intro e
    rw [e, hidb] at hida
    exact hAB (Option.some.inj hida).symm
  have hla : a < s.doc.length := idOf_lt hida
  have hlb : b < s.doc.length := idOf_lt hidb
  have hpa : ∀ x ∈ partsOf s a, s.country x = some a :=
    fun x hx => (built_parts hb hla hca hx).2.2.2.2.1
  have hpb : ∀ x ∈ partsOf s b, s.country x = some b :=
    fun x hx => (built_parts hb hlb hcb hx).2.2.2.2.1
  have hlabel : ∀ k l, objGet s.countryLabels k = some l → s.country l = none :=
    fun k l h => (built_label hb h).1
  -- first activation
  obtain ⟨u, hu⟩ : ∃ u, u = callBack (setSelected
      (setLabelFill (paintAll "click" s (partsOf s a)) A "click") (some a)) "click"
        (JsArg.node a) := ⟨_, rfl⟩
  have e1 : countryClick s A = .ok u := by
    rw [countryClick_country hb hA (by simp [hsel]), hsel, hu]
    simp [finishClick, resetOldSelected, argOf]
  have hub : Built u := by
    rw [hu]
    exact built_congr (by simp) (by simp) (by simp) (by simp) (by simp) (by simp) (by simp) hb
  have husel : u.selectedCountry = some a := by rw [hu]; simp
  have hucs : u.countries = s.countries := by rw [hu]; simp
  have huls : u.countryLabels = s.countryLabels := by rw [hu]; simp
  have hup : u.provinces = s.provinces := by rw [hu]; simp
  have huu : u.updateColor = s.updateColor := by rw [hu]; simp
  have huo : u.opts = s.opts := by rw [hu]; simp
  -- second activation: the click loop and the label
  obtain ⟨v, hv⟩ : ∃ v, v = setSelected
      (setLabelFill (paintAll "click" u (partsOf s b)) B "click") (some b) := ⟨_, rfl⟩
  have hvb : Built v := by
    rw [hv]
    exact built_congr (by simp) (by simp) (by simp) (by simp) (by simp) (by simp) (by simp) hub
  have hvsel : v.selectedCountry = some b := by rw [hv]; simp
  have hvcs : v.countries = s.countries := by rw [hv]; simp [hucs]
  have hvls : v.countryLabels = s.countryLabels := by rw [hv]; simp [huls]
  have hvp : v.provinces = s.provinces := by rw [hv]; simp [hup]
  have hvu : v.updateColor = s.updateColor := by rw [hv]; simp [huu]
  have hvo : v.opts = s.opts := by rw [hv]; simp [huo]
  have e2 : countryClick u B = finishClick
      (setLabelFill (paintAll "click" u (partsOf s b)) B "click") (some b) (some a) := by
    rw [countryClick_country hub (by rw [hucs]; exact hB) (by rw [husel]; simpa using hab),
      husel, partsOf_congr hup b]
  -- second activation: the old selection is reset
  obtain ⟨t, ht⟩ : ∃ t, t = callBack (setLabelFill (paintAll "out" (restyle v a "out")
      (partsOf s a)) A "out") "click" (JsArg.node b) := ⟨_, rfl⟩
  have e3 : countryClick u B = .ok t := by
    rw [e2]
    simp only [finishClick, ← hv]
    rw [resetOldSelected_country hvb (by rw [hvcs]; exact hA) (by rw [hvsel]; simpa using hab.symm),
      partsOf_congr hvp a, ht]
    · simp [argOf]
    · intro x hx
      rw [partsOf_congr hvp a] at hx
      rw [hvsel]
      intro e
      have h1 := hpa x hx
      rw [← Option.some.inj e, hcb] at h1
      exact hab (Option.some.inj h1).symm
  have htu : t.updateColor = s.updateColor := by rw [ht]; simp [hvu]
  have hto : t.opts = s.opts := by rw [ht]; simp [hvo]
  rw [e1]
  simp only [after, faulted, e3, true_and]
  refine ⟨by rw [ht]; simp [hvsel], ?_, ?_, ?_, ?_⟩
  · -- parts of A carry the out palette
    intro x hx
    have hxl : ∀ l, objGet s.countryLabels A = some l → x ≠ l := by
      intro l hl e
      have h1 := hpa x hx
      rw [e, hlabel A l hl] at h1
      exact Option.noConfusion h1
    have hP : Painted t "out" x := by
      rw [ht]
      apply painted_callBack
      apply painted_setLabelFill
      · intro l hl
        exact hxl l (by simpa [hvls] using hl)
      · exact painted_paintAll "out" _ _ x hx
    obtain ⟨p1, p2, p3⟩ := hP
    rw [htu, hto, pick_out] at p1
    rw [hto, pick_out] at p2 p3
    exact ⟨p2, p3, p1⟩
  · -- label of A
    intro l hl
    rw [ht, callBack_fill, setLabelFill_fill_label _ A "out" l (by simpa [hvls] using hl)]
    simp [pick_out, hvo]
  · -- parts of B carry the click palette
    intro x hx
    have hxb := hpb x hx
    have hxa : x ≠ a := by
      intro e
      rw [e, hca] at hxb
      exact hab (Option.some.inj hxb)
    have hxna : x ∉ partsOf s a := by
      intro h
      have h1 := hpa x h
      rw [hxb] at h1
      exact hab (Option.some.inj h1).symm
    have hxl : ∀ k l, objGet s.countryLabels k = some l → x ≠ l := by
      intro k l hl e
      rw [e, hlabel k l hl] at hxb
      exact Option.noConfusion hxb
    have hP : Painted t "click" x := by
      rw [ht]
      apply painted_callBack
      apply painted_setLabelFill _ _ (fun l hl => hxl A l (by simpa [hvls] using hl))
      apply painted_paintAll_of_not_mem _ _ hxna
      apply painted_restyle_of_ne _ _ hxa
      rw [hv]
      apply painted_setSelected
      apply painted_setLabelFill _ _ (fun l hl => hxl B l (by simpa [huls] using hl))
      exact painted_paintAll "click" _ _ x hx
    obtain ⟨p1, p2, p3⟩ := hP
    rw [htu, hto, pick_click] at p1
    rw [hto, pick_click] at p2 p3
    exact ⟨p2, p3, p1⟩
  · -- label of B
    intro l hl
    have hlc := hlabel B l hl
    have hla' : l ≠ a := by
      intro e
      rw [e, hca] at hlc
      exact Option.noConfusion hlc
    have hlna : l ∉ partsOf s a := by
      intro h
      have h1 := hpa l h
      rw [hlc] at h1
      exact Option.noConfusion h1
    have hlA : ∀ l', objGet s.countryLabels A = some l' → l ≠ l' := by
      intro l' hl' e
      have h1 := (built_label hb hl).2
      have h2 := (built_label hb hl').2
      rw [e, h2] at h1
      exact hAB h1
    rw [ht, callBack_fill, setLabelFill_fill_of_ne _ A "out" l
      (fun l' hl' => hlA l' (by simpa [hvls] using hl')),
      paintAll_fill_of_not_mem _ _ _ _ hlna, restyle_fill_of_ne _ _ _ _ hla', hv,
      setSelected_fill, setLabelFill_fill_label _ B "click" l (by simpa [huls] using hl)]
    simp [pick_click, huo]

theorem countryClick_twice_exclusive_witness :
    Built demo ∧ demo.selectedCountry = none ∧
    objGet demo.countries "DE" = some 4 ∧ objGet demo.countries "FR" = some 9 ∧
    (after (countryClick (after (countryClick demo "DE")) "FR")).selectedCountry = some 9 :=
  ⟨by decide, by decide, by decide, by decide,
   (countryClick_twice_exclusive demo "DE" "FR" 4 9 (by decide) (by decide) (by decide)
      (by decide) (by decide)).2.2.1⟩

/-! ## Properties kept by every hover and activation turn -/

theorem after_andThen (P : MapState → Prop) (r : Except MapState MapState)
    (f : MapState → Except MapState MapState)
    (h1 : P (after r)) (h2 : ∀ s1, r = .ok s1 → P (after (f s1))) :
    P (after (andThen r f)) := by
  cases r with
  | error e => exact h1
  | ok s1 => exact h2 s1 rfl

theorem after_forEach {P : MapState → Prop} (f : MapState → Nat → Except MapState MapState)
    (hf : ∀ s x, P s → P (after (f s x))) (l : List Nat) (s : MapState) (h : P s) :
    P (after (forEach f l s)) := by
  induction l generalizing s with
  | nil => exact h
  | cons x xs ih =>
    simp only [forEach]
    cases hx : f s x with
    | error e =>
      have := hf s x h
      rw [hx] at this
      exact this
    | ok s1 =>
      have := hf s x h
      rw [hx] at this
      exact ih s1 this

theorem isLiteralColor_out : isLiteralColor "out" = false := by decide

theorem isLiteralColor_over : isLiteralColor "over" = false := by decide

theorem isLiteralColor_click : isLiteralColor "click" = false := by decide

theorem stable_pathSetAttributes {P : MapState → Prop} (hP : Stable P) (s : MapState)
    (path : Option Nat) (event : String) (hev : isLiteralColor event = false) (h : P s) :
    P (after (pathSetAttributes s path event)) := by
  cases path with
  | none => exact h
  | some n =>
    simp only [pathSetAttributes]
    by_cases h1 : idOf s.doc n ≠ some "World" ∧ idOf s.doc n ≠ some "Ocean"
    · rw [if_pos h1]
      by_cases h2 : paletteApplies s n event = true
      · rw [if_pos h2]
        cases hc : s.country n with
        | none => exact h
        | some c =>
          by_cases h3 : isElement s.doc n = true <;> by_cases h4 : isBorderPath s n c = true <;>
            simp only [h3, h4, after, not_true_eq_false, not_false_eq_true, if_true, if_false,
              Bool.false_eq_true]
          · exact hP.border s n event h
          · exact hP.paint s n event h
          · exact h
          · exact h
      · rw [if_neg h2]
        simp only [hev, Bool.false_eq_true, if_false]
        exact h
    · rw [if_neg h1]
      exact h

theorem stable_styleProvince {P : MapState → Prop} (hP : Stable P) (event : String)
    (hev : isLiteralColor event = false) (s : MapState) (p : Nat) (h : P s) :
    P (after (styleProvince event s p)) := by
  unfold styleProvince
  apply after_andThen P
  · exact stable_pathSetAttributes hP s _ event hev h
  · intro s1 hs1
    have h1 : P s1 := by
      have := stable_pathSetAttributes hP s (some p) event hev h
      rw [hs1] at this
      exact this
    cases s1.provinces p with
    | none => exact h1
    | some subs =>
      exact after_forEach _ (fun s2 x h2 => stable_pathSetAttributes hP s2 _ event hev h2)
        subs s1 h1

theorem stable_styleProvincesOf {P : MapState → Prop} (hP : Stable P) (event : String)
    (hev : isLiteralColor event = false) (s : MapState) (n : Nat) (h : P s) :
    P (after (styleProvincesOf event s n)) := by
  unfold styleProvincesOf
  cases s.provinces n with
  | none => exact h
  | some ps => exact after_forEach _ (stable_styleProvince hP event hev) ps s h

theorem stable_resetOldSelected {P : MapState → Prop} (hP : Stable P) (s : MapState)
    (old : Option Nat) (h : P s) : P (after (resetOldSelected s old)) := by
  cases old with
  | none => exact h
  | some n =>
    simp only [resetOldSelected]
    apply after_andThen P
    · exact stable_pathSetAttributes hP s _ "out" isLiteralColor_out h
    · intro s1 hs1
      have h1 : P s1 := by
        have := stable_pathSetAttributes hP s (some n) "out" isLiteralColor_out h
        rw [hs1] at this
        exact this
      apply after_andThen P
      · exact stable_styleProvincesOf hP "out" isLiteralColor_out s1 n h1
      · intro s2 hs2
        have h2 : P s2 := by
          have := stable_styleProvincesOf hP "out" isLiteralColor_out s1 n h1
          rw [hs2] at this
          exact this
        exact hP.label _ _ _ h2

theorem stable_finishClick {P : MapState → Prop} (hP : Stable P) (s : MapState)
    (country old : Option Nat) (h : P s) : P (after (finishClick s country old)) := by
  unfold finishClick
  apply after_andThen P
  · exact stable_resetOldSelected hP _ old (hP.select s country h)
  · intro s1 hs1
    have h1 : P s1 := by
      have := stable_resetOldSelected hP _ old (hP.select s country h)
      rw [hs1] at this
      exact this
    exact hP.call _ _ _ h1

theorem stable_clickProvinceById {P : MapState → Prop} (hP : Stable P) (s : MapState)
    (id : String) (h : P s) : P (after (clickProvinceById s id)) := by
  unfold clickProvinceById
  apply after_andThen P
  · exact stable_pathSetAttributes hP s _ "click" isLiteralColor_click h
  · intro s1 hs1
    have h1 : P s1 := by
      have := stable_pathSetAttributes hP s (findProvinceById s id) "click"
        isLiteralColor_click h
      rw [hs1] at this
      exact this
    exact stable_finishClick hP s1 _ _ h1

theorem stable_countryClick {P : MapState → Prop} (hP : Stable P) (s : MapState)
    (id : String) (h : P s) : P (after (countryClick s id)) := by
  unfold countryClick
  cases objGet s.countries id with
  | none =>
    simp only []
    by_cases hin : id ∈ inheritedNames
    · rw [if_pos hin]
      exact h
    · rw [if_neg hin]
      exact stable_clickProvinceById hP s id h
  | some c =>
    simp only []
    by_cases hsel : some c ≠ s.selectedCountry
    · rw [if_pos hsel]
      cases s.provinces c with
      | none => exact h
      | some ps =>
        simp only []
        apply after_andThen P
        · exact after_forEach _ (stable_styleProvince hP "click" isLiteralColor_click) ps s h
        · intro s1 hs1
          have h1 : P s1 := by
            have := after_forEach _ (stable_styleProvince hP "click" isLiteralColor_click) ps s h
            rw [hs1] at this
            exact this
          exact stable_finishClick hP _ _ _ (hP.label _ _ _ h1)
    · rw [if_neg hsel]
      exact stable_clickProvinceById hP s id h

theorem stable_hoverById {P : MapState → Prop} (hP : Stable P) (event : String)
    (hev : isLiteralColor event = false) (s : MapState) (id : String) (h : P s) :
    P (after (match findProvinceById s id with
      | some p => styleProvince event s p
      | none => .ok s)) := by
  cases findProvinceById s id with
  | none => exact h
  | some p => exact stable_styleProvince hP event hev s p h

theorem stable_countryOver {P : MapState → Prop} (hP : Stable P) (s : MapState)
    (id : String) (h : P s) : P (after (countryOver s id)) := by
  unfold countryOver
  cases objGet s.countries id with
  | none =>
    simp only []
    by_cases hin : id ∈ inheritedNames
    · rw [if_pos hin]
      exact h
    · rw [if_neg hin]
      exact stable_hoverById hP "over" isLiteralColor_over s id h
  | some c =>
    simp only []
    by_cases hsel : some c ≠ s.selectedCountry
    · rw [if_pos hsel]
      cases s.provinces c with
      | none => exact h
      | some ps =>
        simp only []
        apply after_andThen P
        · exact after_forEach _ (stable_styleProvince hP "over" isLiteralColor_over) ps s h
        · intro s1 hs1
          have h1 : P s1 := by
            have := after_forEach _ (stable_styleProvince hP "over" isLiteralColor_over) ps s h
            rw [hs1] at this
            exact this
          have h2 : P (setLabelFill s1 id "over") := hP.label _ _ _ h1
          cases objGet (setLabelFill s1 id "over").countryData id with
          | none => exact h2
          | some _ => exact hP.tip _ _ h2
    · rw [if_neg hsel]
      exact stable_hoverById hP "over" isLiteralColor_over s id h

theorem stable_countryOut {P : MapState → Prop} (hP : Stable P) (s : MapState)
    (id : String) (h : P s) : P (after (countryOut s id)) := by
  unfold countryOut
  cases objGet s.countries id with
  | none =>
    simp only []
    by_cases hin : id ∈ inheritedNames
    · rw [if_pos hin]
      exact h
    · rw [if_neg hin]
      exact stable_hoverById hP "out" isLiteralColor_out s id h
  | some c =>
    simp only []
    by_cases hsel : some c ≠ s.selectedCountry
    · rw [if_pos hsel]
      cases s.provinces c with
      | none => exact h
      | some ps =>
        simp only []
        apply after_andThen P
        · exact after_forEach _ (stable_styleProvince hP "out" isLiteralColor_out) ps s h
        · intro s1 hs1
          have h1 : P s1 := by
            have := after_forEach _ (stable_styleProvince hP "out" isLiteralColor_out) ps s h
            rw [hs1] at this
            exact this
          exact hP.tip _ _ (hP.label _ _ _ h1)
    · rw [if_neg hsel]
      exact stable_hoverById hP "out" isLiteralColor_out s id h

theorem stable_updateInfoBox {P : MapState → Prop} (hP : Stable P) (s : MapState)
    (event : String) (path : Option Nat) (h : P s) :
    P (after (updateInfoBox s event path)) := by
  unfold updateInfoBox
  cases s.infoBoxDisplay with
  | none => exact h
  | some d =>
    simp only []
    by_cases he : event = "over"
    · rw [if_pos he]
      cases path with
      | none => exact h
      | some n =>
        simp only []
        by_cases h1 : idOf s.doc n ≠ some "World" ∧ idOf s.doc n ≠ some "Ocean"
        · rw [if_pos h1]
          cases s.country n with
          | none => exact h
          | some c => exact hP.info _ _ h
        · rw [if_neg h1]
          exact hP.info _ _ h
    · rw [if_neg he]
      exact hP.info _ _ h

theorem stable_hoverTarget {P : MapState → Prop} (hP : Stable P) (s : MapState)
    (overout : String) (hev : isLiteralColor overout = false) (target : Nat) (h : P s) :
    P (after (hoverTarget s overout target)) := by
  unfold hoverTarget
  by_cases hc : s.country target ≠ none ∧ some target ≠ s.selectedCountry
  · rw [if_pos hc]
    apply after_andThen P
    · exact stable_pathSetAttributes hP s _ overout hev h
    · intro s1 hs1
      have h1 : P s1 := by
        have := stable_pathSetAttributes hP s (some target) overout hev h
        rw [hs1] at this
        exact this
      by_cases hcirc : tagOf s1.doc target = some "circle" ∧ overout = "out"
      · rw [if_pos hcirc]
        exact hP.circle s1 target hcirc.1 h1
      · rw [if_neg hcirc]
        exact h1
  · rw [if_neg hc]
    exact h

theorem stable_provinceOverOut {P : MapState → Prop} (hP : Stable P) (s : MapState)
    (overout : String) (hev : isLiteralColor overout = false) (target : Nat) (h : P s) :
    P (after (provinceOverOut s overout target)) := by
  unfold provinceOverOut
  apply after_andThen P
  · exact stable_hoverTarget hP s overout hev target h
  · intro s1 hs1
    have h1 : P s1 := by
      have := stable_hoverTarget hP s overout hev target h
      rw [hs1] at this
      exact this
    apply after_andThen P
    · exact stable_updateInfoBox hP s1 overout _ h1
    · intro s2 hs2
      have h2 : P s2 := by
        have := stable_updateInfoBox hP s1 overout (some target) h1
        rw [hs2] at this
        exact this
      exact hP.call _ _ _ h2

theorem stable_provinceClick {P : MapState → Prop} (hP : Stable P) (s : MapState)
    (target : Nat) (h : P s) : P (after (provinceClick s target)) := by
  unfold provinceClick
  have key : P (after (if s.selectedCountry = some target then
      pathSetAttributes (setSelected s none) (some target) "out"
    else pathSetAttributes (setSelected s (some target)) (some target) "click")) := by
    by_cases hs : s.selectedCountry = some target
    · rw [if_pos hs]
      exact stable_pathSetAttributes hP _ _ "out" isLiteralColor_out (hP.select s none h)
    · rw [if_neg hs]
      exact stable_pathSetAttributes hP _ _ "click" isLiteralColor_click (hP.select s _ h)
  simp only []
  apply after_andThen P _ _ key
  intro s1 hs1
  have h1 : P s1 := by
    rw [hs1] at key
    exact key
  apply after_andThen P
  · exact stable_resetOldSelected hP s1 _ h1
  · intro s2 hs2
    have h2 : P s2 := by
      have := stable_resetOldSelected hP s1 s.selectedCountry h1
      rw [hs2] at this
      exact this
    exact hP.call _ _ _ h2

theorem stable_step {P : MapState → Prop} (hP : Stable P) (s : MapState) (t : Transition)
    (h : P s) : P (step s t) := by
  cases t with
  | countryOver id => exact stable_countryOver hP s id h
  | countryOut id => exact stable_countryOut hP s id h
  | countryClick id => exact stable_countryClick hP s id h
  | provinceOver target => exact stable_provinceOverOut hP s "over" isLiteralColor_over target h
  | provinceOut target => exact stable_provinceOverOut hP s "out" isLiteralColor_out target h
  | provinceClick target => exact stable_provinceClick hP s target h

theorem stable_run {P : MapState → Prop} (hP : Stable P) (ts : List Transition)
    (s : MapState) (h : P s) : P (run s ts) := by
  induction ts generalizing s with
  | nil => exact h
  | cons t rest ih => exact ih (step s t) (stable_step hP s t h)

/-! ## The override survives hover and activation -/

theorem restyle_literal {s : MapState} {n : Nat} {event : String}
    (hel : isElement s.doc n = true)
    (hW : idOf s.doc n ≠ some "World") (hO : idOf s.doc n ≠ some "Ocean")
    (hlit : isLiteralColor event = true) :
    restyle s n event = fillDirect s n event := by
  obtain ⟨h1, h2, h3⟩ := isLiteralColor_ne_state event hlit
  simp [restyle, pathSetAttributes, hW, hO, paletteApplies_false s n event h1 h2 h3, hlit, hel,
    after]

theorem colorInv_colorPath {doc0 : List DomNode} {labels0 : Obj Nat} {n : Nat} {c : String}
    (hel : isElement doc0 n = true)
    (hW : idOf doc0 n ≠ some "World") (hO : idOf doc0 n ≠ some "Ocean")
    (hlit : isLiteralColor c = true) (color : String) (s : MapState) (x : Nat)
    (h : ColorInv doc0 labels0 n c s) : ColorInv doc0 labels0 n c (after (colorPath color s x)) := by
  obtain ⟨h1, h2, h3⟩ := h
  show ColorInv doc0 labels0 n c (restyle (recordColor s x (some color)) x color)
  refine ⟨by simp [h1], by simp [h2], ?_⟩
  rw [restyle_updateColor, recordColor_updateColor]
  by_cases hx : n = x
  · subst hx
    rw [if_pos rfl]
    intro hc
    have hcc : color = c := Option.some.inj hc
    subst hcc
    rw [restyle_literal (by simpa [h1] using hel) (by simpa [h1] using hW)
      (by simpa [h1] using hO) hlit]
    simp [fillDirect, setAt]
  · rw [if_neg hx, restyle_fill_of_ne _ _ _ _ hx]
    simpa using h3

theorem colorInv_colorProvince {doc0 : List DomNode} {labels0 : Obj Nat} {n : Nat}
    {c : String} (hel : isElement doc0 n = true)
    (hW : idOf doc0 n ≠ some "World") (hO : idOf doc0 n ≠ some "Ocean")
    (hlit : isLiteralColor c = true) (color : String) (s : MapState) (p : Nat)
    (h : ColorInv doc0 labels0 n c s) :
    ColorInv doc0 labels0 n c (after (colorProvince color s p)) := by
  unfold colorProvince
  apply after_andThen (ColorInv doc0 labels0 n c)
  · exact colorInv_colorPath hel hW hO hlit color s p h
  · intro s1 hs1
    have h1 : ColorInv doc0 labels0 n c s1 := by
      have := colorInv_colorPath hel hW hO hlit color s p h
      rw [hs1] at this
      exact this
    cases s1.provinces p with
    | none => exact h1
    | some subs => exact after_forEach _ (colorInv_colorPath hel hW hO hlit color) subs s1 h1

theorem colorInv_updateEntry {doc0 : List DomNode} {labels0 : Obj Nat} {n : Nat}
    {c : String} (hel : isElement doc0 n = true)
    (hW : idOf doc0 n ≠ some "World") (hO : idOf doc0 n ≠ some "Ocean")
    (hlit : isLiteralColor c = true) (s : MapState) (id color : String)
    (h : ColorInv doc0 labels0 n c s) :
    ColorInv doc0 labels0 n c (after (updateEntry s id color)) := by
  unfold updateEntry
  cases lookupTarget s id with
  | none => exact h
  | some k =>
    simp only []
    cases s.provinces k with
    | none => exact colorInv_colorPath hel hW hO hlit color s k h
    | some ps => exact after_forEach _ (colorInv_colorProvince hel hW hO hlit color) ps s h

theorem colorInv_updateMapData {doc0 : List DomNode} {labels0 : Obj Nat} {n : Nat}
    {c : String} (hel : isElement doc0 n = true)
    (hW : idOf doc0 n ≠ some "World") (hO : idOf doc0 n ≠ some "Ocean")
    (hlit : isLiteralColor c = true) (data : Obj String) (s : MapState)
    (h : ColorInv doc0 labels0 n c s) :
    ColorInv doc0 labels0 n c (after (updateMapData s data)) := by
  induction data generalizing s with
  | nil => exact h
  | cons e rest ih =>
    obtain ⟨id, color⟩ := e
    simp only [updateMapData]
    apply after_andThen (ColorInv doc0 labels0 n c)
    · exact colorInv_updateEntry hel hW hO hlit s id color h
    · intro s1 hs1
      have h1 : ColorInv doc0 labels0 n c s1 := by
        have := colorInv_updateEntry hel hW hO hlit s id color h
        rw [hs1] at this
        exact this
      exact ih s1 h1

theorem stable_overridden {doc0 : List DomNode} {labels0 : Obj Nat} {n : Nat} {c : String}
    (htag : tagOf doc0 n ≠ some "circle") (hlab : ∀ e ∈ labels0, e.2 ≠ n) :
    Stable (Overridden doc0 labels0 n c) where
  border := by
    rintro s x ev ⟨h1, h2, h3, h4⟩
    exact ⟨h1, h2, h3, h4⟩
  paint := by
    rintro s x ev ⟨h1, h2, h3, h4⟩
    refine ⟨h1, h2, h3, ?_⟩
    by_cases hx : n = x
    · subst hx
      simp [fillProvince, setAt, h3]
    · simp [fillProvince, setAt, hx, h4]
  label := by
    rintro s id ev ⟨h1, h2, h3, h4⟩
    refine ⟨by simp [h1], by simp [h2], by simp [h3], ?_⟩
    rw [setLabelFill_fill_of_ne s id ev n, h4]
    intro l hl e
    exact hlab (id, l) (h2 ▸ objGet_mem hl) e.symm
  select := by
    rintro s p ⟨h1, h2, h3, h4⟩
    exact ⟨h1, h2, h3, h4⟩
  call := by
    rintro s ev d ⟨h1, h2, h3, h4⟩
    exact ⟨by simp [h1], by simp [h2], by simp [h3], by simp [h4]⟩
  circle := by
    rintro s x hx ⟨h1, h2, h3, h4⟩
    have hne : n ≠ x := by
      intro e
      rw [h1, ← e] at hx
      exact htag hx
    exact ⟨h1, h2, h3, by simp [setAt, hne, h4]⟩
  info := by
    rintro s d ⟨h1, h2, h3, h4⟩
    exact ⟨h1, h2, h3, h4⟩
  tip := by
    rintro s d ⟨h1, h2, h3, h4⟩
    exact ⟨h1, h2, h3, h4⟩

/-! ## Reset after a data-driven colouring -/

/-- Loop rule: every step succeeds and keeps `Q`, keeps `R` once it holds, and
establishes `R` at an entry that satisfies `Hit`. -/
theorem forEach_track (Q R : MapState → Prop) (Hit : Nat → Prop)
    (f : MapState → Nat → Except MapState MapState) (l : List Nat)
    (hf : ∀ s y, y ∈ l → Q s →
      ∃ t, f s y = .ok t ∧ Q t ∧ (R s → R t) ∧ (Hit y → R t))
    (s : MapState) (hQ : Q s) :
    ∃ t, forEach f l s = .ok t ∧ Q t ∧ (R s → R t) ∧ ((∃ y ∈ l, Hit y) → R t) := by
  induction l generalizing s with
  | nil => exact ⟨s, rfl, hQ, id, fun ⟨y, hy, _⟩ => absurd hy (List.not_mem_nil y)⟩
  | cons x xs ih =>
    obtain ⟨t1, e1, q1, r1, h1⟩ := hf s x (List.mem_cons_self _ _) hQ
    obtain ⟨t2, e2, q2, r2, h2⟩ :=
      ih (fun s y hy => hf s y (List.mem_cons_of_mem _ hy)) t1 q1
    refine ⟨t2, ?_, q2, fun h => r2 (r1 h), ?_⟩
    · simp only [forEach, e1, e2]
    · rintro ⟨y, hy, hit⟩
      rcases List.mem_cons.mp hy with e | e
      · subst e
        exact r2 (h1 hit)
      · exact h2 ⟨y, e, hit⟩

theorem pathSetAttributes_ok_of_literal {s : MapState} {n : Nat} {event : String}
    (hlit : isLiteralColor event = true) (hel : isElement s.doc n = true) :
    pathSetAttributes s (some n) event = .ok (restyle s n event) := by
  obtain ⟨h1, h2, h3⟩ := isLiteralColor_ne_state event hlit
  simp only [restyle, pathSetAttributes]
  by_cases hid : idOf s.doc n ≠ some "World" ∧ idOf s.doc n ≠ some "Ocean"
  · rw [if_pos hid, paletteApplies_false s n event h1 h2 h3]
    simp [hlit, hel, after]
  · rw [if_neg hid]
    rfl

/-- The part of the state that colouring and resetting leave alone. -/
theorem sameShape_refl (s : MapState) : SameShape s s :=
  ⟨rfl, rfl, rfl, rfl, rfl, rfl, rfl, rfl⟩

theorem built_parts_of_shape {s t : MapState} (hb : Built s) (h : SameShape s t) {n c x : Nat}
    (hn : n < s.doc.length) (hc : s.country n = some c) (hx : x ∈ partsOf s n) :
    isElement t.doc x = true ∧ idOf t.doc x ≠ some "World" ∧ idOf t.doc x ≠ some "Ocean" ∧
    t.country x = some c ∧ isBorderPath t x c = false := by
  obtain ⟨h1, h2, h3, _, h5, h6⟩ := built_parts hb hn hc hx
  obtain ⟨e1, e2, e3, e4, e5, e6, e7, e8⟩ := h
  rw [e1, e2]
  exact ⟨h1, h2, h3, h5, by rw [isBorderPath_congr e1 e3 e4]; exact h6⟩

/-- One colouring step on a part of the map succeeds, keeps the shape, and records the
colour on the node it visits. -/
theorem colorPath_track {s0 : MapState} {c : String}
    (hlit : isLiteralColor c = true) (x : Nat) (s : MapState) (y : Nat)
    (hy : isElement s0.doc y = true) (hQ : SameShape s0 s) :
    ∃ t, colorPath c s y = .ok t ∧ SameShape s0 t ∧
      (s.updateColor x = some c → t.updateColor x = some c) ∧
      (y = x → t.updateColor x = some c) := by
  obtain ⟨e1, e2, e3, e4, e5, e6, e7, e8⟩ := hQ
  refine ⟨restyle (recordColor s y (some c)) y c, ?_, ?_, ?_, ?_⟩
  · exact pathSetAttributes_ok_of_literal hlit (by simpa [e1] using hy)
  · exact ⟨by simp [e1], by simp [e2], by simp [e3], by simp [e4], by simp [e5], by simp [e6],
      by simp [e7], by simp [e8]⟩
  · intro h
    rw [restyle_updateColor, recordColor_updateColor]
    by_cases hxy : x = y
    · rw [if_pos hxy]
    · rw [if_neg hxy]; exact h
  · intro h
    rw [restyle_updateColor, recordColor_updateColor, if_pos h.symm]

theorem part_valid {s : MapState} (hb : Built s) {n p : Nat} (hn : n < s.doc.length)
    (hp : p ∈ (s.provinces n).getD []) :
    isElement s.doc p = true ∧ (s.country p).isSome = true := by
  obtain ⟨h1, _, _, _, _, h6⟩ := hb.2.1 n hn p hp
  refine ⟨h1, ?_⟩
  cases hc : s.country p with
  | none => simp [hc] at h6
  | some c => rfl

theorem colorProvince_track {s0 : MapState} (hb : Built s0) {c : String}
    (hlit : isLiteralColor c = true) (x : Nat) (s : MapState) (p : Nat)
    (hp : isElement s0.doc p = true) (hQ : SameShape s0 s) :
    ∃ t, colorProvince c s p = .ok t ∧ SameShape s0 t ∧
      (s.updateColor x = some c → t.updateColor x = some c) ∧
      ((x = p ∨ x ∈ (s0.provinces p).getD []) → t.updateColor x = some c) := by
  obtain ⟨t1, e1, q1, r1, h1⟩ := colorPath_track hlit x s p hp hQ
  have hprov : t1.provinces p = s0.provinces p := by rw [q1.2.2.2.2.1]
  cases hsub : s0.provinces p with
  | none =>
    refine ⟨t1, ?_, q1, r1, ?_⟩
    · simp [colorProvince, e1, hprov, hsub]
    · rintro (h | h)
      · exact h1 h.symm
      · simp at h
  | some subs =>
    obtain ⟨t2, e2, q2, r2, h2⟩ := forEach_track (SameShape s0)
      (fun s => s.updateColor x = some c) (fun y => y = x) (colorPath c) subs
      (fun s y hy hs => colorPath_track hlit x s y
        (part_valid hb (isElement_lt hp) (by simp [hsub, hy])).1 hs) t1 q1
    refine ⟨t2, ?_, q2, fun h => r2 (r1 h), ?_⟩
    · simp [colorProvince, e1, hprov, hsub, e2]
    · rintro (h | h)
      · exact r2 (h1 h.symm)
      · exact h2 ⟨x, by simpa using h, rfl⟩

/-- One reset step on a part of the map succeeds, keeps the shape, and leaves `x` without
override and with the `out` fill once it has visited it. -/
theorem resetPath_track {s0 : MapState} (G : Prop) (x : Nat) (hG : G → Repaintable s0 x)
    (s : MapState) (y : Nat) (hy : isElement s0.doc y = true)
    (hyc : (s0.country y).isSome = true)
    (hQ : SameShape s0 s ∧
      (G → s.updateColor x = none → s.fill x = some s0.opts.provinceFill.out)) :
    ∃ t, resetPath s y = .ok t ∧
      (SameShape s0 t ∧
        (G → t.updateColor x = none → t.fill x = some s0.opts.provinceFill.out)) ∧
      (s.updateColor x = none → t.updateColor x = none) ∧
      (y = x → t.updateColor x = none) := by
  obtain ⟨⟨e1, e2, e3, e4, e5, e6, e7, e8⟩, hfill⟩ := hQ
  cases hu : s.updateColor y with
  | none =>
    refine ⟨s, by simp [resetPath, hu], ⟨⟨e1, e2, e3, e4, e5, e6, e7, e8⟩, hfill⟩, id, ?_⟩
    intro h
    rw [← h]
    exact hu
  | some u =>
    refine ⟨restyle (recordColor s y none) y "out", ?_, ⟨?_, ?_⟩, ?_, ?_⟩
    · simp only [resetPath, hu]
      exact pathSetAttributes_ok_of_country "out" (by simpa [e1] using hy)
        (by simpa [e2] using hyc)
    · exact ⟨by simp [e1], by simp [e2], by simp [e3], by simp [e4], by simp [e5],
        by simp [e6], by simp [e7], by simp [e8]⟩
    · intro g
      rw [restyle_updateColor, recordColor_updateColor]
      by_cases hxy : x = y
      · subst hxy
        intro _
        obtain ⟨hW, hO, hel, hsx, cx, hcx, hbx, hsc⟩ := hG g
        have hp : paletteApplies (recordColor s x none) x "out" = true := by
          have a1 : (s.selectedCountry == some x) = false := by
            rw [e6]; simpa using hsx
          have a2 : (s.selectedCountry == some cx) = false := by
            rw [e6]; simpa using hsc
          have a1' : (some x == s.selectedCountry) = false := by
            rw [e6]; simpa using fun h => hsx h.symm
          have a2' : (s.country x == s.selectedCountry) = false := by
            rw [e2, hcx, e6]; simpa using fun h => hsc h.symm
          simp [paletteApplies, a1', a2']
        rw [restyle_of_applies (c := cx) (by simpa [e1] using hW) (by simpa [e1] using hO) hp
          (by simpa [e2] using hcx) (by simpa [e1] using hel)]
        have hbx' : isBorderPath (recordColor s x none) x cx = false := by
          rw [isBorderPath_congr (s := s0) (by simp [e1]) (by simp [e3]) (by simp [e4])]
          exact hbx
        simp [hbx', fillProvince, setAt, recordColor_updateColor, pick_out, e7]
      · rw [if_neg hxy, restyle_fill_of_ne _ _ _ _ hxy]
        simpa using hfill g
    · intro h
      rw [restyle_updateColor, recordColor_updateColor]
      by_cases hxy : x = y
      · rw [if_pos hxy]
      · rw [if_neg hxy]; exact h
    · intro h
      rw [restyle_updateColor, recordColor_updateColor, if_pos h.symm]

theorem resetProvince_track {s0 : MapState} (hb : Built s0) (G : Prop) (x : Nat)
    (hG : G → Repaintable s0 x) (s : MapState) (p : Nat) (hp : isElement s0.doc p = true)
    (hpc : (s0.country p).isSome = true)
    (hQ : SameShape s0 s ∧
      (G → s.updateColor x = none → s.fill x = some s0.opts.provinceFill.out)) :
    ∃ t, resetProvince s p = .ok t ∧
      (SameShape s0 t ∧
        (G → t.updateColor x = none → t.fill x = some s0.opts.provinceFill.out)) ∧
      (s.updateColor x = none → t.updateColor x = none) ∧
      ((x = p ∨ x ∈ (s0.provinces p).getD []) → t.updateColor x = none) := by
  obtain ⟨t1, e1, q1, r1, h1⟩ := resetPath_track G x hG s p hp hpc hQ
  have hprov : t1.provinces p = s0.provinces p := by rw [q1.1.2.2.2.2.1]
  cases hsub : s0.provinces p with
  | none =>
    refine ⟨t1, ?_, q1, r1, ?_⟩
    · simp [resetProvince, e1, hprov, hsub]
    · rintro (h | h)
      · exact h1 h.symm
      · simp at h
  | some subs =>
    obtain ⟨t2, e2, q2, r2, h2⟩ := forEach_track
      (fun s => SameShape s0 s ∧
        (G → s.updateColor x = none → s.fill x = some s0.opts.provinceFill.out))
      (fun s => s.updateColor x = none) (fun y => y = x) resetPath subs
      (fun s y hy hs =>
        have hv := part_valid hb (isElement_lt hp) (show y ∈ (s0.provinces p).getD [] by
          simp [hsub, hy])
        resetPath_track G x hG s y hv.1 hv.2 hs) t1 q1
    refine ⟨t2, ?_, q2, fun h => r2 (r1 h), ?_⟩
    · simp [resetProvince, e1, hprov, hsub, e2]
    · rintro (h | h)
      · exact r2 (h1 h.symm)
      · exact h2 ⟨x, by simpa using h, rfl⟩

theorem resetCountry_track {s0 : MapState} (hb : Built s0) (G : Prop) (x : Nat)
    (hG : G → Repaintable s0 x) (s : MapState) (k : Nat) (hk : k < s0.doc.length)
    (hQ : SameShape s0 s ∧
      (G → s.updateColor x = none → s.fill x = some s0.opts.provinceFill.out)) :
    ∃ t, resetCountry s k = .ok t ∧
      (SameShape s0 t ∧
        (G → t.updateColor x = none → t.fill x = some s0.opts.provinceFill.out)) ∧
      (s.updateColor x = none → t.updateColor x = none) ∧
      (x ∈ partsOf s0 k → t.updateColor x = none) := by
  have hprov : s.provinces k = s0.provinces k := by rw [hQ.1.2.2.2.2.1]
  cases hps : s0.provinces k with
  | none =>
    refine ⟨s, by simp [resetCountry, hprov, hps], hQ, id, ?_⟩
    intro h
    simp [partsOf, hps, expand] at h
  | some ps =>
    obtain ⟨t, e, q, r, h⟩ := forEach_track
      (fun s => SameShape s0 s ∧
        (G → s.updateColor x = none → s.fill x = some s0.opts.provinceFill.out))
      (fun s => s.updateColor x = none)
      (fun p => x = p ∨ x ∈ (s0.provinces p).getD []) resetProvince ps
      (fun s p hp hs =>
        have hv := part_valid hb hk (show p ∈ (s0.provinces k).getD [] by simp [hps, hp])
        resetProvince_track hb G x hG s p hv.1 hv.2 hs) s hQ
    refine ⟨t, by simp [resetCountry, hprov, hps, e], q, r, ?_⟩
    intro hx
    apply h
    have hx' : x ∈ expand s0 ps := by simpa [partsOf, hps] using hx
    rcases mem_expand.mp hx' with h1 | ⟨q', hq', h2⟩
    · exact ⟨x, h1, Or.inl rfl⟩
    · exact ⟨q', hq', Or.inr h2⟩

theorem resetMap_track {s0 : MapState} (hb : Built s0) (G : Prop) (x : Nat)
    (hG : G → Repaintable s0 x) (s : MapState)
    (hQ : SameShape s0 s ∧
      (G → s.updateColor x = none → s.fill x = some s0.opts.provinceFill.out)) :
    ∃ t, resetMap s = .ok t ∧
      (G → t.updateColor x = none → t.fill x = some s0.opts.provinceFill.out) ∧
      ((∃ e ∈ s0.countries, x ∈ partsOf s0 e.2) → t.updateColor x = none) := by
  have hcs : s.countries = s0.countries := hQ.1.2.2.2.2.2.2.2
  obtain ⟨t, e, q, _, h⟩ := forEach_track
    (fun s => SameShape s0 s ∧
      (G → s.updateColor x = none → s.fill x = some s0.opts.provinceFill.out))
    (fun s => s.updateColor x = none) (fun k => x ∈ partsOf s0 k) resetCountry
    (s0.countries.map Prod.snd)
    (fun s k hk hs => by
      obtain ⟨e, he, rfl⟩ := List.mem_map.mp hk
      exact resetCountry_track hb G x hG s e.2 (idOf_lt (hb.1 e he).1) hs) s hQ
  refine ⟨t, by simp [resetMap, hcs, e], q.2, ?_⟩
  rintro ⟨e, he, hx⟩
  exact h ⟨e.2, List.mem_map.mpr ⟨e, he, rfl⟩, hx⟩

theorem updateMapData_single_track {s : MapState} (hb : Built s) {id c : String} {a : Nat}
    (ha : objGet s.countries id = some a) (hlit : isLiteralColor c = true) (x : Nat) :
    ∃ t, updateMapData s [(id, c)] = .ok t ∧ SameShape s t ∧
      (x ∈ partsOf s a → t.updateColor x = some c) := by
  obtain ⟨hid, hca, ps, hps⟩ := built_entry hb ha
  obtain ⟨t, e, q, _, h⟩ := forEach_track (SameShape s)
    (fun t => t.updateColor x = some c)
    (fun p => x = p ∨ x ∈ (s.provinces p).getD []) (colorProvince c) ps
    (fun t p hp ht =>
      colorProvince_track hb hlit x t p
        (part_valid hb (idOf_lt hid) (show p ∈ (s.provinces a).getD [] by simp [hps, hp])).1 ht)
    s (sameShape_refl s)
  refine ⟨t, ?_, q, ?_⟩
  · simp [updateMapData, updateEntry, lookupTarget, ha, hps, e]
  · intro hx
    apply h
    have hx' : x ∈ expand s ps := by simpa [partsOf, hps] using hx
    rcases mem_expand.mp hx' with h1 | ⟨q', hq', h2⟩
    · exact ⟨x, h1, Or.inl rfl⟩
    · exact ⟨q', hq', Or.inr h2⟩

/-- What `resetMap` does restore: in a built map, for a key `id` of the country index and a
literal colour `c`, when neither the country nor any of its provinces or subprovinces is
the selection, `updateMapData` with the single entry `id: c` followed by `resetMap()` runs
without a fault and leaves every province and subprovince of that country without
`updateColor` override and with fill `provinceFill.out`. -/
theorem resetMap_restores_unselected (s : MapState) (id c : String) (a : Nat) (hb : Built s)
    (ha : objGet s.countries id = some a) (hlit : isLiteralColor c = true)
    (hsel : s.selectedCountry ≠ some a)
    (hsel2 : ∀ x ∈ partsOf s a, s.selectedCountry ≠ some x) :
    faulted (updateMapData s [(id, c)]) = false ∧
    faulted (resetMap (after (updateMapData s [(id, c)]))) = false ∧
    ∀ x ∈ partsOf s a,
      (after (resetMap (after (updateMapData s [(id, c)])))).updateColor x = none ∧
      (after (resetMap (after (updateMapData s [(id, c)])))).fill x =
        some s.opts.provinceFill.out := by
  obtain ⟨hid, hca, _, _⟩ := built_entry hb ha
  obtain ⟨u, eu, qu, _⟩ := updateMapData_single_track hb ha hlit 0
  obtain ⟨t0, et0, _, _⟩ := resetMap_track hb False 0 (fun h => False.elim h) u
    ⟨qu, fun h => False.elim h⟩
  rw [eu]
  simp only [after, faulted, et0, true_and]
  intro x hx
  obtain ⟨u', eu', _, hux⟩ := updateMapData_single_track hb ha hlit x
  have huu : u' = u := by
    rw [eu] at eu'
    exact (Except.ok.inj eu').symm
  subst huu
  obtain ⟨h1, h2, h3, _, h5, h6⟩ := built_parts hb (idOf_lt hid) hca hx
  have hrep : Repaintable s x := ⟨h2, h3, h1, hsel2 x hx, a, h5, h6, hsel⟩
  obtain ⟨t, et, hfill, hnone⟩ := resetMap_track hb True x (fun _ => hrep) u'
    ⟨qu, fun _ h => by rw [hux hx] at h; exact Option.noConfusion h⟩
  have ht : t = t0 := by
    rw [et0] at et
    exact (Except.ok.inj et).symm
  subst ht
  have hn := hnone ⟨(id, a), objGet_mem ha, hx⟩
  exact ⟨hn, hfill trivial hn⟩

theorem resetMap_restores_unselected_witness :
    Built demo ∧ objGet demo.countries "DE" = some 4 ∧ demo.selectedCountry = none ∧
    (after (resetMap (after (updateMapData demo [("DE", "#ff0000")])))).fill 8 =
      some demo.opts.provinceFill.out :=
  ⟨by decide, by decide, by decide,
   ((resetMap_restores_unselected demo "DE" "#ff0000" 4 (by decide) (by decide) (by decide)
      (by decide) (by decide)).2.2 8 (by decide)).2⟩

/-! ## An override set by `updateMapData` survives hover and activation -/

theorem findInProvinces_mem {s : MapState} {id : String} {ps : List Nat} {p : Nat}
    (h : findInProvinces s id ps = some p) : p ∈ ps := by
  induction ps with
  | nil => exact Option.noConfusion h
  | cons x xs ih =>
    simp only [findInProvinces] at h
    by_cases hx : idOf s.doc x = some id
    · rw [if_pos hx] at h
      rw [← Option.some.inj h]
      exact List.mem_cons_self _ _
    · rw [if_neg hx] at h
      exact List.mem_cons_of_mem _ (ih h)

theorem findInCountries_mem {s : MapState} {id : String} {l : List (String × Nat)} {p : Nat}
    (h : findInCountries s id l = some p) : ∃ e ∈ l, p ∈ (s.provinces e.2).getD [] := by
  induction l with
  | nil => exact Option.noConfusion h
  | cons e rest ih =>
    obtain ⟨k, c⟩ := e
    simp only [findInCountries] at h
    cases hps : s.provinces c with
    | none =>
      simp only [hps] at h
      obtain ⟨e, he, hp⟩ := ih h
      exact ⟨e, List.mem_cons_of_mem _ he, hp⟩
    | some ps =>
      simp only [hps] at h
      cases hf : findInProvinces s id ps with
      | none =>
        simp only [hf] at h
        obtain ⟨e, he, hp⟩ := ih h
        exact ⟨e, List.mem_cons_of_mem _ he, hp⟩
      | some q =>
        simp only [hf] at h
        refine ⟨(k, c), List.mem_cons_self _ _, ?_⟩
        rw [← Option.some.inj h]
        simpa [hps] using findInProvinces_mem hf

theorem findInProvinces_congr {s t : MapState} (hdoc : t.doc = s.doc) (id : String)
    (ps : List Nat) : findInProvinces t id ps = findInProvinces s id ps := by
  induction ps with
  | nil => rfl
  | cons x xs ih => simp only [findInProvinces, hdoc, ih]

theorem findInCountries_congr {s t : MapState} (hdoc : t.doc = s.doc)
    (hp : t.provinces = s.provinces) (id : String) (l : List (String × Nat)) :
    findInCountries t id l = findInCountries s id l := by
  induction l with
  | nil => rfl
  | cons e rest ih =>
    obtain ⟨k, c⟩ := e
    simp only [findInCountries, hp, ih, findInProvinces_congr hdoc]

theorem lookupTarget_congr {s t : MapState} (h : SameShape s t) (id : String) :
    lookupTarget t id = lookupTarget s id := by
  obtain ⟨e1, _, _, _, e5, _, _, e8⟩ := h
  simp only [lookupTarget, findProvinceById, e8, findInCountries_congr e1 e5]

/-- The node that `updateMapData` finds for an identifier in a built map is an element
below the end of the document that has a country; it is an index entry or an entry of the
`provinces` list of one. -/
theorem lookupTarget_valid {s : MapState} (hb : Built s) {id : String} {k : Nat}
    (h : lookupTarget s id = some k) :
    isElement s.doc k = true ∧ (s.country k).isSome = true := by
  unfold lookupTarget at h
  cases hc : objGet s.countries id with
  | some c =>
    rw [hc] at h
    simp only [Option.some.injEq] at h
    subst h
    obtain ⟨h1, h2, _⟩ := built_entry hb hc
    exact ⟨isElement_of_idOf h1, by rw [h2]; rfl⟩
  | none =>
    rw [hc] at h
    obtain ⟨e, he, hp⟩ := findInCountries_mem h
    have hid := (hb.1 e he).1
    exact part_valid hb (idOf_lt hid) hp

/-- One colouring step of `updateMapData`, with any colour, on an element that has a
country: it succeeds, keeps the shape of the map and the label index, keeps the fact that
an override `c` of `n` shows as its fill, and establishes it when the step is on `n`. -/
theorem colorPath_any {s0 : MapState} {n : Nat} {c : String}
    (hel : isElement s0.doc n = true)
    (hW : idOf s0.doc n ≠ some "World") (hO : idOf s0.doc n ≠ some "Ocean")
    (hlit : isLiteralColor c = true) (color : String) (s : MapState) (y : Nat)
    (hy : isElement s0.doc y = true ∧ (s0.country y).isSome = true)
    (hQ : SameShape s0 s ∧ s.countryLabels = s0.countryLabels) :
    ∃ t, colorPath color s y = .ok t ∧
      (SameShape s0 t ∧ t.countryLabels = s0.countryLabels) ∧
      ((s.updateColor n = some c → s.fill n = some c) →
        (t.updateColor n = some c → t.fill n = some c)) ∧
      (y = n → (t.updateColor n = some c → t.fill n = some c)) := by
  obtain ⟨⟨e1, e2, e3, e4, e5, e6, e7, e8⟩, e9⟩ := hQ
  have hok : colorPath color s y = .ok (restyle (recordColor s y (some color)) y color) :=
    pathSetAttributes_ok_of_country color (by simpa [e1] using hy.1)
      (by simpa [e2] using hy.2)
  refine ⟨_, hok, ⟨⟨by simp [e1], by simp [e2], by simp [e3], by simp [e4], by simp [e5],
    by simp [e6], by simp [e7], by simp [e8]⟩, by simp [e9]⟩, ?_, ?_⟩
  · intro hJ
    have := (@colorInv_colorPath s0.doc s0.countryLabels n c hel hW hO hlit
      color s y ⟨e1, e9, hJ⟩).2.2
    rw [hok] at this
    exact this
  · intro hyn hc
    subst hyn
    rw [restyle_updateColor, recordColor_updateColor, if_pos rfl] at hc
    have hcc : color = c := Option.some.inj hc
    subst hcc
    rw [restyle_literal (by simpa [e1] using hel) (by simpa [e1] using hW)
      (by simpa [e1] using hO) hlit]
    simp [fillDirect, setAt]

theorem colorProvince_any {s0 : MapState} (hb : Built s0) {n : Nat} {c : String}
    (hel : isElement s0.doc n = true)
    (hW : idOf s0.doc n ≠ some "World") (hO : idOf s0.doc n ≠ some "Ocean")
    (hlit : isLiteralColor c = true) (color : String) (s : MapState) (p : Nat)
    (hp : isElement s0.doc p = true ∧ (s0.country p).isSome = true)
    (hQ : SameShape s0 s ∧ s.countryLabels = s0.countryLabels) :
    ∃ t, colorProvince color s p = .ok t ∧
      (SameShape s0 t ∧ t.countryLabels = s0.countryLabels) ∧
      ((s.updateColor n = some c → s.fill n = some c) →
        (t.updateColor n = some c → t.fill n = some c)) ∧
      ((n = p ∨ n ∈ (s0.provinces p).getD []) →
        (t.updateColor n = some c → t.fill n = some c)) := by
  obtain ⟨t1, e1, q1, r1, h1⟩ := colorPath_any hel hW hO hlit color s p hp hQ
  have hprov : t1.provinces p = s0.provinces p := by rw [q1.1.2.2.2.2.1]
  cases hsub : s0.provinces p with
  | none =>
    refine ⟨t1, ?_, q1, r1, ?_⟩
    · simp [colorProvince, e1, hprov, hsub]
    · rintro (h | h)
      · exact h1 h.symm
      · simp at h
  | some subs =>
    obtain ⟨t2, e2, q2, r2, h2⟩ := forEach_track
      (fun u => SameShape s0 u ∧ u.countryLabels = s0.countryLabels)
      (fun u => u.updateColor n = some c → u.fill n = some c) (fun y => y = n)
      (colorPath color) subs
      (fun u y hy hu => colorPath_any hel hW hO hlit color u y
        (part_valid hb (isElement_lt hp.1) (by simp [hsub, hy])) hu) t1 q1
    refine ⟨t2, ?_, q2, fun h => r2 (r1 h), ?_⟩
    · simp [colorProvince, e1, hprov, hsub, e2]
    · rintro (h | h)
      · exact r2 (h1 h.symm)
      · exact h2 ⟨n, by simpa using h, rfl⟩

theorem updateEntry_any {s0 : MapState} (hb : Built s0) {n : Nat} {c : String}
    (hel : isElement s0.doc n = true)
    (hW : idOf s0.doc n ≠ some "World") (hO : idOf s0.doc n ≠ some "Ocean")
    (hlit : isLiteralColor c = true) (id color : String) (s : MapState)
    (hQ : SameShape s0 s ∧ s.countryLabels = s0.countryLabels) :
    ∃ t, updateEntry s id color = .ok t ∧
      (SameShape s0 t ∧ t.countryLabels = s0.countryLabels) ∧
      ((s.updateColor n = some c → s.fill n = some c) →
        (t.updateColor n = some c → t.fill n = some c)) ∧
      (n ∈ updateTargets s0 id → (t.updateColor n = some c → t.fill n = some c)) := by
  have hl : lookupTarget s id = lookupTarget s0 id := lookupTarget_congr hQ.1 id
  cases hk : lookupTarget s0 id with
  | none =>
    refine ⟨s, by simp [updateEntry, hl, hk], hQ, fun h => h, ?_⟩
    intro h
    simp [updateTargets, hk] at h
  | some k =>
    have hv := lookupTarget_valid hb hk
    have hprov : s.provinces k = s0.provinces k := by rw [hQ.1.2.2.2.2.1]
    cases hps : s0.provinces k with
    | none =>
      obtain ⟨t, e, q, r, h⟩ := colorPath_any hel hW hO hlit color s k hv hQ
      refine ⟨t, by simp [updateEntry, hl, hk, hprov, hps, e], q, r, ?_⟩
      intro hn
      simp only [updateTargets, hk, hps, List.mem_singleton] at hn
      exact h hn.symm
    | some ps =>
      obtain ⟨t, e, q, r, h⟩ := forEach_track
        (fun u => SameShape s0 u ∧ u.countryLabels = s0.countryLabels)
        (fun u => u.updateColor n = some c → u.fill n = some c)
        (fun p => n = p ∨ n ∈ (s0.provinces p).getD []) (colorProvince color) ps
        (fun u p hp hu => colorProvince_any hb hel hW hO hlit color u p
          (part_valid hb (isElement_lt hv.1) (by simp [hps, hp])) hu) s hQ
      refine ⟨t, by simp [updateEntry, hl, hk, hprov, hps, e], q, r, ?_⟩
      intro hn
      simp only [updateTargets, hk, hps] at hn
      rcases mem_expand.mp hn with h1 | ⟨q', hq', h2⟩
      · exact h ⟨n, h1, Or.inl rfl⟩
      · exact h ⟨q', hq', Or.inr h2⟩

/-- In a built map `updateMapData` runs without a fault, keeps the shape of the map and
the label index, and when an entry of the data has the node `n` among its targets, an
override `c` of `n` in the state reached shows as the fill of `n`. -/
theorem updateMapData_any {s0 : MapState} (hb : Built s0) {n : Nat} {c : String}
    (hel : isElement s0.doc n = true)
    (hW : idOf s0.doc n ≠ some "World") (hO : idOf s0.doc n ≠ some "Ocean")
    (hlit : isLiteralColor c = true) (data : Obj String) (s : MapState)
    (hQ : SameShape s0 s ∧ s.countryLabels = s0.countryLabels) :
    ∃ t, updateMapData s data = .ok t ∧
      (SameShape s0 t ∧ t.countryLabels = s0.countryLabels) ∧
      ((s.updateColor n = some c → s.fill n = some c) →
        (t.updateColor n = some c → t.fill n = some c)) ∧
      ((∃ e ∈ data, n ∈ updateTargets s0 e.1) →
        (t.updateColor n = some c → t.fill n = some c)) := by
  induction data generalizing s with
  | nil =>
    exact ⟨s, rfl, hQ, id, fun ⟨e, he, _⟩ => absurd he (List.not_mem_nil e)⟩
  | cons e rest ih =>
    obtain ⟨id, color⟩ := e
    obtain ⟨t1, e1, q1, r1, h1⟩ := updateEntry_any hb hel hW hO hlit id color s hQ
    obtain ⟨t2, e2, q2, r2, h2⟩ := ih t1 q1
    refine ⟨t2, by simp only [updateMapData, e1, andThen_ok, e2], q2, fun h => r2 (r1 h), ?_⟩
    rintro ⟨e, he, hn⟩
    rcases List.mem_cons.mp he with h | h
    · subst h
      exact r2 (h1 hn)
    · exact h2 ⟨e, h, hn⟩

/-- Claim C6.  In a built map, let `n` be a province or subprovince (an entry of some
`provinces` list) that `updateMapData(data)` has set the override of, `n` being a target
of an entry of `data`, and let the override of `n` after the call be the literal colour
`c`.  Then after every sequence of hover and activation turns (`countryOver`,
`countryOut`, `countryClick`, the mouse listeners for over, out and click, on any
identifiers and targets, faulting turns included), the `updateColor` of `n` is still `c`
and its `fill` attribute is `c`.  The keys of `data` are not names inherited from
`Object.prototype`. -/
theorem updateColor_survives_transitions (s0 : MapState) (hb : Built s0) (data : Obj String)
    (m n : Nat) (c : String) (hm : m < s0.doc.length) (hn : n ∈ (s0.provinces m).getD [])
    (hlit : isLiteralColor c = true)
    (_hkeys : ∀ e ∈ data, e.1 ∉ inheritedNames)
    (hset : ∃ e ∈ data, n ∈ updateTargets s0 e.1)
    (hafter : (after (updateMapData s0 data)).updateColor n = some c)
    (ts : List Transition) :
    (run (after (updateMapData s0 data)) ts).updateColor n = some c ∧
    (run (after (updateMapData s0 data)) ts).fill n = some c := by
  obtain ⟨hel, hW, hO, htag, hcn, hbp⟩ := hb.2.1 m hm n hn
  have hcountry : s0.country n ≠ none := by
    intro e
    rw [e] at hbp
    simp at hbp
  have hlab : ∀ e ∈ s0.countryLabels, e.2 ≠ n := by
    intro e he en
    have := (hb.2.2 e he).1
    rw [en] at this
    exact hcountry this
  obtain ⟨t, e, ⟨q, ql⟩, _, hJ⟩ :=
    updateMapData_any hb hel hW hO hlit data s0 ⟨sameShape_refl s0, rfl⟩
  rw [e] at hafter ⊢
  have hstart : Overridden s0.doc s0.countryLabels n c (after (.ok t)) :=
    ⟨q.1, ql, hafter, hJ hset hafter⟩
  obtain ⟨_, _, r3, r4⟩ := stable_run (stable_overridden htag hlab) ts _ hstart
  exact ⟨r3, r4⟩

theorem updateColor_survives_transitions_witness :
    Built (after (updateMapData demo [("DE", "#ff0000")])) ∧
    6 ∈ ((after (updateMapData demo [("DE", "#ff0000")])).provinces 4).getD [] ∧
    (after (updateMapData demo [("DE", "#ff0000")])).updateColor 6 = some "#ff0000" ∧
    (after (updateMapData (after (updateMapData demo [("DE", "#ff0000")]))
      [("FR", "#00ff00"), ("DE-BY", "#ff0000")])).updateColor 6 = some "#ff0000" ∧
    (run (after (updateMapData (after (updateMapData demo [("DE", "#ff0000")]))
        [("FR", "#00ff00"), ("DE-BY", "#ff0000")]))
      [Transition.countryOver "DE", Transition.provinceClick 6, Transition.countryClick "FR",
       Transition.countryClick "constructor", Transition.provinceOut 6]).fill 6 =
      some "#ff0000" :=
  ⟨by decide, by decide, by decide, by decide,
   (updateColor_survives_transitions (after (updateMapData demo [("DE", "#ff0000")]))
      (by decide) [("FR", "#00ff00"), ("DE-BY", "#ff0000")] 4 6 "#ff0000"
      (by decide) (by decide) (by decide) (by decide)
      ⟨("DE-BY", "#ff0000"), by decide, by decide⟩ (by decide)
      [Transition.countryOver "DE", Transition.provinceClick 6, Transition.countryClick "FR",
       Transition.countryClick "constructor", Transition.provinceOut 6]).2⟩
/-! ## Frame lemmas for the elementary writes of the hierarchy builder -/

@[simp] theorem setStyleFill_doc (s : MapState) (n : Nat) (value : String) :
    (setStyleFill s n value).doc = s.doc := rfl

@[simp] theorem setStyleFill_opts (s : MapState) (n : Nat) (value : String) :
    (setStyleFill s n value).opts = s.opts := rfl

@[simp] theorem setStyleFill_countryData (s : MapState) (n : Nat) (value : String) :
    (setStyleFill s n value).countryData = s.countryData := rfl

@[simp] theorem setStyleFill_globalFns (s : MapState) (n : Nat) (value : String) :
    (setStyleFill s n value).globalFns = s.globalFns := rfl

@[simp] theorem setStyleFill_countries (s : MapState) (n : Nat) (value : String) :
    (setStyleFill s n value).countries = s.countries := rfl

@[simp] theorem setStyleFill_countryLabels (s : MapState) (n : Nat) (value : String) :
    (setStyleFill s n value).countryLabels = s.countryLabels := rfl

@[simp] theorem setStyleFill_removed (s : MapState) (n : Nat) (value : String) :
    (setStyleFill s n value).removed = s.removed := rfl

@[simp] theorem setStyleFill_country (s : MapState) (n : Nat) (value : String) :
    (setStyleFill s n value).country = s.country := rfl

@[simp] theorem setStyleFill_border (s : MapState) (n : Nat) (value : String) :
    (setStyleFill s n value).border = s.border := rfl

@[simp] theorem setStyleFill_provinces (s : MapState) (n : Nat) (value : String) :
    (setStyleFill s n value).provinces = s.provinces := rfl

@[simp] theorem setStyleFill_updateColor (s : MapState) (n : Nat) (value : String) :
    (setStyleFill s n value).updateColor = s.updateColor := rfl

@[simp] theorem setStyleFill_selectedCountry (s : MapState) (n : Nat) (value : String) :
    (setStyleFill s n value).selectedCountry = s.selectedCountry := rfl

@[simp] theorem setStyleStroke_doc (s : MapState) (n : Nat) (value : String) :
    (setStyleStroke s n value).doc = s.doc := rfl

@[simp] theorem setStyleStroke_opts (s : MapState) (n : Nat) (value : String) :
    (setStyleStroke s n value).opts = s.opts := rfl

@[simp] theorem setStyleStroke_countryData (s : MapState) (n : Nat) (value : String) :
    (setStyleStroke s n value).countryData = s.countryData := rfl

@[simp] theorem setStyleStroke_globalFns (s : MapState) (n : Nat) (value : String) :
    (setStyleStroke s n value).globalFns = s.globalFns := rfl

@[simp] theorem setStyleStroke_countries (s : MapState) (n : Nat) (value : String) :
    (setStyleStroke s n value).countries = s.countries := rfl

@[simp] theorem setStyleStroke_countryLabels (s : MapState) (n : Nat) (value : String) :
    (setStyleStroke s n value).countryLabels = s.countryLabels := rfl

@[simp] theorem setStyleStroke_removed (s : MapState) (n : Nat) (value : String) :
    (setStyleStroke s n value).removed = s.removed := rfl

@[simp] theorem setStyleStroke_country (s : MapState) (n : Nat) (value : String) :
    (setStyleStroke s n value).country = s.country := rfl

@[simp] theorem setStyleStroke_border (s : MapState) (n : Nat) (value : String) :
    (setStyleStroke s n value).border = s.border := rfl

@[simp] theorem setStyleStroke_provinces (s : MapState) (n : Nat) (value : String) :
    (setStyleStroke s n value).provinces = s.provinces := rfl

@[simp] theorem setStyleStroke_updateColor (s : MapState) (n : Nat) (value : String) :
    (setStyleStroke s n value).updateColor = s.updateColor := rfl

@[simp] theorem setStyleStroke_selectedCountry (s : MapState) (n : Nat) (value : String) :
    (setStyleStroke s n value).selectedCountry = s.selectedCountry := rfl

@[simp] theorem setDisplay_doc (s : MapState) (n : Nat) (value : String) :
    (setDisplay s n value).doc = s.doc := rfl

@[simp] theorem setDisplay_opts (s : MapState) (n : Nat) (value : String) :
    (setDisplay s n value).opts = s.opts := rfl

@[simp] theorem setDisplay_countryData (s : MapState) (n : Nat) (value : String) :
    (setDisplay s n value).countryData = s.countryData := rfl

@[simp] theorem setDisplay_globalFns (s : MapState) (n : Nat) (value : String) :
    (setDisplay s n value).globalFns = s.globalFns := rfl

@[simp] theorem setDisplay_countries (s : MapState) (n : Nat) (value : String) :
    (setDisplay s n value).countries = s.countries := rfl

@[simp] theorem setDisplay_countryLabels (s : MapState) (n : Nat) (value : String) :
    (setDisplay s n value).countryLabels = s.countryLabels := rfl

@[simp] theorem setDisplay_removed (s : MapState) (n : Nat) (value : String) :
    (setDisplay s n value).removed = s.removed := rfl

@[simp] theorem setDisplay_country (s : MapState) (n : Nat) (value : String) :
    (setDisplay s n value).country = s.country := rfl

@[simp] theorem setDisplay_border (s : MapState) (n : Nat) (value : String) :
    (setDisplay s n value).border = s.border := rfl

@[simp] theorem setDisplay_provinces (s : MapState) (n : Nat) (value : String) :
    (setDisplay s n value).provinces = s.provinces := rfl

@[simp] theorem setDisplay_updateColor (s : MapState) (n : Nat) (value : String) :
    (setDisplay s n value).updateColor = s.updateColor := rfl

@[simp] theorem setDisplay_selectedCountry (s : MapState) (n : Nat) (value : String) :
    (setDisplay s n value).selectedCountry = s.selectedCountry := rfl

@[simp] theorem setFill_doc (s : MapState) (n : Nat) (value : String) :
    (setFill s n value).doc = s.doc := rfl

@[simp] theorem setFill_opts (s : MapState) (n : Nat) (value : String) :
    (setFill s n value).opts = s.opts := rfl

@[simp] theorem setFill_countryData (s : MapState) (n : Nat) (value : String) :
    (setFill s n value).countryData = s.countryData := rfl

@[simp] theorem setFill_globalFns (s : MapState) (n : Nat) (value : String) :
    (setFill s n value).globalFns = s.globalFns := rfl

@[simp] theorem setFill_countries (s : MapState) (n : Nat) (value : String) :
    (setFill s n value).countries = s.countries := rfl

@[simp] theorem setFill_countryLabels (s : MapState) (n : Nat) (value : String) :
    (setFill s n value).countryLabels = s.countryLabels := rfl

@[simp] theorem setFill_removed (s : MapState) (n : Nat) (value : String) :
    (setFill s n value).removed = s.removed := rfl

@[simp] theorem setFill_country (s : MapState) (n : Nat) (value : String) :
    (setFill s n value).country = s.country := rfl

@[simp] theorem setFill_border (s : MapState) (n : Nat) (value : String) :
    (setFill s n value).border = s.border := rfl

@[simp] theorem setFill_provinces (s : MapState) (n : Nat) (value : String) :
    (setFill s n value).provinces = s.provinces := rfl

@[simp] theorem setFill_updateColor (s : MapState) (n : Nat) (value : String) :
    (setFill s n value).updateColor = s.updateColor := rfl

@[simp] theorem setFill_selectedCountry (s : MapState) (n : Nat) (value : String) :
    (setFill s n value).selectedCountry = s.selectedCountry := rfl

@[simp] theorem setText_doc (s : MapState) (n : Nat) (value : String) :
    (setText s n value).doc = s.doc := rfl

@[simp] theorem setText_opts (s : MapState) (n : Nat) (value : String) :
    (setText s n value).opts = s.opts := rfl

@[simp] theorem setText_countryData (s : MapState) (n : Nat) (value : String) :
    (setText s n value).countryData = s.countryData := rfl

@[simp] theorem setText_globalFns (s : MapState) (n : Nat) (value : String) :
    (setText s n value).globalFns = s.globalFns := rfl

@[simp] theorem setText_countries (s : MapState) (n : Nat) (value : String) :
    (setText s n value).countries = s.countries := rfl

@[simp] theorem setText_countryLabels (s : MapState) (n : Nat) (value : String) :
    (setText s n value).countryLabels = s.countryLabels := rfl

@[simp] theorem setText_removed (s : MapState) (n : Nat) (value : String) :
    (setText s n value).removed = s.removed := rfl

@[simp] theorem setText_country (s : MapState) (n : Nat) (value : String) :
    (setText s n value).country = s.country := rfl

@[simp] theorem setText_border (s : MapState) (n : Nat) (value : String) :
    (setText s n value).border = s.border := rfl

@[simp] theorem setText_provinces (s : MapState) (n : Nat) (value : String) :
    (setText s n value).provinces = s.provinces := rfl

@[simp] theorem setText_updateColor (s : MapState) (n : Nat) (value : String) :
    (setText s n value).updateColor = s.updateColor := rfl

@[simp] theorem setText_selectedCountry (s : MapState) (n : Nat) (value : String) :
    (setText s n value).selectedCountry = s.selectedCountry := rfl

@[simp] theorem setMicrostate_doc (s : MapState) (n : Nat) (value : Bool) :
    (setMicrostate s n value).doc = s.doc := rfl

@[simp] theorem setMicrostate_opts (s : MapState) (n : Nat) (value : Bool) :
    (setMicrostate s n value).opts = s.opts := rfl

@[simp] theorem setMicrostate_countryData (s : MapState) (n : Nat) (value : Bool) :
    (setMicrostate s n value).countryData = s.countryData := rfl

@[simp] theorem setMicrostate_globalFns (s : MapState) (n : Nat) (value : Bool) :
    (setMicrostate s n value).globalFns = s.globalFns := rfl

@[simp] theorem setMicrostate_countries (s : MapState) (n : Nat) (value : Bool) :
    (setMicrostate s n value).countries = s.countries := rfl

@[simp] theorem setMicrostate_countryLabels (s : MapState) (n : Nat) (value : Bool) :
    (setMicrostate s n value).countryLabels = s.countryLabels := rfl

@[simp] theorem setMicrostate_removed (s : MapState) (n : Nat) (value : Bool) :
    (setMicrostate s n value).removed = s.removed := rfl

@[simp] theorem setMicrostate_country (s : MapState) (n : Nat) (value : Bool) :
    (setMicrostate s n value).country = s.country := rfl

@[simp] theorem setMicrostate_border (s : MapState) (n : Nat) (value : Bool) :
    (setMicrostate s n value).border = s.border := rfl

@[simp] theorem setMicrostate_provinces (s : MapState) (n : Nat) (value : Bool) :
    (setMicrostate s n value).provinces = s.provinces := rfl

@[simp] theorem setMicrostate_updateColor (s : MapState) (n : Nat) (value : Bool) :
    (setMicrostate s n value).updateColor = s.updateColor := rfl

@[simp] theorem setMicrostate_selectedCountry (s : MapState) (n : Nat) (value : Bool) :
    (setMicrostate s n value).selectedCountry = s.selectedCountry := rfl

@[simp] theorem putLabel_doc (s : MapState) (key : String) (label : Nat) :
    (putLabel s key label).doc = s.doc := rfl

@[simp] theorem putLabel_opts (s : MapState) (key : String) (label : Nat) :
    (putLabel s key label).opts = s.opts := rfl

@[simp] theorem putLabel_countryData (s : MapState) (key : String) (label : Nat) :
    (putLabel s key label).countryData = s.countryData := rfl

@[simp] theorem putLabel_globalFns (s : MapState) (key : String) (label : Nat) :
    (putLabel s key label).globalFns = s.globalFns := rfl

@[simp] theorem putLabel_countries (s : MapState) (key : String) (label : Nat) :
    (putLabel s key label).countries = s.countries := rfl

@[simp] theorem putLabel_removed (s : MapState) (key : String) (label : Nat) :
    (putLabel s key label).removed = s.removed := rfl

@[simp] theorem putLabel_country (s : MapState) (key : String) (label : Nat) :
    (putLabel s key label).country = s.country := rfl

@[simp] theorem putLabel_border (s : MapState) (key : String) (label : Nat) :
    (putLabel s key label).border = s.border := rfl

@[simp] theorem putLabel_provinces (s : MapState) (key : String) (label : Nat) :
    (putLabel s key label).provinces = s.provinces := rfl

@[simp] theorem putLabel_updateColor (s : MapState) (key : String) (label : Nat) :
    (putLabel s key label).updateColor = s.updateColor := rfl

@[simp] theorem putLabel_selectedCountry (s : MapState) (key : String) (label : Nat) :
    (putLabel s key label).selectedCountry = s.selectedCountry := rfl

@[simp] theorem detach_doc (s : MapState) (n : Nat) :
    (detach s n).doc = s.doc := rfl

@[simp] theorem detach_opts (s : MapState) (n : Nat) :
    (detach s n).opts = s.opts := rfl

@[simp] theorem detach_countryData (s : MapState) (n : Nat) :
    (detach s n).countryData = s.countryData := rfl

@[simp] theorem detach_globalFns (s : MapState) (n : Nat) :
    (detach s n).globalFns = s.globalFns := rfl

@[simp] theorem detach_countries (s : MapState) (n : Nat) :
    (detach s n).countries = s.countries := rfl

@[simp] theorem detach_countryLabels (s : MapState) (n : Nat) :
    (detach s n).countryLabels = s.countryLabels := rfl

@[simp] theorem detach_country (s : MapState) (n : Nat) :
    (detach s n).country = s.country := rfl

@[simp] theorem detach_border (s : MapState) (n : Nat) :
    (detach s n).border = s.border := rfl

@[simp] theorem detach_provinces (s : MapState) (n : Nat) :
    (detach s n).provinces = s.provinces := rfl

@[simp] theorem detach_updateColor (s : MapState) (n : Nat) :
    (detach s n).updateColor = s.updateColor := rfl

@[simp] theorem detach_selectedCountry (s : MapState) (n : Nat) :
    (detach s n).selectedCountry = s.selectedCountry := rfl

@[simp] theorem dropCountry_doc (s : MapState) (key : String) :
    (dropCountry s key).doc = s.doc := rfl

@[simp] theorem dropCountry_opts (s : MapState) (key : String) :
    (dropCountry s key).opts = s.opts := rfl

@[simp] theorem dropCountry_countryData (s : MapState) (key : String) :
    (dropCountry s key).countryData = s.countryData := rfl

@[simp] theorem dropCountry_globalFns (s : MapState) (key : String) :
    (dropCountry s key).globalFns = s.globalFns := rfl

@[simp] theorem dropCountry_countryLabels (s : MapState) (key : String) :
    (dropCountry s key).countryLabels = s.countryLabels := rfl

@[simp] theorem dropCountry_removed (s : MapState) (key : String) :
    (dropCountry s key).removed = s.removed := rfl

@[simp] theorem dropCountry_country (s : MapState) (key : String) :
    (dropCountry s key).country = s.country := rfl

@[simp] theorem dropCountry_border (s : MapState) (key : String) :
    (dropCountry s key).border = s.border := rfl

@[simp] theorem dropCountry_provinces (s : MapState) (key : String) :
    (dropCountry s key).provinces = s.provinces := rfl

@[simp] theorem dropCountry_updateColor (s : MapState) (key : String) :
    (dropCountry s key).updateColor = s.updateColor := rfl

@[simp] theorem dropCountry_selectedCountry (s : MapState) (key : String) :
    (dropCountry s key).selectedCountry = s.selectedCountry := rfl

@[simp] theorem dropLabel_doc (s : MapState) (key : String) :
    (dropLabel s key).doc = s.doc := rfl

@[simp] theorem dropLabel_opts (s : MapState) (key : String) :
    (dropLabel s key).opts = s.opts := rfl

@[simp] theorem dropLabel_countryData (s : MapState) (key : String) :
    (dropLabel s key).countryData = s.countryData := rfl

@[simp] theorem dropLabel_globalFns (s : MapState) (key : String) :
    (dropLabel s key).globalFns = s.globalFns := rfl

@[simp] theorem dropLabel_countries (s : MapState) (key : String) :
    (dropLabel s key).countries = s.countries := rfl

@[simp] theorem dropLabel_removed (s : MapState) (key : String) :
    (dropLabel s key).removed = s.removed := rfl

@[simp] theorem dropLabel_country (s : MapState) (key : String) :
    (dropLabel s key).country = s.country := rfl

@[simp] theorem dropLabel_border (s : MapState) (key : String) :
    (dropLabel s key).border = s.border := rfl

@[simp] theorem dropLabel_provinces (s : MapState) (key : String) :
    (dropLabel s key).provinces = s.provinces := rfl

@[simp] theorem dropLabel_updateColor (s : MapState) (key : String) :
    (dropLabel s key).updateColor = s.updateColor := rfl

@[simp] theorem dropLabel_selectedCountry (s : MapState) (key : String) :
    (dropLabel s key).selectedCountry = s.selectedCountry := rfl

@[simp] theorem adopt_doc (s : MapState) (n c p : Nat) :
    (adopt s n c p).doc = s.doc := rfl

@[simp] theorem adopt_opts (s : MapState) (n c p : Nat) :
    (adopt s n c p).opts = s.opts := rfl

@[simp] theorem adopt_countryData (s : MapState) (n c p : Nat) :
    (adopt s n c p).countryData = s.countryData := rfl

@[simp] theorem adopt_globalFns (s : MapState) (n c p : Nat) :
    (adopt s n c p).globalFns = s.globalFns := rfl

@[simp] theorem adopt_countries (s : MapState) (n c p : Nat) :
    (adopt s n c p).countries = s.countries := rfl

@[simp] theorem adopt_countryLabels (s : MapState) (n c p : Nat) :
    (adopt s n c p).countryLabels = s.countryLabels := rfl

@[simp] theorem adopt_removed (s : MapState) (n c p : Nat) :
    (adopt s n c p).removed = s.removed := rfl

@[simp] theorem adopt_border (s : MapState) (n c p : Nat) :
    (adopt s n c p).border = s.border := rfl

@[simp] theorem adopt_provinces (s : MapState) (n c p : Nat) :
    (adopt s n c p).provinces = s.provinces := rfl

@[simp] theorem adopt_updateColor (s : MapState) (n c p : Nat) :
    (adopt s n c p).updateColor = s.updateColor := rfl

@[simp] theorem adopt_selectedCountry (s : MapState) (n c p : Nat) :
    (adopt s n c p).selectedCountry = s.selectedCountry := rfl

@[simp] theorem setCountry_doc (s : MapState) (n c : Nat) :
    (setCountry s n c).doc = s.doc := rfl

@[simp] theorem setCountry_opts (s : MapState) (n c : Nat) :
    (setCountry s n c).opts = s.opts := rfl

@[simp] theorem setCountry_countryData (s : MapState) (n c : Nat) :
    (setCountry s n c).countryData = s.countryData := rfl

@[simp] theorem setCountry_globalFns (s : MapState) (n c : Nat) :
    (setCountry s n c).globalFns = s.globalFns := rfl

@[simp] theorem setCountry_countries (s : MapState) (n c : Nat) :
    (setCountry s n c).countries = s.countries := rfl

@[simp] theorem setCountry_countryLabels (s : MapState) (n c : Nat) :
    (setCountry s n c).countryLabels = s.countryLabels := rfl

@[simp] theorem setCountry_removed (s : MapState) (n c : Nat) :
    (setCountry s n c).removed = s.removed := rfl

@[simp] theorem setCountry_border (s : MapState) (n c : Nat) :
    (setCountry s n c).border = s.border := rfl

@[simp] theorem setCountry_provinces (s : MapState) (n c : Nat) :
    (setCountry s n c).provinces = s.provinces := rfl

@[simp] theorem setCountry_updateColor (s : MapState) (n c : Nat) :
    (setCountry s n c).updateColor = s.updateColor := rfl

@[simp] theorem setCountry_selectedCountry (s : MapState) (n c : Nat) :
    (setCountry s n c).selectedCountry = s.selectedCountry := rfl

@[simp] theorem setBorder_doc (s : MapState) (c child : Nat) :
    (setBorder s c child).doc = s.doc := rfl

@[simp] theorem setBorder_opts (s : MapState) (c child : Nat) :
    (setBorder s c child).opts = s.opts := rfl

@[simp] theorem setBorder_countryData (s : MapState) (c child : Nat) :
    (setBorder s c child).countryData = s.countryData := rfl

@[simp] theorem setBorder_globalFns (s : MapState) (c child : Nat) :
    (setBorder s c child).globalFns = s.globalFns := rfl

@[simp] theorem setBorder_countries (s : MapState) (c child : Nat) :
    (setBorder s c child).countries = s.countries := rfl

@[simp] theorem setBorder_countryLabels (s : MapState) (c child : Nat) :
    (setBorder s c child).countryLabels = s.countryLabels := rfl

@[simp] theorem setBorder_removed (s : MapState) (c child : Nat) :
    (setBorder s c child).removed = s.removed := rfl

@[simp] theorem setBorder_country (s : MapState) (c child : Nat) :
    (setBorder s c child).country = s.country := rfl

@[simp] theorem setBorder_provinces (s : MapState) (c child : Nat) :
    (setBorder s c child).provinces = s.provinces := rfl

@[simp] theorem setBorder_updateColor (s : MapState) (c child : Nat) :
    (setBorder s c child).updateColor = s.updateColor := rfl

@[simp] theorem setBorder_selectedCountry (s : MapState) (c child : Nat) :
    (setBorder s c child).selectedCountry = s.selectedCountry := rfl

@[simp] theorem setProvinces_doc (s : MapState) (n : Nat) (list : List Nat) :
    (setProvinces s n list).doc = s.doc := rfl

@[simp] theorem setProvinces_opts (s : MapState) (n : Nat) (list : List Nat) :
    (setProvinces s n list).opts = s.opts := rfl

@[simp] theorem setProvinces_countryData (s : MapState) (n : Nat) (list : List Nat) :
    (setProvinces s n list).countryData = s.countryData := rfl

@[simp] theorem setProvinces_globalFns (s : MapState) (n : Nat) (list : List Nat) :
    (setProvinces s n list).globalFns = s.globalFns := rfl

@[simp] theorem setProvinces_countries (s : MapState) (n : Nat) (list : List Nat) :
    (setProvinces s n list).countries = s.countries := rfl

@[simp] theorem setProvinces_countryLabels (s : MapState) (n : Nat) (list : List Nat) :
    (setProvinces s n list).countryLabels = s.countryLabels := rfl

@[simp] theorem setProvinces_removed (s : MapState) (n : Nat) (list : List Nat) :
    (setProvinces s n list).removed = s.removed := rfl

@[simp] theorem setProvinces_country (s : MapState) (n : Nat) (list : List Nat) :
    (setProvinces s n list).country = s.country := rfl

@[simp] theorem setProvinces_border (s : MapState) (n : Nat) (list : List Nat) :
    (setProvinces s n list).border = s.border := rfl

@[simp] theorem setProvinces_updateColor (s : MapState) (n : Nat) (list : List Nat) :
    (setProvinces s n list).updateColor = s.updateColor := rfl

@[simp] theorem setProvinces_selectedCountry (s : MapState) (n : Nat) (list : List Nat) :
    (setProvinces s n list).selectedCountry = s.selectedCountry := rfl

@[simp] theorem mergeData_doc (s : MapState) (n : Nat) (record : Obj String) :
    (mergeData s n record).doc = s.doc := rfl

@[simp] theorem mergeData_opts (s : MapState) (n : Nat) (record : Obj String) :
    (mergeData s n record).opts = s.opts := rfl

@[simp] theorem mergeData_countryData (s : MapState) (n : Nat) (record : Obj String) :
    (mergeData s n record).countryData = s.countryData := rfl

@[simp] theorem mergeData_globalFns (s : MapState) (n : Nat) (record : Obj String) :
    (mergeData s n record).globalFns = s.globalFns := rfl

@[simp] theorem mergeData_countries (s : MapState) (n : Nat) (record : Obj String) :
    (mergeData s n record).countries = s.countries := rfl

@[simp] theorem mergeData_countryLabels (s : MapState) (n : Nat) (record : Obj String) :
    (mergeData s n record).countryLabels = s.countryLabels := rfl

@[simp] theorem mergeData_removed (s : MapState) (n : Nat) (record : Obj String) :
    (mergeData s n record).removed = s.removed := rfl

@[simp] theorem mergeData_country (s : MapState) (n : Nat) (record : Obj String) :
    (mergeData s n record).country = s.country := rfl

@[simp] theorem mergeData_border (s : MapState) (n : Nat) (record : Obj String) :
    (mergeData s n record).border = s.border := rfl

@[simp] theorem mergeData_provinces (s : MapState) (n : Nat) (record : Obj String) :
    (mergeData s n record).provinces = s.provinces := rfl

@[simp] theorem mergeData_updateColor (s : MapState) (n : Nat) (record : Obj String) :
    (mergeData s n record).updateColor = s.updateColor := rfl

@[simp] theorem mergeData_selectedCountry (s : MapState) (n : Nat) (record : Obj String) :
    (mergeData s n record).selectedCountry = s.selectedCountry := rfl

@[simp] theorem initMapControls_doc (s : MapState) :
    (initMapControls s).doc = s.doc := rfl

@[simp] theorem initMapControls_opts (s : MapState) :
    (initMapControls s).opts = s.opts := rfl

@[simp] theorem initMapControls_countryData (s : MapState) :
    (initMapControls s).countryData = s.countryData := rfl

@[simp] theorem initMapControls_globalFns (s : MapState) :
    (initMapControls s).globalFns = s.globalFns := rfl

@[simp] theorem initMapControls_countries (s : MapState) :
    (initMapControls s).countries = s.countries := rfl

@[simp] theorem initMapControls_countryLabels (s : MapState) :
    (initMapControls s).countryLabels = s.countryLabels := rfl

@[simp] theorem initMapControls_removed (s : MapState) :
    (initMapControls s).removed = s.removed := rfl

@[simp] theorem initMapControls_country (s : MapState) :
    (initMapControls s).country = s.country := rfl

@[simp] theorem initMapControls_border (s : MapState) :
    (initMapControls s).border = s.border := rfl

@[simp] theorem initMapControls_provinces (s : MapState) :
    (initMapControls s).provinces = s.provinces := rfl

@[simp] theorem initMapControls_updateColor (s : MapState) :
    (initMapControls s).updateColor = s.updateColor := rfl

@[simp] theorem initMapControls_selectedCountry (s : MapState) :
    (initMapControls s).selectedCountry = s.selectedCountry := rfl

@[simp] theorem buildCountryGroups_doc (s : MapState) :
    (buildCountryGroups s).doc = s.doc := rfl

@[simp] theorem buildCountryGroups_opts (s : MapState) :
    (buildCountryGroups s).opts = s.opts := rfl

@[simp] theorem buildCountryGroups_countryData (s : MapState) :
    (buildCountryGroups s).countryData = s.countryData := rfl

@[simp] theorem buildCountryGroups_globalFns (s : MapState) :
    (buildCountryGroups s).globalFns = s.globalFns := rfl

@[simp] theorem buildCountryGroups_countries (s : MapState) :
    (buildCountryGroups s).countries = s.countries := rfl

@[simp] theorem buildCountryGroups_countryLabels (s : MapState) :
    (buildCountryGroups s).countryLabels = s.countryLabels := rfl

@[simp] theorem buildCountryGroups_removed (s : MapState) :
    (buildCountryGroups s).removed = s.removed := rfl

@[simp] theorem buildCountryGroups_country (s : MapState) :
    (buildCountryGroups s).country = s.country := rfl

@[simp] theorem buildCountryGroups_border (s : MapState) :
    (buildCountryGroups s).border = s.border := rfl

@[simp] theorem buildCountryGroups_provinces (s : MapState) :
    (buildCountryGroups s).provinces = s.provinces := rfl

@[simp] theorem buildCountryGroups_updateColor (s : MapState) :
    (buildCountryGroups s).updateColor = s.updateColor := rfl

@[simp] theorem buildCountryGroups_selectedCountry (s : MapState) :
    (buildCountryGroups s).selectedCountry = s.selectedCountry := rfl

@[simp] theorem indexMap_doc (s : MapState) :
    (indexMap s).doc = s.doc := rfl

@[simp] theorem indexMap_opts (s : MapState) :
    (indexMap s).opts = s.opts := rfl

@[simp] theorem indexMap_countryData (s : MapState) :
    (indexMap s).countryData = s.countryData := rfl

@[simp] theorem indexMap_globalFns (s : MapState) :
    (indexMap s).globalFns = s.globalFns := rfl

@[simp] theorem indexMap_countryLabels (s : MapState) :
    (indexMap s).countryLabels = s.countryLabels := rfl

@[simp] theorem indexMap_removed (s : MapState) :
    (indexMap s).removed = s.removed := rfl

@[simp] theorem indexMap_country (s : MapState) :
    (indexMap s).country = s.country := rfl

@[simp] theorem indexMap_border (s : MapState) :
    (indexMap s).border = s.border := rfl

@[simp] theorem indexMap_provinces (s : MapState) :
    (indexMap s).provinces = s.provinces := rfl

@[simp] theorem indexMap_updateColor (s : MapState) :
    (indexMap s).updateColor = s.updateColor := rfl

@[simp] theorem indexMap_selectedCountry (s : MapState) :
    (indexMap s).selectedCountry = s.selectedCountry := rfl

@[simp] theorem sortCountries_doc (s : MapState) :
    (sortCountries s).doc = s.doc := rfl

@[simp] theorem sortCountries_opts (s : MapState) :
    (sortCountries s).opts = s.opts := rfl

@[simp] theorem sortCountries_countryData (s : MapState) :
    (sortCountries s).countryData = s.countryData := rfl

@[simp] theorem sortCountries_globalFns (s : MapState) :
    (sortCountries s).globalFns = s.globalFns := rfl

@[simp] theorem sortCountries_countryLabels (s : MapState) :
    (sortCountries s).countryLabels = s.countryLabels := rfl

@[simp] theorem sortCountries_removed (s : MapState) :
    (sortCountries s).removed = s.removed := rfl

@[simp] theorem sortCountries_country (s : MapState) :
    (sortCountries s).country = s.country := rfl

@[simp] theorem sortCountries_border (s : MapState) :
    (sortCountries s).border = s.border := rfl

@[simp] theorem sortCountries_provinces (s : MapState) :
    (sortCountries s).provinces = s.provinces := rfl

@[simp] theorem sortCountries_updateColor (s : MapState) :
    (sortCountries s).updateColor = s.updateColor := rfl

@[simp] theorem sortCountries_selectedCountry (s : MapState) :
    (sortCountries s).selectedCountry = s.selectedCountry := rfl

@[simp] theorem hideOcean_doc (s : MapState) (o : Nat) :
    (hideOcean s o).doc = s.doc := by
  unfold hideOcean; split <;> rfl

@[simp] theorem hideOcean_opts (s : MapState) (o : Nat) :
    (hideOcean s o).opts = s.opts := by
  unfold hideOcean; split <;> rfl

@[simp] theorem hideOcean_countryData (s : MapState) (o : Nat) :
    (hideOcean s o).countryData = s.countryData := by
  unfold hideOcean; split <;> rfl

@[simp] theorem hideOcean_globalFns (s : MapState) (o : Nat) :
    (hideOcean s o).globalFns = s.globalFns := by
  unfold hideOcean; split <;> rfl

@[simp] theorem hideOcean_countries (s : MapState) (o : Nat) :
    (hideOcean s o).countries = s.countries := by
  unfold hideOcean; split <;> rfl

@[simp] theorem hideOcean_countryLabels (s : MapState) (o : Nat) :
    (hideOcean s o).countryLabels = s.countryLabels := by
  unfold hideOcean; split <;> rfl

@[simp] theorem hideOcean_removed (s : MapState) (o : Nat) :
    (hideOcean s o).removed = s.removed := by
  unfold hideOcean; split <;> rfl

@[simp] theorem hideOcean_country (s : MapState) (o : Nat) :
    (hideOcean s o).country = s.country := by
  unfold hideOcean; split <;> rfl

@[simp] theorem hideOcean_border (s : MapState) (o : Nat) :
    (hideOcean s o).border = s.border := by
  unfold hideOcean; split <;> rfl

@[simp] theorem hideOcean_provinces (s : MapState) (o : Nat) :
    (hideOcean s o).provinces = s.provinces := by
  unfold hideOcean; split <;> rfl

@[simp] theorem hideOcean_updateColor (s : MapState) (o : Nat) :
    (hideOcean s o).updateColor = s.updateColor := by
  unfold hideOcean; split <;> rfl

@[simp] theorem hideOcean_selectedCountry (s : MapState) (o : Nat) :
    (hideOcean s o).selectedCountry = s.selectedCountry := by
  unfold hideOcean; split <;> rfl

@[simp] theorem renameLabel_doc (s : MapState) (label : Nat) (record : Obj String) :
    (renameLabel s label record).doc = s.doc := by
  unfold renameLabel; split <;> rfl

@[simp] theorem renameLabel_opts (s : MapState) (label : Nat) (record : Obj String) :
    (renameLabel s label record).opts = s.opts := by
  unfold renameLabel; split <;> rfl

@[simp] theorem renameLabel_countryData (s : MapState) (label : Nat) (record : Obj String) :
    (renameLabel s label record).countryData = s.countryData := by
  unfold renameLabel; split <;> rfl

@[simp] theorem renameLabel_globalFns (s : MapState) (label : Nat) (record : Obj String) :
    (renameLabel s label record).globalFns = s.globalFns := by
  unfold renameLabel; split <;> rfl

@[simp] theorem renameLabel_countries (s : MapState) (label : Nat) (record : Obj String) :
    (renameLabel s label record).countries = s.countries := by
  unfold renameLabel; split <;> rfl

@[simp] theorem renameLabel_countryLabels (s : MapState) (label : Nat) (record : Obj String) :
    (renameLabel s label record).countryLabels = s.countryLabels := by
  unfold renameLabel; split <;> rfl

@[simp] theorem renameLabel_removed (s : MapState) (label : Nat) (record : Obj String) :
    (renameLabel s label record).removed = s.removed := by
  unfold renameLabel; split <;> rfl

@[simp] theorem renameLabel_country (s : MapState) (label : Nat) (record : Obj String) :
    (renameLabel s label record).country = s.country := by
  unfold renameLabel; split <;> rfl

@[simp] theorem renameLabel_border (s : MapState) (label : Nat) (record : Obj String) :
    (renameLabel s label record).border = s.border := by
  unfold renameLabel; split <;> rfl

@[simp] theorem renameLabel_provinces (s : MapState) (label : Nat) (record : Obj String) :
    (renameLabel s label record).provinces = s.provinces := by
  unfold renameLabel; split <;> rfl

@[simp] theorem renameLabel_updateColor (s : MapState) (label : Nat) (record : Obj String) :
    (renameLabel s label record).updateColor = s.updateColor := by
  unfold renameLabel; split <;> rfl

@[simp] theorem renameLabel_selectedCountry (s : MapState) (label : Nat) (record : Obj String) :
    (renameLabel s label record).selectedCountry = s.selectedCountry := by
  unfold renameLabel; split <;> rfl

@[simp] theorem hideMicroLabel_doc (s : MapState) (label : Nat) :
    (hideMicroLabel s label).doc = s.doc := by
  unfold hideMicroLabel; split <;> rfl

@[simp] theorem hideMicroLabel_opts (s : MapState) (label : Nat) :
    (hideMicroLabel s label).opts = s.opts := by
  unfold hideMicroLabel; split <;> rfl

@[simp] theorem hideMicroLabel_countryData (s : MapState) (label : Nat) :
    (hideMicroLabel s label).countryData = s.countryData := by
  unfold hideMicroLabel; split <;> rfl

@[simp] theorem hideMicroLabel_globalFns (s : MapState) (label : Nat) :
    (hideMicroLabel s label).globalFns = s.globalFns := by
  unfold hideMicroLabel; split <;> rfl

@[simp] theorem hideMicroLabel_countries (s : MapState) (label : Nat) :
    (hideMicroLabel s label).countries = s.countries := by
  unfold hideMicroLabel; split <;> rfl

@[simp] theorem hideMicroLabel_countryLabels (s : MapState) (label : Nat) :
    (hideMicroLabel s label).countryLabels = s.countryLabels := by
  unfold hideMicroLabel; split <;> rfl

@[simp] theorem hideMicroLabel_removed (s : MapState) (label : Nat) :
    (hideMicroLabel s label).removed = s.removed := by
  unfold hideMicroLabel; split <;> rfl

@[simp] theorem hideMicroLabel_country (s : MapState) (label : Nat) :
    (hideMicroLabel s label).country = s.country := by
  unfold hideMicroLabel; split <;> rfl

@[simp] theorem hideMicroLabel_border (s : MapState) (label : Nat) :
    (hideMicroLabel s label).border = s.border := by
  unfold hideMicroLabel; split <;> rfl

@[simp] theorem hideMicroLabel_provinces (s : MapState) (label : Nat) :
    (hideMicroLabel s label).provinces = s.provinces := by
  unfold hideMicroLabel; split <;> rfl

@[simp] theorem hideMicroLabel_updateColor (s : MapState) (label : Nat) :
    (hideMicroLabel s label).updateColor = s.updateColor := by
  unfold hideMicroLabel; split <;> rfl

@[simp] theorem hideMicroLabel_selectedCountry (s : MapState) (label : Nat) :
    (hideMicroLabel s label).selectedCountry = s.selectedCountry := by
  unfold hideMicroLabel; split <;> rfl

@[simp] theorem putLabel_countryLabels (s : MapState) (key : String) (label : Nat) :
    (putLabel s key label).countryLabels = objSet s.countryLabels key label := rfl

@[simp] theorem detach_removed (s : MapState) (n : Nat) :
    (detach s n).removed = n :: s.removed := rfl

@[simp] theorem dropCountry_countries (s : MapState) (key : String) :
    (dropCountry s key).countries = objDelete s.countries key := rfl

@[simp] theorem dropLabel_countryLabels (s : MapState) (key : String) :
    (dropLabel s key).countryLabels = objDelete s.countryLabels key := rfl

@[simp] theorem indexMap_countries (s : MapState) :
    (indexMap s).countries = indexCountries s.doc (baseChildNodes s.doc) s.countries := rfl

@[simp] theorem sortCountries_countries (s : MapState) :
    (sortCountries s).countries = sortObject s.countries := rfl

theorem adopt_country (s : MapState) (n c p m : Nat) :
    (adopt s n c p).country m = if m = n then some c else s.country m := rfl

theorem setCountry_country (s : MapState) (n c m : Nat) :
    (setCountry s n c).country m = if m = n then some c else s.country m := rfl

theorem setBorder_border (s : MapState) (c child m : Nat) :
    (setBorder s c child).border m = if m = c then some child else s.border m := rfl

theorem setProvinces_provinces (s : MapState) (n : Nat) (list : List Nat) (m : Nat) :
    (setProvinces s n list).provinces m = if m = n then some list else s.provinces m := rfl
/-! ## Further frame lemmas for the elementary writes -/

@[simp] theorem setStyleFill_countryGroups (s : MapState) (n : Nat) (value : String) :
    (setStyleFill s n value).countryGroups = s.countryGroups := rfl

@[simp] theorem setStyleStroke_countryGroups (s : MapState) (n : Nat) (value : String) :
    (setStyleStroke s n value).countryGroups = s.countryGroups := rfl

@[simp] theorem setDisplay_countryGroups (s : MapState) (n : Nat) (value : String) :
    (setDisplay s n value).countryGroups = s.countryGroups := rfl

@[simp] theorem setFill_countryGroups (s : MapState) (n : Nat) (value : String) :
    (setFill s n value).countryGroups = s.countryGroups := rfl

@[simp] theorem setText_countryGroups (s : MapState) (n : Nat) (value : String) :
    (setText s n value).countryGroups = s.countryGroups := rfl

@[simp] theorem setMicrostate_countryGroups (s : MapState) (n : Nat) (value : Bool) :
    (setMicrostate s n value).countryGroups = s.countryGroups := rfl

@[simp] theorem putLabel_countryGroups (s : MapState) (key : String) (label : Nat) :
    (putLabel s key label).countryGroups = s.countryGroups := rfl

@[simp] theorem detach_countryGroups (s : MapState) (n : Nat) :
    (detach s n).countryGroups = s.countryGroups := rfl

@[simp] theorem dropCountry_countryGroups (s : MapState) (key : String) :
    (dropCountry s key).countryGroups = s.countryGroups := rfl

@[simp] theorem dropLabel_countryGroups (s : MapState) (key : String) :
    (dropLabel s key).countryGroups = s.countryGroups := rfl

@[simp] theorem adopt_countryGroups (s : MapState) (n c p : Nat) :
    (adopt s n c p).countryGroups = s.countryGroups := rfl

@[simp] theorem setCountry_countryGroups (s : MapState) (n c : Nat) :
    (setCountry s n c).countryGroups = s.countryGroups := rfl

@[simp] theorem setBorder_countryGroups (s : MapState) (c child : Nat) :
    (setBorder s c child).countryGroups = s.countryGroups := rfl

@[simp] theorem setProvinces_countryGroups (s : MapState) (n : Nat) (list : List Nat) :
    (setProvinces s n list).countryGroups = s.countryGroups := rfl

@[simp] theorem mergeData_countryGroups (s : MapState) (n : Nat) (record : Obj String) :
    (mergeData s n record).countryGroups = s.countryGroups := rfl

@[simp] theorem initMapControls_countryGroups (s : MapState) :
    (initMapControls s).countryGroups = s.countryGroups := rfl

@[simp] theorem indexMap_countryGroups (s : MapState) :
    (indexMap s).countryGroups = s.countryGroups := rfl

@[simp] theorem sortCountries_countryGroups (s : MapState) :
    (sortCountries s).countryGroups = s.countryGroups := rfl

@[simp] theorem hideOcean_countryGroups (s : MapState) (o : Nat) :
    (hideOcean s o).countryGroups = s.countryGroups := by
  unfold hideOcean; split <;> rfl

@[simp] theorem renameLabel_countryGroups (s : MapState) (label : Nat) (record : Obj String) :
    (renameLabel s label record).countryGroups = s.countryGroups := by
  unfold renameLabel; split <;> rfl

@[simp] theorem hideMicroLabel_countryGroups (s : MapState) (label : Nat) :
    (hideMicroLabel s label).countryGroups = s.countryGroups := by
  unfold hideMicroLabel; split <;> rfl

@[simp] theorem setStyleFill_province (s : MapState) (n : Nat) (value : String) :
    (setStyleFill s n value).province = s.province := rfl

@[simp] theorem setStyleStroke_province (s : MapState) (n : Nat) (value : String) :
    (setStyleStroke s n value).province = s.province := rfl

@[simp] theorem setDisplay_province (s : MapState) (n : Nat) (value : String) :
    (setDisplay s n value).province = s.province := rfl

@[simp] theorem setFill_province (s : MapState) (n : Nat) (value : String) :
    (setFill s n value).province = s.province := rfl

@[simp] theorem setText_province (s : MapState) (n : Nat) (value : String) :
    (setText s n value).province = s.province := rfl

@[simp] theorem setMicrostate_province (s : MapState) (n : Nat) (value : Bool) :
    (setMicrostate s n value).province = s.province := rfl

@[simp] theorem putLabel_province (s : MapState) (key : String) (label : Nat) :
    (putLabel s key label).province = s.province := rfl

@[simp] theorem detach_province (s : MapState) (n : Nat) :
    (detach s n).province = s.province := rfl

@[simp] theorem dropCountry_province (s : MapState) (key : String) :
    (dropCountry s key).province = s.province := rfl

@[simp] theorem dropLabel_province (s : MapState) (key : String) :
    (dropLabel s key).province = s.province := rfl

@[simp] theorem setCountry_province (s : MapState) (n c : Nat) :
    (setCountry s n c).province = s.province := rfl

@[simp] theorem setBorder_province (s : MapState) (c child : Nat) :
    (setBorder s c child).province = s.province := rfl

@[simp] theorem setProvinces_province (s : MapState) (n : Nat) (list : List Nat) :
    (setProvinces s n list).province = s.province := rfl

@[simp] theorem mergeData_province (s : MapState) (n : Nat) (record : Obj String) :
    (mergeData s n record).province = s.province := rfl

@[simp] theorem initMapControls_province (s : MapState) :
    (initMapControls s).province = s.province := rfl

@[simp] theorem buildCountryGroups_province (s : MapState) :
    (buildCountryGroups s).province = s.province := rfl

@[simp] theorem indexMap_province (s : MapState) :
    (indexMap s).province = s.province := rfl

@[simp] theorem sortCountries_province (s : MapState) :
    (sortCountries s).province = s.province := rfl

@[simp] theorem hideOcean_province (s : MapState) (o : Nat) :
    (hideOcean s o).province = s.province := by
  unfold hideOcean; split <;> rfl

@[simp] theorem renameLabel_province (s : MapState) (label : Nat) (record : Obj String) :
    (renameLabel s label record).province = s.province := by
  unfold renameLabel; split <;> rfl

@[simp] theorem hideMicroLabel_province (s : MapState) (label : Nat) :
    (hideMicroLabel s label).province = s.province := by
  unfold hideMicroLabel; split <;> rfl

@[simp] theorem setStyleFill_fill (s : MapState) (n : Nat) (value : String) :
    (setStyleFill s n value).fill = s.fill := rfl

@[simp] theorem setStyleStroke_fill (s : MapState) (n : Nat) (value : String) :
    (setStyleStroke s n value).fill = s.fill := rfl

@[simp] theorem setDisplay_fill (s : MapState) (n : Nat) (value : String) :
    (setDisplay s n value).fill = s.fill := rfl

@[simp] theorem setText_fill (s : MapState) (n : Nat) (value : String) :
    (setText s n value).fill = s.fill := rfl

@[simp] theorem setMicrostate_fill (s : MapState) (n : Nat) (value : Bool) :
    (setMicrostate s n value).fill = s.fill := rfl

@[simp] theorem putLabel_fill (s : MapState) (key : String) (label : Nat) :
    (putLabel s key label).fill = s.fill := rfl

@[simp] theorem detach_fill (s : MapState) (n : Nat) :
    (detach s n).fill = s.fill := rfl

@[simp] theorem dropCountry_fill (s : MapState) (key : String) :
    (dropCountry s key).fill = s.fill := rfl

@[simp] theorem dropLabel_fill (s : MapState) (key : String) :
    (dropLabel s key).fill = s.fill := rfl

@[simp] theorem adopt_fill (s : MapState) (n c p : Nat) :
    (adopt s n c p).fill = s.fill := rfl

@[simp] theorem setCountry_fill (s : MapState) (n c : Nat) :
    (setCountry s n c).fill = s.fill := rfl

@[simp] theorem setBorder_fill (s : MapState) (c child : Nat) :
    (setBorder s c child).fill = s.fill := rfl

@[simp] theorem setProvinces_fill (s : MapState) (n : Nat) (list : List Nat) :
    (setProvinces s n list).fill = s.fill := rfl

@[simp] theorem mergeData_fill (s : MapState) (n : Nat) (record : Obj String) :
    (mergeData s n record).fill = s.fill := rfl

@[simp] theorem initMapControls_fill (s : MapState) :
    (initMapControls s).fill = s.fill := rfl

@[simp] theorem buildCountryGroups_fill (s : MapState) :
    (buildCountryGroups s).fill = s.fill := rfl

@[simp] theorem indexMap_fill (s : MapState) :
    (indexMap s).fill = s.fill := rfl

@[simp] theorem sortCountries_fill (s : MapState) :
    (sortCountries s).fill = s.fill := rfl

@[simp] theorem hideOcean_fill (s : MapState) (o : Nat) :
    (hideOcean s o).fill = s.fill := by
  unfold hideOcean; split <;> rfl

@[simp] theorem renameLabel_fill (s : MapState) (label : Nat) (record : Obj String) :
    (renameLabel s label record).fill = s.fill := by
  unfold renameLabel; split <;> rfl

@[simp] theorem hideMicroLabel_fill (s : MapState) (label : Nat) :
    (hideMicroLabel s label).fill = s.fill := by
  unfold hideMicroLabel; split <;> rfl

@[simp] theorem setStyleFill_microstate (s : MapState) (n : Nat) (value : String) :
    (setStyleFill s n value).microstate = s.microstate := rfl

@[simp] theorem setStyleStroke_microstate (s : MapState) (n : Nat) (value : String) :
    (setStyleStroke s n value).microstate = s.microstate := rfl

@[simp] theorem setDisplay_microstate (s : MapState) (n : Nat) (value : String) :
    (setDisplay s n value).microstate = s.microstate := rfl

@[simp] theorem setFill_microstate (s : MapState) (n : Nat) (value : String) :
    (setFill s n value).microstate = s.microstate := rfl

@[simp] theorem setText_microstate (s : MapState) (n : Nat) (value : String) :
    (setText s n value).microstate = s.microstate := rfl

@[simp] theorem putLabel_microstate (s : MapState) (key : String) (label : Nat) :
    (putLabel s key label).microstate = s.microstate := rfl

@[simp] theorem detach_microstate (s : MapState) (n : Nat) :
    (detach s n).microstate = s.microstate := rfl

@[simp] theorem dropCountry_microstate (s : MapState) (key : String) :
    (dropCountry s key).microstate = s.microstate := rfl

@[simp] theorem dropLabel_microstate (s : MapState) (key : String) :
    (dropLabel s key).microstate = s.microstate := rfl

@[simp] theorem adopt_microstate (s : MapState) (n c p : Nat) :
    (adopt s n c p).microstate = s.microstate := rfl

@[simp] theorem setCountry_microstate (s : MapState) (n c : Nat) :
    (setCountry s n c).microstate = s.microstate := rfl

@[simp] theorem setBorder_microstate (s : MapState) (c child : Nat) :
    (setBorder s c child).microstate = s.microstate := rfl

@[simp] theorem setProvinces_microstate (s : MapState) (n : Nat) (list : List Nat) :
    (setProvinces s n list).microstate = s.microstate := rfl

@[simp] theorem mergeData_microstate (s : MapState) (n : Nat) (record : Obj String) :
    (mergeData s n record).microstate = s.microstate := rfl

@[simp] theorem initMapControls_microstate (s : MapState) :
    (initMapControls s).microstate = s.microstate := rfl

@[simp] theorem buildCountryGroups_microstate (s : MapState) :
    (buildCountryGroups s).microstate = s.microstate := rfl

@[simp] theorem indexMap_microstate (s : MapState) :
    (indexMap s).microstate = s.microstate := rfl

@[simp] theorem sortCountries_microstate (s : MapState) :
    (sortCountries s).microstate = s.microstate := rfl

@[simp] theorem hideOcean_microstate (s : MapState) (o : Nat) :
    (hideOcean s o).microstate = s.microstate := by
  unfold hideOcean; split <;> rfl

@[simp] theorem renameLabel_microstate (s : MapState) (label : Nat) (record : Obj String) :
    (renameLabel s label record).microstate = s.microstate := by
  unfold renameLabel; split <;> rfl

@[simp] theorem hideMicroLabel_microstate (s : MapState) (label : Nat) :
    (hideMicroLabel s label).microstate = s.microstate := by
  unfold hideMicroLabel; split <;> rfl

@[simp] theorem fillProvince_countryGroups (s : MapState) (n : Nat) (event : String) :
    (fillProvince s n event).countryGroups = s.countryGroups := rfl

@[simp] theorem fillProvince_province (s : MapState) (n : Nat) (event : String) :
    (fillProvince s n event).province = s.province := rfl

@[simp] theorem fillProvince_microstate (s : MapState) (n : Nat) (event : String) :
    (fillProvince s n event).microstate = s.microstate := rfl

@[simp] theorem strokeBorder_countryGroups (s : MapState) (n : Nat) (event : String) :
    (strokeBorder s n event).countryGroups = s.countryGroups := rfl

@[simp] theorem strokeBorder_province (s : MapState) (n : Nat) (event : String) :
    (strokeBorder s n event).province = s.province := rfl

@[simp] theorem strokeBorder_microstate (s : MapState) (n : Nat) (event : String) :
    (strokeBorder s n event).microstate = s.microstate := rfl

@[simp] theorem fillDirect_countryGroups (s : MapState) (n : Nat) (event : String) :
    (fillDirect s n event).countryGroups = s.countryGroups := rfl

@[simp] theorem fillDirect_province (s : MapState) (n : Nat) (event : String) :
    (fillDirect s n event).province = s.province := rfl

@[simp] theorem fillDirect_microstate (s : MapState) (n : Nat) (event : String) :
    (fillDirect s n event).microstate = s.microstate := rfl

@[simp] theorem restyle_countryGroups (s : MapState) (n : Nat) (event : String) :
    (restyle s n event).countryGroups = s.countryGroups := by
  rcases restyle_cases s n event with h | h | h | h <;> rw [h] <;> rfl

@[simp] theorem restyle_province (s : MapState) (n : Nat) (event : String) :
    (restyle s n event).province = s.province := by
  rcases restyle_cases s n event with h | h | h | h <;> rw [h] <;> rfl

@[simp] theorem restyle_microstate (s : MapState) (n : Nat) (event : String) :
    (restyle s n event).microstate = s.microstate := by
  rcases restyle_cases s n event with h | h | h | h <;> rw [h] <;> rfl

theorem setFill_fill (s : MapState) (n : Nat) (value : String) (m : Nat) :
    (setFill s n value).fill m = if m = n then some value else s.fill m := rfl

theorem adopt_province (s : MapState) (n c p m : Nat) :
    (adopt s n c p).province m = if m = n then some p else s.province m := rfl

theorem setMicrostate_microstate (s : MapState) (n : Nat) (value : Bool) (m : Nat) :
    (setMicrostate s n value).microstate m = if m = n then some value else s.microstate m := rfl
/-! ## Dictionary objects -/

theorem mem_objSet {α : Type} {o : Obj α} {k : String} {v : α} {e : String × α}
    (h : e ∈ objSet o k v) : e ∈ o ∨ e = (k, v) := by
  induction o with
  | nil =>
    simp only [objSet, List.mem_singleton] at h
    exact Or.inr h
  | cons x rest ih =>
    obtain ⟨k', v'⟩ := x
    simp only [objSet] at h
    by_cases hk : k' = k
    · rw [if_pos hk] at h
      rcases List.mem_cons.mp h with e1 | e1
      · right
        rw [e1, hk]
      · exact Or.inl (List.mem_cons_of_mem _ e1)
    · rw [if_neg hk] at h
      rcases List.mem_cons.mp h with e1 | e1
      · left
        rw [e1]
        exact List.mem_cons_self _ _
      · rcases ih e1 with e2 | e2
        · exact Or.inl (List.mem_cons_of_mem _ e2)
        · exact Or.inr e2

theorem objGet_objSet {α : Type} (o : Obj α) (k : String) (v : α) (k' : String) :
    objGet (objSet o k v) k' = if k = k' then some v else objGet o k' := by
  induction o with
  | nil => simp [objSet, objGet]
  | cons x rest ih =>
    obtain ⟨k0, v0⟩ := x
    simp only [objSet]
    by_cases h0 : k0 = k
    · subst h0
      simp only [if_true, objGet]
      by_cases h1 : k0 = k' <;> simp [h1]
    · rw [if_neg h0]
      simp only [objGet, ih]
      by_cases h1 : k0 = k'
      · subst h1
        simp [Ne.symm h0]
      · simp [h1]

theorem mem_objDelete {α : Type} {o : Obj α} {k : String} {e : String × α}
    (h : e ∈ objDelete o k) : e ∈ o ∧ e.1 ≠ k := by
  simp only [objDelete, List.mem_filter] at h
  exact ⟨h.1, by simpa using h.2⟩

theorem objGet_objDelete {α : Type} (o : Obj α) (k k' : String) :
    objGet (objDelete o k) k' = if k' = k then none else objGet o k' := by
  induction o with
  | nil => simp [objDelete, objGet]
  | cons x rest ih =>
    obtain ⟨k0, v0⟩ := x
    simp only [objDelete, List.filter] at ih ⊢
    by_cases h0 : k0 = k
    · subst h0
      simp only [beq_self_eq_true, Bool.not_true]
      rw [ih]
      by_cases h1 : k' = k0
      · simp [h1]
      · simp [h1, objGet, Ne.symm h1]
    · have : (k0 == k) = false := by simpa using h0
      simp only [this, Bool.not_false, objGet, ih]
      by_cases h1 : k0 = k'
      · subst h1
        simp [h0]
      · simp [h1]

theorem objGet_isSome_iff {α : Type} (o : Obj α) (k : String) :
    (objGet o k).isSome = true ↔ k ∈ objKeys o := by
  induction o with
  | nil => simp [objGet, objKeys]
  | cons x rest ih =>
    obtain ⟨k0, v0⟩ := x
    simp only [objGet, objKeys, List.map_cons, List.mem_cons]
    by_cases h0 : k0 = k
    · simp [h0]
    · rw [if_neg h0, ih]
      simp [objKeys, Ne.symm h0]

theorem mem_insertKey (k x : String) (l : List String) :
    x ∈ insertKey k l ↔ x = k ∨ x ∈ l := by
  induction l with
  | nil => simp [insertKey]
  | cons y ys ih =>
    simp only [insertKey]
    by_cases h : jsLt k y = true
    · simp [h]
    · simp only [h, Bool.false_eq_true, if_false, List.mem_cons, ih]
      constructor
      · rintro (h1 | h1 | h1)
        · exact Or.inr (Or.inl h1)
        · exact Or.inl h1
        · exact Or.inr (Or.inr h1)
      · rintro (h1 | h1 | h1)
        · exact Or.inr (Or.inl h1)
        · exact Or.inl h1
        · exact Or.inr (Or.inr h1)

theorem mem_sortKeys (x : String) (l : List String) : x ∈ sortKeys l ↔ x ∈ l := by
  induction l with
  | nil => simp [sortKeys]
  | cons y ys ih =>
    simp only [sortKeys, List.foldr_cons, List.mem_cons] at ih ⊢
    rw [mem_insertKey, ih]

theorem objGet_copyKeys {α : Type} (input : Obj α) (ks : List String) (acc : Obj α)
    (k : String) :
    objGet (ks.foldl (copyKey input) acc) k =
      if k ∈ ks ∧ (objGet input k).isSome = true then objGet input k else objGet acc k := by
  induction ks generalizing acc with
  | nil => simp
  | cons x xs ih =>
    simp only [List.foldl_cons, ih, List.mem_cons, copyKey]
    by_cases hx : k ∈ xs ∧ (objGet input k).isSome = true
    · rw [if_pos hx, if_pos ⟨Or.inr hx.1, hx.2⟩]
    · rw [if_neg hx]
      cases hv : objGet input x with
      | none =>
        simp only []
        by_cases hk : k = x
        · subst hk
          simp [hv]
        · have : ¬ ((k = x ∨ k ∈ xs) ∧ (objGet input k).isSome = true) := by
            rintro ⟨h1 | h1, h2⟩
            · exact hk h1
            · exact hx ⟨h1, h2⟩
          rw [if_neg this]
      | some v =>
        simp only [objGet_objSet]
        by_cases hk : x = k
        · subst hk
          simp [hv]
        · rw [if_neg hk]
          have : ¬ ((k = x ∨ k ∈ xs) ∧ (objGet input k).isSome = true) := by
            rintro ⟨h1 | h1, h2⟩
            · exact hk h1.symm
            · exact hx ⟨h1, h2⟩
          rw [if_neg this]

/-- Sorting an object keeps every property: `sortObject(o)[k]` is `o[k]`. -/
theorem objGet_sortObject {α : Type} (o : Obj α) (k : String) :
    objGet (sortObject o) k = objGet o k := by
  unfold sortObject
  rw [objGet_copyKeys]
  by_cases h : (objGet o k).isSome = true
  · rw [if_pos ⟨(mem_sortKeys k _).mpr ((objGet_isSome_iff o k).mp h), h⟩]
  · rw [if_neg (fun hh => h hh.2)]
    cases hv : objGet o k with
    | none => simp [objGet]
    | some v => simp [hv] at h

theorem mem_copyKeys {α : Type} (input : Obj α) (ks : List String) (acc : Obj α)
    (e : String × α)
    (h : e ∈ ks.foldl (copyKey input) acc) : e ∈ acc ∨ e ∈ input := by
  induction ks generalizing acc with
  | nil => exact Or.inl h
  | cons x xs ih =>
    simp only [List.foldl_cons, copyKey] at h
    rcases ih _ h with h1 | h1
    · cases hv : objGet input x with
      | none =>
        simp only [hv] at h1
        exact Or.inl h1
      | some v =>
        simp only [hv] at h1
        rcases mem_objSet h1 with h2 | h2
        · exact Or.inl h2
        · right
          rw [h2]
          exact objGet_mem hv
    · exact Or.inr h1

theorem mem_sortObject {α : Type} {o : Obj α} {e : String × α} (h : e ∈ sortObject o) :
    e ∈ o := by
  rcases mem_copyKeys o _ [] e h with h1 | h1
  · simp at h1
  · exact h1

/-! ## The steps of `initMapCountries` before the hierarchy is sorted -/

theorem andThen_eq_ok {β : Type} {r : Except MapState MapState}
    {f : MapState → Except MapState β} {t : β} (h : andThen r f = .ok t) :
    ∃ s1, r = .ok s1 ∧ f s1 = .ok t := by
  cases r with
  | error e => simp [andThen] at h
  | ok s1 => exact ⟨s1, rfl, h⟩

theorem forEach_rel (Rel : MapState → MapState → Prop) (hrefl : ∀ s, Rel s s)
    (htrans : ∀ a b c, Rel a b → Rel b c → Rel a c)
    (f : MapState → Nat → Except MapState MapState) (l : List Nat)
    (hf : ∀ s x t, x ∈ l → f s x = .ok t → Rel s t)
    (s t : MapState) (h : forEach f l s = .ok t) : Rel s t := by
  induction l generalizing s with
  | nil =>
    simp only [forEach, Except.ok.injEq] at h
    rw [← h]
    exact hrefl s
  | cons x xs ih =>
    simp only [forEach] at h
    cases hx : f s x with
    | error e => simp [hx] at h
    | ok s1 =>
      simp only [hx] at h
      exact htrans _ _ _ (hf s x s1 (List.mem_cons_self _ _) hx)
        (ih (fun s y t hy => hf s y t (List.mem_cons_of_mem _ hy)) s1 h)

theorem restyle_of_ok {s t : MapState} {n : Nat} {event : String}
    (h : pathSetAttributes s (some n) event = .ok t) : t = restyle s n event := by
  simp [restyle, h, after]

theorem mem_indexCountries {doc : List DomNode} {l : List Nat} {acc : Obj Nat}
    {e : String × Nat} (h : e ∈ indexCountries doc l acc) :
    e ∈ acc ∨ (e.2 ∈ l ∧ idOf doc e.2 = some e.1 ∧ admitted doc e.2 = true) := by
  induction l generalizing acc with
  | nil => exact Or.inl h
  | cons x xs ih =>
    simp only [indexCountries] at h
    by_cases ha : admitted doc x = true
    · rw [if_pos ha] at h
      rcases ih h with h1 | ⟨h1, h2, h3⟩
      · rcases mem_objSet h1 with h2 | h2
        · exact Or.inl h2
        · right
          rw [h2]
          refine ⟨List.mem_cons_self _ _, ?_, ha⟩
          simp only [admitted] at ha
          cases hid : idOf doc x with
          | none => simp [hid] at ha
          | some k => simp [idKey]
      · exact Or.inr ⟨List.mem_cons_of_mem _ h1, h2, h3⟩
    · rw [if_neg ha] at h
      rcases ih h with h1 | ⟨h1, h2, h3⟩
      · exact Or.inl h1
      · exact Or.inr ⟨List.mem_cons_of_mem _ h1, h2, h3⟩

theorem parentOf_of_mem_baseChildNodes {doc : List DomNode} {n : Nat}
    (h : n ∈ baseChildNodes doc) : parentOf doc n = none := by
  simp only [baseChildNodes, List.mem_filter] at h
  unfold parentOf
  cases hd : doc[n]? with
  | none => rfl
  | some d =>
    have := h.2
    simp only [hd] at this ⊢
    simpa using this

theorem parentOf_of_mem_childNodes {doc : List DomNode} {n c : Nat}
    (h : n ∈ childNodes doc c) : parentOf doc n = some c := by
  simp only [childNodes, List.mem_filter] at h
  simpa using h.2

theorem childNodes_nodup (doc : List DomNode) (c : Nat) : (childNodes doc c).Nodup :=
  List.Nodup.filter _ (List.nodup_range _)

theorem mem_liveChildNodes {s : MapState} {n c : Nat} (h : n ∈ liveChildNodes s c) :
    n ∈ childNodes s.doc c ∧ n ∉ s.removed := by
  simp only [liveChildNodes, List.mem_filter] at h
  exact ⟨h.1, by simpa using h.2⟩

theorem parentOf_of_mem_liveChildNodes {s : MapState} {n c : Nat}
    (h : n ∈ liveChildNodes s c) : parentOf s.doc n = some c :=
  parentOf_of_mem_childNodes (mem_liveChildNodes h).1

theorem liveChildNodes_nodup (s : MapState) (c : Nat) : (liveChildNodes s c).Nodup :=
  List.Nodup.filter _ (childNodes_nodup s.doc c)

theorem liveChildNodes_of_removed_nil {s : MapState} (h : s.removed = []) (c : Nat) :
    liveChildNodes s c = childNodes s.doc c := by
  simp [liveChildNodes, h]

theorem keeps_refl (s : MapState) : Keeps s s := ⟨rfl, rfl, rfl, rfl, rfl, rfl, rfl, rfl⟩

theorem keeps_trans {a b c : MapState} (h1 : Keeps a b) (h2 : Keeps b c) : Keeps a c := by
  obtain ⟨a1, a2, a3, a4, a5, a6, a7, a8⟩ := h1
  obtain ⟨b1, b2, b3, b4, b5, b6, b7, b8⟩ := h2
  exact ⟨b1.trans a1, b2.trans a2, b3.trans a3, b4.trans a4, b5.trans a5, b6.trans a6,
    b7.trans a7, b8.trans a8⟩

theorem addBackground_keeps {s t : MapState} {w o : Nat} (h : addBackground s w o = .ok t) :
    Keeps s t ∧ t.countryLabels = s.countryLabels ∧ t.removed = s.removed := by
  unfold addBackground at h
  by_cases hb : s.opts.backgroundImage ≠ ""
  · rw [if_pos hb] at h
    cases hg : getElementById s "World" with
    | none =>
      simp only [hg] at h
      cases h
      simp [Keeps]
    | some world =>
      simp only [hg] at h
      by_cases hp : parentNode s world = ParentRef.base
      · rw [if_pos hp] at h
        cases h
        simp [Keeps]
      · rw [if_neg hp] at h
        cases h
  · rw [if_neg hb] at h
    cases h
    exact ⟨keeps_refl _, rfl, rfl⟩

/-- The fields that the steps before `sortProvinces` leave alone. -/
theorem styleBackground_keeps {s t : MapState} (h : styleBackground s = .ok t) :
    Keeps s t ∧ t.countryLabels = s.countryLabels ∧ t.removed = s.removed := by
  unfold styleBackground at h
  cases hw : objGet s.countries "World" with
  | none => simp [hw] at h
  | some w =>
    simp only [hw] at h
    cases ho : objGet s.countries "Ocean" with
    | none => simp [ho] at h
    | some o =>
      simp only [ho] at h
      obtain ⟨k, l, r⟩ := addBackground_keeps h
      obtain ⟨k1, k2, k3, k4, k5, k6, k7, k8⟩ := k
      simp only [hideOcean_doc, hideOcean_opts, hideOcean_countryData, hideOcean_countries,
        hideOcean_country, hideOcean_provinces, hideOcean_border, hideOcean_selectedCountry,
        hideOcean_countryLabels, hideOcean_removed, setStyleFill_doc, setStyleFill_opts,
        setStyleFill_countryData, setStyleFill_countries, setStyleFill_country,
        setStyleFill_provinces, setStyleFill_border, setStyleFill_selectedCountry,
        setStyleFill_countryLabels, setStyleFill_removed] at k1 k2 k3 k4 k5 k6 k7 k8 l r
      exact ⟨⟨k1, k2, k3, k4, k5, k6, k7, k8⟩, l, r⟩

theorem toggleAllLabels_keeps {s t : MapState} (h : toggleAllLabels s = .ok t) :
    Keeps s t ∧ t.countryLabels = s.countryLabels ∧ t.removed = s.removed := by
  unfold toggleAllLabels at h
  cases hg : getElementById s "labels" with
  | none => simp [hg] at h
  | some g =>
    simp only [hg] at h
    by_cases hd : s.display g = none ∨ s.display g = some "block"
    · rw [if_pos hd] at h
      cases h
      simp [Keeps]
    · rw [if_neg hd] at h
      cases h
      simp [Keeps]

theorem idOf_of_getElementById {s : MapState} {id : String} {n : Nat}
    (h : getElementById s id = some n) : idOf s.doc n = some id := by
  unfold getElementById at h
  have := List.find?_some h
  simp only [Bool.and_eq_true, beq_iff_eq] at this
  exact this.1

theorem parentOf_of_parentNode_node {s : MapState} {n k : Nat}
    (h : parentNode s n = ParentRef.node k) : parentOf s.doc n = some k := by
  unfold parentNode at h
  by_cases hr : n ∈ s.removed
  · rw [if_pos hr] at h
    cases h
  · rw [if_neg hr] at h
    cases hpo : parentOf s.doc n with
    | none => simp [hpo] at h
    | some j =>
      simp only [hpo, ParentRef.node.injEq] at h
      rw [h]

theorem parentOf_of_parentNode_base {s : MapState} {n : Nat}
    (h : parentNode s n = ParentRef.base) : parentOf s.doc n = none := by
  unfold parentNode at h
  by_cases hr : n ∈ s.removed
  · rw [if_pos hr] at h
    cases h
  · rw [if_neg hr] at h
    cases hpo : parentOf s.doc n with
    | none => rfl
    | some j => simp [hpo] at h

theorem removeAntarcticaLabel_spec {s t : MapState} (h : removeAntarcticaLabel s = .ok t) :
    Keeps s t ∧ t.countryLabels = objDelete s.countryLabels "AQ" ∧
    ∃ label layer, t.removed = label :: s.removed ∧ idOf s.doc label = some "AQ-label" ∧
      parentOf s.doc label = some layer ∧ idOf s.doc layer = some "labels" := by
  unfold removeAntarcticaLabel at h
  cases hl : getElementById s "labels" with
  | none => simp [hl] at h
  | some layer =>
    cases ha : getElementById s "AQ-label" with
    | none => simp [hl, ha] at h
    | some label =>
      simp only [hl, ha] at h
      by_cases hp : parentNode s label = ParentRef.node layer
      · rw [if_pos hp] at h
        cases h
        exact ⟨by simp [Keeps], by simp, label, layer, by simp, idOf_of_getElementById ha,
          parentOf_of_parentNode_node hp, idOf_of_getElementById hl⟩
      · rw [if_neg hp] at h
        cases h

theorem removeAntarctica_spec {s t : MapState} (h : removeAntarctica s = .ok t) :
    t.doc = s.doc ∧ t.opts = s.opts ∧ t.countryData = s.countryData ∧
    t.country = s.country ∧ t.provinces = s.provinces ∧ t.border = s.border ∧
    t.selectedCountry = s.selectedCountry ∧
    t.countries = objDelete s.countries "AQ" ∧
    t.countryLabels = objDelete s.countryLabels "AQ" ∧
    ∃ aq label layer, t.removed = label :: aq :: s.removed ∧ parentOf s.doc aq = none ∧
      idOf s.doc label = some "AQ-label" ∧
      parentOf s.doc label = some layer ∧ idOf s.doc layer = some "labels" := by
  unfold removeAntarctica at h
  cases ha : getElementById s "AQ" with
  | none => simp [ha] at h
  | some aq =>
    simp only [ha] at h
    by_cases hp : parentNode s aq ≠ ParentRef.base
    · rw [if_pos hp] at h
      cases h
    · rw [if_neg hp] at h
      obtain ⟨⟨k1, k2, k3, k4, k5, k6, k7, k8⟩, l, label, layer, r1, r2, r3, r4⟩ :=
        removeAntarcticaLabel_spec h
      simp only [dropCountry_doc, dropCountry_opts, dropCountry_countryData,
        dropCountry_countries, dropCountry_country, dropCountry_provinces,
        dropCountry_border, dropCountry_selectedCountry, dropCountry_countryLabels,
        dropCountry_removed, detach_doc,
        detach_opts, detach_countryData, detach_countries, detach_country, detach_provinces,
        detach_border, detach_selectedCountry, detach_countryLabels, detach_removed]
        at k1 k2 k3 k4 k5 k6 k7 k8 l r1 r2 r3 r4
      exact ⟨k1, k2, k3, k5, k6, k7, k8, k4, l, aq, label, layer, r1,
        parentOf_of_parentNode_base (by simpa using hp), r2, r3, r4⟩

theorem sortLabel_spec {s t : MapState} {label : Nat} (h : sortLabel s label = .ok t) :
    Keeps s t ∧ t.removed = s.removed ∧
    t.countryLabels =
      (if tagOf s.doc label = some "text" then
        objSet s.countryLabels (substr0 (idKey (idOf s.doc label)) 2) label
       else s.countryLabels) := by
  unfold sortLabel at h
  by_cases htag : tagOf s.doc label = some "text"
  · rw [if_pos htag] at h ⊢
    cases hr : objGet s.countryData (substr0 (idKey (idOf s.doc label)) 2) with
    | none => simp [hr] at h
    | some record =>
      simp only [hr] at h
      cases h
      simp [Keeps]
  · rw [if_neg htag] at h ⊢
    cases h
    exact ⟨keeps_refl _, rfl, rfl⟩

theorem hideMicrostate_keeps {s t : MapState} {label : Nat}
    (h : hideMicrostate s label = .ok t) :
    Keeps s t ∧ t.countryLabels = s.countryLabels ∧ t.removed = s.removed := by
  unfold hideMicrostate at h
  by_cases hm : s.microstate label = some true
  · rw [if_pos hm] at h
    by_cases hs : s.opts.showMicroStates = false
    · rw [if_pos hs] at h
      cases hc : objGet s.countries (substr0 (idKey (idOf s.doc label)) 2) with
      | none => simp [hc] at h
      | some c =>
        simp only [hc] at h
        cases h
        simp [Keeps]
    · rw [if_neg hs] at h
      cases h
      simp [Keeps]
  · rw [if_neg hm] at h
    cases h
    exact ⟨keeps_refl _, rfl, rfl⟩

theorem forEach_sortLabel_spec (l : List Nat) (s t : MapState)
    (h : forEach sortLabel l s = .ok t) :
    Keeps s t ∧ t.removed = s.removed ∧
    t.countryLabels = labelFold s.doc l s.countryLabels := by
  induction l generalizing s with
  | nil =>
    simp only [forEach, Except.ok.injEq] at h
    rw [← h]
    exact ⟨keeps_refl s, rfl, rfl⟩
  | cons x xs ih =>
    simp only [forEach] at h
    cases hx : sortLabel s x with
    | error e => simp [hx] at h
    | ok s1 =>
      simp only [hx] at h
      obtain ⟨k1, r1, l1⟩ := sortLabel_spec hx
      obtain ⟨k2, r2, l2⟩ := ih s1 h
      refine ⟨keeps_trans k1 k2, r2.trans r1, ?_⟩
      rw [l2, l1, k1.1]
      rfl

theorem sortLabels_spec {s t : MapState} (h : sortLabels s = .ok t) :
    Keeps s t ∧ t.removed = s.removed ∧
    ∃ layer, objGet s.countries "labels" = some layer ∧
      t.countryLabels = labelFold s.doc (liveChildNodes s layer) s.countryLabels := by
  unfold sortLabels at h
  cases hl : objGet s.countries "labels" with
  | none => simp [hl] at h
  | some layer =>
    simp only [hl] at h
    obtain ⟨s1, e1, e2⟩ := andThen_eq_ok h
    obtain ⟨k1, r1, l1⟩ := forEach_sortLabel_spec _ _ _ e1
    have hk := forEach_rel
      (fun a b => Keeps a b ∧ b.countryLabels = a.countryLabels ∧ b.removed = a.removed)
      (fun a => ⟨keeps_refl a, rfl, rfl⟩)
      (fun a b c h1 h2 => ⟨keeps_trans h1.1 h2.1, h2.2.1.trans h1.2.1, h2.2.2.trans h1.2.2⟩)
      hideMicrostate _ (fun a x b _ hx => hideMicrostate_keeps hx) s1 t e2
    exact ⟨keeps_trans k1 hk.1, hk.2.2.trans r1, layer, rfl, hk.2.1.trans l1⟩

/-! ## Sorting the provinces: consistency of the expandos -/

theorem inFamily_unique {doc : List DomNode} {k k' m : Nat} (hk : parentOf doc k = none)
    (hk' : parentOf doc k' = none) (h : InFamily doc k m) (h' : InFamily doc k' m) :
    k = k' := by
  rcases h with h | h | ⟨q, h1, h2⟩ <;> rcases h' with g | g | ⟨q', g1, g2⟩
  · rw [← h, g]
  · rw [h, hk] at g
    exact Option.noConfusion g
  · rw [h, hk] at g1
    exact Option.noConfusion g1
  · rw [g, hk'] at h
    exact Option.noConfusion h
  · rw [h] at g
    exact Option.some.inj g
  · rw [h] at g1
    rw [← Option.some.inj g1, hk] at g2
    exact Option.noConfusion g2
  · rw [g, hk'] at h1
    exact Option.noConfusion h1
  · rw [g] at h1
    rw [← Option.some.inj h1, hk'] at h2
    exact Option.noConfusion h2
  · rw [h1] at g1
    rw [← Option.some.inj g1, h2] at g2
    exact Option.some.inj g2

theorem offBorder_inFamily {doc : List DomNode} {p k : Nat} (h : OffBorder doc p k) :
    InFamily doc k p := by
  rcases h with ⟨h1, _⟩ | ⟨q, h1, h2, _⟩
  · exact Or.inr (Or.inl h1)
  · exact Or.inr (Or.inr ⟨q, h1, h2⟩)

theorem offBorder_parent_inFamily {doc : List DomNode} {p k n : Nat}
    (h : OffBorder doc p k) (hn : parentOf doc p = some n) : InFamily doc k n := by
  rcases h with ⟨h1, _⟩ | ⟨q, h1, h2, _⟩
  · rw [h1] at hn
    exact Or.inl (Option.some.inj hn).symm
  · rw [h1] at hn
    rw [Option.some.inj hn] at h2
    exact Or.inr (Or.inl h2)

theorem wired_congr {s t : MapState} (hdoc : t.doc = s.doc) (hr : t.removed = s.removed)
    (hc : t.country = s.country) (hp : t.provinces = s.provinces) (hb : t.border = s.border)
    (h : Wired s) : Wired t := by
  unfold Wired at *
  rw [hdoc, hr, hc, hp, hb]
  exact h

/-- A write `x.country = c` on a node of the family of the top-level node `c` keeps the
expandos consistent. -/
theorem wired_of_country_write {s t : MapState} {x c : Nat} (hdoc : t.doc = s.doc)
    (hrem : t.removed = s.removed)
    (hprov : t.provinces = s.provinces) (hbord : t.border = s.border)
    (hcountry : ∀ m, t.country m = if m = x then some c else s.country m)
    (hc : parentOf s.doc c = none) (hx : InFamily s.doc c x) (h : Wired s) : Wired t := by
  refine ⟨?_, ?_⟩
  · intro n p hp
    rw [hprov] at hp
    obtain ⟨h1, h2, h3, k, hk, hpk, hnk, hoff⟩ := h.1 n p hp
    rw [hdoc, hrem]
    refine ⟨h1, h2, h3, ?_⟩
    by_cases hpx : p = x
    · have hkc : k = c := by
        apply inFamily_unique hk hc (offBorder_inFamily hoff)
        rw [hpx]
        exact hx
      subst hkc
      refine ⟨k, hk, ?_, ?_, hoff⟩
      · rw [hcountry, if_pos hpx]
      · rw [hcountry]
        by_cases hnx : n = x
        · rw [if_pos hnx]
        · rw [if_neg hnx]
          exact hnk
    · by_cases hnx : n = x
      · have hkc : k = c := by
          apply inFamily_unique hk hc (offBorder_parent_inFamily hoff h1)
          rw [hnx]
          exact hx
        subst hkc
        refine ⟨k, hk, ?_, ?_, hoff⟩
        · rw [hcountry, if_neg hpx]
          exact hpk
        · rw [hcountry, if_pos hnx]
      · refine ⟨k, hk, ?_, ?_, hoff⟩
        · rw [hcountry, if_neg hpx]
          exact hpk
        · rw [hcountry, if_neg hnx]
          exact hnk
  · intro k b hb
    rw [hbord] at hb
    rw [hdoc]
    exact h.2 k b hb

theorem wired_adopt {s : MapState} {x c : Nat} (q : Nat) (hc : parentOf s.doc c = none)
    (hx : InFamily s.doc c x) (h : Wired s) : Wired (adopt s x c q) :=
  wired_of_country_write (by simp) (by simp) (by simp) (by simp)
    (fun m => adopt_country s x c q m) hc hx h

theorem wired_setBorder {s : MapState} {c child : Nat} (hp : parentOf s.doc child = some c)
    (hid : idOf s.doc child = some (borderId s.doc c)) (h : Wired s) :
    Wired (setBorder s c child) := by
  refine ⟨?_, ?_⟩
  · intro n p hp'
    simpa using h.1 n p (by simpa using hp')
  · intro k b hb
    rw [setBorder_border] at hb
    simp only [setBorder_doc]
    by_cases hk : k = c
    · rw [if_pos hk] at hb
      rw [← Option.some.inj hb, hk]
      exact ⟨hp, hid⟩
    · rw [if_neg hk] at hb
      exact h.2 k b hb

theorem wired_setProvinces {s : MapState} {n : Nat} {list : List Nat}
    (hl : ∀ p ∈ list, parentOf s.doc p = some n ∧
      (isElement s.doc p = true ∧ p ∉ s.removed) ∧ tagOf s.doc p ≠ some "circle" ∧
      ∃ k, parentOf s.doc k = none ∧ s.country p = some k ∧ s.country n = some k ∧
        OffBorder s.doc p k)
    (h : Wired s) : Wired (setProvinces s n list) := by
  refine ⟨?_, ?_⟩
  · intro m p hp
    rw [setProvinces_provinces] at hp
    simp only [setProvinces_doc, setProvinces_country, setProvinces_removed]
    by_cases hm : m = n
    · rw [if_pos hm] at hp
      rw [hm]
      exact hl p (by simpa using hp)
    · rw [if_neg hm] at hp
      exact h.1 m p hp
  · intro k b hb
    simpa using h.2 k b (by simpa using hb)

/-! ## Sorting the provinces: what a step may change -/

theorem sortStep_refl (c : Nat) (s : MapState) : SortStep c s s :=
  ⟨rfl, rfl, rfl, rfl, rfl, rfl, rfl, rfl, fun _ h => h, fun _ _ => ⟨rfl, rfl⟩, fun _ _ => rfl⟩

theorem sortStep_trans {c : Nat} {s t u : MapState} (h1 : SortStep c s t)
    (h2 : SortStep c t u) : SortStep c s u := by
  obtain ⟨a1, a2, a3, a4, a5, a6, a7, a8, a9, a10, a11⟩ := h1
  obtain ⟨b1, b2, b3, b4, b5, b6, b7, b8, b9, b10, b11⟩ := h2
  refine ⟨b1.trans a1, b2.trans a2, b3.trans a3, b4.trans a4, b5.trans a5, b6.trans a6,
    b7.trans a7, b8.trans a8, fun m hm => b9 m (a9 m hm), ?_, ?_⟩
  · intro m hm
    have h3 := b10 m (by rw [a1]; exact hm)
    have h4 := a10 m hm
    exact ⟨h3.1.trans h4.1, h3.2.trans h4.2⟩
  · intro m hm
    rw [b11 m (by rw [a1]; exact hm), a11 m hm]

theorem sortStep_adopt {s : MapState} {x c : Nat} (q : Nat)
    (hx : parentOf s.doc x ≠ none) (hf : InFamily s.doc c x) :
    SortStep c s (adopt s x c q) := by
  refine ⟨by simp, by simp, by simp, by simp, by simp, by simp, by simp, by simp, ?_, ?_, ?_⟩
  · intro m hm
    rw [adopt_country]
    by_cases h : m = x
    · rw [if_pos h]
    · rw [if_neg h]
      exact hm
  · intro m hm
    have hmx : m ≠ x := by
      intro e
      rw [e] at hm
      exact hx hm
    exact ⟨by rw [adopt_country, if_neg hmx], by simp⟩
  · intro m hm
    have hmx : m ≠ x := by
      intro e
      rw [e] at hm
      exact hm hf
    rw [adopt_country, if_neg hmx]

theorem sortStep_of_eq {s t : MapState} (c : Nat) (h1 : t.doc = s.doc)
    (h2 : t.countries = s.countries) (h3 : t.countryLabels = s.countryLabels)
    (h4 : t.opts = s.opts) (h5 : t.countryData = s.countryData)
    (h6 : t.selectedCountry = s.selectedCountry) (h7 : t.removed = s.removed)
    (h8 : t.updateColor = s.updateColor) (h9 : t.country = s.country)
    (h10 : ∀ m, parentOf s.doc m = none → t.provinces m = s.provinces m) :
    SortStep c s t :=
  ⟨h1, h2, h3, h4, h5, h6, h7, h8, fun m hm => by rw [h9]; exact hm,
    fun m hm => ⟨by rw [h9], h10 m hm⟩, fun m _ => by rw [h9]⟩

theorem sortStep_pathSetAttributes {s t : MapState} (c : Nat) {n : Nat} {event : String}
    (h : pathSetAttributes s (some n) event = .ok t) : SortStep c s t := by
  rw [restyle_of_ok h]
  exact sortStep_of_eq c (by simp) (by simp) (by simp) (by simp) (by simp) (by simp) (by simp)
    (by simp) (by simp) (fun m _ => by simp)

theorem wired_pathSetAttributes {s t : MapState} {n : Nat} {event : String}
    (h : pathSetAttributes s (some n) event = .ok t) (hw : Wired s) : Wired t := by
  rw [restyle_of_ok h]
  exact wired_congr (by simp) (by simp) (by simp) (by simp) (by simp) hw

theorem accOk_of_sortStep {s t : MapState} {c parent : Nat} {acc : List Nat}
    (h : SortStep c s t) (ha : AccOk s c parent acc) : AccOk t c parent acc := by
  intro p hp
  obtain ⟨h1, h2, h3, h4⟩ := ha p hp
  rw [h.1, h.2.2.2.2.2.2.1]
  exact ⟨h1, h2, h3, h.2.2.2.2.2.2.2.2.1 p h4⟩

theorem forEach_sorting (c : Nat) (doc0 : List DomNode)
    (f : MapState → Nat → Except MapState MapState) (l : List Nat)
    (hf : ∀ s x t, x ∈ l → s.doc = doc0 → Wired s → f s x = .ok t → SortStep c s t ∧ Wired t)
    (s t : MapState) (h : forEach f l s = .ok t) (hdoc : s.doc = doc0) (hw : Wired s) :
    SortStep c s t ∧ Wired t := by
  induction l generalizing s with
  | nil =>
    simp only [forEach, Except.ok.injEq] at h
    rw [← h]
    exact ⟨sortStep_refl c s, hw⟩
  | cons x xs ih =>
    simp only [forEach] at h
    cases hx : f s x with
    | error e => simp [hx] at h
    | ok s1 =>
      simp only [hx] at h
      obtain ⟨st1, w1⟩ := hf s x s1 (List.mem_cons_self _ _) hdoc hw hx
      obtain ⟨st2, w2⟩ := ih (fun s y t hy => hf s y t (List.mem_cons_of_mem _ hy)) s1 h
        (st1.1.trans hdoc) w1
      exact ⟨sortStep_trans st1 st2, w2⟩

theorem sortBorderChild_spec {s t : MapState} {c child g : Nat}
    (hc : parentOf s.doc c = none) (hchild : parentOf s.doc child = some c)
    (hg : parentOf s.doc g = some child) (hw : Wired s)
    (h : sortBorderChild c child s g = .ok t) : SortStep c s t ∧ Wired t := by
  unfold sortBorderChild at h
  by_cases htext : ¬ isTextNode s.doc g = true
  · rw [if_pos htext] at h
    have hfam : InFamily s.doc c g := Or.inr (Or.inr ⟨child, hg, hchild⟩)
    have hne : parentOf s.doc g ≠ none := by rw [hg]; exact Option.some_ne_none _
    exact ⟨sortStep_trans (sortStep_adopt child hne hfam) (sortStep_pathSetAttributes c h),
      wired_pathSetAttributes h (wired_adopt child hc hfam hw)⟩
  · rw [if_neg htext] at h
    cases h
    exact ⟨sortStep_refl c s, hw⟩

theorem sortBorder_spec {s t : MapState} {c child : Nat}
    (hc : parentOf s.doc c = none) (hchild : parentOf s.doc child = some c)
    (hid : idOf s.doc child = some (borderId s.doc c)) (hw : Wired s)
    (h : sortBorder c child s = .ok t) : SortStep c s t ∧ Wired t := by
  have hb : SortStep c s (setBorder s c child) :=
    sortStep_of_eq c (by simp) (by simp) (by simp) (by simp) (by simp) (by simp) (by simp)
      (by simp) (by simp) (fun m _ => by simp)
  have hwb : Wired (setBorder s c child) := wired_setBorder hchild hid hw
  unfold sortBorder at h
  by_cases htag : tagOf s.doc child ≠ some "g"
  · rw [if_pos htag] at h
    exact ⟨sortStep_trans hb (sortStep_pathSetAttributes c h), wired_pathSetAttributes h hwb⟩
  · rw [if_neg htag] at h
    obtain ⟨st, w⟩ := forEach_sorting c s.doc (sortBorderChild c child) (liveChildNodes s child)
      (fun a x b hx hdoc hwa hax =>
        sortBorderChild_spec (by rw [hdoc]; exact hc) (by rw [hdoc]; exact hchild)
          (by rw [hdoc]; exact parentOf_of_mem_liveChildNodes hx) hwa hax)
      _ t h (by simp) hwb
    exact ⟨sortStep_trans hb st, w⟩

theorem isElement_of_tagOf {doc : List DomNode} {n : Nat} {tag : String}
    (h : tagOf doc n = some tag) : isElement doc n = true := by
  unfold tagOf at h
  unfold isElement
  cases hd : doc[n]? with
  | none => simp [hd] at h
  | some d =>
    simp only [hd] at h ⊢
    by_cases hk : d.kind = NodeKind.element
    · simp [hk]
    · simp [hk] at h

theorem sortGrandchildren_spec {c child : Nat} (l : List Nat) (s t : MapState)
    (acc subs : List Nat) (hc : parentOf s.doc c = none)
    (hchild : parentOf s.doc child = some c)
    (hl : ∀ x ∈ l, parentOf s.doc x = some child ∧ x ∉ s.removed) (hw : Wired s)
    (hacc : AccOk s c child acc)
    (h : sortGrandchildren c child l s acc = .ok (t, subs)) :
    SortStep c s t ∧ Wired t ∧ AccOk t c child subs := by
  induction l generalizing s acc with
  | nil =>
    simp only [sortGrandchildren, Except.ok.injEq, Prod.mk.injEq] at h
    rw [← h.1, ← h.2]
    exact ⟨sortStep_refl c s, hw, hacc⟩
  | cons g rest ih =>
    have hg : parentOf s.doc g = some child := (hl g (List.mem_cons_self _ _)).1
    have hgr : g ∉ s.removed := (hl g (List.mem_cons_self _ _)).2
    have hfam : InFamily s.doc c g := Or.inr (Or.inr ⟨child, hg, hchild⟩)
    have hne : parentOf s.doc g ≠ none := by rw [hg]; exact Option.some_ne_none _
    have hst1 : SortStep c s (adopt s g c child) := sortStep_adopt child hne hfam
    have hw1 : Wired (adopt s g c child) := wired_adopt child hc hfam hw
    simp only [sortGrandchildren] at h
    by_cases htag : tagOf s.doc g = some "path"
    · rw [if_pos htag] at h
      obtain ⟨s2, e1, e2⟩ := andThen_eq_ok h
      have hst2 : SortStep c s s2 := sortStep_trans hst1 (sortStep_pathSetAttributes c e1)
      have hw2 : Wired s2 := wired_pathSetAttributes e1 hw1
      have hdoc2 : s2.doc = s.doc := hst2.1
      have hrem2 : s2.removed = s.removed := hst2.2.2.2.2.2.2.1
      have hgc : s2.country g = some c := by
        rw [restyle_of_ok e1]
        simp [adopt_country]
      have hnew : AccOk s2 c child [g] := by
        intro p hp
        rw [List.mem_singleton] at hp
        subst hp
        rw [hdoc2, hrem2]
        refine ⟨hg, ⟨isElement_of_tagOf htag, hgr⟩, ?_, hgc⟩
        rw [htag]
        decide
      have hacc2 : AccOk s2 c child
          (if s.fill g ≠ some "none" then acc ++ [g] else acc) := by
        have hold := accOk_of_sortStep hst2 hacc
        by_cases hf : s.fill g ≠ some "none"
        · rw [if_pos hf]
          intro p hp
          rcases List.mem_append.mp hp with h1 | h1
          · exact hold p h1
          · exact hnew p h1
        · rw [if_neg hf]
          exact hold
      obtain ⟨st3, w3, a3⟩ := ih s2 _ (by rw [hdoc2]; exact hc) (by rw [hdoc2]; exact hchild)
        (fun x hx => by rw [hdoc2, hrem2]; exact hl x (List.mem_cons_of_mem _ hx)) hw2 hacc2 e2
      exact ⟨sortStep_trans hst2 st3, w3, a3⟩
    · rw [if_neg htag] at h
      obtain ⟨st3, w3, a3⟩ := ih (adopt s g c child) acc (by simpa using hc)
        (by simpa using hchild)
        (fun x hx => by simpa using hl x (List.mem_cons_of_mem _ hx)) hw1
        (accOk_of_sortStep hst1 hacc) h
      exact ⟨sortStep_trans hst1 st3, w3, a3⟩

theorem sortChildren_spec {c : Nat} (l : List Nat) (s t : MapState) (acc ps : List Nat)
    (hc : parentOf s.doc c = none)
    (hl : ∀ x ∈ l, parentOf s.doc x = some c ∧ x ∉ s.removed)
    (hcc : s.country c = some c) (hw : Wired s) (hacc : AccOk s c c acc)
    (hoff : ∀ p ∈ acc, idOf s.doc p ≠ some (borderId s.doc c))
    (h : sortChildren c l s acc = .ok (t, ps)) :
    SortStep c s t ∧ Wired t ∧ AccOk t c c ps ∧
    (∀ p ∈ ps, idOf s.doc p ≠ some (borderId s.doc c)) ∧
    ∃ pushed, ps = acc ++ pushed ∧ pushed.Sublist l := by
  induction l generalizing s acc with
  | nil =>
    simp only [sortChildren, Except.ok.injEq, Prod.mk.injEq] at h
    rw [← h.1, ← h.2]
    exact ⟨sortStep_refl c s, hw, hacc, hoff, [], by simp, List.Sublist.refl _⟩
  | cons child rest ih =>
    have hchild : parentOf s.doc child = some c := (hl child (List.mem_cons_self _ _)).1
    have hlive : child ∉ s.removed := (hl child (List.mem_cons_self _ _)).2
    have hfam : InFamily s.doc c child := Or.inr (Or.inl hchild)
    have hne : parentOf s.doc child ≠ none := by rw [hchild]; exact Option.some_ne_none _
    have hst1 : SortStep c s (adopt s child c child) := sortStep_adopt child hne hfam
    have hw1 : Wired (adopt s child c child) := wired_adopt child hc hfam hw
    have hchc : (adopt s child c child).country child = some c := by simp [adopt_country]
    simp only [sortChildren] at h
    by_cases hborder : idOf s.doc child = some (borderId s.doc c)
    · -- the border child
      rw [if_pos hborder] at h
      obtain ⟨s3, e1, e2⟩ := andThen_eq_ok h
      obtain ⟨st2, w2⟩ := sortBorder_spec (s := adopt s child c child) (by simpa using hc)
        (by simpa using hchild) hborder hw1 e1
      have hst3 : SortStep c s s3 := sortStep_trans hst1 st2
      have hdoc3 : s3.doc = s.doc := hst3.1
      have hrem3 : s3.removed = s.removed := hst3.2.2.2.2.2.2.1
      obtain ⟨st4, w4, a4, o4, pushed, hp1, hp2⟩ := ih s3 acc (by rw [hdoc3]; exact hc)
        (fun x hx => by rw [hdoc3, hrem3]; exact hl x (List.mem_cons_of_mem _ hx))
        (hst3.2.2.2.2.2.2.2.2.1 c hcc) w2 (accOk_of_sortStep hst3 hacc)
        (by rw [hdoc3]; exact hoff) e2
      rw [hdoc3] at o4
      exact ⟨sortStep_trans hst3 st4, w4, a4, o4, pushed, hp1, List.Sublist.cons _ hp2⟩
    · rw [if_neg hborder] at h
      have hnb : idOf s.doc child ≠ some (borderId s.doc c) := hborder
      by_cases hpath : tagOf s.doc child = some "path"
      · -- a flat province
        rw [if_pos hpath] at h
        obtain ⟨s2, e1, e2⟩ := andThen_eq_ok h
        have hst2 : SortStep c s s2 := sortStep_trans hst1 (sortStep_pathSetAttributes c e1)
        have hw2 : Wired s2 := wired_pathSetAttributes e1 hw1
        have hdoc2 : s2.doc = s.doc := hst2.1
        have hrem2 : s2.removed = s.removed := hst2.2.2.2.2.2.2.1
        have hacc2 : AccOk s2 c c (acc ++ [child]) := by
          intro p hp
          rcases List.mem_append.mp hp with h1 | h1
          · exact accOk_of_sortStep hst2 hacc p h1
          · rw [List.mem_singleton] at h1
            subst h1
            rw [hdoc2, hrem2]
            refine ⟨hchild, ⟨isElement_of_tagOf hpath, hlive⟩, ?_, ?_⟩
            · rw [hpath]
              decide
            · rw [restyle_of_ok e1]
              simp [adopt_country]
        have hoff2 : ∀ p ∈ acc ++ [child], idOf s2.doc p ≠ some (borderId s2.doc c) := by
          intro p hp
          rw [hdoc2]
          rcases List.mem_append.mp hp with h1 | h1
          · exact hoff p h1
          · rw [List.mem_singleton] at h1
            rw [h1]
            exact hnb
        obtain ⟨st4, w4, a4, o4, pushed, hp1, hp2⟩ := ih s2 _ (by rw [hdoc2]; exact hc)
          (fun x hx => by rw [hdoc2, hrem2]; exact hl x (List.mem_cons_of_mem _ hx))
          (hst2.2.2.2.2.2.2.2.2.1 c hcc) hw2 hacc2 hoff2 e2
        rw [hdoc2] at o4
        refine ⟨sortStep_trans hst2 st4, w4, a4, o4, child :: pushed, ?_, ?_⟩
        · rw [hp1]
          simp
        · exact List.Sublist.cons₂ _ hp2
      · rw [if_neg hpath] at h
        by_cases hgroup : tagOf s.doc child = some "g"
        · -- a grouped province
          rw [if_pos hgroup] at h
          cases hsg : sortGrandchildren c child (liveChildNodes s child)
              (adopt s child c child) [] with
          | error e => simp [hsg] at h
          | ok r =>
            obtain ⟨s2, subs⟩ := r
            simp only [hsg] at h
            obtain ⟨st2, w2, a2⟩ := sortGrandchildren_spec (liveChildNodes s child)
              (adopt s child c child) s2 [] subs (by simpa using hc) (by simpa using hchild)
              (fun x hx => by
                simpa using ⟨parentOf_of_mem_liveChildNodes hx, (mem_liveChildNodes hx).2⟩) hw1
              (fun p hp => absurd hp (List.not_mem_nil p)) hsg
            have hst2 : SortStep c s s2 := sortStep_trans hst1 st2
            have hdoc2 : s2.doc = s.doc := hst2.1
            have hchc2 : s2.country child = some c := st2.2.2.2.2.2.2.2.2.1 child hchc
            have hst3 : SortStep c s (setProvinces s2 child subs) := by
              refine sortStep_trans hst2 (sortStep_of_eq c (by simp) (by simp) (by simp)
                (by simp) (by simp) (by simp) (by simp) (by simp) (by simp) ?_)
              intro m hm
              have hmc : m ≠ child := by
                intro e
                rw [e, hdoc2, hchild] at hm
                exact Option.noConfusion hm
              rw [setProvinces_provinces, if_neg hmc]
            have hw3 : Wired (setProvinces s2 child subs) := by
              apply wired_setProvinces _ w2
              intro p hp
              obtain ⟨b1, b2, b3, b4⟩ := a2 p hp
              refine ⟨b1, b2, b3, c, by rw [hdoc2]; exact hc, b4, hchc2, ?_⟩
              refine Or.inr ⟨child, b1, by rw [hdoc2]; exact hchild, ?_⟩
              rw [hdoc2]
              exact hnb
            have hdoc3 : (setProvinces s2 child subs).doc = s.doc := hst3.1
            have hrem3 : (setProvinces s2 child subs).removed = s.removed :=
              hst3.2.2.2.2.2.2.1
            have hacc3 : AccOk (setProvinces s2 child subs) c c (acc ++ [child]) := by
              intro p hp
              rcases List.mem_append.mp hp with h1 | h1
              · exact accOk_of_sortStep hst3 hacc p h1
              · rw [List.mem_singleton] at h1
                subst h1
                rw [hdoc3, hrem3]
                refine ⟨hchild, ⟨isElement_of_tagOf hgroup, hlive⟩, ?_, ?_⟩
                · rw [hgroup]
                  decide
                · simpa using hchc2
            have hoff3 : ∀ p ∈ acc ++ [child],
                idOf (setProvinces s2 child subs).doc p ≠
                  some (borderId (setProvinces s2 child subs).doc c) := by
              intro p hp
              rw [hdoc3]
              rcases List.mem_append.mp hp with h1 | h1
              · exact hoff p h1
              · rw [List.mem_singleton] at h1
                rw [h1]
                exact hnb
            obtain ⟨st4, w4, a4, o4, pushed, hp1, hp2⟩ := ih (setProvinces s2 child subs) _
              (by rw [hdoc3]; exact hc)
              (fun x hx => by rw [hdoc3, hrem3]; exact hl x (List.mem_cons_of_mem _ hx))
              (hst3.2.2.2.2.2.2.2.2.1 c hcc) hw3 hacc3 hoff3 h
            rw [hdoc3] at o4
            refine ⟨sortStep_trans hst3 st4, w4, a4, o4, child :: pushed, ?_, ?_⟩
            · rw [hp1]
              simp
            · exact List.Sublist.cons₂ _ hp2
        · -- anything else is only adopted
          rw [if_neg hgroup] at h
          obtain ⟨st4, w4, a4, o4, pushed, hp1, hp2⟩ := ih (adopt s child c child) acc
            (by simpa using hc)
            (fun x hx => by simpa using hl x (List.mem_cons_of_mem _ hx))
            (hst1.2.2.2.2.2.2.2.2.1 c hcc) hw1 (accOk_of_sortStep hst1 hacc)
            (by simpa using hoff) h
          simp only [adopt_doc] at o4
          exact ⟨sortStep_trans hst1 st4, w4, a4, o4, pushed, hp1, List.Sublist.cons _ hp2⟩

/-! ## The country loop of `sortProvinces` -/

theorem ok_of_faulted_false {r : Except MapState MapState} (h : faulted r = false) :
    r = .ok (after r) := by
  cases r with
  | error e => simp [faulted] at h
  | ok s => rfl

theorem wired_of_empty {s : MapState} (hp : ∀ n, s.provinces n = none)
    (hb : ∀ k, s.border k = none) : Wired s := by
  refine ⟨?_, ?_⟩
  · intro n p h
    rw [hp n] at h
    simp at h
  · intro k b h
    rw [hb k] at h
    exact Option.noConfusion h

theorem enterCountry_frame (s : MapState) (c : Nat) :
    (enterCountry s c).doc = s.doc ∧ (enterCountry s c).countries = s.countries ∧
    (enterCountry s c).countryLabels = s.countryLabels ∧
    (enterCountry s c).provinces = s.provinces ∧ (enterCountry s c).border = s.border ∧
    (enterCountry s c).removed = s.removed ∧
    ∀ m, (enterCountry s c).country m = if m = c then some c else s.country m := by
  unfold enterCountry
  cases objGet s.countryData (idKey (idOf s.doc c)) with
  | none => simp [setCountry_country]
  | some record => simp [setCountry_country]

theorem countryOk_congr {s t : MapState} {c : Nat} (h1 : t.country c = s.country c)
    (h2 : t.provinces c = s.provinces c) (h : CountryOk s c) : CountryOk t c := by
  unfold CountryOk at *
  rw [h1, h2]
  exact h

theorem sortCountry_spec {s t : MapState} {c : Nat} (hc : parentOf s.doc c = none)
    (hw : Wired s) (h : sortCountry s c = .ok t) :
    t.doc = s.doc ∧ t.countries = s.countries ∧ t.countryLabels = s.countryLabels ∧
    t.removed = s.removed ∧ Wired t ∧ CountryOk t c ∧
    (∀ m, parentOf s.doc m = none → m ≠ c →
      t.country m = s.country m ∧ t.provinces m = s.provinces m) ∧
    ∀ m, ¬ InFamily s.doc c m → t.country m = s.country m := by
  obtain ⟨f1, f2, f3, f4, f5, f7, f6⟩ := enterCountry_frame s c
  unfold sortCountry at h
  cases hsc : sortChildren c (liveChildNodes s c) (enterCountry s c) [] with
  | error e => simp [hsc] at h
  | ok r =>
    obtain ⟨s3, ps⟩ := r
    simp only [hsc, Except.ok.injEq] at h
    have hw1 : Wired (enterCountry s c) :=
      wired_of_country_write f1 f7 f4 f5 f6 hc (Or.inl rfl) hw
    obtain ⟨st, w3, a3, o3, pushed, hp1, hp2⟩ := sortChildren_spec (liveChildNodes s c)
      (enterCountry s c) s3 [] ps (by rw [f1]; exact hc)
      (fun x hx => by
        rw [f1, f7]
        exact ⟨parentOf_of_mem_liveChildNodes hx, (mem_liveChildNodes hx).2⟩)
      (by rw [f6, if_pos rfl]) hw1 (fun p hp => absurd hp (List.not_mem_nil p))
      (fun p hp => absurd hp (List.not_mem_nil p)) hsc
    have hdoc3 : s3.doc = s.doc := st.1.trans f1
    have hcc3 : s3.country c = some c := st.2.2.2.2.2.2.2.2.1 c (by rw [f6, if_pos rfl])
    rw [f1] at o3
    have hnd : ps.Nodup := by
      rw [hp1, List.nil_append]
      exact List.Nodup.sublist hp2 (liveChildNodes_nodup s c)
    rw [← h]
    refine ⟨by simpa using hdoc3, by simpa using st.2.1.trans f2,
      by simpa using st.2.2.1.trans f3, by simpa using st.2.2.2.2.2.2.1.trans f7,
      ?_, ?_, ?_, ?_⟩
    · apply wired_setProvinces _ w3
      intro p hp
      obtain ⟨b1, b2, b3, b4⟩ := a3 p hp
      refine ⟨b1, b2, b3, c, by rw [hdoc3]; exact hc, b4, hcc3, Or.inl ⟨b1, ?_⟩⟩
      rw [hdoc3]
      exact o3 p hp
    · refine ⟨by simpa using hcc3, ps, ?_, hnd⟩
      rw [setProvinces_provinces, if_pos rfl]
    · intro m hm hmc
      have h10 := st.2.2.2.2.2.2.2.2.2.1 m (by rw [f1]; exact hm)
      refine ⟨?_, ?_⟩
      · simp only [setProvinces_country]
        rw [h10.1, f6, if_neg hmc]
      · rw [setProvinces_provinces, if_neg hmc, h10.2, f4]
    · intro m hm
      have hmc : m ≠ c := fun e => hm (Or.inl e)
      simp only [setProvinces_country]
      rw [st.2.2.2.2.2.2.2.2.2.2 m (by rw [f1]; exact hm), f6, if_neg hmc]

theorem forEach_sortCountry_spec (l : List Nat) (s t : MapState)
    (hl : ∀ c ∈ l, parentOf s.doc c = none) (hw : Wired s)
    (h : forEach sortCountry l s = .ok t) :
    t.doc = s.doc ∧ t.countries = s.countries ∧ t.countryLabels = s.countryLabels ∧
    t.removed = s.removed ∧ Wired t ∧
    (∀ c, parentOf s.doc c = none → (CountryOk s c ∨ c ∈ l) → CountryOk t c) ∧
    ∀ m, (∀ c ∈ l, ¬ InFamily s.doc c m) → t.country m = s.country m := by
  induction l generalizing s with
  | nil =>
    simp only [forEach, Except.ok.injEq] at h
    rw [← h]
    refine ⟨rfl, rfl, rfl, rfl, hw, ?_, fun _ _ => rfl⟩
    intro c _ hc
    rcases hc with hc | hc
    · exact hc
    · exact absurd hc (List.not_mem_nil c)
  | cons x xs ih =>
    simp only [forEach] at h
    cases hx : sortCountry s x with
    | error e => simp [hx] at h
    | ok s1 =>
      simp only [hx] at h
      obtain ⟨d1, c1, l1, r1, w1, ok1, fr1, out1⟩ :=
        sortCountry_spec (hl x (List.mem_cons_self _ _)) hw hx
      obtain ⟨d2, c2, l2, r2, w2, ok2, out2⟩ := ih s1
        (fun c hc => by rw [d1]; exact hl c (List.mem_cons_of_mem _ hc)) w1 h
      refine ⟨d2.trans d1, c2.trans c1, l2.trans l1, r2.trans r1, w2, ?_, ?_⟩
      · intro c hc hcase
        by_cases hcx : c = x
        · rw [hcx]
          exact ok2 x (by rw [d1]; exact hl x (List.mem_cons_self _ _)) (Or.inl ok1)
        · rcases hcase with h3 | h3
          · exact ok2 c (by rw [d1]; exact hc)
              (Or.inl (countryOk_congr (fr1 c hc hcx).1 (fr1 c hc hcx).2 h3))
          · rcases List.mem_cons.mp h3 with h4 | h4
            · exact absurd h4 hcx
            · exact ok2 c (by rw [d1]; exact hc) (Or.inr h4)
      · intro m hm
        rw [out2 m (fun c hc => by rw [d1]; exact hm c (List.mem_cons_of_mem _ hc)),
          out1 m (hm x (List.mem_cons_self _ _))]

theorem sortProvinces_spec {s t : MapState}
    (hl : ∀ e ∈ s.countries, parentOf s.doc e.2 = none) (hw : Wired s)
    (h : sortProvinces s = .ok t) :
    t.doc = s.doc ∧ t.countries = s.countries ∧ t.countryLabels = s.countryLabels ∧
    t.removed = s.removed ∧ Wired t ∧ (∀ e ∈ s.countries, CountryOk t e.2) ∧
    ∀ m, (∀ e ∈ s.countries, ¬ InFamily s.doc e.2 m) → t.country m = s.country m := by
  unfold sortProvinces at h
  obtain ⟨s1, e1, e2⟩ := andThen_eq_ok h
  simp only [Except.ok.injEq] at e2
  obtain ⟨d1, c1, l1, r1, w1, ok1, out1⟩ := forEach_sortCountry_spec _ s s1
    (fun c hc => by
      obtain ⟨e, he, hec⟩ := List.mem_map.mp hc
      rw [← hec]
      exact hl e he) hw e1
  rw [← e2]
  refine ⟨by simpa using d1, by simpa using c1, by simpa using l1, by simpa using r1,
    wired_congr (by simp) (by simp) (by simp) (by simp) (by simp) w1, ?_, ?_⟩
  · intro e he
    exact countryOk_congr (by simp) (by simp)
      (ok1 e.2 (hl e he) (Or.inr (List.mem_map.mpr ⟨e, he, rfl⟩)))
  · intro m hm
    simp only [initMapControls_country]
    apply out1 m
    intro c hc
    obtain ⟨e, he, hec⟩ := List.mem_map.mp hc
    rw [← hec]
    exact hm e he

/-! ## The whole of `initMapCountries` -/

theorem styleBackground_indexed {s t : MapState} (h : styleBackground s = .ok t) :
    (objGet s.countries "World").isSome = true ∧ (objGet s.countries "Ocean").isSome = true := by
  unfold styleBackground at h
  cases hw : objGet s.countries "World" with
  | none => simp [hw] at h
  | some w =>
    cases ho : objGet s.countries "Ocean" with
    | none => simp [hw, ho] at h
    | some o => simp

theorem antarcticaStep_spec {s t : MapState}
    (h : (if s.opts.showAntarctica = false then removeAntarctica s else .ok s) = .ok t) :
    t.doc = s.doc ∧ t.opts = s.opts ∧ t.country = s.country ∧ t.provinces = s.provinces ∧
    t.border = s.border ∧
    t.countries =
      (if s.opts.showAntarctica = false then objDelete s.countries "AQ" else s.countries) ∧
    t.countryLabels =
      (if s.opts.showAntarctica = false then objDelete s.countryLabels "AQ"
       else s.countryLabels) := by
  by_cases ha : s.opts.showAntarctica = false
  · rw [if_pos ha] at h
    rw [if_pos ha, if_pos ha]
    obtain ⟨k1, k2, _, k4, k5, k6, _, k8, k9, _⟩ := removeAntarctica_spec h
    exact ⟨k1, k2, k4, k5, k6, k8, k9⟩
  · rw [if_neg ha] at h
    rw [if_neg ha, if_neg ha]
    cases h
    exact ⟨rfl, rfl, rfl, rfl, rfl, rfl, rfl⟩

theorem labelsStep_spec {s t : MapState}
    (h : (if s.opts.showLabels = true then toggleAllLabels s else .ok s) = .ok t) :
    Keeps s t ∧ t.countryLabels = s.countryLabels := by
  by_cases ha : s.opts.showLabels = true
  · rw [if_pos ha] at h
    exact ⟨(toggleAllLabels_keeps h).1, (toggleAllLabels_keeps h).2.1⟩
  · rw [if_neg ha] at h
    cases h
    exact ⟨keeps_refl _, rfl⟩

theorem finishInit_frame (s : MapState) :
    (finishInit s).doc = s.doc ∧ (finishInit s).countries = sortObject s.countries ∧
    (finishInit s).countryLabels = s.countryLabels ∧ (finishInit s).country = s.country ∧
    (finishInit s).provinces = s.provinces ∧ (finishInit s).border = s.border ∧
    (finishInit s).removed = s.removed := by
  unfold finishInit
  by_cases hg : s.opts.groupCountries = true
  · rw [if_pos hg]
    simp
  · rw [if_neg hg]
    simp

/-- What `initMapCountries` leaves behind when it runs on a freshly loaded asset: the
expandos are consistent, every indexed node is a top-level node that refers to itself and
has a duplicate-free province list, and both indices are functions of the document and
of `showAntarctica`. -/
theorem initMapCountries_summary {doc : List DomNode} {opts : Options}
    {data : Obj (Obj String)} {fns : List String} {s : MapState}
    (h : initMapCountries (loadState doc opts data fns) = .ok s) :
    s.doc = doc ∧ Wired s ∧ (∀ e ∈ s.countries, CountryOk s e.2) ∧
    (objGet (indexCountries doc (baseChildNodes doc) []) "World").isSome = true ∧
    (objGet (indexCountries doc (baseChildNodes doc) []) "Ocean").isSome = true ∧
    ∃ layer, objGet (indexCountries doc (baseChildNodes doc) []) "labels" = some layer ∧
      s.countries = sortObject (objDelete
        (if opts.showAntarctica = false then
          objDelete (indexCountries doc (baseChildNodes doc) []) "AQ"
         else indexCountries doc (baseChildNodes doc) []) "labels") ∧
      s.countryLabels =
        (if opts.showAntarctica = false then
          objDelete (labelFold doc (childNodes doc layer) []) "AQ"
         else labelFold doc (childNodes doc layer) []) ∧
      ∀ m, (∀ c, parentOf doc c = none → idOf doc c ≠ some "labels" → ¬ InFamily doc c m) →
        s.country m = none := by
  obtain ⟨s0, hs0⟩ : ∃ s0, s0 = loadState doc opts data fns := ⟨_, rfl⟩
  have d0 : s0.doc = doc := by rw [hs0]; rfl
  have o0 : s0.opts = opts := by rw [hs0]; rfl
  have c0 : s0.countries = [] := by rw [hs0]; rfl
  have l0 : s0.countryLabels = [] := by rw [hs0]; rfl
  have p0 : s0.provinces = fun _ => none := by rw [hs0]; rfl
  have r0 : s0.removed = [] := by rw [hs0]; rfl
  have k0 : s0.country = fun _ => none := by rw [hs0]; rfl
  have b0 : s0.border = fun _ => none := by rw [hs0]; rfl
  rw [← hs0] at h
  clear hs0
  unfold initMapCountries at h
  obtain ⟨s2, e2, h⟩ := andThen_eq_ok h
  obtain ⟨s3, e3, h⟩ := andThen_eq_ok h
  obtain ⟨s4, e4, h⟩ := andThen_eq_ok h
  obtain ⟨s5, e5, h⟩ := andThen_eq_ok h
  obtain ⟨s6, e6, h⟩ := andThen_eq_ok h
  simp only [Except.ok.injEq] at h
  obtain ⟨hW, hO⟩ := styleBackground_indexed e2
  simp only [indexMap_countries, d0, c0] at hW hO
  obtain ⟨⟨a1, a2, _, a4, a5, a6, a7, _⟩, al, ar⟩ := styleBackground_keeps e2
  simp only [indexMap_doc, indexMap_opts, indexMap_countries, indexMap_provinces,
    indexMap_border, indexMap_countryLabels, indexMap_removed, indexMap_country,
    d0, o0, c0, l0, p0, b0, r0, k0] at a1 a2 a4 a5 a6 a7 al ar
  obtain ⟨⟨b1, b2, _, b4, b5, b6, b7, _⟩, _, layer, hlayer, bl⟩ := sortLabels_spec e3
  rw [a4] at hlayer
  rw [liveChildNodes_of_removed_nil ar, a1, al] at bl
  rw [a1] at b1
  rw [a2] at b2
  rw [a4] at b4
  rw [a5] at b5
  rw [a6] at b6
  rw [a7] at b7
  obtain ⟨g1, g2, g3, g4, g5, g6, g7⟩ := antarcticaStep_spec e4
  rw [b5] at g3
  rw [b2, b4] at g6
  rw [b2, bl] at g7
  rw [b1] at g1
  rw [b6] at g4
  rw [b7] at g5
  obtain ⟨⟨k1, _, _, k4, k5, k6, k7, _⟩, kl⟩ := labelsStep_spec e5
  rw [g3] at k5
  rw [g1] at k1
  rw [g6] at k4
  rw [g4] at k6
  rw [g5] at k7
  rw [g7] at kl
  have hent : ∀ e ∈ (dropCountry s5 "labels").countries,
      parentOf doc e.2 = none ∧ idOf doc e.2 = some e.1 ∧ e.1 ≠ "labels" := by
    intro e he
    simp only [dropCountry_countries] at he
    refine ⟨?_, ?_, (mem_objDelete he).2⟩ <;>
    have he1 := (mem_objDelete he).1 <;>
    rw [k4] at he1 <;>
    have he2 : e ∈ indexCountries doc (baseChildNodes doc) [] := by
      by_cases ha : opts.showAntarctica = false
      · rw [if_pos ha] at he1
        exact (mem_objDelete he1).1
      · rw [if_neg ha] at he1
        exact he1
    · rcases mem_indexCountries he2 with h1 | ⟨h1, _, _⟩
      · exact absurd h1 (List.not_mem_nil e)
      · exact parentOf_of_mem_baseChildNodes h1
    · rcases mem_indexCountries he2 with h1 | ⟨_, h1, _⟩
      · exact absurd h1 (List.not_mem_nil e)
      · exact h1
  have htop : ∀ e ∈ (dropCountry s5 "labels").countries,
      parentOf (dropCountry s5 "labels").doc e.2 = none := by
    intro e he
    simp only [dropCountry_countries, dropCountry_doc] at he ⊢
    rw [k1]
    have he1 := (mem_objDelete he).1
    rw [k4] at he1
    have he2 : e ∈ indexCountries doc (baseChildNodes doc) [] := by
      by_cases ha : opts.showAntarctica = false
      · rw [if_pos ha] at he1
        exact (mem_objDelete he1).1
      · rw [if_neg ha] at he1
        exact he1
    rcases mem_indexCountries he2 with h1 | ⟨h1, _, _⟩
    · exact absurd h1 (List.not_mem_nil e)
    · exact parentOf_of_mem_baseChildNodes h1
  have hw5 : Wired (dropCountry s5 "labels") :=
    wired_of_empty (fun n => by simp [k6]) (fun k => by simp [k7])
  obtain ⟨m1, m2, m3, _, m4, m5, m6⟩ := sortProvinces_spec htop hw5 e6
  simp only [dropCountry_countries, dropCountry_doc, dropCountry_countryLabels,
    dropCountry_country] at m1 m2 m3 m5 m6
  obtain ⟨n1, n2, n3, n4, n5, n6, n7⟩ := finishInit_frame s6
  rw [h] at n1 n2 n3 n4 n5 n6 n7
  refine ⟨n1.trans (m1.trans k1), wired_congr n1 n7 n4 n5 n6 m4, ?_, hW, hO, layer, hlayer,
    ?_, ?_, ?_⟩
  · intro e he
    rw [n2, m2] at he
    exact countryOk_congr (by rw [n4]) (by rw [n5]) (m5 e (mem_sortObject he))
  · rw [n2, m2, k4]
  · rw [n3, m3, kl]
  · intro m hm
    rw [n4, m6 m, k5]
    intro e he
    rw [k1]
    obtain ⟨t1, t2, t3⟩ := hent e (by simpa using he)
    apply hm e.2 t1
    rw [t2]
    intro hid
    exact t3 (Option.some.inj hid)

/-! ## The built map has the shape the event handlers rely on -/

theorem mem_labelFold {doc : List DomNode} {l : List Nat} {acc : Obj Nat} {e : String × Nat}
    (h : e ∈ labelFold doc l acc) :
    e ∈ acc ∨ (e.2 ∈ l ∧ substr0 (idKey (idOf doc e.2)) 2 = e.1) := by
  induction l generalizing acc with
  | nil => exact Or.inl h
  | cons x xs ih =>
    simp only [labelFold] at h
    rcases ih h with h1 | ⟨h1, h2⟩
    · by_cases ht : tagOf doc x = some "text"
      · rw [if_pos ht] at h1
        rcases mem_objSet h1 with h2 | h2
        · exact Or.inl h2
        · right
          rw [h2]
          exact ⟨List.mem_cons_self _ _, rfl⟩
      · rw [if_neg ht] at h1
        exact Or.inl h1
    · exact Or.inr ⟨List.mem_cons_of_mem _ h1, h2⟩

theorem wired_partOk {s : MapState} (hw : Wired s)
    (hyg : ∀ n, parentOf s.doc n ≠ none →
      idOf s.doc n ≠ some "World" ∧ idOf s.doc n ≠ some "Ocean")
    {n p : Nat} (hp : p ∈ (s.provinces n).getD []) : PartOk s n p := by
  obtain ⟨h1, ⟨h2, hlive⟩, h3, k, hk, hpk, hnk, hoff⟩ := hw.1 n p hp
  have hpar : parentOf s.doc p ≠ none := by
    rw [h1]
    exact Option.some_ne_none _
  refine ⟨h2, (hyg p hpar).1, (hyg p hpar).2, h3, by rw [hpk, hnk], ?_⟩
  rw [hpk]
  have hnb : s.border k ≠ some p := by
    intro hb
    obtain ⟨b1, b2⟩ := hw.2 k p hb
    rcases hoff with ⟨_, o2⟩ | ⟨q, o1, o2, _⟩
    · exact o2 b2
    · rw [b1] at o1
      rw [← Option.some.inj o1, hk] at o2
      exact Option.noConfusion o2
  have hpn : parentNode s p = ParentRef.node n := by
    simp [parentNode, hlive, h1]
  have hfalse : isBorderPath s p k = false := by
    unfold isBorderPath
    rw [hpn]
    cases hb : s.border k with
    | none => simp
    | some b =>
      have hbp : b ≠ p := by
        intro e
        rw [e] at hb
        exact hnb hb
      have hnb2 : n ≠ b := by
        intro e
        obtain ⟨b1, b2⟩ := hw.2 k b hb
        rw [← e] at b1 b2
        rcases hoff with ⟨o1, _⟩ | ⟨q, o1, _, o3⟩
        · rw [h1] at o1
          rw [Option.some.inj o1, hk] at b1
          exact Option.noConfusion b1
        · rw [h1] at o1
          rw [← Option.some.inj o1] at o3
          exact o3 b2
      simp [hbp, hnb2]
  simp [hfalse]

/-- The map that `initMapCountries` builds from a loaded asset is `Built`, provided that
the ids `World` and `Ocean` are carried by top-level nodes only. -/
theorem initMapCountries_built_of_hygiene {doc : List DomNode} {opts : Options}
    {data : Obj (Obj String)} {fns : List String} {s : MapState}
    (h : initMapCountries (loadState doc opts data fns) = .ok s)
    (hyg : ∀ n, parentOf doc n ≠ none →
      idOf doc n ≠ some "World" ∧ idOf doc n ≠ some "Ocean") :
    Built s := by
  obtain ⟨hdoc, hw, hok, _, _, layer, hlayer, hc, hl, hout⟩ := initMapCountries_summary h
  refine ⟨?_, ?_, ?_⟩
  · intro e he
    obtain ⟨hcc, ps, hps, _⟩ := hok e he
    refine ⟨?_, hcc, by rw [hps]; rfl⟩
    rw [hdoc]
    rw [hc] at he
    have he1 := (mem_objDelete (mem_sortObject he)).1
    have he2 : e ∈ indexCountries doc (baseChildNodes doc) [] := by
      by_cases ha : opts.showAntarctica = false
      · rw [if_pos ha] at he1
        exact (mem_objDelete he1).1
      · rw [if_neg ha] at he1
        exact he1
    rcases mem_indexCountries he2 with h1 | ⟨_, h1, _⟩
    · exact absurd h1 (List.not_mem_nil e)
    · exact h1
  · intro n _ p hp
    exact wired_partOk hw (by rw [hdoc]; exact hyg) hp
  · intro e he
    rw [hl] at he
    have he1 : e ∈ labelFold doc (childNodes doc layer) [] := by
      by_cases ha : opts.showAntarctica = false
      · rw [if_pos ha] at he
        exact (mem_objDelete he).1
      · rw [if_neg ha] at he
        exact he
    rcases mem_labelFold he1 with h1 | ⟨h1, h2⟩
    · exact absurd h1 (List.not_mem_nil e)
    · have hpar : parentOf doc e.2 = some layer := parentOf_of_mem_childNodes h1
      have hlay : parentOf doc layer = none ∧ idOf doc layer = some "labels" := by
        rcases mem_indexCountries (objGet_mem hlayer) with h3 | ⟨h3, h4, _⟩
        · exact absurd h3 (List.not_mem_nil _)
        · exact ⟨parentOf_of_mem_baseChildNodes h3, h4⟩
      refine ⟨hout e.2 ?_, by rw [hdoc]; exact h2⟩
      intro c hctop hid hfam
      rcases hfam with f | f | ⟨q, f1, f2⟩
      · rw [f, hctop] at hpar
        exact Option.noConfusion hpar
      · rw [hpar] at f
        rw [← Option.some.inj f] at hid
        exact hid hlay.2
      · rw [hpar] at f1
        rw [← Option.some.inj f1, hlay.1] at f2
        exact Option.noConfusion f2

/-- The map that `svgWorldMap` returns for such an asset is `Built` as well: the info box
set-up that follows `initMapCountries` touches neither the document nor the hierarchy. -/
theorem svgWorldMap_built_of_hygiene {doc : List DomNode} {opts : Options}
    {data : Obj (Obj String)} {fns : List String} {s : MapState}
    (h : svgWorldMap doc opts data fns = .ok s)
    (hyg : ∀ n, parentOf doc n ≠ none →
      idOf doc n ≠ some "World" ∧ idOf doc n ≠ some "Ocean") :
    Built s := by
  unfold svgWorldMap at h
  obtain ⟨s1, e1, e2⟩ := andThen_eq_ok h
  simp only [Except.ok.injEq] at e2
  have hb := initMapCountries_built_of_hygiene e1 hyg
  by_cases hi : s1.opts.showInfoBox = true
  · rw [if_pos hi] at e2
    rw [← e2]
    exact built_congr rfl rfl rfl rfl rfl rfl rfl hb
  · rw [if_neg hi] at e2
    rw [← e2]
    exact hb

/-! ## The hierarchy invariants of `initMapCountries` -/

/-- Claim C8.  After `initMapCountries` has run on a loaded asset, every node `n` filed in
the country index under some identifier refers to itself: `countries[id].country` is
`countries[id]`.  The keys `World` and `Ocean` are in the index and fall under the rule.
The run embedded here contains the country-data merge, which precedes the write of the
self-reference, and the final `sortObject`, which only reorders the index. -/
theorem initMapCountries_self_reference (doc : List DomNode) (opts : Options)
    (data : Obj (Obj String)) (fns : List String) (s : MapState)
    (h : initMapCountries (loadState doc opts data fns) = .ok s) :
    (∀ id n, objGet s.countries id = some n → s.country n = some n) ∧
    (∃ w, objGet s.countries "World" = some w ∧ s.country w = some w) ∧
    (∃ o, objGet s.countries "Ocean" = some o ∧ s.country o = some o) := by
  obtain ⟨_, _, hok, hW, hO, layer, _, hc, _⟩ := initMapCountries_summary h
  have hall : ∀ id n, objGet s.countries id = some n → s.country n = some n :=
    fun id n hn => (hok (id, n) (objGet_mem hn)).1
  have hWs : (objGet s.countries "World").isSome = true := by
    rw [hc, objGet_sortObject, objGet_objDelete, if_neg (by decide)]
    by_cases ha : opts.showAntarctica = false
    · rw [if_pos ha, objGet_objDelete, if_neg (by decide)]
      exact hW
    · rw [if_neg ha]
      exact hW
  have hOs : (objGet s.countries "Ocean").isSome = true := by
    rw [hc, objGet_sortObject, objGet_objDelete, if_neg (by decide)]
    by_cases ha : opts.showAntarctica = false
    · rw [if_pos ha, objGet_objDelete, if_neg (by decide)]
      exact hO
    · rw [if_neg ha]
      exact hO
  obtain ⟨w, hw⟩ := Option.isSome_iff_exists.mp hWs
  obtain ⟨o, ho⟩ := Option.isSome_iff_exists.mp hOs
  exact ⟨hall, ⟨w, hw, hall _ w hw⟩, ⟨o, ho, hall _ o ho⟩⟩

theorem initMapCountries_self_reference_witness :
    objGet (after (initMapCountries (loadState demoDoc {} demoData ["mapClick"]))).countries
      "DE" = some 4 ∧
    (after (initMapCountries (loadState demoDoc {} demoData ["mapClick"]))).country 4 =
      some 4 :=
  ⟨by decide,
   (initMapCountries_self_reference demoDoc {} demoData ["mapClick"] _
      (ok_of_faulted_false (by decide))).1 "DE" 4 (by decide)⟩

/-- Claim C9.  After `initMapCountries` has built the hierarchy of a loaded asset (whose
DOM child lists are duplicate-free, as `childNodes` is), every country `c` of the index
has a province list, and every province `p` on that list has `p.country = c` and occurs
exactly once on the list, which is `p.country.provinces`. -/
theorem initMapCountries_province_once (doc : List DomNode) (opts : Options)
    (data : Obj (Obj String)) (fns : List String) (s : MapState)
    (h : initMapCountries (loadState doc opts data fns) = .ok s)
    (id : String) (c : Nat) (hc : objGet s.countries id = some c) :
    ∃ ps, s.provinces c = some ps ∧
      ∀ p ∈ ps, s.country p = some c ∧
        ((s.country p).bind s.provinces) = some ps ∧ ps.count p = 1 := by
  obtain ⟨_, hw, hok, _⟩ := initMapCountries_summary h
  obtain ⟨hcc, ps, hps, hnd⟩ := hok (id, c) (objGet_mem hc)
  refine ⟨ps, hps, ?_⟩
  intro p hp
  obtain ⟨_, _, _, k, _, hpk, hck, _⟩ := hw.1 c p (by rw [hps]; exact hp)
  have hkc : k = c := by
    rw [hcc] at hck
    exact (Option.some.inj hck).symm
  rw [hkc] at hpk
  refine ⟨hpk, ?_, List.count_eq_one_of_mem hnd hp⟩
  rw [hpk]
  exact hps

theorem initMapCountries_province_once_witness :
    objGet (after (initMapCountries (loadState demoDoc {} demoData ["mapClick"]))).countries
      "DE" = some 4 ∧
    ∃ ps, (after (initMapCountries (loadState demoDoc {} demoData ["mapClick"]))).provinces 4 =
        some ps ∧
      ∀ p ∈ ps,
        (after (initMapCountries (loadState demoDoc {} demoData ["mapClick"]))).country p =
          some 4 ∧
        (((after (initMapCountries (loadState demoDoc {} demoData ["mapClick"]))).country
            p).bind
          (after (initMapCountries (loadState demoDoc {} demoData ["mapClick"]))).provinces) =
          some ps ∧
        ps.count p = 1 :=
  ⟨by decide,
   initMapCountries_province_once demoDoc {} demoData ["mapClick"] _
     (ok_of_faulted_false (by decide)) "DE" 4 (by decide)⟩

/-- Claim C10.  Take two runs of `initMapCountries` on the same loaded asset whose options
differ in `showAntarctica` alone.  If the run with `showAntarctica = false` completes
(which needs an `AQ` country and an `AQ-label` label) then neither its country index nor
its label index has the key `AQ`, and under every other key both indices hold what they
hold after the run with `showAntarctica = true`. -/
theorem initMapCountries_without_antarctica (doc : List DomNode) (opts : Options)
    (data : Obj (Obj String)) (fns : List String) (s1 s2 : MapState)
    (h1 : initMapCountries
      (loadState doc { opts with showAntarctica := false } data fns) = .ok s1)
    (h2 : initMapCountries
      (loadState doc { opts with showAntarctica := true } data fns) = .ok s2) :
    objGet s1.countries "AQ" = none ∧ objGet s1.countryLabels "AQ" = none ∧
    ∀ k, k ≠ "AQ" →
      objGet s1.countries k = objGet s2.countries k ∧
      objGet s1.countryLabels k = objGet s2.countryLabels k := by
  obtain ⟨_, _, _, _, _, layer1, hl1, hc1, hb1, _⟩ := initMapCountries_summary h1
  obtain ⟨_, _, _, _, _, layer2, hl2, hc2, hb2, _⟩ := initMapCountries_summary h2
  have hlayer : layer2 = layer1 := by
    rw [hl1] at hl2
    exact (Option.some.inj hl2).symm
  rw [hlayer] at hb2
  have e1 : ({ opts with showAntarctica := false } : Options).showAntarctica = false := rfl
  have e2 : ¬ ({ opts with showAntarctica := true } : Options).showAntarctica = false :=
    fun e => Bool.noConfusion e
  rw [if_pos e1] at hc1 hb1
  rw [if_neg e2] at hc2 hb2
  refine ⟨?_, ?_, ?_⟩
  · rw [hc1, objGet_sortObject, objGet_objDelete, if_neg (by decide), objGet_objDelete,
      if_pos rfl]
  · rw [hb1, objGet_objDelete, if_pos rfl]
  · intro k hk
    refine ⟨?_, ?_⟩
    · rw [hc1, hc2]
      simp only [objGet_sortObject, objGet_objDelete, if_neg hk]
    · rw [hb1, hb2, objGet_objDelete, if_neg hk]

theorem initMapCountries_without_antarctica_witness :
    objGet (after (initMapCountries (loadState demoDoc
      { ({} : Options) with showAntarctica := true } demoData ["mapClick"]))).countries "AQ" =
      some 2 ∧
    objGet (after (initMapCountries (loadState demoDoc
      { ({} : Options) with showAntarctica := false } demoData ["mapClick"]))).countries "AQ" =
      none ∧
    objGet (after (initMapCountries (loadState demoDoc
      { ({} : Options) with showAntarctica := false } demoData ["mapClick"]))).countryLabels
      "AQ" = none :=
  ⟨by decide,
   (initMapCountries_without_antarctica demoDoc {} demoData ["mapClick"] _ _
      (ok_of_faulted_false (by decide)) (ok_of_faulted_false (by decide))).1,
   (initMapCountries_without_antarctica demoDoc {} demoData ["mapClick"] _ _
      (ok_of_faulted_false (by decide)) (ok_of_faulted_false (by decide))).2.1⟩

/-! ## Style resolver: literal colours -/

/-- C7: on an element whose id is neither `World` nor `Ocean`, a literal colour event
(prefix `#` or `rgb`) makes `pathSetAttributes` set `fill` of that node to the event
string and leave every other attribute and field as it was, whatever the selection; an
event that is none of `out`, `over`, `click` and has neither prefix changes nothing. -/
theorem pathSetAttributes_literal (s : MapState) (n : Nat) (event : String)
    (hel : isElement s.doc n = true)
    (hW : idOf s.doc n ≠ some "World") (hO : idOf s.doc n ≠ some "Ocean") :
    (isLiteralColor event = true →
      pathSetAttributes s (some n) event =
        .ok { s with fill := fun i => if i = n then some event else s.fill i }) ∧
    (isLiteralColor event = false → event ≠ "out" → event ≠ "over" → event ≠ "click" →
      pathSetAttributes s (some n) event = .ok s) := by
  constructor
  · intro hlit
    obtain ⟨h1, h2, h3⟩ := isLiteralColor_ne_state event hlit
    simp [pathSetAttributes, hW, hO, paletteApplies_false s n event h1 h2 h3, hlit, hel,
      fillDirect]
    rfl
  · intro hlit h2 h3 h1
    simp [pathSetAttributes, hW, hO, paletteApplies_false s n event h1 h2 h3, hlit]

theorem pathSetAttributes_literal_witness :
    isElement (after (countryClick demo "DE")).doc 6 = true ∧
    pathSetAttributes (after (countryClick demo "DE")) (some 6) "#ff0000" =
      .ok { after (countryClick demo "DE") with
            fill := fun i => if i = 6 then some "#ff0000"
                             else (after (countryClick demo "DE")).fill i } :=
  ⟨by decide,
   (pathSetAttributes_literal (after (countryClick demo "DE")) 6 "#ff0000"
      (by decide) (by decide) (by decide)).1 (by decide)⟩

/-! ## Concrete runs -/

/-- C2 (counterexample): `World` carries a country back-reference and can be the current
selection; activating it again clears the selection, but the guard of `pathSetAttributes`
leaves it without any palette: neither the province nor the border `out` stroke is set. -/
theorem provinceClick_world_unstyled :
    (after (provinceClick demo 0)).selectedCountry = some 0 ∧
    (after (provinceClick demo 0)).country 0 = some 0 ∧
    (after (provinceClick (after (provinceClick demo 0)) 0)).selectedCountry = none ∧
    (after (provinceClick (after (provinceClick demo 0)) 0)).stroke 0 = none ∧
    (after (provinceClick (after (provinceClick demo 0)) 0)).strokeWidth 0 = none ∧
    (after (provinceClick (after (provinceClick demo 0)) 0)).fill 0 = none := by
  decide

/-- C3 (failing run): the province `DE-BY` is selected by `countryClick("DE-BY")`; a second
`countryClick("DE-BY")` resolves to that same node, yet the selection stays on it and it
keeps the `click` palette. -/
theorem countryClick_selected_province_stays :
    findProvinceById (after (countryClick demo "DE-BY")) "DE-BY" = some 6 ∧
    (after (countryClick demo "DE-BY")).selectedCountry = some 6 ∧
    (after (countryClick (after (countryClick demo "DE-BY")) "DE-BY")).selectedCountry = some 6 ∧
    (after (countryClick (after (countryClick demo "DE-BY")) "DE-BY")).fill 6 =
      some demo.opts.provinceFill.click ∧
    (after (countryClick (after (countryClick demo "DE-BY")) "DE-BY")).stroke 6 =
      some demo.opts.provinceStroke.click := by
  decide

/-- C4 (failing run): with the subprovince `DE-NW-1` selected (so neither `DE` nor one of
its provinces is), `updateMapData` with `DE: #ff0000` followed by `resetMap()` clears the
override of the subprovince but leaves its fill at `#ff0000`, not at `provinceFill.out`:
the repaint that `resetMap` calls for is suppressed for the selection. -/
theorem resetMap_selected_subprovince_keeps_color :
    (after (provinceClick demo 8)).selectedCountry = some 8 ∧
    demo.provinces 4 = some [6, 7] ∧ demo.provinces 7 = some [8] ∧
    (after (resetMap (after (updateMapData (after (provinceClick demo 8))
        [("DE", "#ff0000")])))).updateColor 8 = none ∧
    (after (resetMap (after (updateMapData (after (provinceClick demo 8))
        [("DE", "#ff0000")])))).fill 8 = some "#ff0000" ∧
    demo.opts.provinceFill.out ≠ "#ff0000" := by
  decide

/-- C5 (failing run): after `countryClick("DE")`, `updateMapData` with `DE: #ff0000` and
`resetMap()`, the provinces and the subprovince of `DE` still show `#ff0000`. -/
theorem resetMap_selected_country_keeps_color :
    (after (countryClick demo "DE")).selectedCountry = some 4 ∧
    (after (resetMap (after (updateMapData (after (countryClick demo "DE"))
        [("DE", "#ff0000")])))).fill 6 = some "#ff0000" ∧
    (after (resetMap (after (updateMapData (after (countryClick demo "DE"))
        [("DE", "#ff0000")])))).fill 7 = some "#ff0000" ∧
    (after (resetMap (after (updateMapData (after (countryClick demo "DE"))
        [("DE", "#ff0000")])))).fill 8 = some "#ff0000" ∧
    (after (resetMap (after (updateMapData (after (countryClick demo "DE"))
        [("DE", "#ff0000")])))).updateColor 6 = none ∧
    demo.opts.provinceFill.out ≠ "#ff0000" := by
  decide

/-! ## Time controls -/

theorem updateControls_frame (t : TimeState) :
    (afterT (updateControls t)).currDate = t.currDate ∧
    (afterT (updateControls t)).maxDates = t.maxDates ∧
    (afterT (updateControls t)).loop = t.loop ∧
    (afterT (updateControls t)).paused = t.paused ∧
    (afterT (updateControls t)).speed = t.speed ∧
    (afterT (updateControls t)).ticks = t.ticks ∧
    (afterT (updateControls t)).timeData = t.timeData := by
  unfold updateControls
  split
  · split
    · exact ⟨rfl, rfl, rfl, rfl, rfl, rfl, rfl⟩
    · split <;> exact ⟨rfl, rfl, rfl, rfl, rfl, rfl, rfl⟩
  · exact ⟨rfl, rfl, rfl, rfl, rfl, rfl, rfl⟩

theorem tickFires_one (ticks : Nat) : tickFires 1 ticks = true := by
  simp [tickFires]

theorem tickFires_iff {speed : Nat} (h : 2 ≤ speed) (ticks : Nat) :
    tickFires speed ticks = true ↔ ticks % speed = 1 := by
  have h1 : speed ≠ 1 := by omega
  simp [tickFires, h1]

/-- A call of `increaseTimeTicks` at speed 1 leaves the date, the pause flag and the
settings as `advanceDate` computes them. -/
theorem increaseTimeTicks_at_speed_one (t : TimeState) (hs : t.speed = 1) :
    (afterT (increaseTimeTicks t)).currDate = (advanceDate (countTick t)).currDate ∧
    (afterT (increaseTimeTicks t)).maxDates = (advanceDate (countTick t)).maxDates ∧
    (afterT (increaseTimeTicks t)).loop = (advanceDate (countTick t)).loop ∧
    (afterT (increaseTimeTicks t)).paused = (advanceDate (countTick t)).paused ∧
    (afterT (increaseTimeTicks t)).speed = (advanceDate (countTick t)).speed := by
  have hf : tickFires (countTick t).speed (countTick t).ticks = true := by
    have e : (countTick t).speed = 1 := hs
    rw [e]
    exact tickFires_one _
  unfold increaseTimeTicks
  rw [if_pos hf]
  obtain ⟨a, b, c, d, e, _, _⟩ := updateControls_frame (advanceDate (countTick t))
  exact ⟨a, b, c, d, e⟩

theorem advanceDate_below (t : TimeState) (d m : Int) (hc : t.currDate = some d)
    (hm : t.maxDates = some m) (h : d < m) :
    (advanceDate t).currDate = some (d + 1) ∧ (advanceDate t).maxDates = some m ∧
    (advanceDate t).loop = t.loop ∧ (advanceDate t).paused = t.paused ∧
    (advanceDate t).speed = t.speed := by
  have hlt : dateNum t.currDate < dateNum t.maxDates := by
    rw [hc, hm]
    exact h
  unfold advanceDate
  rw [if_pos (Or.inl hlt), hc]
  exact ⟨rfl, hm, rfl, rfl, rfl⟩

theorem advanceDate_at_end (t : TimeState) (m : Int) (hc : t.currDate = some m)
    (hm : t.maxDates = some m) (h0 : m ≠ 0) (hl : t.loop = false) :
    (advanceDate t).currDate = some m ∧ (advanceDate t).paused = true := by
  have hlt : ¬ (dateNum t.currDate < dateNum t.maxDates ∨ looseFalse t.maxDates = true) := by
    rw [hc, hm]
    simp [dateNum, looseFalse, h0]
  have hl2 : ¬ t.loop = true := by
    rw [hl]
    exact Bool.false_ne_true
  unfold advanceDate
  rw [if_neg hlt, if_neg hl2]
  exact ⟨hc, rfl⟩

/-- From date `d`, `j` advancing calls at speed 1 reach date `d + j` as long as that does
not pass the last date. -/
theorem advances_climb (m : Int) :
    ∀ (j : Nat) (t : TimeState) (d : Int), t.currDate = some d → t.maxDates = some m →
      t.loop = false → t.speed = 1 → d + j ≤ m →
      (advances j t).currDate = some (d + j) ∧ (advances j t).maxDates = some m ∧
      (advances j t).loop = false ∧ (advances j t).speed = 1 ∧
      (advances j t).paused = t.paused := by
  intro j
  induction j with
  | zero =>
    intro t d hc hm hl hs _
    have e : d + ((0 : Nat) : Int) = d := by simp
    rw [e]
    exact ⟨hc, hm, hl, hs, rfl⟩
  | succ j ih =>
    intro t d hc hm hl hs hle
    obtain ⟨a1, a2, a3, a4, a5⟩ := increaseTimeTicks_at_speed_one t hs
    have hlt : d < m := by
      have : (0 : Int) ≤ (j : Int) := Int.ofNat_nonneg j
      push_cast at hle
      omega
    obtain ⟨b1, b2, b3, b4, b5⟩ := advanceDate_below (countTick t) d m hc hm hlt
    have hle2 : d + 1 + (j : Int) ≤ m := by
      push_cast at hle
      omega
    obtain ⟨c1, c2, c3, c4, c5⟩ := ih (afterT (increaseTimeTicks t)) (d + 1)
      (by rw [a1, b1]) (by rw [a2, b2]) (by rw [a3, b3]; exact hl)
      (by rw [a5, b5]; exact hs) hle2
    simp only [advances]
    refine ⟨?_, c2, c3, c4, ?_⟩
    · rw [c1]
      push_cast
      congr 1
      omega
    · rw [c5, a4, b4]
      rfl

theorem advances_add (i : Nat) : ∀ (j : Nat) (t : TimeState),
    advances (j + i) t = advances i (advances j t) := by
  intro j
  induction j with
  | zero =>
    intro t
    simp [advances]
  | succ j ih =>
    intro t
    have e : j + 1 + i = (j + i) + 1 := by omega
    rw [e]
    simp only [advances]
    exact ih _

/-- Claim C15.  From `currDate = 0` with `maxDates = m`, `m >= 1`, `loop = false` and
every tick advancing (`speed = 1`), `m + 1` calls of `increaseTimeTicks` leave
`currDate = m` and `paused = true`, and after any smaller number of calls `currDate` is a
number that does not exceed `m`.  A call that ends in a fault of `updateControls` has made
its assignments to `currDate` and `paused` before, and counts with them. -/
theorem increaseTimeTicks_stops_at_last_date (t : TimeState) (m : Nat) (hm : 1 ≤ m)
    (hc : t.currDate = some 0) (hmax : t.maxDates = some (m : Int)) (hl : t.loop = false)
    (hs : t.speed = 1) :
    (advances (m + 1) t).currDate = some (m : Int) ∧ (advances (m + 1) t).paused = true ∧
    ∀ k, k ≤ m + 1 → ∃ d : Int, (advances k t).currDate = some d ∧ 0 ≤ d ∧ d ≤ m := by
  obtain ⟨a1, a2, a3, a4, _⟩ := advances_climb m m t 0 hc hmax hl hs (by omega)
  have a1m : (advances m t).currDate = some (m : Int) := by
    rw [a1]
    congr 1
    omega
  obtain ⟨b1, _, _, b4, _⟩ := increaseTimeTicks_at_speed_one (advances m t) a4
  have hm0 : (m : Int) ≠ 0 := by omega
  obtain ⟨c1, c2⟩ := advanceDate_at_end (countTick (advances m t)) m a1m a2 hm0 a3
  have hlast : advances (m + 1) t = afterT (increaseTimeTicks (advances m t)) := by
    rw [advances_add 1 m t]
    rfl
  refine ⟨by rw [hlast, b1, c1], by rw [hlast, b4, c2], ?_⟩
  intro k hk
  by_cases hkm : k ≤ m
  · obtain ⟨e1, _⟩ := advances_climb m k t 0 hc hmax hl hs (by omega)
    exact ⟨0 + k, e1, by omega, by omega⟩
  · have hk1 : k = m + 1 := by omega
    rw [hk1, hlast, b1, c1]
    exact ⟨m, rfl, by omega, le_refl _⟩

theorem increaseTimeTicks_stops_at_last_date_witness :
    (advances 4 (setSpeed (setTimeData (timeGlobals demo) [[], [], [], []]) 1)).currDate =
      some 3 ∧
    (advances 4 (setSpeed (setTimeData (timeGlobals demo) [[], [], [], []]) 1)).paused = true :=
  ⟨(increaseTimeTicks_stops_at_last_date _ 3 (by decide) rfl rfl rfl rfl).1,
   (increaseTimeTicks_stops_at_last_date _ 3 (by decide) rfl rfl rfl rfl).2.1⟩

/-- Claim C16, failing run.  Time controls set up with a series of one date and without
pause have `currDate = 0 = maxDates`; the first timer tick (tick 1 at the initial speed
10) takes the branch `maxDates == false`, which loose equality makes true of `0`, and
leaves `currDate = 1`, outside the series; `updateControls` then faults on
`timeData[1]`. -/
theorem increaseTimeTicks_single_date_overrun :
    DateInRange (svgWorldMapTimeControls (timeGlobals demo) false false
      (some (TimeInput.array [[("2020", [])]]))) ∧
    (afterT (timerTick (svgWorldMapTimeControls (timeGlobals demo) false false
      (some (TimeInput.array [[("2020", [])]]))))).currDate = some 1 ∧
    (afterT (timerTick (svgWorldMapTimeControls (timeGlobals demo) false false
      (some (TimeInput.array [[("2020", [])]]))))).maxDates = some 0 ∧
    ¬ DateInRange (afterT (timerTick (svgWorldMapTimeControls (timeGlobals demo) false false
      (some (TimeInput.array [[("2020", [])]]))))) ∧
    faultedT (timerTick (svgWorldMapTimeControls (timeGlobals demo) false false
      (some (TimeInput.array [[("2020", [])]])))) = true := by
  refine ⟨⟨0, 0, rfl, rfl, le_refl _, le_refl _⟩, rfl, rfl, ?_, rfl⟩
  rintro ⟨d, m, hd, hm, _, hle⟩
  have e1 : (afterT (timerTick (svgWorldMapTimeControls (timeGlobals demo) false false
      (some (TimeInput.array [[("2020", [])]]))))).currDate = some 1 := rfl
  have e2 : (afterT (timerTick (svgWorldMapTimeControls (timeGlobals demo) false false
      (some (TimeInput.array [[("2020", [])]]))))).maxDates = some 0 := rfl
  rw [e1] at hd
  rw [e2] at hm
  have hd1 : d = 1 := (Option.some.inj hd).symm
  have hm0 : m = 0 := (Option.some.inj hm).symm
  omega

/-- The date that the advance block of `increaseTimeTicks` leaves: one more than before
while the date is below `maxDates` (or `maxDates == false`), else 0 when looping, else
the date as it was. -/
theorem advanceDate_currDate (u : TimeState) :
    (advanceDate u).currDate =
      if dateNum u.currDate < dateNum u.maxDates ∨ looseFalse u.maxDates = true then
        some (dateNum u.currDate + 1)
      else if u.loop = true then some 0 else u.currDate := by
  unfold advanceDate
  split
  · rfl
  · split <;> rfl

/-- Claim C29.  A call of `increaseTimeTicks` counts one tick and keeps the speed.  At a
speed `s >= 2` (the bound 20 of `clickSpeed` is not needed) it runs the date advance
exactly when the new tick count is congruent to 1 modulo `s`: the date then becomes one
more than before while it is below `maxDates` (0 at the end when looping, unchanged at the
end otherwise) and `updateControls` is called; on every other call only the tick is
counted and the date stays.  So, below `maxDates`, the date goes up by one if and only if
the new tick count is congruent to 1 modulo `s`, and among any `s` consecutive tick counts
exactly one fires.  At speed 1 every call runs the date advance. -/
theorem increaseTimeTicks_fires_by_speed (t : TimeState) :
    (afterT (increaseTimeTicks t)).ticks = t.ticks + 1 ∧
    (afterT (increaseTimeTicks t)).speed = t.speed ∧
    (2 ≤ t.speed →
      ((t.ticks + 1) % t.speed = 1 →
        increaseTimeTicks t = updateControls (advanceDate (countTick t)) ∧
        (afterT (increaseTimeTicks t)).currDate =
          if dateNum t.currDate < dateNum t.maxDates ∨ looseFalse t.maxDates = true then
            some (dateNum t.currDate + 1)
          else if t.loop = true then some 0 else t.currDate) ∧
      ((t.ticks + 1) % t.speed ≠ 1 →
        increaseTimeTicks t = .ok (countTick t) ∧
        (afterT (increaseTimeTicks t)).currDate = t.currDate) ∧
      (dateNum t.currDate < dateNum t.maxDates →
        ((afterT (increaseTimeTicks t)).currDate = some (dateNum t.currDate + 1) ↔
          (t.ticks + 1) % t.speed = 1)) ∧
      ∀ k, ∃! i, i < t.speed ∧ tickFires t.speed (k + i + 1) = true) ∧
    (t.speed = 1 →
      increaseTimeTicks t = updateControls (advanceDate (countTick t)) ∧
      (afterT (increaseTimeTicks t)).currDate =
        if dateNum t.currDate < dateNum t.maxDates ∨ looseFalse t.maxDates = true then
          some (dateNum t.currDate + 1)
        else if t.loop = true then some 0 else t.currDate) := by
  have hadv : ∀ u : TimeState, (advanceDate u).ticks = u.ticks ∧ (advanceDate u).speed = u.speed := by
    intro u
    unfold advanceDate
    split
    · exact ⟨rfl, rfl⟩
    · split <;> exact ⟨rfl, rfl⟩
  have hfire : tickFires (countTick t).speed (countTick t).ticks = true →
      increaseTimeTicks t = updateControls (advanceDate (countTick t)) ∧
      (afterT (increaseTimeTicks t)).currDate =
        if dateNum t.currDate < dateNum t.maxDates ∨ looseFalse t.maxDates = true then
          some (dateNum t.currDate + 1)
        else if t.loop = true then some 0 else t.currDate := by
    intro hf
    have e : increaseTimeTicks t = updateControls (advanceDate (countTick t)) := by
      unfold increaseTimeTicks
      rw [if_pos hf]
    refine ⟨e, ?_⟩
    rw [e, (updateControls_frame _).1, advanceDate_currDate]
    rfl
  have hskip : ¬ tickFires (countTick t).speed (countTick t).ticks = true →
      increaseTimeTicks t = .ok (countTick t) ∧
      (afterT (increaseTimeTicks t)).currDate = t.currDate := by
    intro hf
    have e : increaseTimeTicks t = .ok (countTick t) := by
      unfold increaseTimeTicks
      rw [if_neg hf]
    refine ⟨e, ?_⟩
    rw [e]
    rfl
  refine ⟨?_, ?_, ?_, ?_⟩
  · unfold increaseTimeTicks
    split
    · rw [(updateControls_frame _).2.2.2.2.2.1, (hadv _).1]
      rfl
    · rfl
  · unfold increaseTimeTicks
    split
    · rw [(updateControls_frame _).2.2.2.2.1, (hadv _).2]
      rfl
    · rfl
  · intro h2
    refine ⟨?_, ?_, ?_, ?_⟩
    · intro h
      exact hfire ((tickFires_iff h2 _).mpr h)
    · intro h
      exact hskip (fun e => h ((tickFires_iff h2 _).mp e))
    · intro hlt
      constructor
      · intro hd
        by_contra hne
        have hs := (hskip (fun e => hne ((tickFires_iff h2 _).mp e))).2
        rw [hs] at hd
        cases hcd : t.currDate with
        | none => rw [hcd] at hd; exact Option.noConfusion hd
        | some d =>
          rw [hcd] at hd
          have := Option.some.inj hd
          simp only [dateNum] at this
          omega
      · intro h
        rw [(hfire ((tickFires_iff h2 _).mpr h)).2, if_pos (Or.inl hlt)]
    · intro k
      have hpos : 0 < t.speed := by omega
      have hmod : k % t.speed < t.speed := Nat.mod_lt _ hpos
      have key : ∀ i, (k + i + 1) % t.speed = 1 ↔ (k + i) % t.speed = 0 := by
        intro i
        have hr : (k + i) % t.speed < t.speed := Nat.mod_lt _ hpos
        have e : (k + i + 1) % t.speed = ((k + i) % t.speed + 1) % t.speed := by
          rw [Nat.add_mod, Nat.mod_eq_of_lt (show 1 < t.speed by omega)]
        rw [e]
        constructor
        · intro h
          by_contra hne
          by_cases hlast : (k + i) % t.speed + 1 = t.speed
          · rw [hlast, Nat.mod_self] at h
            omega
          · rw [Nat.mod_eq_of_lt (by omega)] at h
            omega
        · intro h
          rw [h]
          exact Nat.mod_eq_of_lt (by omega)
      refine ⟨(t.speed - k % t.speed) % t.speed, ⟨Nat.mod_lt _ hpos, ?_⟩, ?_⟩
      · rw [tickFires_iff h2, key]
        rw [Nat.add_mod, Nat.mod_mod]
        by_cases hz : k % t.speed = 0
        · rw [hz]
          simp
        · rw [Nat.mod_eq_of_lt (show t.speed - k % t.speed < t.speed by omega)]
          rw [show k % t.speed + (t.speed - k % t.speed) = t.speed by omega]
          exact Nat.mod_self _
      · rintro j ⟨hj, hfj⟩
        rw [tickFires_iff h2, key] at hfj
        rw [Nat.add_mod, Nat.mod_eq_of_lt hj] at hfj
        by_cases hz : k % t.speed = 0
        · rw [hz, Nat.zero_add, Nat.mod_eq_of_lt hj] at hfj
          rw [hz, Nat.sub_zero, Nat.mod_self]
          exact hfj
        · rw [Nat.mod_eq_of_lt (show t.speed - k % t.speed < t.speed by omega)]
          by_cases hlt : k % t.speed + j < t.speed
          · rw [Nat.mod_eq_of_lt hlt] at hfj
            omega
          · have h2s : k % t.speed + j - t.speed < t.speed := by omega
            have e : k % t.speed + j = (k % t.speed + j - t.speed) + t.speed := by omega
            rw [e, Nat.add_mod_right, Nat.mod_eq_of_lt h2s] at hfj
            omega
  · intro h1
    have hf : tickFires (countTick t).speed (countTick t).ticks = true := by
      have e : (countTick t).speed = 1 := h1
      rw [e]
      exact tickFires_one _
    exact hfire hf

theorem increaseTimeTicks_fires_by_speed_witness :
    (afterT (increaseTimeTicks (setTimeData (timeGlobals demo) [[], [], [], []]))).currDate =
      some 1 ∧
    (afterT (increaseTimeTicks (afterT (increaseTimeTicks
      (setTimeData (timeGlobals demo) [[], [], [], []]))))).currDate = some 1 :=
  ⟨(((increaseTimeTicks_fires_by_speed (setTimeData (timeGlobals demo) [[], [], [], []])).2.2.1
      (by decide)).1 (by decide)).2,
   ((((increaseTimeTicks_fires_by_speed (afterT (increaseTimeTicks
      (setTimeData (timeGlobals demo) [[], [], [], []])))).2.2.1
      (by decide)).2.1 (by decide)).2).trans (by decide)⟩
/-! ## Lookup misses, background layers and the suppression guard -/

theorem pathSetAttributes_background {s : MapState} {n : Nat} (event : String)
    (h : idOf s.doc n = some "World" ∨ idOf s.doc n = some "Ocean") :
    pathSetAttributes s (some n) event = .ok s := by
  have hn : ¬ (idOf s.doc n ≠ some "World" ∧ idOf s.doc n ≠ some "Ocean") := by
    rintro ⟨h1, h2⟩
    rcases h with e | e
    · exact h1 e
    · exact h2 e
  simp only [pathSetAttributes]
  rw [if_neg hn]

theorem styleProvince_selected (event : String) (s : MapState) (p : Nat) :
    (after (styleProvince event s p)).selectedCountry = s.selectedCountry := by
  unfold styleProvince
  apply after_andThen (fun t => t.selectedCountry = s.selectedCountry)
  · exact restyle_selectedCountry s p event
  · intro s1 hs1
    have h1 : s1.selectedCountry = s.selectedCountry := by
      have := restyle_selectedCountry s p event
      rw [restyle, hs1] at this
      exact this
    cases s1.provinces p with
    | none => exact h1
    | some subs =>
      exact after_forEach (P := fun t => t.selectedCountry = s.selectedCountry) _
        (fun s2 x h2 => (restyle_selectedCountry s2 x event).trans h2) subs s1 h1

theorem resetOldSelected_selected (s : MapState) (old : Option Nat) :
    (after (resetOldSelected s old)).selectedCountry = s.selectedCountry := by
  cases old with
  | none => rfl
  | some n =>
    simp only [resetOldSelected]
    apply after_andThen (fun t => t.selectedCountry = s.selectedCountry)
    · exact restyle_selectedCountry s n "out"
    · intro s1 hs1
      have h1 : s1.selectedCountry = s.selectedCountry := by
        have := restyle_selectedCountry s n "out"
        rw [restyle, hs1] at this
        exact this
      have h2 : (after (styleProvincesOf "out" s1 n)).selectedCountry = s.selectedCountry := by
        unfold styleProvincesOf
        cases s1.provinces n with
        | none => exact h1
        | some ps =>
          exact after_forEach (P := fun t => t.selectedCountry = s.selectedCountry) _
            (fun s2 x h2 => (styleProvince_selected "out" s2 x).trans h2) ps s1 h1
      apply after_andThen (fun t => t.selectedCountry = s.selectedCountry)
      · exact h2
      · intro s2 hs2
        rw [hs2] at h2
        simp only [after, setLabelFill_selectedCountry]
        exact h2

/-- On the selected node itself `pathSetAttributes(node, 'out')` does nothing. -/
theorem pathSetAttributes_selected_suppressed_aux (s : MapState) (n : Nat)
    (hsel : s.selectedCountry = some n) :
    pathSetAttributes s (some n) "out" = .ok s := by
  have hp : paletteApplies s n "out" = false := by simp [paletteApplies, hsel]
  simp only [pathSetAttributes]
  by_cases hid : idOf s.doc n ≠ some "World" ∧ idOf s.doc n ≠ some "Ocean"
  · rw [if_pos hid]
    simp [hp, isLiteralColor_out]
  · rw [if_neg hid]

/-- Claim C21.  For a node that is the selected node, or whose country back-reference is
the selected node, `pathSetAttributes(node, 'out')` and `pathSetAttributes(node, 'over')`
return without a fault and leave the whole state, hence every attribute of the node, as it
was. -/
theorem pathSetAttributes_selected_suppressed (s : MapState) (n : Nat) (event : String)
    (hev : event = "out" ∨ event = "over")
    (hsel : s.selectedCountry = some n ∨
      ∃ c, s.country n = some c ∧ s.selectedCountry = some c) :
    pathSetAttributes s (some n) event = .ok s := by
  have hp : paletteApplies s n event = false := by
    rcases hsel with h | ⟨c, hc, h⟩
    · rcases hev with e | e <;> simp [paletteApplies, e, h]
    · rcases hev with e | e <;> simp [paletteApplies, e, h, hc]
  have hl : isLiteralColor event = false := by
    rcases hev with e | e <;> rw [e]
    · exact isLiteralColor_out
    · exact isLiteralColor_over
  simp only [pathSetAttributes]
  by_cases hid : idOf s.doc n ≠ some "World" ∧ idOf s.doc n ≠ some "Ocean"
  · rw [if_pos hid]
    simp [hp, hl]
  · rw [if_neg hid]

theorem pathSetAttributes_selected_suppressed_witness :
    (after (countryClick demo "DE")).selectedCountry = some 4 ∧
    (after (countryClick demo "DE")).country 6 = some 4 ∧
    pathSetAttributes (after (countryClick demo "DE")) (some 6) "over" =
      .ok (after (countryClick demo "DE")) :=
  ⟨by decide, by decide,
   pathSetAttributes_selected_suppressed (after (countryClick demo "DE")) 6 "over"
     (Or.inr rfl) (Or.inr ⟨4, by decide, by decide⟩)⟩

/-- Claim C18, failing run.  `World` is a key of the country index of the sample map and
has no record in the country data (the built-in table has none for it either);
`countryOver("World")` passes the province loop and the label, then reads
`countryData[id].population` and faults. -/
theorem countryOver_data_miss_faults :
    objGet demo.countries "World" = some 0 ∧
    objGet demo.countryData "World" = none ∧
    objGet builtinCountryData "World" = none ∧
    faulted (countryOver demo "World") = true := by
  refine ⟨by decide, by decide, ?_, by decide⟩
  set_option maxRecDepth 20000 in decide

/-- Claim C19, counterexample.  With Germany selected on the sample map, `XX` is found
neither in the country index nor in a province list, and `countryClick("XX")` clears the
selection and returns the province `DE-BY` from the `click` fill to the `out` fill. -/
theorem countryClick_lookup_miss_deselects :
    objGet (after (countryClick demo "DE")).countries "XX" = none ∧
    findProvinceById (after (countryClick demo "DE")) "XX" = none ∧
    (after (countryClick demo "DE")).selectedCountry = some 4 ∧
    (after (countryClick (after (countryClick demo "DE")) "XX")).selectedCountry = none ∧
    (after (countryClick demo "DE")).fill 6 = some "#666666" ∧
    (after (countryClick (after (countryClick demo "DE")) "XX")).fill 6 = some "#B9B9B9" := by
  decide

/-- A name inherited from `Object.prototype` that is no own key of the index is not a
lookup miss: `countries[id]` is the inherited member, and `countryClick(id)` raises at
`country.provinces.forEach` with nothing changed. -/
theorem countryClick_inherited_name_faults (s : MapState) (id : String)
    (h1 : objGet s.countries id = none) (h0 : id ∈ inheritedNames) :
    countryClick s id = .error s := by
  simp only [countryClick, h1, if_pos h0]

/-- Claim C19, amended.  For an identifier for which `countries[id]` is undefined (no own
key of the index and no name inherited from `Object.prototype`) and which is in no
province list, `countryClick(id)` styles no node as clicked: it sets the selection to
undefined, resets the node that was selected (`resetOldSelected`) and calls the click
callback with the empty string.  The selection is undefined afterwards, and when nothing
was selected the call returns without a fault and no `fill`, `stroke` or `stroke-width`
attribute changes. -/
theorem countryClick_lookup_miss (s : MapState) (id : String)
    (h0 : id ∉ inheritedNames)
    (h1 : objGet s.countries id = none) (h2 : findProvinceById s id = none) :
    countryClick s id =
      andThen (resetOldSelected (setSelected s none) s.selectedCountry)
        (fun s1 => .ok (callBack s1 "click" JsArg.undefined)) ∧
    (after (countryClick s id)).selectedCountry = none ∧
    (s.selectedCountry = none →
      faulted (countryClick s id) = false ∧
      (after (countryClick s id)).fill = s.fill ∧
      (after (countryClick s id)).stroke = s.stroke ∧
      (after (countryClick s id)).strokeWidth = s.strokeWidth) := by
  have e : countryClick s id =
      andThen (resetOldSelected (setSelected s none) s.selectedCountry)
        (fun s1 => .ok (callBack s1 "click" JsArg.undefined)) := by
    simp only [countryClick, h1, if_neg h0, clickProvinceById, h2, pathSetAttributes,
      andThen_ok, finishClick, argOf]
  refine ⟨e, ?_, ?_⟩
  · rw [e]
    apply after_andThen (fun t => t.selectedCountry = none)
    · exact resetOldSelected_selected _ _
    · intro s1 hs1
      have := resetOldSelected_selected (setSelected s none) s.selectedCountry
      rw [hs1] at this
      simp only [after, callBack_selectedCountry]
      exact this
  · intro hn
    rw [e, hn]
    simp only [resetOldSelected, andThen_ok, faulted, after]
    refine ⟨trivial, ?_, ?_, ?_⟩ <;> simp

theorem countryClick_lookup_miss_witness :
    (after (countryClick demo "DE")).selectedCountry = some 4 ∧
    "XX" ∉ inheritedNames ∧
    objGet (after (countryClick demo "DE")).countries "XX" = none ∧
    findProvinceById (after (countryClick demo "DE")) "XX" = none ∧
    (after (countryClick (after (countryClick demo "DE")) "XX")).selectedCountry = none :=
  ⟨by decide, by decide, by decide, by decide,
    (countryClick_lookup_miss (after (countryClick demo "DE")) "XX" (by decide) (by decide)
      (by decide)).2.1⟩
/-! ## Activation of a background layer -/

/-- A property kept by the palette writes on nodes other than `World` and `Ocean` is kept
by `pathSetAttributes` on a state event. -/
theorem guarded_pathSetAttributes {P : MapState → Prop}
    (hB : ∀ s n e, idOf s.doc n ≠ some "World" → idOf s.doc n ≠ some "Ocean" → P s →
      P (strokeBorder s n e))
    (hF : ∀ s n e, idOf s.doc n ≠ some "World" → idOf s.doc n ≠ some "Ocean" → P s →
      P (fillProvince s n e))
    (s : MapState) (path : Option Nat) (event : String)
    (hev : isLiteralColor event = false) (h : P s) :
    P (after (pathSetAttributes s path event)) := by
  cases path with
  | none => exact h
  | some n =>
    simp only [pathSetAttributes]
    by_cases h1 : idOf s.doc n ≠ some "World" ∧ idOf s.doc n ≠ some "Ocean"
    · rw [if_pos h1]
      by_cases h2 : paletteApplies s n event = true
      · rw [if_pos h2]
        cases hc : s.country n with
        | none => exact h
        | some c =>
          by_cases h3 : isElement s.doc n = true <;> by_cases h4 : isBorderPath s n c = true <;>
            simp only [h3, h4, after, not_true_eq_false, not_false_eq_true, if_true, if_false,
              Bool.false_eq_true]
          · exact hB s n event h1.1 h1.2 h
          · exact hF s n event h1.1 h1.2 h
          · exact h
          · exact h
      · rw [if_neg h2]
        simp only [hev, Bool.false_eq_true, if_false]
        exact h
    · rw [if_neg h1]
      exact h

theorem guarded_styleProvince {P : MapState → Prop}
    (hB : ∀ s n e, idOf s.doc n ≠ some "World" → idOf s.doc n ≠ some "Ocean" → P s →
      P (strokeBorder s n e))
    (hF : ∀ s n e, idOf s.doc n ≠ some "World" → idOf s.doc n ≠ some "Ocean" → P s →
      P (fillProvince s n e))
    (event : String) (hev : isLiteralColor event = false) (s : MapState) (p : Nat) (h : P s) :
    P (after (styleProvince event s p)) := by
  unfold styleProvince
  apply after_andThen P
  · exact guarded_pathSetAttributes hB hF s _ event hev h
  · intro s1 hs1
    have h1 : P s1 := by
      have := guarded_pathSetAttributes hB hF s (some p) event hev h
      rw [hs1] at this
      exact this
    cases s1.provinces p with
    | none => exact h1
    | some subs =>
      exact after_forEach _ (fun s2 x h2 => guarded_pathSetAttributes hB hF s2 _ event hev h2)
        subs s1 h1

theorem guarded_resetOldSelected {P : MapState → Prop}
    (hB : ∀ s n e, idOf s.doc n ≠ some "World" → idOf s.doc n ≠ some "Ocean" → P s →
      P (strokeBorder s n e))
    (hF : ∀ s n e, idOf s.doc n ≠ some "World" → idOf s.doc n ≠ some "Ocean" → P s →
      P (fillProvince s n e))
    (hL : ∀ s id e, P s → P (setLabelFill s id e))
    (s : MapState) (old : Option Nat) (h : P s) : P (after (resetOldSelected s old)) := by
  cases old with
  | none => exact h
  | some n =>
    simp only [resetOldSelected]
    apply after_andThen P
    · exact guarded_pathSetAttributes hB hF s _ "out" isLiteralColor_out h
    · intro s1 hs1
      have h1 : P s1 := by
        have := guarded_pathSetAttributes hB hF s (some n) "out" isLiteralColor_out h
        rw [hs1] at this
        exact this
      have h2 : P (after (styleProvincesOf "out" s1 n)) := by
        unfold styleProvincesOf
        cases s1.provinces n with
        | none => exact h1
        | some ps =>
          exact after_forEach _ (guarded_styleProvince hB hF "out" isLiteralColor_out) ps s1 h1
      apply after_andThen P
      · exact h2
      · intro s2 hs2
        rw [hs2] at h2
        exact hL _ _ _ h2

/-- Claim C20, counterexample.  With Germany selected on the sample map, a pointer
activation on the `World` node makes `World` the selection and returns the province
`DE-BY` of the previous selection from the `click` fill to the `out` fill. -/
theorem provinceClick_world_takes_selection :
    idOf demo.doc 0 = some "World" ∧
    (after (countryClick demo "DE")).selectedCountry = some 4 ∧
    (after (provinceClick (after (countryClick demo "DE")) 0)).selectedCountry = some 0 ∧
    (after (countryClick demo "DE")).fill 6 = some "#666666" ∧
    (after (provinceClick (after (countryClick demo "DE")) 0)).fill 6 = some "#B9B9B9" := by
  decide

/-- Claim C20, amended.  On a built map, a pointer activation whose target is the `World`
or the `Ocean` node applies no palette to that node: its `fill`, `stroke` and
`stroke-width` stay as they are.  The node does take part in the selection: it becomes
the selection, or the selection is cleared when it was the selection, and the node
selected before is reset by `resetOldSelected`. -/
theorem provinceClick_background (s : MapState) (hb : Built s) (id : String) (target : Nat)
    (hid : id = "World" ∨ id = "Ocean") (ht : objGet s.countries id = some target) :
    provinceClick s target =
      andThen (resetOldSelected
          (setSelected s (if s.selectedCountry = some target then none else some target))
          s.selectedCountry)
        (fun s2 => .ok (callBack s2 "click" (argOf s2.selectedCountry))) ∧
    (after (provinceClick s target)).selectedCountry =
      (if s.selectedCountry = some target then none else some target) ∧
    (after (provinceClick s target)).fill target = s.fill target ∧
    (after (provinceClick s target)).stroke target = s.stroke target ∧
    (after (provinceClick s target)).strokeWidth target = s.strokeWidth target := by
  obtain ⟨hidt, hcc, _⟩ := built_entry hb ht
  have hbg : idOf s.doc target = some "World" ∨ idOf s.doc target = some "Ocean" := by
    rcases hid with e | e
    · exact Or.inl (by rw [hidt, e])
    · exact Or.inr (by rw [hidt, e])
  have e : provinceClick s target =
      andThen (resetOldSelected
          (setSelected s (if s.selectedCountry = some target then none else some target))
          s.selectedCountry)
        (fun s2 => .ok (callBack s2 "click" (argOf s2.selectedCountry))) := by
    unfold provinceClick
    by_cases hs : s.selectedCountry = some target
    · rw [if_pos hs, if_pos hs,
        pathSetAttributes_background (s := setSelected s none) "out" (by simpa using hbg)]
      rfl
    · rw [if_neg hs, if_neg hs,
        pathSetAttributes_background (s := setSelected s (some target)) "click"
          (by simpa using hbg)]
      rfl
  have hlab : ∀ k l, objGet s.countryLabels k = some l → target ≠ l := by
    intro k l hl heq
    have := (built_label hb hl).1
    rw [← heq, hcc] at this
    exact Option.noConfusion this
  have hne : ∀ (t : MapState) (n : Nat), t.doc = s.doc → idOf t.doc n ≠ some "World" →
      idOf t.doc n ≠ some "Ocean" → target ≠ n := by
    intro t n hd h1 h2 heq
    rw [hd, ← heq] at h1 h2
    rcases hbg with b | b
    · exact h1 b
    · exact h2 b
  have hsel := resetOldSelected_selected
    (setSelected s (if s.selectedCountry = some target then none else some target))
    s.selectedCountry
  have hreset := guarded_resetOldSelected (P := fun t : MapState => t.doc = s.doc ∧
      t.countryLabels = s.countryLabels ∧
      t.fill target = s.fill target ∧ t.stroke target = s.stroke target ∧
      t.strokeWidth target = s.strokeWidth target)
    (by
      rintro t n ev h1 h2 ⟨a1, a2, a3, a4, a5⟩
      have hn := hne t n a1 h1 h2
      exact ⟨a1, a2, by simpa [strokeBorder] using a3,
        by simpa [strokeBorder, setAt, hn] using a4,
        by simpa [strokeBorder, setAt, hn] using a5⟩)
    (by
      rintro t n ev h1 h2 ⟨a1, a2, a3, a4, a5⟩
      have hn := hne t n a1 h1 h2
      exact ⟨a1, a2, by simpa [fillProvince, setAt, hn] using a3,
        by simpa [fillProvince, setAt, hn] using a4,
        by simpa [fillProvince, setAt, hn] using a5⟩)
    (by
      rintro t k ev ⟨a1, a2, a3, a4, a5⟩
      refine ⟨by simpa using a1, by simpa using a2, ?_, by simpa using a4,
        by simpa using a5⟩
      rw [setLabelFill_fill_of_ne t k ev target
        (fun l hl => hlab k l (by rw [← a2]; exact hl))]
      exact a3)
    (setSelected s (if s.selectedCountry = some target then none else some target))
    s.selectedCountry ⟨rfl, rfl, rfl, rfl, rfl⟩
  refine ⟨e, ?_⟩
  rw [e]
  cases hr : resetOldSelected
      (setSelected s (if s.selectedCountry = some target then none else some target))
      s.selectedCountry with
  | error t =>
    rw [hr] at hsel hreset
    simp only [after] at hsel hreset
    simp only [andThen, after]
    exact ⟨hsel, hreset.2.2.1, hreset.2.2.2.1, hreset.2.2.2.2⟩
  | ok t =>
    rw [hr] at hsel hreset
    simp only [after] at hsel hreset
    simp only [andThen, after, callBack_selectedCountry, callBack_fill, callBack_stroke,
      callBack_strokeWidth]
    exact ⟨hsel, hreset.2.2.1, hreset.2.2.2.1, hreset.2.2.2.2⟩

theorem provinceClick_background_witness :
    objGet (after (countryClick demo "DE")).countries "Ocean" = some 1 ∧
    (after (provinceClick (after (countryClick demo "DE")) 1)).selectedCountry = some 1 ∧
    (after (provinceClick (after (countryClick demo "DE")) 1)).fill 1 =
      (after (countryClick demo "DE")).fill 1 :=
  ⟨by decide,
   (provinceClick_background (after (countryClick demo "DE")) (by decide) "Ocean" 1
      (Or.inr rfl) (by decide)).2.1.trans (by decide),
   (provinceClick_background (after (countryClick demo "DE")) (by decide) "Ocean" 1
      (Or.inr rfl) (by decide)).2.2.1⟩
/-! ## Activation of a province of the selected country -/

/-- What the `out` loop of `resetOldSelected` keeps while the province `p` is the
selection: the shape of the map, the label index, the overrides and the attributes of
`p`. -/
theorem outPath_track {s0 : MapState} (hb : Built s0) {C p : Nat}
    (hsel : s0.selectedCountry = some p) (hpC : p ≠ C) (hC : s0.country C = some C)
    (hCl : C < s0.doc.length) (x : Nat) (hxp : x ≠ p) (s : MapState) (y : Nat)
    (hy : y ∈ partsOf s0 C)
    (hQ : SameShape s0 s ∧ s.countryLabels = s0.countryLabels ∧
      s.updateColor = s0.updateColor ∧ s.fill p = s0.fill p ∧ s.stroke p = s0.stroke p ∧
      s.strokeWidth p = s0.strokeWidth p) :
    ∃ t, pathSetAttributes s (some y) "out" = .ok t ∧
      (SameShape s0 t ∧ t.countryLabels = s0.countryLabels ∧
        t.updateColor = s0.updateColor ∧ t.fill p = s0.fill p ∧ t.stroke p = s0.stroke p ∧
        t.strokeWidth p = s0.strokeWidth p) ∧
      (Painted s "out" x → Painted t "out" x) ∧ (y = x → Painted t "out" x) := by
  obtain ⟨hS, hL, hU, hf, hst, hw⟩ := hQ
  obtain ⟨f1, f2, f3, f4, f5⟩ := built_parts_of_shape hb hS hCl hC hy
  obtain ⟨e1, e2, e3, e4, e5, e6, e7, e8⟩ := hS
  by_cases hyp : y = p
  · refine ⟨s, ?_, ⟨⟨e1, e2, e3, e4, e5, e6, e7, e8⟩, hL, hU, hf, hst, hw⟩, id, ?_⟩
    · exact pathSetAttributes_selected_suppressed_aux s y (by rw [e6, hsel, hyp])
    · intro h
      exact absurd (h ▸ hyp) hxp
  · have hcp : CanPaint s "out" y := by
      refine ⟨f2, f3, f1, ?_, ?_⟩
      · have a1 : (some y == s.selectedCountry) = false := by
          rw [e6, hsel]
          simpa using hyp
        have a2 : (s.country y == s.selectedCountry) = false := by
          rw [f4, e6, hsel]
          simpa using fun h : C = p => hpC h.symm
        simp [paletteApplies, a1, a2]
      · simp [f4, f5]
    refine ⟨fillProvince s y "out", pathSetAttributes_canPaint hcp, ?_, ?_, ?_⟩
    · refine ⟨⟨by simpa using e1, by simpa using e2, by simpa using e3, by simpa using e4,
        by simpa using e5, by simpa using e6, by simpa using e7, by simpa using e8⟩,
        by simpa using hL, by simpa using hU, ?_, ?_, ?_⟩
      · simpa [fillProvince, setAt, Ne.symm hyp] using hf
      · simpa [fillProvince, setAt, Ne.symm hyp] using hst
      · simpa [fillProvince, setAt, Ne.symm hyp] using hw
    · exact painted_fillProvince_of_painted s y x "out"
    · intro h
      rw [← h]
      exact painted_fillProvince s y "out"

theorem outProvince_track {s0 : MapState} (hb : Built s0) {C p : Nat}
    (hsel : s0.selectedCountry = some p) (hpC : p ≠ C) (hC : s0.country C = some C)
    (hCl : C < s0.doc.length) (x : Nat) (hxp : x ≠ p) (s : MapState) (q : Nat)
    (hq : q ∈ (s0.provinces C).getD [])
    (hQ : SameShape s0 s ∧ s.countryLabels = s0.countryLabels ∧
      s.updateColor = s0.updateColor ∧ s.fill p = s0.fill p ∧ s.stroke p = s0.stroke p ∧
      s.strokeWidth p = s0.strokeWidth p) :
    ∃ t, styleProvince "out" s q = .ok t ∧
      (SameShape s0 t ∧ t.countryLabels = s0.countryLabels ∧
        t.updateColor = s0.updateColor ∧ t.fill p = s0.fill p ∧ t.stroke p = s0.stroke p ∧
        t.strokeWidth p = s0.strokeWidth p) ∧
      (Painted s "out" x → Painted t "out" x) ∧
      ((x = q ∨ x ∈ (s0.provinces q).getD []) → Painted t "out" x) := by
  have hqp : q ∈ partsOf s0 C := mem_expand.mpr (Or.inl hq)
  obtain ⟨t1, e1, q1, r1, h1⟩ := outPath_track hb hsel hpC hC hCl x hxp s q hqp hQ
  have hprov : t1.provinces q = s0.provinces q := by rw [q1.1.2.2.2.2.1]
  cases hsub : s0.provinces q with
  | none =>
    refine ⟨t1, ?_, q1, r1, ?_⟩
    · simp [styleProvince, e1, hprov, hsub]
    · rintro (h | h)
      · exact h1 h.symm
      · simp at h
  | some subs =>
    obtain ⟨t2, e2, q2, r2, h2⟩ := forEach_track
      (fun t => SameShape s0 t ∧ t.countryLabels = s0.countryLabels ∧
        t.updateColor = s0.updateColor ∧ t.fill p = s0.fill p ∧ t.stroke p = s0.stroke p ∧
        t.strokeWidth p = s0.strokeWidth p)
      (fun t => Painted t "out" x) (fun y => y = x)
      (fun s2 sub => pathSetAttributes s2 (some sub) "out") subs
      (fun u y hy hu => outPath_track hb hsel hpC hC hCl x hxp u y
        (mem_expand.mpr (Or.inr ⟨q, hq, by simp [hsub, hy]⟩)) hu) t1 q1
    refine ⟨t2, ?_, q2, fun h => r2 (r1 h), ?_⟩
    · simp [styleProvince, e1, hprov, hsub, e2]
    · rintro (h | h)
      · exact r2 (h1 h.symm)
      · exact h2 ⟨x, by simpa using h, rfl⟩

/-- Claim C22, counterexample.  With Germany selected on the sample map, a pointer
activation on its province `DE-BY` moves the selection to that province and returns the
province `DE-NW` and the subprovince `DE-NW-1` from the `click` fill to the `out` fill. -/
theorem provinceClick_sibling_loses_click :
    (after (countryClick demo "DE")).selectedCountry = some 4 ∧
    (after (countryClick demo "DE")).provinces 4 = some [6, 7] ∧
    (after (countryClick demo "DE")).fill 7 = some "#666666" ∧
    (after (countryClick demo "DE")).fill 8 = some "#666666" ∧
    (after (provinceClick (after (countryClick demo "DE")) 6)).selectedCountry = some 6 ∧
    (after (provinceClick (after (countryClick demo "DE")) 6)).fill 6 = some "#666666" ∧
    (after (provinceClick (after (countryClick demo "DE")) 6)).fill 7 = some "#B9B9B9" ∧
    (after (provinceClick (after (countryClick demo "DE")) 6)).fill 8 = some "#B9B9B9" := by
  decide

/-- Claim C22, amended.  On a built map whose selection is the country `C`, a pointer
activation on a province `p` of `C` returns without a fault, makes `p` the selection and
leaves `p` with the `click` palette; every other province and every subprovince of `C`
is given the `out` palette by `resetOldSelected`. -/
theorem provinceClick_province_of_selected (s : MapState) (hb : Built s) (id : String)
    (C p : Nat) (hC : objGet s.countries id = some C) (hsel : s.selectedCountry = some C)
    (hp : p ∈ (s.provinces C).getD []) (hpC : p ≠ C) :
    faulted (provinceClick s p) = false ∧
    (after (provinceClick s p)).selectedCountry = some p ∧
    Painted (after (provinceClick s p)) "click" p ∧
    ∀ x ∈ partsOf s C, x ≠ p → Painted (after (provinceClick s p)) "out" x := by
  obtain ⟨hidC, hcc, ps, hps⟩ := built_entry hb hC
  have hCel : isElement s.doc C = true := isElement_of_idOf hidC
  have hCl : C < s.doc.length := isElement_lt hCel
  have hpp : p ∈ partsOf s C := mem_expand.mpr (Or.inl hp)
  obtain ⟨p1, p2, p3, _, p5, p6⟩ := built_parts hb hCl hcc hpp
  have hb0 : Built (fillProvince (setSelected s (some p)) p "click") :=
    built_congr (by simp) (by simp) (by simp) (by simp) (by simp) (by simp) (by simp) hb
  have hcp : CanPaint (setSelected s (some p)) "click" p := by
    refine ⟨by simpa using p2, by simpa using p3, by simpa using p1, ?_, ?_⟩
    · simp [paletteApplies]
    · have : isBorderPath (setSelected s (some p)) p C = false := by
        rw [isBorderPath_congr (s := s) (t := setSelected s (some p)) (by simp) (by simp)
          (by simp)]
        exact p6
      simp [p5, this]
  have hnsel : ¬ s.selectedCountry = some p := by
    rw [hsel]
    intro h
    exact hpC (Option.some.inj h).symm
  obtain ⟨s0, hs0⟩ : ∃ s0, s0 = fillProvince (setSelected s (some p)) p "click" := ⟨_, rfl⟩
  rw [← hs0] at hb0
  have d1 : s0.doc = s.doc := by rw [hs0]; simp
  have d2 : s0.country = s.country := by rw [hs0]; simp
  have d3 : s0.provinces = s.provinces := by rw [hs0]; simp
  have d4 : s0.selectedCountry = some p := by rw [hs0]; simp
  have d5 : s0.countryLabels = s.countryLabels := by rw [hs0]; simp
  have hparts : partsOf s0 C = partsOf s C := partsOf_congr d3 C
  have hC0 : s0.country C = some C := by rw [d2]; exact hcc
  have hCl0 : C < s0.doc.length := by rw [d1]; exact hCl
  have hclick : Painted s0 "click" p := by
    rw [hs0]
    exact painted_fillProvince _ p "click"
  have hstart : SameShape s0 (restyle s0 C "out") ∧
      (restyle s0 C "out").countryLabels = s0.countryLabels ∧
      (restyle s0 C "out").updateColor = s0.updateColor ∧
      (restyle s0 C "out").fill p = s0.fill p ∧ (restyle s0 C "out").stroke p = s0.stroke p ∧
      (restyle s0 C "out").strokeWidth p = s0.strokeWidth p :=
    ⟨⟨by simp, by simp, by simp, by simp, by simp, by simp, by simp, by simp⟩, by simp,
      by simp, restyle_fill_of_ne s0 C p "out" hpC, restyle_stroke_of_ne s0 C p "out" hpC,
      restyle_strokeWidth_of_ne s0 C p "out" hpC⟩
  have hps0 : (s0.provinces C).getD [] = ps := by rw [d3, hps]; rfl
  have hloop : ∀ x, x ≠ p → ∃ t, forEach (styleProvince "out") ps (restyle s0 C "out") = .ok t ∧
      (SameShape s0 t ∧ t.countryLabels = s0.countryLabels ∧
        t.updateColor = s0.updateColor ∧ t.fill p = s0.fill p ∧ t.stroke p = s0.stroke p ∧
        t.strokeWidth p = s0.strokeWidth p) ∧
      (x ∈ partsOf s C → Painted t "out" x) := by
    intro x hxp
    obtain ⟨t, e, q, _, h⟩ := forEach_track
      (fun t => SameShape s0 t ∧ t.countryLabels = s0.countryLabels ∧
        t.updateColor = s0.updateColor ∧ t.fill p = s0.fill p ∧ t.stroke p = s0.stroke p ∧
        t.strokeWidth p = s0.strokeWidth p)
      (fun t => Painted t "out" x) (fun q => x = q ∨ x ∈ (s0.provinces q).getD [])
      (styleProvince "out") ps
      (fun u q hq hu => outProvince_track hb0 d4 hpC hC0 hCl0 x hxp u q
        (by rw [hps0]; exact hq) hu) (restyle s0 C "out") hstart
    refine ⟨t, e, q, ?_⟩
    intro hx
    apply h
    have hx2 : x ∈ expand s ps := by simpa [partsOf, hps] using hx
    rcases mem_expand.mp hx2 with h1 | ⟨q1, hq1, h1⟩
    · exact ⟨x, h1, Or.inl rfl⟩
    · exact ⟨q1, hq1, Or.inr (by rw [d3]; exact h1)⟩
  obtain ⟨t, et, qt, _⟩ := hloop C (Ne.symm hpC)
  have hrun : provinceClick s p =
      .ok (callBack (setLabelFill t (idKey (idOf t.doc C)) "out") "click"
        (argOf (setLabelFill t (idKey (idOf t.doc C)) "out").selectedCountry)) := by
    unfold provinceClick
    rw [if_neg hnsel, pathSetAttributes_canPaint hcp, ← hs0]
    simp only [andThen_ok, resetOldSelected, hsel]
    rw [pathSetAttributes_ok_of_country "out" (by rw [d1]; exact hCel) (by simp [hC0])]
    simp only [andThen_ok, styleProvincesOf, restyle_provinces, d3, hps, et]
  obtain ⟨⟨e1, e2, e3, e4, e5, e6, e7, e8⟩, hL, hU, hf, hst, hw⟩ := qt
  have hlab : ∀ (k : String) (l x : Nat), objGet t.countryLabels k = some l →
      (∃ c, s.country x = some c) → x ≠ l := by
    intro k l x hl ⟨c, hc⟩ heq
    rw [hL, d5] at hl
    have := (built_label hb hl).1
    rw [← heq, hc] at this
    exact Option.noConfusion this
  rw [hrun]
  refine ⟨rfl, ?_, ?_, ?_⟩
  · simp only [after, callBack_selectedCountry, setLabelFill_selectedCountry]
    rw [e6, d4]
  · simp only [after]
    apply painted_callBack
    apply painted_setLabelFill
    · exact fun l hl => hlab _ l p hl ⟨C, p5⟩
    · exact painted_transport hf hst hw hU e7 hclick
  · intro x hx hxp
    obtain ⟨t', et', _, hpaint⟩ := hloop x hxp
    have htt : t' = t := by
      rw [et] at et'
      exact (Except.ok.inj et').symm
    rw [htt] at hpaint
    simp only [after]
    apply painted_callBack
    apply painted_setLabelFill
    · exact fun l hl => hlab _ l x hl ⟨C, (built_parts hb hCl hcc hx).2.2.2.2.1⟩
    · exact hpaint hx

theorem provinceClick_province_of_selected_witness :
    (after (provinceClick (after (countryClick demo "DE")) 6)).selectedCountry = some 6 ∧
    Painted (after (provinceClick (after (countryClick demo "DE")) 6)) "out" 7 :=
  ⟨(provinceClick_province_of_selected (after (countryClick demo "DE")) (by decide) "DE" 4 6
      (by decide) (by decide) (by decide) (by decide)).2.1,
   (provinceClick_province_of_selected (after (countryClick demo "DE")) (by decide) "DE" 4 6
      (by decide) (by decide) (by decide) (by decide)).2.2.2 7 (by decide) (by decide)⟩
/-! ## The first step of `initMapCountries`: the country index -/

theorem idOf_of_admitted {doc : List DomNode} {n : Nat} (h : admitted doc n = true) :
    ∃ i, idOf doc n = some i := by
  unfold admitted at h
  cases hi : idOf doc n with
  | none => simp [hi] at h
  | some i => exact ⟨i, rfl⟩

theorem objGet_indexCountries (doc : List DomNode) (l : List Nat) (acc : Obj Nat)
    (k : String) (n : Nat)
    (hnd : ((l.filter (fun x => admitted doc x)).map (idOf doc)).Nodup) :
    objGet (indexCountries doc l acc) k = some n ↔
      (n ∈ l ∧ admitted doc n = true ∧ idOf doc n = some k) ∨
      (objGet acc k = some n ∧ ∀ m ∈ l, admitted doc m = true → idOf doc m ≠ some k) := by
  induction l generalizing acc with
  | nil => simp [indexCountries]
  | cons x rest ih =>
    by_cases hx : admitted doc x = true
    · obtain ⟨i, hi⟩ := idOf_of_admitted hx
      have hf : (x :: rest).filter (fun y => admitted doc y) =
          x :: rest.filter (fun y => admitted doc y) := by
        simp [List.filter, hx]
      rw [hf, List.map_cons, List.nodup_cons] at hnd
      obtain ⟨hnot, hnd2⟩ := hnd
      have hfresh : ∀ m ∈ rest, admitted doc m = true → idOf doc m ≠ idOf doc x := by
        intro m hm ha heq
        apply hnot
        rw [← heq]
        exact List.mem_map.mpr ⟨m, List.mem_filter.mpr ⟨hm, by simpa using ha⟩, rfl⟩
      simp only [indexCountries, hx, if_true]
      rw [ih _ hnd2, objGet_objSet, hi]
      simp only [idKey]
      constructor
      · rintro (⟨h1, h2, h3⟩ | ⟨h1, h2⟩)
        · exact Or.inl ⟨List.mem_cons_of_mem _ h1, h2, h3⟩
        · by_cases hik : i = k
          · rw [if_pos hik] at h1
            have hnx : x = n := Option.some.inj h1
            rw [← hnx]
            exact Or.inl ⟨List.mem_cons_self _ _, hx, by rw [hi, hik]⟩
          · rw [if_neg hik] at h1
            refine Or.inr ⟨h1, ?_⟩
            intro m hm ha
            rcases List.mem_cons.mp hm with e | e
            · rw [e, hi]
              exact fun h => hik (Option.some.inj h)
            · exact h2 m e ha
      · rintro (⟨h1, h2, h3⟩ | ⟨h1, h2⟩)
        · by_cases hr : n ∈ rest
          · exact Or.inl ⟨hr, h2, h3⟩
          · have hnx : n = x := by
              rcases List.mem_cons.mp h1 with e | e
              · exact e
              · exact absurd e hr
            have hik : i = k := by
              rw [hnx, hi] at h3
              exact Option.some.inj h3
            refine Or.inr ⟨by rw [if_pos hik, hnx], ?_⟩
            intro m hm ha
            rw [← hik, ← hi]
            exact hfresh m hm ha
        · have hik : i ≠ k := by
            intro e
            apply h2 x (List.mem_cons_self _ _) hx
            rw [hi, e]
          exact Or.inr ⟨by rw [if_neg hik]; exact h1,
            fun m hm ha => h2 m (List.mem_cons_of_mem _ hm) ha⟩
    · have hf : (x :: rest).filter (fun y => admitted doc y) =
          rest.filter (fun y => admitted doc y) := by
        simp [List.filter, hx]
      rw [hf] at hnd
      simp only [indexCountries, hx, Bool.false_eq_true, if_false]
      rw [ih _ hnd]
      constructor
      · rintro (⟨h1, h2, h3⟩ | ⟨h1, h2⟩)
        · exact Or.inl ⟨List.mem_cons_of_mem _ h1, h2, h3⟩
        · refine Or.inr ⟨h1, ?_⟩
          intro m hm ha
          rcases List.mem_cons.mp hm with e | e
          · rw [e] at ha
            exact absurd ha hx
          · exact h2 m e ha
      · rintro (⟨h1, h2, h3⟩ | ⟨h1, h2⟩)
        · rcases List.mem_cons.mp h1 with e | e
          · rw [e] at h2
            exact absurd h2 hx
          · exact Or.inl ⟨e, h2, h3⟩
        · exact Or.inr ⟨h1, fun m hm ha => h2 m (List.mem_cons_of_mem _ hm) ha⟩

/-- Claim C23.  For an asset whose admitted top-level nodes carry pairwise different ids,
the country index after the first loop of `initMapCountries` holds under a key `k` the
node `n` exactly when `n` is a direct child of the root that passes the admission test
(`id` defined and not starting with `_`, tag `g`, `path` or `rect`) and has the id `k`;
every other child is absent. -/
theorem indexMap_exact (doc : List DomNode) (opts : Options) (data : Obj (Obj String))
    (fns : List String)
    (hnd : (((baseChildNodes doc).filter (fun x => admitted doc x)).map (idOf doc)).Nodup)
    (k : String) (n : Nat) :
    objGet (indexMap (loadState doc opts data fns)).countries k = some n ↔
      n ∈ baseChildNodes doc ∧
      (∃ id, idOf doc n = some id ∧ substr0 id 1 ≠ "_") ∧
      (tagOf doc n = some "g" ∨ tagOf doc n = some "path" ∨ tagOf doc n = some "rect") ∧
      idOf doc n = some k := by
  have hadm : admitted doc n = true ↔
      (∃ id, idOf doc n = some id ∧ substr0 id 1 ≠ "_") ∧
      (tagOf doc n = some "g" ∨ tagOf doc n = some "path" ∨ tagOf doc n = some "rect") := by
    unfold admitted
    cases hi : idOf doc n with
    | none => simp
    | some i => simp [or_assoc]
  have e : (indexMap (loadState doc opts data fns)).countries =
      indexCountries doc (baseChildNodes doc) [] := rfl
  rw [e, objGet_indexCountries doc _ [] k n hnd, hadm]
  constructor
  · rintro (⟨h1, ⟨h2, h3⟩, h4⟩ | ⟨h1, _⟩)
    · exact ⟨h1, h2, h3, h4⟩
    · exact absurd h1 (by simp [objGet])
  · rintro ⟨h1, h2, h3, h4⟩
    exact Or.inl ⟨h1, ⟨h2, h3⟩, h4⟩

theorem indexMap_exact_witness :
    objGet (indexMap (loadState demoDoc {} demoData [])).countries "DE" = some 4 ↔
      4 ∈ baseChildNodes demoDoc ∧
      (∃ id, idOf demoDoc 4 = some id ∧ substr0 id 1 ≠ "_") ∧
      (tagOf demoDoc 4 = some "g" ∨ tagOf demoDoc 4 = some "path" ∨
        tagOf demoDoc 4 = some "rect") ∧
      idOf demoDoc 4 = some "DE" :=
  indexMap_exact demoDoc {} demoData [] (by decide) "DE" 4
/-! ## The child loops of `sortProvinces`: the lists they build -/

theorem isSubprovince_congr {doc : List DomNode} {f g : Nat → Option String} {l : List Nat}
    (h : ∀ y ∈ l, f y = g y) :
    l.filter (isSubprovince doc f) = l.filter (isSubprovince doc g) := by
  apply List.filter_congr
  intro y hy
  simp only [isSubprovince, h y hy]

theorem sortGrandchildren_exact (c g : Nat) (l : List Nat) :
    ∀ (s : MapState) (acc : List Nat) (t : MapState) (subs : List Nat),
      l.Nodup → sortGrandchildren c g l s acc = .ok (t, subs) →
      subs = acc ++ l.filter (isSubprovince s.doc s.fill) ∧
      t.doc = s.doc ∧ t.removed = s.removed ∧ t.countryGroups = s.countryGroups ∧
      t.microstate = s.microstate ∧ t.provinces = s.provinces ∧ t.border = s.border ∧
      (∀ m, m ∉ l →
        t.fill m = s.fill m ∧ t.province m = s.province m ∧ t.country m = s.country m) ∧
      (∀ x ∈ l, t.province x = some g ∧ t.country x = some c) := by
  induction l with
  | nil =>
    intro s acc t subs _ h
    simp only [sortGrandchildren, Except.ok.injEq, Prod.mk.injEq] at h
    obtain ⟨h1, h2⟩ := h
    rw [← h1, ← h2]
    simp
  | cons x rest ih =>
    intro s acc t subs hnd h
    obtain ⟨hx, hnd2⟩ := List.nodup_cons.mp hnd
    simp only [sortGrandchildren] at h
    by_cases htag : tagOf s.doc x = some "path"
    · rw [if_pos htag] at h
      obtain ⟨s2, e2, h2⟩ := andThen_eq_ok h
      have hs2 := restyle_of_ok e2
      obtain ⟨i1, i2, i3, i4, i5, i6, i7, i8, i9⟩ := ih s2 _ t subs hnd2 h2
      have d2 : s2.doc = s.doc := by rw [hs2]; simp
      have f2 : ∀ m, m ≠ x → s2.fill m = s.fill m := by
        intro m hm
        rw [hs2, restyle_fill_of_ne _ x m "out" hm]
        rfl
      have p2 : ∀ m, s2.province m = if m = x then some g else s.province m := by
        intro m
        rw [hs2, restyle_province, adopt_province]
      have c2 : ∀ m, s2.country m = if m = x then some c else s.country m := by
        intro m
        rw [hs2, restyle_country, adopt_country]
      refine ⟨?_, i2.trans d2, ?_, ?_, ?_, ?_, ?_, ?_, ?_⟩
      · rw [i1, d2, isSubprovince_congr (f := s2.fill) (g := s.fill)
          (fun y hy => f2 y (fun e => hx (e ▸ hy)))]
        have hp : isSubprovince s.doc s.fill x = !(s.fill x == some "none") := by
          simp [isSubprovince, htag]
        by_cases hf : s.fill x = some "none"
        · have hpx : isSubprovince s.doc s.fill x = false := by rw [hp]; simp [hf]
          simp [List.filter, hpx, hf]
        · have hpx : isSubprovince s.doc s.fill x = true := by rw [hp]; simp [hf]
          simp [List.filter, hpx, hf]
      · rw [i3, hs2]; simp
      · rw [i4, hs2]; simp
      · rw [i5, hs2]; simp
      · rw [i6, hs2]; simp
      · rw [i7, hs2]; simp
      · intro m hm
        have hmx : m ≠ x := fun e => hm (e ▸ List.mem_cons_self _ _)
        have hmr : m ∉ rest := fun e => hm (List.mem_cons_of_mem _ e)
        obtain ⟨a1, a2, a3⟩ := i8 m hmr
        exact ⟨a1.trans (f2 m hmx), by rw [a2, p2, if_neg hmx], by rw [a3, c2, if_neg hmx]⟩
      · intro y hy
        rcases List.mem_cons.mp hy with e | e
        · obtain ⟨_, a2, a3⟩ := i8 x hx
          rw [e, a2, a3, p2, c2, if_pos rfl, if_pos rfl]
          exact ⟨rfl, rfl⟩
        · exact i9 y e
    · rw [if_neg htag] at h
      obtain ⟨i1, i2, i3, i4, i5, i6, i7, i8, i9⟩ := ih (adopt s x c g) acc t subs hnd2 h
      have hpx : isSubprovince s.doc s.fill x = false := by
        simp [isSubprovince, htag]
      refine ⟨?_, by simpa using i2, by simpa using i3, by simpa using i4, by simpa using i5,
        by simpa using i6, by simpa using i7, ?_, ?_⟩
      · rw [i1]
        simp [List.filter, hpx]
      · intro m hm
        have hmx : m ≠ x := fun e => hm (e ▸ List.mem_cons_self _ _)
        have hmr : m ∉ rest := fun e => hm (List.mem_cons_of_mem _ e)
        obtain ⟨a1, a2, a3⟩ := i8 m hmr
        exact ⟨by simpa using a1, by rw [a2, adopt_province, if_neg hmx],
          by rw [a3, adopt_country, if_neg hmx]⟩
      · intro y hy
        rcases List.mem_cons.mp hy with e | e
        · obtain ⟨_, a2, a3⟩ := i8 x hx
          rw [e, a2, a3, adopt_province, adopt_country, if_pos rfl, if_pos rfl]
          exact ⟨rfl, rfl⟩
        · exact i9 y e

theorem sortBorderChild_exact {c child : Nat} {s t : MapState} {x : Nat}
    (h : sortBorderChild c child s x = .ok t) :
    t.doc = s.doc ∧ t.removed = s.removed ∧ t.countryGroups = s.countryGroups ∧
    t.microstate = s.microstate ∧ t.provinces = s.provinces ∧ t.border = s.border ∧
    (∀ m, s.country m = some c → t.country m = some c) ∧
    ∀ m, m ≠ x → t.fill m = s.fill m ∧ t.province m = s.province m := by
  unfold sortBorderChild at h
  by_cases htext : ¬ isTextNode s.doc x = true
  · rw [if_pos htext] at h
    rw [restyle_of_ok h]
    refine ⟨by simp, by simp, by simp, by simp, by simp, by simp, ?_, ?_⟩
    · intro m hm
      rw [restyle_country, adopt_country]
      by_cases e : m = x
      · rw [if_pos e]
      · rw [if_neg e]
        exact hm
    · intro m hm
      refine ⟨?_, ?_⟩
      · rw [restyle_fill_of_ne _ x m "out" hm]
        rfl
      · rw [restyle_province, adopt_province, if_neg hm]
  · rw [if_neg htext] at h
    cases h
    exact ⟨rfl, rfl, rfl, rfl, rfl, rfl, fun _ hm => hm, fun _ _ => ⟨rfl, rfl⟩⟩

theorem forEach_sortBorderChild_exact (c child : Nat) (l : List Nat) (s t : MapState)
    (h : forEach (sortBorderChild c child) l s = .ok t) :
    t.doc = s.doc ∧ t.removed = s.removed ∧ t.countryGroups = s.countryGroups ∧
    t.microstate = s.microstate ∧ t.provinces = s.provinces ∧ t.border = s.border ∧
    (∀ m, s.country m = some c → t.country m = some c) ∧
    ∀ m, m ∉ l → t.fill m = s.fill m ∧ t.province m = s.province m := by
  induction l generalizing s with
  | nil =>
    simp only [forEach, Except.ok.injEq] at h
    rw [← h]
    exact ⟨rfl, rfl, rfl, rfl, rfl, rfl, fun _ hm => hm, fun _ _ => ⟨rfl, rfl⟩⟩
  | cons x xs ih =>
    simp only [forEach] at h
    cases hx : sortBorderChild c child s x with
    | error e => simp [hx] at h
    | ok s1 =>
      simp only [hx] at h
      obtain ⟨a1, a2, a3, a4, a5, a6, a7, a8⟩ := sortBorderChild_exact hx
      obtain ⟨b1, b2, b3, b4, b5, b6, b7, b8⟩ := ih s1 h
      refine ⟨b1.trans a1, b2.trans a2, b3.trans a3, b4.trans a4, b5.trans a5, b6.trans a6,
        fun m hm => b7 m (a7 m hm), ?_⟩
      intro m hm
      have hmx : m ≠ x := fun e => hm (e ▸ List.mem_cons_self _ _)
      have hmr : m ∉ xs := fun e => hm (List.mem_cons_of_mem _ e)
      exact ⟨(b8 m hmr).1.trans (a8 m hmx).1, (b8 m hmr).2.trans (a8 m hmx).2⟩

theorem sortBorder_exact {c child : Nat} {s t : MapState} (h : sortBorder c child s = .ok t) :
    t.doc = s.doc ∧ t.removed = s.removed ∧ t.countryGroups = s.countryGroups ∧
    t.microstate = s.microstate ∧ t.provinces = s.provinces ∧
    (∀ k, t.border k = if k = c then some child else s.border k) ∧
    (∀ m, s.country m = some c → t.country m = some c) ∧
    ∀ m, m ≠ child → parentOf s.doc m ≠ some child →
      t.fill m = s.fill m ∧ t.province m = s.province m := by
  unfold sortBorder at h
  by_cases htag : tagOf s.doc child ≠ some "g"
  · rw [if_pos htag] at h
    rw [restyle_of_ok h]
    refine ⟨by simp, by simp, by simp, by simp, by simp, ?_, ?_, ?_⟩
    · intro k
      rw [restyle_border, setBorder_border]
    · intro m hm
      rw [restyle_country]
      exact hm
    · intro m hm _
      refine ⟨?_, by simp⟩
      rw [restyle_fill_of_ne _ child m "out" hm]
      rfl
  · rw [if_neg htag] at h
    obtain ⟨a1, a2, a3, a4, a5, a6, a7, a8⟩ := forEach_sortBorderChild_exact _ _ _ _ _ h
    refine ⟨by simpa using a1, by simpa using a2, by simpa using a3, by simpa using a4,
      by simpa using a5, ?_, ?_, ?_⟩
    · intro k
      rw [a6, setBorder_border]
    · intro m hm
      exact a7 m (by simpa using hm)
    · intro m _ hm
      have hnot : m ∉ liveChildNodes (setBorder s c child) child := by
        intro e
        exact hm (parentOf_of_mem_liveChildNodes e)
      obtain ⟨b1, b2⟩ := a8 m hnot
      exact ⟨by simpa using b1, by simpa using b2⟩

theorem liveChildNodes_congr {s t : MapState} (hd : t.doc = s.doc) (hr : t.removed = s.removed)
    (n : Nat) : liveChildNodes t n = liveChildNodes s n := by
  simp only [liveChildNodes, hd, hr]

/-- One turn of the child loop of `sortProvinces`, for the child `x` of the country `c`. -/
theorem sortChildren_head {c x : Nat} {rest : List Nat} {s t : MapState} {acc ps : List Nat}
    (h : sortChildren c (x :: rest) s acc = .ok (t, ps)) :
    ∃ s1, sortChildren c rest s1
        (acc ++ (if isProvinceChild s.doc c x = true then [x] else [])) = .ok (t, ps) ∧
      s1.doc = s.doc ∧ s1.removed = s.removed ∧ s1.countryGroups = s.countryGroups ∧
      s1.microstate = s.microstate ∧
      (∀ k, s1.border k =
        if k = c ∧ isBorderChild s.doc c x = true then some x else s.border k) ∧
      (∀ m, s.country m = some c → s1.country m = some c) ∧
      (∀ m, m ≠ x → parentOf s.doc m ≠ some x →
        s1.fill m = s.fill m ∧ s1.province m = s.province m) ∧
      (∀ m, m ≠ x → s1.provinces m = s.provinces m) ∧
      (isProvinceChild s.doc c x = true → tagOf s.doc x = some "g" →
        s1.provinces x = some ((liveChildNodes s x).filter (isSubprovince s.doc s.fill)) ∧
        ∀ y ∈ liveChildNodes s x, s1.province y = some x ∧ s1.country y = some c) := by
  have hmono : ∀ m, s.country m = some c → (adopt s x c x).country m = some c := by
    intro m hm
    rw [adopt_country]
    by_cases e : m = x
    · rw [if_pos e]
    · rw [if_neg e]
      exact hm
  simp only [sortChildren] at h
  by_cases hb : idOf s.doc x = some (borderId s.doc c)
  · rw [if_pos hb] at h
    have hbc : isBorderChild s.doc c x = true := by
      simp [isBorderChild, hb]
    have hpc : isProvinceChild s.doc c x = false := by
      simp [isProvinceChild, hbc]
    obtain ⟨s3, e3, h3⟩ := andThen_eq_ok h
    obtain ⟨a1, a2, a3, a4, a5, a6, a7, a8⟩ := sortBorder_exact e3
    refine ⟨s3, ?_, by simpa using a1, by simpa using a2, by simpa using a3,
      by simpa using a4, ?_, fun m hm => a7 m (hmono m hm), ?_, ?_, ?_⟩
    · simpa [hpc] using h3
    · intro k
      rw [a6]
      by_cases e : k = c
      · simp [e, hbc]
      · simp [e]
    · intro m hm hp
      obtain ⟨b1, b2⟩ := a8 m hm (by simpa using hp)
      exact ⟨by simpa using b1, by rw [b2, adopt_province, if_neg hm]⟩
    · intro m _
      rw [a5]
      simp
    · intro hp
      rw [hpc] at hp
      exact absurd hp Bool.false_ne_true
  · rw [if_neg hb] at h
    have hbc : isBorderChild s.doc c x = false := by
      simpa [isBorderChild] using hb
    by_cases hpath : tagOf s.doc x = some "path"
    · rw [if_pos hpath] at h
      have hpc : isProvinceChild s.doc c x = true := by
        simp [isProvinceChild, hbc, hpath]
      obtain ⟨s2, e2, h2⟩ := andThen_eq_ok h
      have hs2 := restyle_of_ok e2
      refine ⟨s2, ?_, by rw [hs2]; simp, by rw [hs2]; simp, by rw [hs2]; simp,
        by rw [hs2]; simp, ?_, ?_, ?_, ?_, ?_⟩
      · simpa [hpc] using h2
      · intro k
        rw [hs2]
        simp [hbc]
      · intro m hm
        rw [hs2, restyle_country]
        exact hmono m hm
      · intro m hm _
        refine ⟨?_, by rw [hs2, restyle_province, adopt_province, if_neg hm]⟩
        rw [hs2, restyle_fill_of_ne _ x m "out" hm]
        rfl
      · intro m _
        rw [hs2]
        simp
      · intro _ hg
        rw [hpath] at hg
        exact absurd hg (by decide)
    · rw [if_neg hpath] at h
      by_cases hg : tagOf s.doc x = some "g"
      · rw [if_pos hg] at h
        have hpc : isProvinceChild s.doc c x = true := by
          simp [isProvinceChild, hbc, hg]
        cases hsg : sortGrandchildren c x (liveChildNodes s x) (adopt s x c x) [] with
        | error e => simp [hsg] at h
        | ok r =>
          obtain ⟨s2, subs⟩ := r
          simp only [hsg] at h
          obtain ⟨i1, i2, i3, i4, i5, i6, i7, i8, i9⟩ := sortGrandchildren_exact c x _ _ _ _ _
            (liveChildNodes_nodup s x) hsg
          refine ⟨setProvinces s2 x subs, ?_, by simpa using i2, by simpa using i3,
            by simpa using i4, by simpa using i5, ?_, ?_, ?_, ?_, ?_⟩
          · simpa [hpc] using h
          · intro k
            simp only [setProvinces_border, i7, adopt_border]
            simp [hbc]
          · intro m hm
            by_cases hmem : m ∈ liveChildNodes s x
            · simpa using (i9 m hmem).2
            · simp only [setProvinces_country]
              rw [(i8 m hmem).2.2]
              exact hmono m hm
          · intro m hm hp
            have hmem : m ∉ liveChildNodes s x := fun e => hp (parentOf_of_mem_liveChildNodes e)
            obtain ⟨b1, b2, _⟩ := i8 m hmem
            exact ⟨by simpa using b1, by simp only [setProvinces_province]; rw [b2, adopt_province, if_neg hm]⟩
          · intro m hm
            rw [setProvinces_provinces, if_neg hm, i6]
            simp
          · intro _ _
            refine ⟨?_, ?_⟩
            · rw [setProvinces_provinces, if_pos rfl, i1]
              simp
            · intro y hy
              simpa using i9 y hy
      · rw [if_neg hg] at h
        have hpc : isProvinceChild s.doc c x = false := by
          simp [isProvinceChild, hpath, hg]
        refine ⟨adopt s x c x, ?_, by simp, by simp, by simp, by simp, ?_, hmono, ?_, ?_, ?_⟩
        · simpa [hpc] using h
        · intro k
          simp [hbc]
        · intro m hm _
          exact ⟨by simp, by rw [adopt_province, if_neg hm]⟩
        · intro m _
          simp
        · intro hp
          rw [hpc] at hp
          exact absurd hp Bool.false_ne_true

theorem getLast?_cons_or {α : Type} (x : α) (l : List α) (d : Option α) :
    ((x :: l).getLast?).or d = (l.getLast?).or (some x) := by
  cases l with
  | nil => rfl
  | cons y ys =>
    rw [List.getLast?_cons_cons]
    cases h : (y :: ys).getLast? with
    | none => simp at h
    | some b => rfl

theorem sortChildren_exact (c : Nat) (l : List Nat) :
    ∀ (s : MapState) (acc : List Nat) (t : MapState) (ps : List Nat),
      l.Nodup → (∀ x ∈ l, parentOf s.doc x = some c) → parentOf s.doc c = none →
      sortChildren c l s acc = .ok (t, ps) →
      ps = acc ++ l.filter (isProvinceChild s.doc c) ∧
      t.doc = s.doc ∧ t.removed = s.removed ∧ t.countryGroups = s.countryGroups ∧
      t.microstate = s.microstate ∧
      (∀ k, k ≠ c → t.border k = s.border k) ∧
      t.border c = ((l.filter (isBorderChild s.doc c)).getLast?).or (s.border c) ∧
      (∀ m, s.country m = some c → t.country m = some c) ∧
      (∀ m, m ∉ l → (∀ q ∈ l, parentOf s.doc m ≠ some q) →
        t.fill m = s.fill m ∧ t.province m = s.province m) ∧
      (∀ m, m ∉ l → t.provinces m = s.provinces m) ∧
      (∀ g ∈ l, isProvinceChild s.doc c g = true → tagOf s.doc g = some "g" →
        t.provinces g = some ((liveChildNodes s g).filter (isSubprovince s.doc s.fill)) ∧
        ∀ x ∈ liveChildNodes s g, t.province x = some g ∧ t.country x = some c) := by
  induction l with
  | nil =>
    intro s acc t ps _ _ _ h
    simp only [sortChildren, Except.ok.injEq, Prod.mk.injEq] at h
    obtain ⟨h1, h2⟩ := h
    rw [← h1, ← h2]
    simp
  | cons x rest ih =>
    intro s acc t ps hnd hl hc h
    obtain ⟨hx, hnd2⟩ := List.nodup_cons.mp hnd
    obtain ⟨s1, h1, d1, r1, g1, m1, b1, c1, f1, p1, q1⟩ := sortChildren_head h
    have hxc : x ≠ c := by
      intro e
      have := hl x (List.mem_cons_self _ _)
      rw [e, hc] at this
      exact Option.noConfusion this
    have hrc : ∀ g ∈ rest, g ≠ c := by
      intro g hg e
      have := hl g (List.mem_cons_of_mem _ hg)
      rw [e, hc] at this
      exact Option.noConfusion this
    obtain ⟨i1, i2, i3, i4, i5, i6, i7, i8, i9, i10, i11⟩ := ih s1 _ t ps hnd2
      (fun y hy => by rw [d1]; exact hl y (List.mem_cons_of_mem _ hy)) (by rw [d1]; exact hc) h1
    rw [d1] at i1 i7 i9 i11
    refine ⟨?_, i2.trans d1, i3.trans r1, i4.trans g1, i5.trans m1, ?_, ?_, ?_, ?_, ?_, ?_⟩
    · rw [i1]
      by_cases hp : isProvinceChild s.doc c x = true
      · simp [List.filter, hp]
      · simp [List.filter, hp]
    · intro k hk
      rw [i6 k hk, b1 k]
      simp [hk]
    · rw [i7, b1 c]
      by_cases hb : isBorderChild s.doc c x = true
      · have hf : (x :: rest).filter (isBorderChild s.doc c) =
            x :: rest.filter (isBorderChild s.doc c) := by
          simp [List.filter, hb]
        rw [hf, getLast?_cons_or]
        simp [hb]
      · have hf : (x :: rest).filter (isBorderChild s.doc c) =
            rest.filter (isBorderChild s.doc c) := by
          simp [List.filter, hb]
        rw [hf]
        simp [hb]
    · intro m hm
      exact i8 m (c1 m hm)
    · intro m hm hq
      have hmx : m ≠ x := fun e => hm (e ▸ List.mem_cons_self _ _)
      have hmr : m ∉ rest := fun e => hm (List.mem_cons_of_mem _ e)
      obtain ⟨a1, a2⟩ := i9 m hmr (fun q hq2 => hq q (List.mem_cons_of_mem _ hq2))
      obtain ⟨a3, a4⟩ := f1 m hmx (hq x (List.mem_cons_self _ _))
      exact ⟨a1.trans a3, a2.trans a4⟩
    · intro m hm
      have hmx : m ≠ x := fun e => hm (e ▸ List.mem_cons_self _ _)
      have hmr : m ∉ rest := fun e => hm (List.mem_cons_of_mem _ e)
      rw [i10 m hmr, p1 m hmx]
    · intro g hg hp htag
      rcases List.mem_cons.mp hg with e | e
      · rw [e] at hp htag ⊢
        obtain ⟨a1, a2⟩ := q1 hp htag
        refine ⟨by rw [i10 x hx, a1], ?_⟩
        intro y hy
        have hpy : parentOf s.doc y = some x := parentOf_of_mem_liveChildNodes hy
        have hyr : y ∉ rest := by
          intro hyr
          have := hl y (List.mem_cons_of_mem _ hyr)
          rw [hpy] at this
          exact hxc (Option.some.inj this)
        have hyq : ∀ q ∈ rest, parentOf s.doc y ≠ some q := by
          intro q hq heq
          rw [hpy] at heq
          exact hx ((Option.some.inj heq) ▸ hq)
        obtain ⟨a3, a4⟩ := a2 y hy
        exact ⟨by rw [(i9 y hyr hyq).2, a3], i8 y a4⟩
      · obtain ⟨a1, a2⟩ := i11 g e hp htag
        have hlive : liveChildNodes s1 g = liveChildNodes s g := liveChildNodes_congr d1 r1 g
        rw [hlive] at a1 a2
        have hgx : g ≠ x := fun e2 => hx (e2 ▸ e)
        refine ⟨?_, a2⟩
        rw [a1, isSubprovince_congr (f := s1.fill) (g := s.fill)]
        intro y hy
        have hpy : parentOf s.doc y = some g := parentOf_of_mem_liveChildNodes hy
        have hyx : y ≠ x := by
          intro e2
          have := hl x (List.mem_cons_self _ _)
          rw [← e2, hpy] at this
          exact hrc g e (Option.some.inj this)
        exact (f1 y hyx (by rw [hpy]; exact fun e2 => hgx (Option.some.inj e2))).1
/-! ## The country loop of `sortProvinces`: the hierarchy it builds -/

theorem enterCountry_frame2 (s : MapState) (c : Nat) :
    (enterCountry s c).fill = s.fill ∧ (enterCountry s c).province = s.province ∧
    (enterCountry s c).countryGroups = s.countryGroups ∧
    (enterCountry s c).microstate = s.microstate := by
  unfold enterCountry
  cases objGet s.countryData (idKey (idOf s.doc c)) with
  | none => simp
  | some record => simp

theorem sortCountry_exact {s t : MapState} {c : Nat} (hc : parentOf s.doc c = none)
    (h : sortCountry s c = .ok t) :
    SortedCountry s.fill (s.border c) t c ∧
    t.doc = s.doc ∧ t.removed = s.removed ∧ t.countryGroups = s.countryGroups ∧
    t.microstate = s.microstate ∧
    (∀ k, k ≠ c → t.border k = s.border k) ∧
    (∀ m, ¬ InFamily s.doc c m →
      t.fill m = s.fill m ∧ t.province m = s.province m ∧ t.provinces m = s.provinces m) := by
  obtain ⟨f1, _, _, f4, f5, f7, _⟩ := enterCountry_frame s c
  obtain ⟨g1, g2, g3, g4⟩ := enterCountry_frame2 s c
  unfold sortCountry at h
  cases hsc : sortChildren c (liveChildNodes s c) (enterCountry s c) [] with
  | error e => simp [hsc] at h
  | ok r =>
    obtain ⟨s3, ps⟩ := r
    simp only [hsc, Except.ok.injEq] at h
    obtain ⟨i1, i2, i3, i4, i5, i6, i7, i8, i9, i10, i11⟩ :=
      sortChildren_exact c (liveChildNodes s c) (enterCountry s c) [] s3 ps
        (liveChildNodes_nodup s c)
        (fun x hx => by rw [f1]; exact parentOf_of_mem_liveChildNodes hx)
        (by rw [f1]; exact hc) hsc
    rw [f1] at i1 i2 i7 i9 i11
    rw [f7] at i3
    rw [g1] at i9 i11
    have hlive : ∀ n, liveChildNodes t n = liveChildNodes s n := by
      intro n
      rw [← h]
      exact liveChildNodes_congr (by simpa using i2) (by simpa using i3) n
    have hlive2 : ∀ n, liveChildNodes (enterCountry s c) n = liveChildNodes s n :=
      fun n => liveChildNodes_congr f1 f7 n
    have hdoc : t.doc = s.doc := by rw [← h]; simpa using i2
    refine ⟨⟨?_, ?_, ?_⟩, hdoc, by rw [← h]; simpa using i3,
      by rw [← h]; simpa using i4.trans g3, by rw [← h]; simpa using i5.trans g4, ?_, ?_⟩
    · rw [hlive, hdoc, ← h, setProvinces_provinces, if_pos rfl, i1]
      rfl
    · rw [hlive, hdoc, ← h]
      simp only [setProvinces_border]
      rw [i7, f5]
    · intro g hg hp htag
      rw [hlive] at hg
      rw [hdoc] at hp htag
      obtain ⟨a1, a2⟩ := i11 g hg hp htag
      rw [hlive2] at a1 a2
      have hgc : g ≠ c := by
        intro e
        have := parentOf_of_mem_liveChildNodes hg
        rw [e, hc] at this
        exact Option.noConfusion this
      rw [hlive, hdoc]
      refine ⟨?_, ?_⟩
      · rw [← h, setProvinces_provinces, if_neg hgc, a1]
      · intro x hx
        rw [← h]
        simpa using a2 x hx
    · intro k hk
      rw [← h]
      simp only [setProvinces_border]
      rw [i6 k hk, f5]
    · intro m hm
      have hmc : m ≠ c := fun e => hm (Or.inl e)
      have hml : m ∉ liveChildNodes s c := fun e =>
        hm (Or.inr (Or.inl (parentOf_of_mem_liveChildNodes e)))
      have hmq : ∀ q ∈ liveChildNodes s c, parentOf s.doc m ≠ some q := fun q hq e =>
        hm (Or.inr (Or.inr ⟨q, e, parentOf_of_mem_liveChildNodes hq⟩))
      obtain ⟨a1, a2⟩ := i9 m hml hmq
      rw [← h]
      refine ⟨by simpa using a1, by simpa [g2] using a2, ?_⟩
      rw [setProvinces_provinces, if_neg hmc, i10 m hml, f4]

theorem not_inFamily_top {doc : List DomNode} {c x : Nat} (hx : parentOf doc x = none)
    (hne : x ≠ c) : ¬ InFamily doc c x := by
  rintro (h | h | ⟨q, h, _⟩)
  · exact hne h
  · rw [hx] at h
    exact Option.noConfusion h
  · rw [hx] at h
    exact Option.noConfusion h

theorem not_inFamily_child {doc : List DomNode} {c x g : Nat} (hc : parentOf doc c = none)
    (hx : parentOf doc x = none) (hg : parentOf doc g = some x) (hne : x ≠ c) :
    ¬ InFamily doc c g :=
  fun h => hne (inFamily_unique hx hc (Or.inr (Or.inl hg)) h)

theorem not_inFamily_grandchild {doc : List DomNode} {c x g y : Nat}
    (hc : parentOf doc c = none) (hx : parentOf doc x = none) (hg : parentOf doc g = some x)
    (hy : parentOf doc y = some g) (hne : x ≠ c) : ¬ InFamily doc c y :=
  fun h => hne (inFamily_unique hx hc (Or.inr (Or.inr ⟨g, hy, hg⟩)) h)

theorem sortedCountry_transport {fill0 fill1 : Nat → Option String} {b0 : Option Nat}
    {s t : MapState} {c : Nat} (hd : t.doc = s.doc) (hr : t.removed = s.removed)
    (hpc : t.provinces c = s.provinces c) (hbc : t.border c = s.border c)
    (hg : ∀ g ∈ liveChildNodes s c, t.provinces g = s.provinces g)
    (hy : ∀ g ∈ liveChildNodes s c, ∀ y ∈ liveChildNodes s g,
      t.province y = s.province y ∧ t.country y = s.country y ∧ fill1 y = fill0 y)
    (h : SortedCountry fill0 b0 s c) : SortedCountry fill1 b0 t c := by
  obtain ⟨h1, h2, h3⟩ := h
  have hlive : ∀ n, liveChildNodes t n = liveChildNodes s n := liveChildNodes_congr hd hr
  refine ⟨?_, ?_, ?_⟩
  · rw [hpc, hlive, hd]
    exact h1
  · rw [hbc, hlive, hd]
    exact h2
  · intro g hgm hp htag
    rw [hlive] at hgm
    rw [hd] at hp htag
    obtain ⟨a1, a2⟩ := h3 g hgm hp htag
    rw [hlive, hd, hg g hgm, a1]
    refine ⟨?_, ?_⟩
    · rw [isSubprovince_congr (f := fill1) (g := fill0) (fun y hy2 => (hy g hgm y hy2).2.2)]
    · intro y hy2
      rw [(hy g hgm y hy2).1, (hy g hgm y hy2).2.1]
      exact a2 y hy2

theorem forEach_sortCountry_exact (l : List Nat) (s t : MapState) (hnd : l.Nodup)
    (hl : ∀ c ∈ l, parentOf s.doc c = none) (hw : Wired s)
    (h : forEach sortCountry l s = .ok t) :
    (∀ c ∈ l, SortedCountry s.fill (s.border c) t c) ∧
    t.doc = s.doc ∧ t.removed = s.removed ∧ t.countryGroups = s.countryGroups ∧
    t.microstate = s.microstate ∧
    (∀ k, k ∉ l → t.border k = s.border k) ∧
    (∀ m, (∀ c ∈ l, ¬ InFamily s.doc c m) →
      t.fill m = s.fill m ∧ t.province m = s.province m ∧ t.provinces m = s.provinces m ∧
      t.country m = s.country m) := by
  induction l generalizing s with
  | nil =>
    simp only [forEach, Except.ok.injEq] at h
    rw [← h]
    exact ⟨fun c hc => absurd hc (List.not_mem_nil c), rfl, rfl, rfl, rfl, fun _ _ => rfl,
      fun _ _ => ⟨rfl, rfl, rfl, rfl⟩⟩
  | cons x xs ih =>
    obtain ⟨hx, hnd2⟩ := List.nodup_cons.mp hnd
    simp only [forEach] at h
    cases hsx : sortCountry s x with
    | error e => simp [hsx] at h
    | ok s1 =>
      simp only [hsx] at h
      have hxtop : parentOf s.doc x = none := hl x (List.mem_cons_self _ _)
      obtain ⟨a0, a1, a2, a3, a4, a5, a6⟩ := sortCountry_exact hxtop hsx
      obtain ⟨_, _, _, _, w1, _, _, out1⟩ := sortCountry_spec hxtop hw hsx
      obtain ⟨b0, b1, b2, b3, b4, b5, b6⟩ := ih s1 hnd2
        (fun c hc => by rw [a1]; exact hl c (List.mem_cons_of_mem _ hc)) w1 h
      have hxs : ∀ c ∈ xs, parentOf s.doc c = none ∧ x ≠ c := fun c hc =>
        ⟨hl c (List.mem_cons_of_mem _ hc), fun e => hx (e ▸ hc)⟩
      refine ⟨?_, b1.trans a1, b2.trans a2, b3.trans a3, b4.trans a4, ?_, ?_⟩
      · intro c hc
        rcases List.mem_cons.mp hc with e | e
        · rw [e]
          have hfx : ∀ m, InFamily s.doc x m → ∀ c' ∈ xs, ¬ InFamily s1.doc c' m := by
            intro m hm c' hc' hm'
            rw [a1] at hm'
            exact (hxs c' hc').2 (inFamily_unique hxtop (hxs c' hc').1 hm hm')
          have hlive1 : ∀ n, liveChildNodes s1 n = liveChildNodes s n :=
            liveChildNodes_congr a1 a2
          refine sortedCountry_transport (s := s1) b1 b2 (b6 x (hfx x (Or.inl rfl))).2.2.1
            (b5 x hx) ?_ ?_ a0
          · intro g hg
            rw [hlive1] at hg
            exact (b6 g (hfx g (Or.inr (Or.inl (parentOf_of_mem_liveChildNodes hg))))).2.2.1
          · intro g hg y hy
            rw [hlive1] at hg hy
            have := b6 y (hfx y (Or.inr (Or.inr ⟨g, parentOf_of_mem_liveChildNodes hy,
              parentOf_of_mem_liveChildNodes hg⟩)))
            exact ⟨this.2.1, this.2.2.2, rfl⟩
        · have hc0 := b0 c e
          rw [a5 c (fun e2 => (hxs c e).2 e2.symm)] at hc0
          refine sortedCountry_transport (s := t) rfl rfl rfl rfl (fun _ _ => rfl) ?_ hc0
          intro g hg y hy
          have hlive : ∀ n, liveChildNodes t n = liveChildNodes s n :=
            liveChildNodes_congr (b1.trans a1) (b2.trans a2)
          rw [hlive] at hg hy
          refine ⟨rfl, rfl, ?_⟩
          exact ((a6 y (not_inFamily_grandchild hxtop (hxs c e).1
            (parentOf_of_mem_liveChildNodes hg) (parentOf_of_mem_liveChildNodes hy)
            (fun e2 => (hxs c e).2 e2.symm))).1).symm
      · intro k hk
        have hkx : k ≠ x := fun e => hk (e ▸ List.mem_cons_self _ _)
        rw [b5 k (fun e => hk (List.mem_cons_of_mem _ e)), a5 k hkx]
      · intro m hm
        have hm1 : ¬ InFamily s.doc x m := hm x (List.mem_cons_self _ _)
        obtain ⟨c1, c2, c3, c4⟩ :=
          b6 m (fun c hc => by rw [a1]; exact hm c (List.mem_cons_of_mem _ hc))
        obtain ⟨d1, d2, d3⟩ := a6 m hm1
        exact ⟨c1.trans d1, c2.trans d2, c3.trans d3, c4.trans (out1 m hm1)⟩
/-! ## The steps before `sortProvinces`: further fields they leave alone -/

theorem addBackground_extra {s t : MapState} {w o : Nat} (h : addBackground s w o = .ok t) :
    t.fill = s.fill ∧ t.province = s.province ∧ t.countryGroups = s.countryGroups ∧
    t.microstate = s.microstate := by
  unfold addBackground at h
  by_cases hb : s.opts.backgroundImage ≠ ""
  · rw [if_pos hb] at h
    cases hg : getElementById s "World" with
    | none =>
      simp only [hg] at h
      cases h
      simp
    | some world =>
      simp only [hg] at h
      by_cases hp : parentNode s world = ParentRef.base
      · rw [if_pos hp] at h
        cases h
        simp
      · rw [if_neg hp] at h
        cases h
  · rw [if_neg hb] at h
    cases h
    exact ⟨rfl, rfl, rfl, rfl⟩

theorem styleBackground_extra {s t : MapState} (h : styleBackground s = .ok t) :
    t.fill = s.fill ∧ t.province = s.province ∧ t.countryGroups = s.countryGroups ∧
    t.microstate = s.microstate := by
  unfold styleBackground at h
  cases hw : objGet s.countries "World" with
  | none => simp [hw] at h
  | some w =>
    simp only [hw] at h
    cases ho : objGet s.countries "Ocean" with
    | none => simp [ho] at h
    | some o =>
      simp only [ho] at h
      obtain ⟨k1, k2, k3, k4⟩ := addBackground_extra h
      exact ⟨by simpa using k1, by simpa using k2, by simpa using k3, by simpa using k4⟩

theorem sortLabel_extra {s t : MapState} {label : Nat} (h : sortLabel s label = .ok t) :
    t.province = s.province ∧ t.countryGroups = s.countryGroups ∧
    (∀ m, m ≠ label → t.fill m = s.fill m ∧ t.microstate m = s.microstate m) ∧
    (tagOf s.doc label ≠ some "text" → t.fill = s.fill ∧ t.microstate = s.microstate) ∧
    (tagOf s.doc label = some "text" →
      t.microstate label = some (looseEqualsTwo (fontSizeOf s.doc label))) := by
  unfold sortLabel at h
  by_cases htag : tagOf s.doc label = some "text"
  · rw [if_pos htag] at h
    cases hr : objGet s.countryData (substr0 (idKey (idOf s.doc label)) 2) with
    | none => simp [hr] at h
    | some record =>
      simp only [hr] at h
      cases h
      refine ⟨by simp, by simp, ?_, fun hn => absurd htag hn, ?_⟩
      · intro m hm
        refine ⟨?_, ?_⟩
        · simp only [setMicrostate_fill]
          rw [setFill_fill, if_neg hm]
          simp
        · rw [setMicrostate_microstate, if_neg hm]
          simp
      · intro _
        rw [setMicrostate_microstate, if_pos rfl]
  · rw [if_neg htag] at h
    cases h
    exact ⟨rfl, rfl, fun _ _ => ⟨rfl, rfl⟩, fun _ => ⟨rfl, rfl⟩, fun hn => absurd hn htag⟩

theorem hideMicrostate_extra {s t : MapState} {label : Nat}
    (h : hideMicrostate s label = .ok t) :
    t.fill = s.fill ∧ t.province = s.province ∧ t.countryGroups = s.countryGroups ∧
    t.microstate = s.microstate := by
  unfold hideMicrostate at h
  by_cases hm : s.microstate label = some true
  · rw [if_pos hm] at h
    by_cases hs : s.opts.showMicroStates = false
    · rw [if_pos hs] at h
      cases hc : objGet s.countries (substr0 (idKey (idOf s.doc label)) 2) with
      | none => simp [hc] at h
      | some c =>
        simp only [hc] at h
        cases h
        simp
    · rw [if_neg hs] at h
      cases h
      simp
  · rw [if_neg hm] at h
    cases h
    exact ⟨rfl, rfl, rfl, rfl⟩

theorem forEach_sortLabel_extra (l : List Nat) (s t : MapState) (hnd : l.Nodup)
    (h : forEach sortLabel l s = .ok t) :
    t.province = s.province ∧ t.countryGroups = s.countryGroups ∧
    (∀ m, (m ∉ l ∨ tagOf s.doc m ≠ some "text") →
      t.fill m = s.fill m ∧ t.microstate m = s.microstate m) ∧
    (∀ x ∈ l, tagOf s.doc x = some "text" →
      t.microstate x = some (looseEqualsTwo (fontSizeOf s.doc x))) := by
  induction l generalizing s with
  | nil =>
    simp only [forEach, Except.ok.injEq] at h
    rw [← h]
    exact ⟨rfl, rfl, fun _ _ => ⟨rfl, rfl⟩, fun x hx => absurd hx (List.not_mem_nil x)⟩
  | cons x xs ih =>
    obtain ⟨hx, hnd2⟩ := List.nodup_cons.mp hnd
    simp only [forEach] at h
    cases hsx : sortLabel s x with
    | error e => simp [hsx] at h
    | ok s1 =>
      simp only [hsx] at h
      obtain ⟨a1, a2, a3, a4, a5⟩ := sortLabel_extra hsx
      obtain ⟨k1, _, _⟩ := sortLabel_spec hsx
      obtain ⟨b1, b2, b3, b4⟩ := ih s1 hnd2 h
      rw [k1.1] at b3 b4
      refine ⟨b1.trans a1, b2.trans a2, ?_, ?_⟩
      · intro m hm
        have hm2 : m ∉ xs ∨ tagOf s.doc m ≠ some "text" := by
          rcases hm with e | e
          · exact Or.inl (fun e2 => e (List.mem_cons_of_mem _ e2))
          · exact Or.inr e
        obtain ⟨c1, c2⟩ := b3 m hm2
        by_cases hmx : m = x
        · have htag : tagOf s.doc x ≠ some "text" := by
            rcases hm with e | e
            · exact absurd (hmx ▸ List.mem_cons_self x xs) e
            · rw [← hmx]
              exact e
          obtain ⟨d1, d2⟩ := a4 htag
          exact ⟨by rw [c1, d1], by rw [c2, d2]⟩
        · exact ⟨c1.trans (a3 m hmx).1, c2.trans (a3 m hmx).2⟩
      · intro y hy htag
        rcases List.mem_cons.mp hy with e | e
        · rw [e]
          rw [(b3 x (Or.inl hx)).2]
          exact a5 (e ▸ htag)
        · exact b4 y e htag

theorem sortLabels_extra {s t : MapState} (h : sortLabels s = .ok t) :
    t.province = s.province ∧ t.countryGroups = s.countryGroups ∧
    (∀ m, tagOf s.doc m ≠ some "text" → t.fill m = s.fill m) ∧
    ∀ layer, objGet s.countries "labels" = some layer →
      ∀ x ∈ liveChildNodes s layer, tagOf s.doc x = some "text" →
        t.microstate x = some (looseEqualsTwo (fontSizeOf s.doc x)) := by
  unfold sortLabels at h
  cases hl : objGet s.countries "labels" with
  | none => simp [hl] at h
  | some layer =>
    simp only [hl] at h
    obtain ⟨s1, e1, e2⟩ := andThen_eq_ok h
    obtain ⟨a1, a2, a3, a4⟩ := forEach_sortLabel_extra _ _ _ (liveChildNodes_nodup s layer) e1
    have hk := forEach_rel
      (fun a b => b.fill = a.fill ∧ b.province = a.province ∧
        b.countryGroups = a.countryGroups ∧ b.microstate = a.microstate)
      (fun a => ⟨rfl, rfl, rfl, rfl⟩)
      (fun a b c h1 h2 => ⟨h2.1.trans h1.1, h2.2.1.trans h1.2.1, h2.2.2.1.trans h1.2.2.1,
        h2.2.2.2.trans h1.2.2.2⟩)
      hideMicrostate _ (fun a x b _ hx => hideMicrostate_extra hx) s1 t e2
    refine ⟨hk.2.1.trans a1, hk.2.2.1.trans a2, ?_, ?_⟩
    · intro m hm
      rw [hk.1]
      exact (a3 m (Or.inr hm)).1
    · intro layer2 hl2 x hx htag
      have : layer2 = layer := (Option.some.inj hl2).symm
      rw [this] at hx
      rw [hk.2.2.2]
      exact a4 x hx htag

theorem antarcticaStep_extra {s t : MapState}
    (h : (if s.opts.showAntarctica = false then removeAntarctica s else .ok s) = .ok t) :
    t.fill = s.fill ∧ t.province = s.province ∧ t.countryGroups = s.countryGroups ∧
    t.microstate = s.microstate ∧ t.countryData = s.countryData := by
  by_cases ha : s.opts.showAntarctica = false
  · rw [if_pos ha] at h
    unfold removeAntarctica at h
    cases hq : getElementById s "AQ" with
    | none => simp [hq] at h
    | some aq =>
      simp only [hq] at h
      by_cases hp : parentNode s aq ≠ ParentRef.base
      · rw [if_pos hp] at h
        cases h
      · rw [if_neg hp] at h
        unfold removeAntarcticaLabel at h
        cases hl : getElementById (dropCountry (detach s aq) "AQ") "labels" with
        | none => simp [hl] at h
        | some layer =>
          cases hb : getElementById (dropCountry (detach s aq) "AQ") "AQ-label" with
          | none => simp [hl, hb] at h
          | some label =>
            simp only [hl, hb] at h
            by_cases hp2 : parentNode (dropCountry (detach s aq) "AQ") label =
                ParentRef.node layer
            · rw [if_pos hp2] at h
              cases h
              simp
            · rw [if_neg hp2] at h
              cases h
  · rw [if_neg ha] at h
    cases h
    exact ⟨rfl, rfl, rfl, rfl, rfl⟩

theorem labelsStep_extra {s t : MapState}
    (h : (if s.opts.showLabels = true then toggleAllLabels s else .ok s) = .ok t) :
    t.fill = s.fill ∧ t.province = s.province ∧ t.countryGroups = s.countryGroups ∧
    t.microstate = s.microstate := by
  by_cases ha : s.opts.showLabels = true
  · rw [if_pos ha] at h
    unfold toggleAllLabels at h
    cases hg : getElementById s "labels" with
    | none => simp [hg] at h
    | some g =>
      simp only [hg] at h
      by_cases hd : s.display g = none ∨ s.display g = some "block"
      · rw [if_pos hd] at h
        cases h
        simp
      · rw [if_neg hd] at h
        cases h
        simp
  · rw [if_neg ha] at h
    cases h
    exact ⟨rfl, rfl, rfl, rfl⟩
/-! ## The country index has one entry per node -/

theorem objKeys_objSet {α : Type} (o : Obj α) (k : String) (v : α) :
    objKeys (objSet o k v) = if k ∈ objKeys o then objKeys o else objKeys o ++ [k] := by
  induction o with
  | nil => simp [objSet, objKeys]
  | cons x rest ih =>
    obtain ⟨k0, v0⟩ := x
    simp only [objKeys] at ih
    simp only [objSet, objKeys]
    by_cases h0 : k0 = k
    · simp [h0]
    · rw [if_neg h0]
      simp only [List.map_cons, ih, List.mem_cons]
      by_cases hm : k ∈ rest.map Prod.fst
      · simp [hm]
      · simp [hm, Ne.symm h0]

theorem nodup_objKeys_objSet {α : Type} {o : Obj α} (k : String) (v : α)
    (h : (objKeys o).Nodup) : (objKeys (objSet o k v)).Nodup := by
  rw [objKeys_objSet]
  by_cases hm : k ∈ objKeys o
  · rw [if_pos hm]
    exact h
  · rw [if_neg hm]
    exact List.Nodup.append h (List.nodup_singleton k) (by simpa using hm)

theorem nodup_objKeys_objDelete {α : Type} {o : Obj α} (k : String)
    (h : (objKeys o).Nodup) : (objKeys (objDelete o k)).Nodup :=
  List.Nodup.sublist (List.Sublist.map _ (List.filter_sublist _)) h

theorem nodup_objKeys_indexCountries (doc : List DomNode) (l : List Nat) (acc : Obj Nat)
    (h : (objKeys acc).Nodup) : (objKeys (indexCountries doc l acc)).Nodup := by
  induction l generalizing acc with
  | nil => exact h
  | cons x rest ih =>
    simp only [indexCountries]
    by_cases hx : admitted doc x = true
    · rw [if_pos hx]
      exact ih _ (nodup_objKeys_objSet _ _ h)
    · rw [if_neg hx]
      exact ih _ h

theorem nodup_values_of_keys {doc : List DomNode} {o : Obj Nat} (h : (objKeys o).Nodup)
    (hid : ∀ e ∈ o, idOf doc e.2 = some e.1) : (o.map Prod.snd).Nodup := by
  apply List.Nodup.map_on
  · intro x hx y hy hxy
    have h1 := hid x hx
    have h2 := hid y hy
    rw [hxy, h2] at h1
    exact Prod.ext (Option.some.inj h1).symm hxy
  · exact List.Nodup.of_map _ h

/-- The state in which `initMapCountries` enters the country loop of `sortProvinces` on a
freshly loaded asset, and what the run does from there. -/
theorem initMapCountries_stages {doc : List DomNode} {opts : Options}
    {data : Obj (Obj String)} {fns : List String} {s : MapState}
    (h : initMapCountries (loadState doc opts data fns) = .ok s) :
    ∃ s5 s6, forEach sortCountry (s5.countries.map Prod.snd) s5 = .ok s6 ∧
      s = finishInit (initMapControls s6) ∧
      s5.doc = doc ∧ s5.opts = opts ∧ s5.countryData = data ∧ s5.countryGroups = [] ∧
      s5.border = (fun _ => none) ∧ s5.province = (fun _ => none) ∧
      (∀ m, tagOf doc m ≠ some "text" → s5.fill m = fillOf doc m) ∧
      Wired s5 ∧ (∀ e ∈ s5.countries, parentOf doc e.2 = none ∧ idOf doc e.2 = some e.1) ∧
      (s5.countries.map Prod.snd).Nodup ∧ (objKeys s5.countries).Nodup := by
  obtain ⟨s0, hs0⟩ : ∃ s0, s0 = loadState doc opts data fns := ⟨_, rfl⟩
  have d0 : s0.doc = doc := by rw [hs0]; rfl
  have o0 : s0.opts = opts := by rw [hs0]; rfl
  have c0 : s0.countries = [] := by rw [hs0]; rfl
  have p0 : s0.provinces = fun _ => none := by rw [hs0]; rfl
  have b0 : s0.border = fun _ => none := by rw [hs0]; rfl
  have cd0 : s0.countryData = data := by rw [hs0]; rfl
  have g0 : s0.countryGroups = [] := by rw [hs0]; rfl
  have pr0 : s0.province = fun _ => none := by rw [hs0]; rfl
  have f0 : s0.fill = fillOf doc := by rw [hs0]; rfl
  rw [← hs0] at h
  clear hs0
  unfold initMapCountries at h
  obtain ⟨s2, e2, h⟩ := andThen_eq_ok h
  obtain ⟨s3, e3, h⟩ := andThen_eq_ok h
  obtain ⟨s4, e4, h⟩ := andThen_eq_ok h
  obtain ⟨s5, e5, h⟩ := andThen_eq_ok h
  obtain ⟨s6, e6, h⟩ := andThen_eq_ok h
  simp only [Except.ok.injEq] at h
  obtain ⟨⟨a1, a2, a3, a4, _, a6, a7, _⟩, _, _⟩ := styleBackground_keeps e2
  obtain ⟨x1, x2, x3, _⟩ := styleBackground_extra e2
  simp only [indexMap_doc, indexMap_opts, indexMap_countries, indexMap_provinces,
    indexMap_border, indexMap_countryData, indexMap_fill, indexMap_province,
    indexMap_countryGroups, d0, o0, c0, p0, b0, cd0, g0, pr0, f0] at a1 a2 a3 a4 a6 a7 x1 x2 x3
  obtain ⟨⟨b1, b2, b3, b4, _, b6, b7, _⟩, _, _⟩ := sortLabels_spec e3
  obtain ⟨y1, y2, y3, _⟩ := sortLabels_extra e3
  rw [a1] at b1 y3
  rw [a2] at b2
  rw [a3] at b3
  rw [a4] at b4
  rw [a6] at b6
  rw [a7] at b7
  rw [x2] at y1
  rw [x3] at y2
  obtain ⟨g1, g2, _, g4, g5, g6, _⟩ := antarcticaStep_spec e4
  obtain ⟨z1, z2, z3, _, z5⟩ := antarcticaStep_extra e4
  rw [b1] at g1
  rw [b2] at g2
  rw [b6] at g4
  rw [b7] at g5
  rw [b2, b4] at g6
  rw [y1] at z2
  rw [y2] at z3
  rw [b3] at z5
  obtain ⟨⟨k1, k2, k3, k4, _, k6, k7, _⟩, _⟩ := labelsStep_spec e5
  obtain ⟨w1, w2, w3, _⟩ := labelsStep_extra e5
  rw [g1] at k1
  rw [g2] at k2
  rw [z5] at k3
  rw [g6] at k4
  rw [g4] at k6
  rw [g5] at k7
  rw [z2] at w2
  rw [z3] at w3
  have hfill : ∀ m, tagOf doc m ≠ some "text" → s5.fill m = fillOf doc m := by
    intro m hm
    rw [w1, z1, y3 m hm, x1]
  have hmem : ∀ e ∈ (dropCountry s5 "labels").countries,
      e ∈ indexCountries doc (baseChildNodes doc) [] := by
    intro e he
    simp only [dropCountry_countries] at he
    have he1 := (mem_objDelete he).1
    rw [k4] at he1
    by_cases ha : opts.showAntarctica = false
    · rw [if_pos ha] at he1
      exact (mem_objDelete he1).1
    · rw [if_neg ha] at he1
      exact he1
  have hent : ∀ e ∈ (dropCountry s5 "labels").countries,
      parentOf doc e.2 = none ∧ idOf doc e.2 = some e.1 := by
    intro e he
    rcases mem_indexCountries (hmem e he) with h1 | ⟨h1, h2, _⟩
    · exact absurd h1 (List.not_mem_nil e)
    · exact ⟨parentOf_of_mem_baseChildNodes h1, h2⟩
  have hkeys : (objKeys (dropCountry s5 "labels").countries).Nodup := by
    simp only [dropCountry_countries]
    rw [k4]
    apply nodup_objKeys_objDelete
    by_cases ha : opts.showAntarctica = false
    · rw [if_pos ha]
      exact nodup_objKeys_objDelete _ (nodup_objKeys_indexCountries doc _ [] List.nodup_nil)
    · rw [if_neg ha]
      exact nodup_objKeys_indexCountries doc _ [] List.nodup_nil
  have hw5 : Wired (dropCountry s5 "labels") :=
    wired_of_empty (fun n => by simp [k6]) (fun k => by simp [k7])
  unfold sortProvinces at e6
  obtain ⟨s7, e7, e8⟩ := andThen_eq_ok e6
  simp only [Except.ok.injEq] at e8
  refine ⟨dropCountry s5 "labels", s7, e7, by rw [← h, ← e8], by simpa using k1,
    by simpa using k2, by simpa using k3, by simpa using w3, by simpa using k7,
    by simpa using w2, by simpa using hfill, hw5, hent,
    nodup_values_of_keys hkeys (fun e he => (hent e he).2), hkeys⟩
/-! ## The hierarchy that `initMapCountries` builds -/

theorem sortedCountry_fill_congr {f0 f1 : Nat → Option String} {b0 : Option Nat}
    {s : MapState} {c : Nat} (hf : ∀ m, tagOf s.doc m = some "path" → f1 m = f0 m)
    (h : SortedCountry f0 b0 s c) : SortedCountry f1 b0 s c := by
  obtain ⟨h1, h2, h3⟩ := h
  refine ⟨h1, h2, ?_⟩
  intro g hg hp htag
  obtain ⟨a1, a2⟩ := h3 g hg hp htag
  refine ⟨?_, a2⟩
  rw [a1]
  congr 1
  apply List.filter_congr
  intro y _
  unfold isSubprovince
  by_cases hy : tagOf s.doc y = some "path"
  · rw [hf y hy]
  · have e : (tagOf s.doc y == some "path") = false := by simpa using hy
    rw [e]
    rfl

theorem finishInit_province (s : MapState) : (finishInit s).province = s.province := by
  unfold finishInit
  by_cases hg : s.opts.groupCountries = true
  · rw [if_pos hg]
    rfl
  · rw [if_neg hg]
    rfl

/-- After `initMapCountries` on a freshly loaded asset every index entry is a top-level
node filed under its id, and the hierarchy below it is the one the child loops of
`sortProvinces` build from the document, the detached nodes left out, and the `fill`
attributes of the asset. -/
theorem initMapCountries_sorted {doc : List DomNode} {opts : Options}
    {data : Obj (Obj String)} {fns : List String} {s : MapState}
    (h : initMapCountries (loadState doc opts data fns) = .ok s) :
    s.doc = doc ∧
    ∀ e ∈ s.countries, SortedCountry (fillOf doc) none s e.2 ∧
      parentOf doc e.2 = none ∧ idOf doc e.2 = some e.1 := by
  obtain ⟨s5, s6, e6, hs, d5, _, _, _, b5, _, f5, w5, hent, hnd, _⟩ :=
    initMapCountries_stages h
  obtain ⟨a0, a1, a2, _, _, _, _⟩ := forEach_sortCountry_exact _ s5 s6 hnd
    (fun c hc => by
      obtain ⟨e, he, hec⟩ := List.mem_map.mp hc
      rw [← hec, d5]
      exact (hent e he).1) w5 e6
  obtain ⟨_, c6, _⟩ := forEach_sortCountry_spec _ s5 s6
    (fun c hc => by
      obtain ⟨e, he, hec⟩ := List.mem_map.mp hc
      rw [← hec, d5]
      exact (hent e he).1) w5 e6
  obtain ⟨n1, n2, _, n4, n5, n6, n7⟩ := finishInit_frame (initMapControls s6)
  rw [← hs] at n1 n2 n4 n5 n6 n7
  simp only [initMapControls_doc, initMapControls_countries, initMapControls_country,
    initMapControls_provinces, initMapControls_border, initMapControls_removed]
    at n1 n2 n4 n5 n6 n7
  have hdoc : s.doc = doc := n1.trans (a1.trans d5)
  refine ⟨hdoc, ?_⟩
  intro e he
  rw [n2, c6] at he
  have he5 := mem_sortObject he
  refine ⟨?_, hent e he5⟩
  have hsc := a0 e.2 (List.mem_map.mpr ⟨e, he5, rfl⟩)
  rw [b5] at hsc
  have hpr : s.province = s6.province := by
    rw [hs, finishInit_province]
    simp
  have hsc2 : SortedCountry s5.fill none s e.2 :=
    sortedCountry_transport (s := s6) n1 n7 (by rw [n5]) (by rw [n6])
      (fun g _ => by rw [n5]) (fun g _ y _ => ⟨by rw [hpr], by rw [n4], rfl⟩) hsc
  refine sortedCountry_fill_congr ?_ hsc2
  intro m hm
  rw [hdoc] at hm
  exact (f5 m (by rw [hm]; decide)).symm

/-! ## Provinces, borders and subprovinces after `initMapCountries` -/

/-- Claim C24.  After `initMapCountries` on a loaded asset, the `provinces` list of every
country `c` of the index (key `id`) is, in document order, the list of the child nodes of
`c` in the live tree that are a path or a group and whose id differs from the id of `c`
in lowercase (`lowerIdOf`, the value of `c.id.toLowerCase()`).  The border of `c` is the
child whose id is the id of `c` in lowercase (the last one, should the asset have
several), and neither the border nor a child of the border is on the `provinces` list. -/
theorem initMapCountries_provinces_exact (doc : List DomNode) (opts : Options)
    (data : Obj (Obj String)) (fns : List String) (s : MapState)
    (h : initMapCountries (loadState doc opts data fns) = .ok s)
    (id : String) (c : Nat) (hc : objGet s.countries id = some c) :
    s.provinces c = some ((liveChildNodes s c).filter (fun x =>
      !(idOf doc x == some (lowerIdOf doc c)) &&
        (tagOf doc x == some "path" || tagOf doc x == some "g"))) ∧
    s.border c =
      ((liveChildNodes s c).filter (fun x => idOf doc x == some (lowerIdOf doc c))).getLast? ∧
    ∀ b, s.border c = some b →
      idOf doc b = some (lowerIdOf doc c) ∧ parentOf doc b = some c ∧
      b ∉ (s.provinces c).getD [] ∧
      ∀ x, parentOf doc x = some b → x ∉ (s.provinces c).getD [] := by
  obtain ⟨hdoc, hall⟩ := initMapCountries_sorted h
  obtain ⟨⟨h1, h2, _⟩, htop, hid⟩ := hall (id, c) (objGet_mem hc)
  simp only at h1 h2 htop hid
  have hbid : borderId doc c = lowerIdOf doc c := rfl
  have hB : isBorderChild s.doc c = fun x => idOf doc x == some (lowerIdOf doc c) := by
    funext x
    simp only [isBorderChild, hdoc, hbid]
  have hP : isProvinceChild s.doc c = fun x =>
      !(idOf doc x == some (lowerIdOf doc c)) &&
        (tagOf doc x == some "path" || tagOf doc x == some "g") := by
    funext x
    simp only [isProvinceChild, isBorderChild, hdoc, hbid]
  rw [hP] at h1
  rw [hB, Option.or_none] at h2
  refine ⟨h1, h2, ?_⟩
  intro b hb
  rw [h2] at hb
  have hmem := List.mem_of_mem_getLast? hb
  obtain ⟨hb1, hb2⟩ := List.mem_filter.mp hmem
  have hbid2 : idOf doc b = some (lowerIdOf doc c) := by simpa using hb2
  have hpar : parentOf doc b = some c := by
    have := parentOf_of_mem_liveChildNodes hb1
    rw [hdoc] at this
    exact this
  refine ⟨hbid2, hpar, ?_, ?_⟩
  · rw [h1]
    intro hin
    have := (List.mem_filter.mp hin).2
    simp [hbid2] at this
  · intro x hx
    rw [h1]
    intro hin
    have hxc := parentOf_of_mem_liveChildNodes (List.mem_filter.mp hin).1
    rw [hdoc, hx] at hxc
    rw [Option.some.inj hxc, htop] at hpar
    exact Option.noConfusion hpar

theorem initMapCountries_provinces_exact_witness :
    ((after (initMapCountries (loadState demoDoc {} demoData ["mapClick"]))).provinces 4 =
      some [6, 7] ∧
    (after (initMapCountries (loadState demoDoc {} demoData ["mapClick"]))).border 4 =
      some 5) ∧
    ((after (initMapCountries (loadState alandDoc {} demoData ["mapClick"]))).provinces 2 =
      some [5] ∧
    (after (initMapCountries (loadState alandDoc {} demoData ["mapClick"]))).border 2 = some 3) :=
  ⟨⟨((initMapCountries_provinces_exact demoDoc {} demoData ["mapClick"] _
      (ok_of_faulted_false (by decide)) "DE" 4 (by decide)).1).trans (by decide),
   ((initMapCountries_provinces_exact demoDoc {} demoData ["mapClick"] _
      (ok_of_faulted_false (by decide)) "DE" 4 (by decide)).2.1).trans (by decide)⟩,
   ⟨((initMapCountries_provinces_exact alandDoc {} demoData ["mapClick"] _
      (ok_of_faulted_false (by decide)) "ÅL" 2 (by decide)).1).trans (by decide),
   ((initMapCountries_provinces_exact alandDoc {} demoData ["mapClick"] _
      (ok_of_faulted_false (by decide)) "ÅL" 2 (by decide)).2.1).trans (by decide)⟩⟩

/-- Claim C25.  After `initMapCountries` on a loaded asset, for every province `p` of an
indexed country that is a group, `p.provinces` is, in document order, the list of the
child nodes of `p` in the live tree that are paths whose `fill` attribute in the asset is
not `none`, and every subprovince on it has `province` equal to `p` and `country` equal
to the country of `p`. -/
theorem initMapCountries_subprovinces_exact (doc : List DomNode) (opts : Options)
    (data : Obj (Obj String)) (fns : List String) (s : MapState)
    (h : initMapCountries (loadState doc opts data fns) = .ok s)
    (id : String) (c : Nat) (hc : objGet s.countries id = some c)
    (p : Nat) (hp : p ∈ (s.provinces c).getD []) (hg : tagOf doc p = some "g") :
    s.provinces p = some ((liveChildNodes s p).filter (fun x =>
      tagOf doc x == some "path" && !(fillOf doc x == some "none"))) ∧
    ∀ sub ∈ (s.provinces p).getD [],
      s.province sub = some p ∧ s.country sub = s.country p := by
  obtain ⟨hdoc, hall⟩ := initMapCountries_sorted h
  obtain ⟨⟨h1, _, h3⟩, _, _⟩ := hall (id, c) (objGet_mem hc)
  simp only at h1 h3
  obtain ⟨_, hw, hok, _⟩ := initMapCountries_summary h
  rw [h1] at hp
  simp only [Option.getD_some] at hp
  obtain ⟨hp1, hp2⟩ := List.mem_filter.mp hp
  obtain ⟨a1, a2⟩ := h3 p hp1 hp2 (by rw [hdoc]; exact hg)
  have hS : isSubprovince s.doc (fillOf doc) = fun x =>
      tagOf doc x == some "path" && !(fillOf doc x == some "none") := by
    funext x
    simp only [isSubprovince, hdoc]
  rw [hS] at a1
  have hcp : s.country p = some c := by
    obtain ⟨_, _, _, k, _, hpk, hck, _⟩ := hw.1 c p (by rw [h1]; exact hp)
    have hcc := (hok (id, c) (objGet_mem hc)).1
    simp only at hcc
    rw [hcc] at hck
    rw [hpk, ← Option.some.inj hck]
  refine ⟨a1, ?_⟩
  intro sub hsub
  rw [a1] at hsub
  simp only [Option.getD_some] at hsub
  obtain ⟨b1, b2⟩ := a2 sub (List.mem_filter.mp hsub).1
  exact ⟨b1, by rw [b2, hcp]⟩

theorem initMapCountries_subprovinces_exact_witness :
    ((after (initMapCountries (loadState demoDoc {} demoData ["mapClick"]))).provinces 7 =
      some [8] ∧
    (after (initMapCountries (loadState demoDoc {} demoData ["mapClick"]))).province 8 =
      some 7) ∧
    ((after (initMapCountries (loadState alandDoc {} demoData ["mapClick"]))).provinces 5 =
      some [6] ∧
    (after (initMapCountries (loadState alandDoc {} demoData ["mapClick"]))).province 6 = some 5) :=
  ⟨⟨((initMapCountries_subprovinces_exact demoDoc {} demoData ["mapClick"] _
      (ok_of_faulted_false (by decide)) "DE" 4 (by decide) 7 (by decide) (by decide)).1).trans
      (by decide),
   ((initMapCountries_subprovinces_exact demoDoc {} demoData ["mapClick"] _
      (ok_of_faulted_false (by decide)) "DE" 4 (by decide) 7 (by decide) (by decide)).2 8
      (by decide)).1⟩,
   ⟨((initMapCountries_subprovinces_exact alandDoc {} demoData ["mapClick"] _
      (ok_of_faulted_false (by decide)) "ÅL" 2 (by decide) 5 (by decide) (by decide)).1).trans
      (by decide),
   ((initMapCountries_subprovinces_exact alandDoc {} demoData ["mapClick"] _
      (ok_of_faulted_false (by decide)) "ÅL" 2 (by decide) 5 (by decide) (by decide)).2 6
      (by decide)).1⟩⟩
/-! ## Country groups: membership -/

theorem objGet_map_snd {α β : Type} (f : α → β) (o : Obj α) (k : String) :
    objGet (o.map (fun e => (e.1, f e.2))) k = (objGet o k).map f := by
  induction o with
  | nil => rfl
  | cons x rest ih =>
    obtain ⟨k0, v0⟩ := x
    simp only [List.map_cons, objGet]
    by_cases h : k0 = k
    · simp [h]
    · simp [h, ih]

theorem groupMember_sorted (groups : Obj (Obj (Obj Nat))) (g v id : String) :
    groupMember (groups.map (fun e => (e.1, sortObject e.2))) g v id =
      groupMember groups g v id := by
  unfold groupMember
  rw [objGet_map_snd]
  cases objGet groups g with
  | none => rfl
  | some main => simp [objGet_sortObject]

theorem groupMember_addToGroup (record : Obj String) (id : String) (c : Nat)
    (groups : Obj (Obj (Obj Nat))) (g g' v' id' : String) :
    groupMember (addToGroup record id c groups g) g' v' id' =
      if g' = g ∧ objGet record g ≠ some "" ∧ v' = idKey (objGet record g) ∧ id' = id
      then some c else groupMember groups g' v' id' := by
  simp only [addToGroup, groupMember]
  by_cases hv : objGet record g = some ""
  · simp only [hv, ne_eq, not_true_eq_false, if_true, false_and, and_false, if_false,
      objGet_objSet]
    by_cases hg : g = g'
    · subst hg
      simp only [if_true]
      cases objGet groups g with
      | none => simp [objGet]
      | some main => rfl
    · simp only [hg, if_false]
  · simp only [hv, ne_eq, not_false_eq_true, if_false, if_true, true_and, objGet_objSet]
    by_cases hg : g = g'
    · subst hg
      simp only [if_true, true_and, objGet_objSet]
      by_cases hvv : idKey (objGet record g) = v'
      · subst hvv
        simp only [if_true, true_and, objGet_objSet]
        by_cases hid : id = id'
        · subst hid
          simp
        · have hid2 : ¬ id' = id := fun e => hid e.symm
          simp only [hid, hid2, if_false]
          cases objGet groups g with
          | none => simp [objGet]
          | some main =>
            simp only []
            cases objGet main (idKey (objGet record g)) with
            | none => simp [objGet]
            | some b => rfl
      · have hvv2 : ¬ v' = idKey (objGet record g) := fun e => hvv e.symm
        simp only [hvv, hvv2, if_false, false_and]
        cases objGet groups g with
        | none => simp [objGet]
        | some main => rfl
    · have hg2 : ¬ g' = g := fun e => hg e.symm
      simp only [hg, hg2, if_false, false_and]

theorem groupMember_foldl_addToGroup (record : Obj String) (id : String) (c : Nat)
    (l : List String) (groups : Obj (Obj (Obj Nat))) (g' v' id' : String) :
    groupMember (l.foldl (addToGroup record id c) groups) g' v' id' =
      if g' ∈ l ∧ objGet record g' ≠ some "" ∧ v' = idKey (objGet record g') ∧ id' = id
      then some c else groupMember groups g' v' id' := by
  induction l generalizing groups with
  | nil => simp
  | cons x xs ih =>
    simp only [List.foldl_cons]
    rw [ih, groupMember_addToGroup]
    by_cases h1 : g' ∈ xs ∧ objGet record g' ≠ some "" ∧ v' = idKey (objGet record g') ∧
        id' = id
    · rw [if_pos h1, if_pos ⟨List.mem_cons_of_mem _ h1.1, h1.2⟩]
    · rw [if_neg h1]
      by_cases h2 : g' = x ∧ objGet record x ≠ some "" ∧ v' = idKey (objGet record x) ∧
          id' = id
      · rw [if_pos h2]
        obtain ⟨e1, e2, e3, e4⟩ := h2
        subst e1
        rw [if_pos ⟨List.mem_cons_self _ _, e2, e3, e4⟩]
      · rw [if_neg h2]
        have h3 : ¬ (g' ∈ x :: xs ∧ objGet record g' ≠ some "" ∧
            v' = idKey (objGet record g') ∧ id' = id) := by
          rintro ⟨m, a, b, d⟩
          rcases List.mem_cons.mp m with e | e
          · subst e
            exact h2 ⟨rfl, a, b, d⟩
          · exact h1 ⟨e, a, b, d⟩
        rw [if_neg h3]

/-- Whether the country loop of `buildCountryGroups` files a country with the record
`record` under `countryGroups[g][v]`. -/
theorem groupMember_groupCountry (s : MapState) (groups : Obj (Obj (Obj Nat)))
    (e : String × Nat) (he : idOf s.doc e.2 = some e.1) (g v id : String) :
    groupMember (groupCountry s groups e) g v id =
      match objGet s.countryData e.1 with
      | some record =>
        if g ∈ s.opts.groupBy ∧ objGet record g ≠ some "" ∧ v = idKey (objGet record g) ∧
            id = e.1
        then some e.2 else groupMember groups g v id
      | none => groupMember groups g v id := by
  unfold groupCountry
  rw [he]
  have hk : idKey (some e.1) = e.1 := rfl
  rw [hk]
  cases objGet s.countryData e.1 with
  | none => rfl
  | some record =>
    simp only []
    rw [groupMember_foldl_addToGroup]

theorem objGet_none_of_not_mem_keys {α : Type} {o : Obj α} {k : String}
    (h : k ∉ objKeys o) : objGet o k = none := by
  induction o with
  | nil => rfl
  | cons x rest ih =>
    obtain ⟨k0, v0⟩ := x
    simp only [objKeys, List.map_cons, List.mem_cons, not_or] at h
    simp only [objGet]
    rw [if_neg (fun e => h.1 e.symm)]
    exact ih h.2

theorem groupMember_foldl_groupCountry (s : MapState) (l : Obj Nat)
    (groups : Obj (Obj (Obj Nat))) (hl : ∀ e ∈ l, idOf s.doc e.2 = some e.1)
    (hnd : (objKeys l).Nodup) (g v id : String) :
    groupMember (l.foldl (groupCountry s) groups) g v id =
      match objGet l id, objGet s.countryData id with
      | some c, some record =>
        if g ∈ s.opts.groupBy ∧ objGet record g ≠ some "" ∧ v = idKey (objGet record g)
        then some c else groupMember groups g v id
      | _, _ => groupMember groups g v id := by
  induction l generalizing groups with
  | nil => rfl
  | cons x rest ih =>
    obtain ⟨k, c0⟩ := x
    simp only [objKeys, List.map_cons, List.nodup_cons] at hnd
    obtain ⟨hk, hnd2⟩ := hnd
    simp only [List.foldl_cons]
    rw [ih _ (fun e he => hl e (List.mem_cons_of_mem _ he)) hnd2,
      groupMember_groupCountry s groups (k, c0) (hl (k, c0) (List.mem_cons_self _ _))]
    simp only [objGet]
    by_cases hkid : k = id
    · subst hkid
      rw [objGet_none_of_not_mem_keys hk]
      simp only [if_true]
      cases objGet s.countryData k with
      | none => rfl
      | some record => simp
    · rw [if_neg hkid]
      have hkid2 : ¬ id = k := fun e => hkid e.symm
      cases h1 : objGet rest id with
      | none =>
        simp only []
        cases objGet s.countryData k with
        | none => rfl
        | some record => simp [hkid2]
      | some c =>
        cases h2 : objGet s.countryData id with
        | none =>
          simp only []
          cases objGet s.countryData k with
          | none => rfl
          | some record => simp [hkid2]
        | some record2 =>
          simp only []
          cases objGet s.countryData k with
          | none => rfl
          | some record => simp [hkid2]
/-! ## Country groups: enumeration order -/

theorem unitsLt_asymm (a b : List Nat) (h : unitsLt a b = true) : unitsLt b a = false := by
  induction a generalizing b with
  | nil =>
    cases b with
    | nil => rfl
    | cons y ys => rfl
  | cons x xs ih =>
    cases b with
    | nil => simp [unitsLt] at h
    | cons y ys =>
      simp only [unitsLt] at h ⊢
      by_cases h1 : x < y
      · have h2 : ¬ y < x := by omega
        simp [h1, h2]
      · by_cases h2 : y < x
        · simp [h1, h2] at h
        · simp only [h1, h2, if_false] at h ⊢
          exact ih ys h

theorem unitsLe_trans (a b c : List Nat) (h1 : unitsLt b a = false)
    (h2 : unitsLt c b = false) : unitsLt c a = false := by
  induction a generalizing b c with
  | nil =>
    cases c with
    | nil => rfl
    | cons z zs => rfl
  | cons x xs ih =>
    cases c with
    | nil =>
      cases b with
      | nil => simp [unitsLt] at h1
      | cons y ys => simp [unitsLt] at h2
    | cons z zs =>
      cases b with
      | nil => simp [unitsLt] at h1
      | cons y ys =>
        simp only [unitsLt] at h1 h2 ⊢
        by_cases a1 : y < x
        · simp [a1] at h1
        · by_cases a2 : x < y
          · by_cases a3 : z < y
            · simp [a3] at h2
            · have a4 : ¬ z < x := by omega
              have a5 : x < z := by omega
              simp [a4, a5]
          · have exy : x = y := by omega
            subst exy
            simp only [a1, if_false] at h1
            by_cases a3 : z < x
            · simp [a3] at h2
            · by_cases a4 : x < z
              · simp [a3, a4]
              · simp only [a3, a4, if_false] at h2 ⊢
                exact ih ys zs h1 h2

theorem pairwise_insertKey (k : String) (l : List String)
    (h : l.Pairwise (fun a b => jsLt b a = false)) :
    (insertKey k l).Pairwise (fun a b => jsLt b a = false) := by
  induction l with
  | nil => simp [insertKey]
  | cons x xs ih =>
    obtain ⟨hx, hxs⟩ := List.pairwise_cons.mp h
    simp only [insertKey]
    by_cases hk : jsLt k x = true
    · rw [if_pos hk]
      have hxk : jsLt x k = false := unitsLt_asymm _ _ hk
      refine List.pairwise_cons.mpr ⟨?_, h⟩
      intro y hy
      rcases List.mem_cons.mp hy with e | e
      · rw [e]
        exact hxk
      · exact unitsLe_trans _ _ _ hxk (hx y e)
    · rw [if_neg hk]
      refine List.pairwise_cons.mpr ⟨?_, ih hxs⟩
      intro y hy
      rcases (mem_insertKey k y xs).mp hy with e | e
      · rw [e]
        simpa using hk
      · exact hx y e

theorem pairwise_sortKeys (l : List String) :
    (sortKeys l).Pairwise (fun a b => jsLt b a = false) := by
  induction l with
  | nil => simp [sortKeys]
  | cons x xs ih =>
    simp only [sortKeys, List.foldr_cons] at ih ⊢
    exact pairwise_insertKey x _ ih

theorem objKeys_copyKey_sublist {α : Type} (input : Obj α) (acc : Obj α) (k : String) :
    (objKeys (copyKey input acc k)).Sublist (objKeys acc ++ [k]) := by
  unfold copyKey
  cases objGet input k with
  | none => exact List.sublist_append_left _ _
  | some v =>
    simp only []
    rw [objKeys_objSet]
    by_cases hm : k ∈ objKeys acc
    · rw [if_pos hm]
      exact List.sublist_append_left _ _
    · rw [if_neg hm]

theorem objKeys_copyKeys_sublist {α : Type} (input : Obj α) (ks : List String)
    (acc : Obj α) :
    (objKeys (ks.foldl (copyKey input) acc)).Sublist (objKeys acc ++ ks) := by
  induction ks generalizing acc with
  | nil => simp
  | cons x xs ih =>
    simp only [List.foldl_cons]
    refine (ih (copyKey input acc x)).trans ?_
    have h := List.Sublist.append (objKeys_copyKey_sublist input acc x) (List.Sublist.refl xs)
    simpa using h

theorem nodup_objKeys_copyKeys {α : Type} (input : Obj α) (ks : List String) (acc : Obj α)
    (h : (objKeys acc).Nodup) : (objKeys (ks.foldl (copyKey input) acc)).Nodup := by
  induction ks generalizing acc with
  | nil => exact h
  | cons x xs ih =>
    simp only [List.foldl_cons]
    apply ih
    unfold copyKey
    cases objGet input x with
    | none => exact h
    | some v => exact nodup_objKeys_objSet _ _ h

/-- The keys of a sorted object enumerate in ascending order, each once. -/
theorem objKeys_sortObject_ascending {α : Type} (o : Obj α) :
    (objKeys (sortObject o)).Pairwise (fun a b => jsLt b a = false) ∧
    (objKeys (sortObject o)).Nodup := by
  constructor
  · have h := objKeys_copyKeys_sublist o (sortKeys (objKeys o)) []
    simp only [objKeys, List.map_nil, List.nil_append] at h
    exact List.Pairwise.sublist h (pairwise_sortKeys _)
  · exact nodup_objKeys_copyKeys o _ [] (by simp [objKeys])

theorem bucketKeys_sorted (groups : Obj (Obj (Obj Nat))) (g v : String) :
    bucketKeys (groups.map (fun e => (e.1, sortObject e.2))) g v = bucketKeys groups g v := by
  unfold bucketKeys
  rw [objGet_map_snd]
  cases objGet groups g with
  | none => rfl
  | some main => simp [objGet_sortObject]

theorem bucketKeys_addToGroup (record : Obj String) (id : String) (c : Nat)
    (groups : Obj (Obj (Obj Nat))) (g g' v' : String) :
    bucketKeys (addToGroup record id c groups g) g' v' = bucketKeys groups g' v' ∨
    (id ∉ bucketKeys groups g' v' ∧
      bucketKeys (addToGroup record id c groups g) g' v' = bucketKeys groups g' v' ++ [id]) := by
  simp only [addToGroup, bucketKeys]
  by_cases hv : objGet record g = some ""
  · left
    simp only [hv, ne_eq, not_true_eq_false, if_false, objGet_objSet]
    by_cases hg : g = g'
    · subst hg
      simp only [if_true]
      cases objGet groups g with
      | none => simp [objGet]
      | some main => rfl
    · simp only [hg, if_false]
  · simp only [hv, ne_eq, not_false_eq_true, if_true, objGet_objSet]
    by_cases hg : g = g'
    · subst hg
      simp only [if_true, objGet_objSet]
      by_cases hvv : idKey (objGet record g) = v'
      · subst hvv
        simp only [if_true, objKeys_objSet]
        cases objGet groups g with
        | none => simp [objGet, objKeys]
        | some main =>
          simp only []
          cases objGet main (idKey (objGet record g)) with
          | none => simp [objKeys]
          | some b =>
            simp only []
            by_cases hm : id ∈ objKeys b
            · simp [hm]
            · simp [hm]
      · left
        simp only [hvv, if_false]
        cases objGet groups g with
        | none => simp [objGet]
        | some main => rfl
    · left
      simp only [hg, if_false]

theorem bucketKeys_foldl_addToGroup (record : Obj String) (id : String) (c : Nat)
    (l : List String) (groups : Obj (Obj (Obj Nat))) (g' v' : String) :
    bucketKeys (l.foldl (addToGroup record id c) groups) g' v' = bucketKeys groups g' v' ∨
    (id ∉ bucketKeys groups g' v' ∧
      bucketKeys (l.foldl (addToGroup record id c) groups) g' v' =
        bucketKeys groups g' v' ++ [id]) := by
  induction l generalizing groups with
  | nil => exact Or.inl rfl
  | cons x xs ih =>
    simp only [List.foldl_cons]
    rcases bucketKeys_addToGroup record id c groups x g' v' with h1 | ⟨h1, h2⟩
    · rcases ih (addToGroup record id c groups x) with h3 | ⟨h3, h4⟩
      · exact Or.inl (h3.trans h1)
      · rw [h1] at h3 h4
        exact Or.inr ⟨h3, h4⟩
    · rcases ih (addToGroup record id c groups x) with h3 | ⟨h3, _⟩
      · exact Or.inr ⟨h1, h3.trans h2⟩
      · rw [h2] at h3
        exact absurd (List.mem_append_right _ (List.mem_singleton_self id)) h3

theorem bucketKeys_groupCountry_sublist (s : MapState) (groups : Obj (Obj (Obj Nat)))
    (e : String × Nat) (he : idOf s.doc e.2 = some e.1) (g v : String) :
    (bucketKeys (groupCountry s groups e) g v).Sublist (bucketKeys groups g v ++ [e.1]) := by
  unfold groupCountry
  rw [he]
  have hk : idKey (some e.1) = e.1 := rfl
  rw [hk]
  cases objGet s.countryData e.1 with
  | none => exact List.sublist_append_left _ _
  | some record =>
    simp only []
    rcases bucketKeys_foldl_addToGroup record e.1 e.2 s.opts.groupBy groups g v with
      h | ⟨_, h⟩
    · rw [h]
      exact List.sublist_append_left _ _
    · rw [h]

theorem bucketKeys_foldl_groupCountry_sublist (s : MapState) (l : Obj Nat)
    (groups : Obj (Obj (Obj Nat))) (hl : ∀ e ∈ l, idOf s.doc e.2 = some e.1) (g v : String) :
    (bucketKeys (l.foldl (groupCountry s) groups) g v).Sublist
      (bucketKeys groups g v ++ objKeys l) := by
  induction l generalizing groups with
  | nil => simp [objKeys]
  | cons x xs ih =>
    simp only [List.foldl_cons]
    refine (ih _ (fun e he => hl e (List.mem_cons_of_mem _ he))).trans ?_
    have h := List.Sublist.append
      (bucketKeys_groupCountry_sublist s groups x (hl x (List.mem_cons_self _ _)) g v)
      (List.Sublist.refl (objKeys xs))
    simpa [objKeys] using h
/-! ## Country groups after `initMapCountries` -/

theorem sortCountry_opts {s t : MapState} {c : Nat} (hc : parentOf s.doc c = none)
    (hw : Wired s) (h : sortCountry s c = .ok t) :
    t.opts = s.opts ∧ t.countryData = s.countryData := by
  obtain ⟨f1, f2, f3, f4, f5, f7, f6⟩ := enterCountry_frame s c
  have fo : (enterCountry s c).opts = s.opts ∧
      (enterCountry s c).countryData = s.countryData := by
    unfold enterCountry
    cases objGet s.countryData (idKey (idOf s.doc c)) with
    | none => simp
    | some record => simp
  unfold sortCountry at h
  cases hsc : sortChildren c (liveChildNodes s c) (enterCountry s c) [] with
  | error e => simp [hsc] at h
  | ok r =>
    obtain ⟨s3, ps⟩ := r
    simp only [hsc, Except.ok.injEq] at h
    have hw1 : Wired (enterCountry s c) :=
      wired_of_country_write f1 f7 f4 f5 f6 hc (Or.inl rfl) hw
    obtain ⟨st, _⟩ := sortChildren_spec (liveChildNodes s c)
      (enterCountry s c) s3 [] ps (by rw [f1]; exact hc)
      (fun x hx => by
        rw [f1, f7]
        exact ⟨parentOf_of_mem_liveChildNodes hx, (mem_liveChildNodes hx).2⟩)
      (by rw [f6, if_pos rfl]) hw1 (fun p hp => absurd hp (List.not_mem_nil p))
      (fun p hp => absurd hp (List.not_mem_nil p)) hsc
    rw [← h]
    exact ⟨by simpa using st.2.2.2.1.trans fo.1, by simpa using st.2.2.2.2.1.trans fo.2⟩

theorem forEach_sortCountry_opts (l : List Nat) (s t : MapState)
    (hl : ∀ c ∈ l, parentOf s.doc c = none) (hw : Wired s)
    (h : forEach sortCountry l s = .ok t) :
    t.opts = s.opts ∧ t.countryData = s.countryData := by
  induction l generalizing s with
  | nil =>
    simp only [forEach, Except.ok.injEq] at h
    rw [← h]
    exact ⟨rfl, rfl⟩
  | cons x xs ih =>
    simp only [forEach] at h
    cases hsx : sortCountry s x with
    | error e => simp [hsx] at h
    | ok s1 =>
      simp only [hsx] at h
      have hxtop : parentOf s.doc x = none := hl x (List.mem_cons_self _ _)
      obtain ⟨a1, a2⟩ := sortCountry_opts hxtop hw hsx
      obtain ⟨d1, _, _, _, w1, _⟩ := sortCountry_spec hxtop hw hsx
      obtain ⟨b1, b2⟩ := ih s1
        (fun c hc => by rw [d1]; exact hl c (List.mem_cons_of_mem _ hc)) w1 h
      exact ⟨b1.trans a1, b2.trans a2⟩

theorem groupCountry_congr {s t : MapState} (h1 : t.doc = s.doc) (h2 : t.opts = s.opts)
    (h3 : t.countryData = s.countryData) : groupCountry t = groupCountry s := by
  funext groups e
  unfold groupCountry
  rw [h1, h2, h3]

/-- The country index and the groups that `initMapCountries` leaves on a freshly loaded
asset: the index is keyed by node id and enumerates in ascending order, and the groups
are built from it, starting with no group. -/
theorem initMapCountries_groups {doc : List DomNode} {opts : Options}
    {data : Obj (Obj String)} {fns : List String} {s : MapState}
    (h : initMapCountries (loadState doc opts data fns) = .ok s) :
    s.doc = doc ∧ s.opts = opts ∧ s.countryData = data ∧
    (objKeys s.countries).Pairwise (fun a b => jsLt b a = false) ∧
    (objKeys s.countries).Nodup ∧
    (∀ e ∈ s.countries, idOf doc e.2 = some e.1) ∧
    (∀ e ∈ s.countries, parentOf doc e.2 = none) ∧
    s.countryGroups =
      if opts.groupCountries = true then
        (s.countries.foldl (groupCountry s) []).map (fun g => (g.1, sortObject g.2))
      else [] := by
  obtain ⟨s5, s6, e6, hs, d5, o5, cd5, g5, _, _, _, w5, hent, hnd, _⟩ :=
    initMapCountries_stages h
  have htop : ∀ c ∈ s5.countries.map Prod.snd, parentOf s5.doc c = none := by
    intro c hc
    obtain ⟨e, he, hec⟩ := List.mem_map.mp hc
    rw [← hec, d5]
    exact (hent e he).1
  obtain ⟨_, a1, _, a3, _⟩ := forEach_sortCountry_exact _ s5 s6 hnd htop w5 e6
  obtain ⟨_, c6, _⟩ := forEach_sortCountry_spec _ s5 s6 htop w5 e6
  obtain ⟨o6, cd6⟩ := forEach_sortCountry_opts _ s5 s6 htop w5 e6
  obtain ⟨u, hu⟩ : ∃ u, u = initMapControls s6 := ⟨_, rfl⟩
  have ud : u.doc = doc := by rw [hu]; simpa using a1.trans d5
  have uo : u.opts = opts := by rw [hu]; simpa using o6.trans o5
  have ucd : u.countryData = data := by rw [hu]; simpa using cd6.trans cd5
  have uc : u.countries = s5.countries := by rw [hu]; simpa using c6
  have ug : u.countryGroups = [] := by rw [hu]; simpa using a3.trans g5
  rw [← hu] at hs
  have hcs : s.countries = sortObject s5.countries := by
    rw [hs, (finishInit_frame u).2.1, uc]
  have hdoc : s.doc = doc := by rw [hs, (finishInit_frame u).1, ud]
  have hopts : s.opts = opts ∧ s.countryData = data := by
    rw [hs]
    unfold finishInit
    by_cases hg : u.opts.groupCountries = true
    · rw [if_pos hg]
      simp [uo, ucd]
    · rw [if_neg hg]
      simp [uo, ucd]
  refine ⟨hdoc, hopts.1, hopts.2, ?_, ?_, ?_, ?_, ?_⟩
  · rw [hcs]
    exact (objKeys_sortObject_ascending _).1
  · rw [hcs]
    exact (objKeys_sortObject_ascending _).2
  · intro e he
    rw [hcs] at he
    exact (hent e (mem_sortObject he)).2
  · intro e he
    rw [hcs] at he
    exact (hent e (mem_sortObject he)).1
  · have hgc : groupCountry (sortCountries u) = groupCountry s :=
      (groupCountry_congr (s := sortCountries u) (t := s)
        (by rw [hdoc]; simp [ud]) (by rw [hopts.1]; simp [uo])
        (by rw [hopts.2]; simp [ucd])).symm
    rw [← hgc, hcs, ← uc]
    rw [hs]
    unfold finishInit
    rw [uo]
    by_cases hg : opts.groupCountries = true
    · rw [if_pos hg, if_pos hg]
      simp [buildCountryGroups, ug]
    · rw [if_neg hg, if_neg hg]
      simp [ug]

/-- Claim C11.  After `initMapCountries` with grouping enabled, for every grouping key `g`
of `groupBy` and every country `c` of the index (key `id`, which is the id of `c`) whose
country-data record has a non-empty value `v` for `g`, `countryGroups[g][v][id]` is `c`
and `id` is in no other subgroup of `g`; an id without country-data record is in no
subgroup of any group.  Top-level ids, grouping keys and the subgroups named by the
country data are not names inherited from `Object.prototype` (`PlainKeys`). -/
theorem initMapCountries_groups_exact (doc : List DomNode) (opts : Options)
    (data : Obj (Obj String)) (fns : List String) (s : MapState)
    (h : initMapCountries (loadState doc opts data fns) = .ok s)
    (hgrp : opts.groupCountries = true) (_hplain : PlainKeys doc opts data) :
    (∀ g ∈ opts.groupBy, ∀ (id : String) (c : Nat) (record : Obj String) (v : String),
      objGet s.countries id = some c → objGet data id = some record →
      objGet record g = some v → v ≠ "" →
      idOf doc c = some id ∧ groupMember s.countryGroups g v id = some c ∧
      ∀ w, w ≠ v → groupMember s.countryGroups g w id = none) ∧
    (∀ id, objGet data id = none → ∀ g v, groupMember s.countryGroups g v id = none) := by
  obtain ⟨hdoc, hopts, hdata, _, hnd, hid, _, hgroups⟩ := initMapCountries_groups h
  rw [if_pos hgrp] at hgroups
  have hmem : ∀ g v id, groupMember s.countryGroups g v id =
      match objGet s.countries id, objGet data id with
      | some c, some record =>
        if g ∈ opts.groupBy ∧ objGet record g ≠ some "" ∧ v = idKey (objGet record g)
        then some c else none
      | _, _ => none := by
    intro g v id
    rw [hgroups, groupMember_sorted,
      groupMember_foldl_groupCountry s s.countries [] (by rw [hdoc]; exact hid) hnd,
      hdata, hopts]
    rfl
  constructor
  · intro g hg id c record v hc hr hv hne
    refine ⟨hid (id, c) (objGet_mem hc), ?_, ?_⟩
    · rw [hmem, hc, hr]
      simp only []
      rw [if_pos]
      refine ⟨hg, ?_, ?_⟩
      · rw [hv]
        intro e
        exact hne (Option.some.inj e)
      · rw [hv]
        rfl
    · intro w hw
      rw [hmem, hc, hr]
      simp only []
      rw [if_neg]
      rintro ⟨_, _, e⟩
      rw [hv] at e
      exact hw e
  · intro id hnone g v
    rw [hmem, hnone]
    cases objGet s.countries id with
    | none => rfl
    | some c => rfl

theorem initMapCountries_groups_exact_witness :
    groupMember (after (initMapCountries (loadState demoDoc {} demoData []))).countryGroups
      "region" "EU" "DE" = some 4 ∧
    groupMember (after (initMapCountries (loadState demoDoc {} demoData []))).countryGroups
      "region" "EU" "World" = none :=
  ⟨((initMapCountries_groups_exact demoDoc {} demoData [] _
      (ok_of_faulted_false (by decide)) (by decide) (by decide)).1 "region" (by decide)
      "DE" 4 [("name", "Germany"), ("region", "EU")] "EU" (by decide) (by decide)
      (by decide) (by decide)).2.1,
   (initMapCountries_groups_exact demoDoc {} demoData [] _
      (ok_of_faulted_false (by decide)) (by decide) (by decide)).2 "World" (by decide)
      "region" "EU"⟩

/-- Claim C27 fails on the code.  The sample asset and data, the record of FR having a
name and no `region`: `buildCountryGroups` files FR under the subgroup `undefined` of
`countryGroups.region`, a subgroup that exists on behalf of FR alone; with the region of
FR given as the empty string FR is skipped and there is no such subgroup. -/
theorem buildCountryGroups_missing_attribute_grouped :
    groupMember
      (after (initMapCountries (loadState demoDoc {}
        [("AQ", [("name", "Antarctica"), ("region", "AN")]),
         ("DE", [("name", "Germany"), ("region", "EU")]),
         ("FR", [("name", "France")])] []))).countryGroups
      "region" "undefined" "FR" = some 9 ∧
    subgroupKeys
      (after (initMapCountries (loadState demoDoc {}
        [("AQ", [("name", "Antarctica"), ("region", "AN")]),
         ("DE", [("name", "Germany"), ("region", "EU")]),
         ("FR", [("name", "France")])] []))).countryGroups
      "region" = ["AN", "EU", "undefined"] ∧
    subgroupKeys
      (after (initMapCountries (loadState demoDoc {}
        [("AQ", [("name", "Antarctica"), ("region", "AN")]),
         ("DE", [("name", "Germany"), ("region", "EU")]),
         ("FR", [("name", "France"), ("region", "")])] []))).countryGroups
      "region" = ["AN", "EU"] := by
  decide

theorem enumKeys_eq_objKeys {α : Type} (o : Obj α)
    (h : ∀ k ∈ objKeys o, isArrayIndex k = false) : enumKeys o = objKeys o := by
  have h1 : (objKeys o).filter isArrayIndex = [] := by
    rw [List.filter_eq_nil_iff]
    intro k hk
    rw [h k hk]
    exact Bool.false_ne_true
  have h2 : (objKeys o).filter (fun k => !isArrayIndex k) = objKeys o := by
    rw [List.filter_eq_self]
    intro k hk
    rw [h k hk]
    rfl
  unfold enumKeys
  rw [h1, h2]
  rfl

/-- The enumeration order on a sample object: the array indices `9` and `10` come first,
by value, whatever the insertion order; `01` is no array index. -/
theorem enumKeys_sample :
    enumKeys [("b", 0), ("10", 1), ("a", 2), ("9", 3), ("01", 4)] =
      ["9", "10", "b", "a", "01"] := by
  decide

/-- Claim C28.  After `initMapCountries` with grouping enabled on an asset in which no
top-level element id is a canonical array index (a decimal numeral, which JavaScript
enumerates first and by value), the country identifiers of every bucket
`countryGroups[g][v]` enumerate in ascending order of their UTF-16 code units, each once:
no identifier is followed by one that compares lower. -/
theorem initMapCountries_buckets_ascending (doc : List DomNode) (opts : Options)
    (data : Obj (Obj String)) (fns : List String) (s : MapState)
    (h : initMapCountries (loadState doc opts data fns) = .ok s)
    (hgrp : opts.groupCountries = true)
    (hidx : ∀ n, n < doc.length → parentOf doc n = none →
      isArrayIndex (idKey (idOf doc n)) = false)
    (g v : String) :
    (bucketEnum s.countryGroups g v).Pairwise (fun a b => jsLt b a = false) ∧
    (bucketEnum s.countryGroups g v).Nodup := by
  obtain ⟨hdoc, _, _, hasc, hnd, hid, htop, hgroups⟩ := initMapCountries_groups h
  rw [if_pos hgrp] at hgroups
  have hsub : (bucketKeys s.countryGroups g v).Sublist (objKeys s.countries) := by
    rw [hgroups, bucketKeys_sorted]
    have := bucketKeys_foldl_groupCountry_sublist s s.countries []
      (by rw [hdoc]; exact hid) g v
    simpa [bucketKeys, objGet] using this
  have hplain : ∀ k ∈ bucketKeys s.countryGroups g v, isArrayIndex k = false := by
    intro k hk
    obtain ⟨e, he, hek⟩ := List.mem_map.mp (hsub.subset hk)
    have h1 := hid e he
    have h2 := hidx e.2 (idOf_lt h1) (htop e he)
    rw [h1] at h2
    rw [← hek]
    exact h2
  have heq : bucketEnum s.countryGroups g v = bucketKeys s.countryGroups g v := by
    unfold bucketEnum
    unfold bucketKeys at hplain
    unfold bucketKeys
    cases hg : objGet s.countryGroups g with
    | none => rfl
    | some main =>
      simp only [hg] at hplain ⊢
      cases hv : objGet main v with
      | none => rfl
      | some bucket =>
        simp only [hv] at hplain ⊢
        exact enumKeys_eq_objKeys bucket hplain
  rw [heq]
  exact ⟨List.Pairwise.sublist hsub hasc, List.Nodup.sublist hsub hnd⟩

theorem initMapCountries_buckets_ascending_witness :
    bucketEnum (after (initMapCountries (loadState demoDoc {} demoData []))).countryGroups
      "region" "EU" = ["DE", "FR"] ∧
    ["DE", "FR"].Pairwise (fun a b => jsLt b a = false) := by
  have h := initMapCountries_buckets_ascending demoDoc {} demoData [] _
    (ok_of_faulted_false (by decide)) (by decide) (by decide) "region" "EU"
  have e : bucketEnum
      (after (initMapCountries (loadState demoDoc {} demoData []))).countryGroups
      "region" "EU" = ["DE", "FR"] := by decide
  rw [e] at h
  exact ⟨e, h.1⟩
/-! ## The microstate flag of a label -/

/-- Claim C26 fails on the code.  In the sample asset with the label of DE rendered at
font size 1, below the threshold 2, `initMapCountries` completes and the label is not
flagged as a microstate; the label of FR, at font size 2, is. -/
theorem sortLabels_font_size_one_not_microstate :
    faulted (initMapCountries (loadState smallLabelDoc {} demoData [])) = false ∧
    fontSizeOf smallLabelDoc 13 = some "1" ∧
    (after (initMapCountries (loadState smallLabelDoc {} demoData []))).microstate 13 =
      some false ∧
    fontSizeOf smallLabelDoc 14 = some "2" ∧
    (after (initMapCountries (loadState smallLabelDoc {} demoData []))).microstate 14 =
      some true := by
  decide

/-- Claim C26, amended.  When `sortLabels` completes, the microstate flag of every text
label of the label layer is true exactly when its `font-size` attribute compares equal to
the number 2 under `==`, and false otherwise: a label of font size 2 is a microstate, a
label of font size 1 or 3 and a label without the attribute are not; the comparison
converts the attribute text to a number, so `2e0` and `0x2` count as 2. -/
theorem sortLabels_microstate_flag (s t : MapState) (h : sortLabels s = .ok t)
    (layer : Nat) (hl : objGet s.countries "labels" = some layer)
    (x : Nat) (hx : x ∈ liveChildNodes s layer) (htag : tagOf s.doc x = some "text") :
    t.microstate x = some (looseEqualsTwo (fontSizeOf s.doc x)) ∧
    (fontSizeOf s.doc x = some "2" → t.microstate x = some true) ∧
    (fontSizeOf s.doc x = some "1" → t.microstate x = some false) ∧
    (fontSizeOf s.doc x = some "3" → t.microstate x = some false) ∧
    (fontSizeOf s.doc x = none → t.microstate x = some false) ∧
    (fontSizeOf s.doc x = some "2e0" → t.microstate x = some true) ∧
    (fontSizeOf s.doc x = some "0x2" → t.microstate x = some true) := by
  have hm := (sortLabels_extra h).2.2.2 layer hl x hx htag
  refine ⟨hm, ?_, ?_, ?_, ?_, ?_, ?_⟩
  · intro e
    rw [hm, e]
    decide
  · intro e
    rw [hm, e]
    decide
  · intro e
    rw [hm, e]
    decide
  · intro e
    rw [hm, e]
    rfl
  · intro e
    rw [hm, e]
    decide
  · intro e
    rw [hm, e]
    decide

/-- The comparison `attr == 2` on sample attribute values: exponent, hexadecimal and
binary literals, surrounding white space and values that round to the double 2 compare
equal; other numbers, the empty text, a text with a unit and `null` do not. -/
theorem looseEqualsTwo_samples :
    looseEqualsTwo (some "2") = true ∧ looseEqualsTwo (some "2e0") = true ∧
    looseEqualsTwo (some "0x2") = true ∧ looseEqualsTwo (some ".2e1") = true ∧
    looseEqualsTwo (some "1.99999999999999999999") = true ∧
    looseEqualsTwo (some " 2.0 ") = true ∧ looseEqualsTwo (some "+20e-1") = true ∧
    looseEqualsTwo (some "0b10") = true ∧
    looseEqualsTwo (some "1.9999999999999998") = false ∧
    looseEqualsTwo (some "2.0000000000000003") = false ∧
    looseEqualsTwo (some "1") = false ∧ looseEqualsTwo (some "3") = false ∧
    looseEqualsTwo (some "-2") = false ∧ looseEqualsTwo (some "") = false ∧
    looseEqualsTwo (some "2px") = false ∧ looseEqualsTwo none = false := by
  decide

theorem sortLabels_microstate_flag_witness :
    (after (sortLabels (after (styleBackground
      (indexMap (loadState smallLabelDoc {} demoData [])))))).microstate 14 = some true ∧
    (after (sortLabels (after (styleBackground
      (indexMap (loadState smallLabelDoc {} demoData [])))))).microstate 13 = some false :=
  ⟨(sortLabels_microstate_flag _ _ (ok_of_faulted_false (by decide)) 11 (by decide) 14
      (by decide) (by decide)).2.1 (by decide),
   (sortLabels_microstate_flag _ _ (ok_of_faulted_false (by decide)) 11 (by decide) 13
      (by decide) (by decide)).2.2.1 (by decide)⟩
/-! ## Completion of `initMapCountries` -/

theorem isDetached_of_removed_nil {s : MapState} (h : s.removed = []) (fuel n : Nat) :
    isDetached s fuel n = false := by
  induction fuel generalizing n with
  | zero => simp [isDetached, h]
  | succ k ih =>
    simp only [isDetached, h]
    cases parentOf s.doc n with
    | none => simp
    | some p => simp [ih p]

theorem getElementById_isSome {s : MapState} (h : s.removed = []) {n : Nat} {id : String}
    (hid : idOf s.doc n = some id) : (getElementById s id).isSome = true := by
  unfold getElementById
  rw [List.find?_isSome]
  exact ⟨n, List.mem_range.mpr (idOf_lt hid), by simp [hid, isDetached_of_removed_nil h]⟩

theorem addBackground_ok (s : MapState) (w o : Nat) (hr : s.removed = [])
    (hbg : s.opts.backgroundImage ≠ "" →
      ∀ n, idOf s.doc n = some "World" → parentOf s.doc n = none) :
    ∃ t, addBackground s w o = .ok t := by
  unfold addBackground
  by_cases hb : s.opts.backgroundImage ≠ ""
  · rw [if_pos hb]
    cases hg : getElementById s "World" with
    | none => exact ⟨_, rfl⟩
    | some world =>
      have hp : parentNode s world = ParentRef.base := by
        unfold parentNode
        rw [hr, hbg hb world (idOf_of_getElementById hg)]
        simp
      simp only [hp, if_true]
      exact ⟨_, rfl⟩
  · rw [if_neg hb]
    exact ⟨_, rfl⟩

theorem styleBackground_ok (s : MapState)
    (hW : (objGet s.countries "World").isSome = true)
    (hO : (objGet s.countries "Ocean").isSome = true) (hr : s.removed = [])
    (hbg : s.opts.backgroundImage ≠ "" →
      ∀ n, idOf s.doc n = some "World" → parentOf s.doc n = none) :
    ∃ t, styleBackground s = .ok t := by
  unfold styleBackground
  cases hw : objGet s.countries "World" with
  | none => simp [hw] at hW
  | some w =>
    cases ho : objGet s.countries "Ocean" with
    | none => simp [ho] at hO
    | some o =>
      simp only []
      exact addBackground_ok _ w o (by simpa using hr) (by simpa using hbg)

theorem sortLabel_ok {doc : List DomNode} {opts : Options} {data : Obj (Obj String)}
    {idx : Obj Nat} (s : MapState) (x : Nat) (hq : LabelInv doc opts data idx s)
    (hrec : tagOf doc x = some "text" →
      (objGet data (substr0 (idKey (idOf doc x)) 2)).isSome = true) :
    ∃ t, sortLabel s x = .ok t ∧ LabelInv doc opts data idx t := by
  obtain ⟨q1, q2, q3, q4, q5, q6⟩ := hq
  have hok : ∃ t, sortLabel s x = .ok t := by
    unfold sortLabel
    by_cases htag : tagOf s.doc x = some "text"
    · rw [if_pos htag]
      rw [q1] at htag
      have hsome := hrec htag
      rw [q3, q1]
      cases hr : objGet data (substr0 (idKey (idOf doc x)) 2) with
      | none => simp [hr] at hsome
      | some record => exact ⟨_, rfl⟩
    · rw [if_neg htag]
      exact ⟨_, rfl⟩
  obtain ⟨t, ht⟩ := hok
  refine ⟨t, ht, ?_⟩
  obtain ⟨k, r, _⟩ := sortLabel_spec ht
  obtain ⟨_, _, e3, e4, e5⟩ := sortLabel_extra ht
  refine ⟨k.1.trans q1, k.2.1.trans q2, k.2.2.1.trans q3, k.2.2.2.1.trans q4, r.trans q5, ?_⟩
  intro y hy
  by_cases hyx : y = x
  · subst hyx
    by_cases htag : tagOf s.doc y = some "text"
    · rw [e5 htag] at hy
      have hv := Option.some.inj hy
      rw [q1] at htag hv
      exact ⟨htag, hv⟩
    · rw [(e4 htag).2] at hy
      exact q6 y hy
  · rw [(e3 y hyx).2] at hy
    exact q6 y hy

theorem hideMicrostate_ok {doc : List DomNode} {opts : Options} {data : Obj (Obj String)}
    {idx : Obj Nat} (s : MapState) (x : Nat) (hq : LabelInv doc opts data idx s)
    (hms : opts.showMicroStates = false → ∀ y, tagOf doc y = some "text" →
      looseEqualsTwo (fontSizeOf doc y) = true →
      (objGet idx (substr0 (idKey (idOf doc y)) 2)).isSome = true) :
    ∃ t, hideMicrostate s x = .ok t ∧ LabelInv doc opts data idx t := by
  obtain ⟨q1, q2, q3, q4, q5, q6⟩ := hq
  have hok : ∃ t, hideMicrostate s x = .ok t := by
    unfold hideMicrostate
    by_cases hm : s.microstate x = some true
    · rw [if_pos hm]
      by_cases hs : s.opts.showMicroStates = false
      · rw [if_pos hs]
        rw [q2] at hs
        obtain ⟨a1, a2⟩ := q6 x hm
        have hsome := hms hs x a1 a2
        rw [q4, q1]
        cases hr : objGet idx (substr0 (idKey (idOf doc x)) 2) with
        | none => simp [hr] at hsome
        | some c => exact ⟨_, rfl⟩
      · rw [if_neg hs]
        exact ⟨_, rfl⟩
    · rw [if_neg hm]
      exact ⟨_, rfl⟩
  obtain ⟨t, ht⟩ := hok
  refine ⟨t, ht, ?_⟩
  obtain ⟨k, _, r⟩ := hideMicrostate_keeps ht
  obtain ⟨_, _, _, e4⟩ := hideMicrostate_extra ht
  refine ⟨k.1.trans q1, k.2.1.trans q2, k.2.2.1.trans q3, k.2.2.2.1.trans q4, r.trans q5, ?_⟩
  intro y hy
  rw [e4] at hy
  exact q6 y hy

theorem sortLabels_ok {doc : List DomNode} {opts : Options} {data : Obj (Obj String)}
    {idx : Obj Nat} (s : MapState) (hq : LabelInv doc opts data idx s) (layer : Nat)
    (hL : objGet idx "labels" = some layer)
    (hrec : ∀ x, parentOf doc x = some layer → tagOf doc x = some "text" →
      (objGet data (substr0 (idKey (idOf doc x)) 2)).isSome = true)
    (hms : opts.showMicroStates = false → ∀ y, tagOf doc y = some "text" →
      looseEqualsTwo (fontSizeOf doc y) = true →
      (objGet idx (substr0 (idKey (idOf doc y)) 2)).isSome = true) :
    ∃ t, sortLabels s = .ok t ∧ LabelInv doc opts data idx t := by
  have hdoc := hq.1
  have hcs := hq.2.2.2.1
  unfold sortLabels
  rw [hcs, hL]
  simp only []
  obtain ⟨t1, e1, i1, _⟩ := forEach_track (LabelInv doc opts data idx) (fun _ => True)
    (fun _ => False) sortLabel (liveChildNodes s layer)
    (fun u y hy hu => by
      obtain ⟨t, ht, it⟩ := sortLabel_ok u y hu
        (hrec y (by rw [← hdoc]; exact parentOf_of_mem_liveChildNodes hy))
      exact ⟨t, ht, it, fun _ => trivial, fun _ => trivial⟩) s hq
  obtain ⟨t2, e2, i2, _⟩ := forEach_track (LabelInv doc opts data idx) (fun _ => True)
    (fun _ => False) hideMicrostate (t1.countryLabels.map Prod.snd)
    (fun u y _ hu => by
      obtain ⟨t, ht, it⟩ := hideMicrostate_ok u y hu hms
      exact ⟨t, ht, it, fun _ => trivial, fun _ => trivial⟩) t1 i1
  refine ⟨t2, ?_, i2⟩
  rw [e1]
  simpa using e2

theorem toggleAllLabels_ok (s : MapState) (h : (getElementById s "labels").isSome = true) :
    ∃ t, toggleAllLabels s = .ok t := by
  unfold toggleAllLabels
  cases hg : getElementById s "labels" with
  | none => simp [hg] at h
  | some g =>
    simp only []
    by_cases hd : s.display g = none ∨ s.display g = some "block"
    · rw [if_pos hd]
      exact ⟨_, rfl⟩
    · rw [if_neg hd]
      exact ⟨_, rfl⟩

theorem adopt_paint_ok (s : MapState) (x c p : Nat) (hel : isElement s.doc x = true) :
    pathSetAttributes (adopt s x c p) (some x) "out" =
      .ok (restyle (adopt s x c p) x "out") :=
  pathSetAttributes_ok_of_country "out" (by simpa using hel) (by simp [adopt_country])

theorem sortGrandchildren_ok (c child : Nat) (l : List Nat) (s : MapState)
    (acc : List Nat) :
    ∃ t ps, sortGrandchildren c child l s acc = .ok (t, ps) ∧ t.doc = s.doc := by
  induction l generalizing s acc with
  | nil => exact ⟨s, acc, rfl, rfl⟩
  | cons x xs ih =>
    simp only [sortGrandchildren]
    by_cases htag : tagOf s.doc x = some "path"
    · rw [if_pos htag, adopt_paint_ok s x c child (isElement_of_tagOf htag)]
      simp only [andThen_ok]
      obtain ⟨t, ps, e, d⟩ := ih (restyle (adopt s x c child) x "out")
        (if s.fill x ≠ some "none" then acc ++ [x] else acc)
      exact ⟨t, ps, e, by simpa using d⟩
    · rw [if_neg htag]
      obtain ⟨t, ps, e, d⟩ := ih (adopt s x c child) acc
      exact ⟨t, ps, e, by simpa using d⟩

theorem sortBorder_ok (c child : Nat) (s : MapState) (hel : isElement s.doc child = true)
    (hc : (s.country child).isSome = true)
    (hkids : tagOf s.doc child = some "g" → ∀ x, parentOf s.doc x = some child →
      isTextNode s.doc x = true ∨ isElement s.doc x = true) :
    ∃ t, sortBorder c child s = .ok t ∧ t.doc = s.doc := by
  unfold sortBorder
  by_cases htag : tagOf s.doc child ≠ some "g"
  · rw [if_pos htag,
      pathSetAttributes_ok_of_country "out" (by simpa using hel) (by simpa using hc)]
    exact ⟨_, rfl, by simp⟩
  · rw [if_neg htag]
    have htag2 : tagOf s.doc child = some "g" := by
      by_contra hne
      exact htag hne
    obtain ⟨t, e, q, _⟩ := forEach_track (fun u => u.doc = s.doc) (fun _ => True)
      (fun _ => False) (sortBorderChild c child) (liveChildNodes s child)
      (fun u y hy hu => by
        have hpar := parentOf_of_mem_liveChildNodes hy
        unfold sortBorderChild
        by_cases htx : ¬ (isTextNode u.doc y = true)
        · rw [if_pos htx]
          have hely : isElement u.doc y = true := by
            rw [hu]
            rcases hkids htag2 y hpar with h | h
            · rw [hu] at htx
              exact absurd h htx
            · exact h
          rw [adopt_paint_ok u y c child hely]
          exact ⟨_, rfl, by simpa using hu, fun _ => trivial, fun _ => trivial⟩
        · rw [if_neg htx]
          exact ⟨u, rfl, hu, fun _ => trivial, fun _ => trivial⟩)
      (setBorder s c child) (by simp)
    exact ⟨t, e, q⟩

theorem sortChildren_ok (doc : List DomNode) (c : Nat)
    (hbord : ∀ b x, parentOf doc b = some c → idOf doc b = some (borderId doc c) →
      tagOf doc b = some "g" → parentOf doc x = some b →
      isTextNode doc x = true ∨ isElement doc x = true)
    (l : List Nat) (s : MapState) (acc : List Nat) (hdoc : s.doc = doc)
    (hl : ∀ x ∈ l, parentOf doc x = some c) :
    ∃ t ps, sortChildren c l s acc = .ok (t, ps) ∧ t.doc = doc := by
  induction l generalizing s acc with
  | nil => exact ⟨s, acc, rfl, hdoc⟩
  | cons x xs ih =>
    have hxs : ∀ y ∈ xs, parentOf doc y = some c := fun y hy =>
      hl y (List.mem_cons_of_mem _ hy)
    simp only [sortChildren]
    by_cases hb : idOf s.doc x = some (borderId s.doc c)
    · rw [if_pos hb]
      obtain ⟨s3, e3, d3⟩ := sortBorder_ok c x (adopt s x c x)
        (by simpa using isElement_of_idOf hb) (by simp [adopt_country])
        (by
          intro hg y hy
          simp only [adopt_doc] at hg hy ⊢
          rw [hdoc] at hg hy hb ⊢
          exact hbord x y (hl x (List.mem_cons_self _ _)) hb hg hy)
      rw [e3]
      simp only [andThen_ok]
      exact ih s3 acc (by simpa [hdoc] using d3) hxs
    · rw [if_neg hb]
      by_cases hp : tagOf s.doc x = some "path"
      · rw [if_pos hp, adopt_paint_ok s x c x (isElement_of_tagOf hp)]
        simp only [andThen_ok]
        exact ih _ _ (by simpa using hdoc) hxs
      · rw [if_neg hp]
        by_cases hg : tagOf s.doc x = some "g"
        · rw [if_pos hg]
          obtain ⟨t, ps, e, d⟩ :=
            sortGrandchildren_ok c x (liveChildNodes s x) (adopt s x c x) []
          rw [e]
          simp only []
          exact ih _ _ (by simpa [hdoc] using d) hxs
        · rw [if_neg hg]
          exact ih _ _ (by simpa using hdoc) hxs

theorem sortCountry_ok (doc : List DomNode)
    (hbord : ∀ c b x, parentOf doc c = none → parentOf doc b = some c →
      idOf doc b = some (borderId doc c) → tagOf doc b = some "g" →
      parentOf doc x = some b → isTextNode doc x = true ∨ isElement doc x = true)
    (s : MapState) (c : Nat) (hdoc : s.doc = doc) (hc : parentOf doc c = none) :
    ∃ t, sortCountry s c = .ok t ∧ t.doc = doc := by
  unfold sortCountry
  obtain ⟨t, ps, e, d⟩ := sortChildren_ok doc c (fun b x => hbord c b x hc)
    (liveChildNodes s c) (enterCountry s c) []
    (by rw [(enterCountry_frame s c).1]; exact hdoc)
    (fun x hx => by rw [← hdoc]; exact parentOf_of_mem_liveChildNodes hx)
  rw [e]
  exact ⟨_, rfl, by simpa using d⟩

theorem parentOf_lt {doc : List DomNode} {n p : Nat} (h : parentOf doc n = some p) :
    n < doc.length := by
  unfold parentOf at h
  cases hd : doc[n]? with
  | none => simp [hd] at h
  | some d =>
    by_contra hlt
    rw [List.getElem?_eq_none (by omega)] at hd
    exact Option.noConfusion hd

/-- A node that was not detached, at the top level or the child of a top-level node that
was not detached, is attached to the document. -/
theorem isDetached_false {s : MapState} {n : Nat} (hn : n ∉ s.removed)
    (hp : parentOf s.doc n = none ∨
      ∃ p, parentOf s.doc n = some p ∧ p ∉ s.removed ∧ parentOf s.doc p = none)
    (fuel : Nat) : isDetached s fuel n = false := by
  cases fuel with
  | zero => simp [isDetached, hn]
  | succ k =>
    rcases hp with h | ⟨p, h1, h2, h3⟩
    · simp [isDetached, hn, h]
    · cases k with
      | zero => simp [isDetached, hn, h1, h2]
      | succ j => simp [isDetached, hn, h1, h2, h3]

theorem getElementById_attached {s : MapState} {n : Nat} {id : String}
    (hid : idOf s.doc n = some id) (hd : isDetached s s.doc.length n = false) :
    (getElementById s id).isSome = true := by
  unfold getElementById
  rw [List.find?_isSome]
  exact ⟨n, List.mem_range.mpr (idOf_lt hid), by simp [hid, hd]⟩

/-- The removal of Antarctica succeeds on an asset in which nothing was detached yet, the
ids `AQ` and `AQ-label` occur, `AQ` at the top level only and `AQ-label` only as a child
of the label layer, and `labels` is the id of the label layer only; the label layer is
still found afterwards. -/
theorem removeAntarctica_ok (s : MapState) (layer : Nat) (hrem : s.removed = [])
    (hlayer : idOf s.doc layer = some "labels") (hltop : parentOf s.doc layer = none)
    (hA1 : ∃ n, idOf s.doc n = some "AQ")
    (hA2 : ∀ n, idOf s.doc n = some "AQ" → parentOf s.doc n = none)
    (hL1 : ∃ n, idOf s.doc n = some "AQ-label")
    (hL2 : ∀ n, idOf s.doc n = some "AQ-label" → parentOf s.doc n = some layer)
    (hU : ∀ n, idOf s.doc n = some "labels" → n = layer) :
    ∃ t, removeAntarctica s = .ok t ∧ (getElementById t "labels").isSome = true := by
  obtain ⟨a0, ha0⟩ := hA1
  have h1 := getElementById_isSome hrem ha0
  cases hg : getElementById s "AQ" with
  | none => simp [hg] at h1
  | some aq =>
    have haq := idOf_of_getElementById hg
    have hpn : parentNode s aq = ParentRef.base := by
      simp [parentNode, hrem, hA2 aq haq]
    obtain ⟨u, hu⟩ : ∃ u, u = dropCountry (detach s aq) "AQ" := ⟨_, rfl⟩
    have hud : u.doc = s.doc := by rw [hu]; simp
    have hur : u.removed = [aq] := by rw [hu]; simp [hrem]
    have hne1 : layer ≠ aq := by
      intro e
      rw [e, haq] at hlayer
      exact absurd hlayer (by decide)
    have hlu : layer ∉ u.removed := by simp [hur, hne1]
    have h2 := getElementById_attached (s := u) (n := layer) (by rw [hud]; exact hlayer)
      (isDetached_false hlu (Or.inl (by rw [hud]; exact hltop)) _)
    cases hg2 : getElementById u "labels" with
    | none => simp [hg2] at h2
    | some g =>
      have hgl : g = layer := hU g (by rw [← hud]; exact idOf_of_getElementById hg2)
      obtain ⟨l0, hl0⟩ := hL1
      have hne2 : l0 ≠ aq := by
        intro e
        rw [e, haq] at hl0
        exact absurd hl0 (by decide)
      have h3 := getElementById_attached (s := u) (n := l0) (by rw [hud]; exact hl0)
        (isDetached_false (by simp [hur, hne2])
          (Or.inr ⟨layer, by rw [hud]; exact hL2 l0 hl0, hlu, by rw [hud]; exact hltop⟩) _)
      cases hg3 : getElementById u "AQ-label" with
      | none => simp [hg3] at h3
      | some label =>
        have hlab : idOf s.doc label = some "AQ-label" := by
          rw [← hud]
          exact idOf_of_getElementById hg3
        have hne3 : label ≠ aq := by
          intro e
          rw [e, haq] at hlab
          exact absurd hlab (by decide)
        have hne4 : layer ≠ label := by
          intro e
          rw [← e, hlayer] at hlab
          exact absurd hlab (by decide)
        have hpl : parentNode u label = ParentRef.node layer := by
          simp [parentNode, hur, hne3, hud, hL2 label hlab]
        refine ⟨dropLabel (detach u label) "AQ", ?_, ?_⟩
        · simp only [removeAntarctica, hg, hpn, ← hu, removeAntarcticaLabel, hg2, hg3, hgl]
          simp [hpl]
        · apply getElementById_attached (n := layer)
          · simpa [hud] using hlayer
          · apply isDetached_false
            · simp [hur, hne1, hne4]
            · exact Or.inl (by simpa [hud] using hltop)
/-! ## `initMapCountries` and missing entries -/

/-- Claim C17 fails on the code.  On the sample asset without the node `World`, and on the
one without the node `Ocean`, `initMapCountries` raises a fault; so it does on the sample
asset with country data that has no record for FR, whose label is on the label layer, on
the sample asset without the label layer, with `showAntarctica` false on an asset
without Antarctica, with `showMicroStates` false on an asset with a microstate label
(font size `2e0`) whose country has no node, on an asset with a comment node in a border
group, and with a background image on an asset whose first element named `World` is not
at the top level. -/
theorem initMapCountries_missing_entry_faults :
    faulted (initMapCountries (loadState noWorldDoc {} demoData [])) = true ∧
    faulted (initMapCountries (loadState noOceanDoc {} demoData [])) = true ∧
    faulted (initMapCountries (loadState demoDoc {} noFranceData [])) = true ∧
    faulted (initMapCountries (loadState noLabelsDoc {} demoData [])) = true ∧
    faulted (initMapCountries
      (loadState noAntarcticaDoc { showAntarctica := false } demoData [])) = true ∧
    faulted (initMapCountries (loadState noAntarcticaDoc {} demoData [])) = false ∧
    faulted (initMapCountries
      (loadState microLabelDoc { showMicroStates := false } monacoData [])) = true ∧
    faulted (initMapCountries (loadState microLabelDoc {} monacoData [])) = false ∧
    faulted (initMapCountries (loadState commentBorderDoc {} demoData [])) = true ∧
    faulted (initMapCountries
      (loadState nestedWorldDoc { backgroundImage := "map.png" } demoData [])) = true ∧
    faulted (initMapCountries (loadState nestedWorldDoc {} demoData [])) = false := by
  decide

/-- Claim C17, amended.  `initMapCountries` completes without raising a fault on every
asset whose index has the entries `World`, `Ocean` and `labels`, in which every text label
of the label layer has a country-data record under the first two characters of its id and
every child of a border group is an element or a text node.  The options add their own
needs: with `showAntarctica` false, the ids `AQ` and `AQ-label` occur, `AQ` at the top
level only and `AQ-label` only as a child of the label layer, and `labels` is the id of the
label layer only; with a background image, the id `World` occurs at the top level only;
with `showMicroStates` false, every text label whose font size compares equal to 2 has its
country in the index. -/
theorem initMapCountries_completes (doc : List DomNode) (opts : Options)
    (data : Obj (Obj String)) (fns : List String) (layer : Nat)
    (hW : (objGet (indexCountries doc (baseChildNodes doc) []) "World").isSome = true)
    (hO : (objGet (indexCountries doc (baseChildNodes doc) []) "Ocean").isSome = true)
    (hL : objGet (indexCountries doc (baseChildNodes doc) []) "labels" = some layer)
    (hAQ : opts.showAntarctica = false →
      (∃ n, idOf doc n = some "AQ") ∧ (∀ n, idOf doc n = some "AQ" → parentOf doc n = none) ∧
      (∃ n, idOf doc n = some "AQ-label") ∧
      (∀ n, idOf doc n = some "AQ-label" → parentOf doc n = some layer) ∧
      (∀ n, idOf doc n = some "labels" → n = layer))
    (hbg : opts.backgroundImage ≠ "" →
      ∀ n, idOf doc n = some "World" → parentOf doc n = none)
    (hms : opts.showMicroStates = false → ∀ y, tagOf doc y = some "text" →
      looseEqualsTwo (fontSizeOf doc y) = true →
      (objGet (indexCountries doc (baseChildNodes doc) [])
        (substr0 (idKey (idOf doc y)) 2)).isSome = true)
    (hrec : ∀ x, parentOf doc x = some layer → tagOf doc x = some "text" →
      (objGet data (substr0 (idKey (idOf doc x)) 2)).isSome = true)
    (hbord : ∀ c b x, parentOf doc c = none → parentOf doc b = some c →
      idOf doc b = some (borderId doc c) → tagOf doc b = some "g" →
      parentOf doc x = some b → isTextNode doc x = true ∨ isElement doc x = true) :
    faulted (initMapCountries (loadState doc opts data fns)) = false := by
  obtain ⟨s1, hs1⟩ : ∃ s1, s1 = indexMap (loadState doc opts data fns) := ⟨_, rfl⟩
  have inv1 : LabelInv doc opts data (indexCountries doc (baseChildNodes doc) []) s1 := by
    rw [hs1]
    exact ⟨rfl, rfl, rfl, rfl, rfl, fun x hx => Option.noConfusion hx⟩
  obtain ⟨q1, q2, q3, q4, q5, q6⟩ := inv1
  obtain ⟨s2, e2⟩ := styleBackground_ok s1 (by rw [q4]; exact hW) (by rw [q4]; exact hO) q5
    (by rw [q2, q1]; exact hbg)
  obtain ⟨k2, _, r2⟩ := styleBackground_keeps e2
  obtain ⟨_, _, _, m2⟩ := styleBackground_extra e2
  have inv2 : LabelInv doc opts data (indexCountries doc (baseChildNodes doc) []) s2 :=
    ⟨k2.1.trans q1, k2.2.1.trans q2, k2.2.2.1.trans q3, k2.2.2.2.1.trans q4, r2.trans q5,
      fun x hx => q6 x (by rw [← m2]; exact hx)⟩
  obtain ⟨s3, e3, d3, o3, _, c3, r3, _⟩ := sortLabels_ok s2 inv2 layer hL hrec hms
  have hlayer : idOf doc layer = some "labels" := by
    rcases mem_indexCountries (objGet_mem hL) with h | h
    · simp at h
    · exact h.2.1
  have hltop : parentOf doc layer = none := by
    rcases mem_indexCountries (objGet_mem hL) with h | h
    · simp at h
    · exact parentOf_of_mem_baseChildNodes h.1
  have e4 : ∃ s4, (if s3.opts.showAntarctica = false then removeAntarctica s3 else .ok s3) =
      .ok s4 ∧ s4.doc = doc ∧ s4.opts = opts ∧
      (∀ e ∈ s4.countries, e ∈ indexCountries doc (baseChildNodes doc) []) ∧
      (getElementById s4 "labels").isSome = true := by
    by_cases hsa : s3.opts.showAntarctica = false
    · rw [if_pos hsa]
      obtain ⟨a1, a2, a3, a4, a5⟩ := hAQ (by rw [← o3]; exact hsa)
      obtain ⟨s4, h4, g4⟩ := removeAntarctica_ok s3 layer r3 (by rw [d3]; exact hlayer)
        (by rw [d3]; exact hltop) (by rw [d3]; exact a1) (by rw [d3]; exact a2)
        (by rw [d3]; exact a3) (by rw [d3]; exact a4) (by rw [d3]; exact a5)
      obtain ⟨b1, b2, _, _, _, _, _, b8, _⟩ := removeAntarctica_spec h4
      refine ⟨s4, h4, b1.trans d3, b2.trans o3, ?_, g4⟩
      intro e he
      rw [b8, c3] at he
      exact (mem_objDelete he).1
    · rw [if_neg hsa]
      exact ⟨s3, rfl, d3, o3, fun e he => by rw [c3] at he; exact he,
        getElementById_isSome r3 (by rw [d3]; exact hlayer)⟩
  obtain ⟨s4, h4, d4, o4, c4, g4⟩ := e4
  have e5 : ∃ s5, (if s4.opts.showLabels = true then toggleAllLabels s4 else .ok s4) =
      .ok s5 ∧ s5.doc = doc ∧
      (∀ e ∈ s5.countries, e ∈ indexCountries doc (baseChildNodes doc) []) := by
    by_cases hsl : s4.opts.showLabels = true
    · rw [if_pos hsl]
      obtain ⟨s5, h5⟩ := toggleAllLabels_ok s4 g4
      obtain ⟨k5, _, _⟩ := toggleAllLabels_keeps h5
      exact ⟨s5, h5, k5.1.trans d4, fun e he => c4 e (by rw [← k5.2.2.2.1]; exact he)⟩
    · rw [if_neg hsl]
      exact ⟨s4, rfl, d4, c4⟩
  obtain ⟨s5, h5, d5, c5⟩ := e5
  obtain ⟨s6, e6, _⟩ := forEach_track (fun u => u.doc = doc) (fun _ => True)
    (fun _ => False) sortCountry ((dropCountry s5 "labels").countries.map Prod.snd)
    (fun u y hy hu => by
      obtain ⟨e, he, hey⟩ := List.mem_map.mp hy
      simp only [dropCountry_countries] at he
      have htop : parentOf doc y = none := by
        rcases mem_indexCountries (c5 e (mem_objDelete he).1) with h | h
        · simp at h
        · rw [← hey]
          exact parentOf_of_mem_baseChildNodes h.1
      obtain ⟨t, ht, dt⟩ := sortCountry_ok doc hbord u y hu htop
      exact ⟨t, ht, dt, fun _ => trivial, fun _ => trivial⟩)
    (dropCountry s5 "labels") (by simpa using d5)
  unfold initMapCountries
  rw [← hs1, e2]
  simp only [andThen_ok]
  rw [e3]
  simp only [andThen_ok]
  rw [h4]
  simp only [andThen_ok]
  rw [h5]
  simp only [andThen_ok]
  unfold sortProvinces
  rw [e6]
  rfl

theorem initMapCountries_completes_witness :
    faulted (initMapCountries
      (loadState demoDoc { showAntarctica := false } demoData [])) = false :=
  initMapCountries_completes demoDoc { showAntarctica := false } demoData [] 11
    (by decide) (by decide) (by decide)
    (fun _ =>
      ⟨⟨2, by decide⟩,
       fun n hn => (show ∀ y, y < 15 → idOf demoDoc y = some "AQ" → parentOf demoDoc y = none
         from by decide) n (idOf_lt hn) hn,
       ⟨12, by decide⟩,
       fun n hn => (show ∀ y, y < 15 → idOf demoDoc y = some "AQ-label" →
         parentOf demoDoc y = some 11 from by decide) n (idOf_lt hn) hn,
       fun n hn => (show ∀ y, y < 15 → idOf demoDoc y = some "labels" → y = 11
         from by decide) n (idOf_lt hn) hn⟩)
    (fun h => absurd rfl h) (fun h => absurd h (by decide))
    (fun x hx => (show ∀ y, y < 15 → parentOf demoDoc y = some 11 →
        tagOf demoDoc y = some "text" →
        (objGet demoData (substr0 (idKey (idOf demoDoc y)) 2)).isSome = true
      from by decide) x (parentOf_lt hx) hx)
    (fun _ _ x _ _ _ _ hx => Or.inr
      ((show ∀ y, y < 15 → isElement demoDoc y = true from by decide) x (parentOf_lt hx)))
/-! ## Name lookup -/

theorem cleanName_article_first (n : String) (h1 : toLowerCase (substr0 n 4) ≠ "the ") :
    cleanName ("The " ++ n) = cleanName n := by
  obtain ⟨l⟩ := n
  have e0 : ("The " ++ (⟨l⟩ : String)) = ⟨'T' :: 'h' :: 'e' :: ' ' :: l⟩ := rfl
  have e1 : toLowerCase (substr0 ⟨'T' :: 'h' :: 'e' :: ' ' :: l⟩ 4) = "the " := by
    have e : substr0 ⟨'T' :: 'h' :: 'e' :: ' ' :: l⟩ 4 = "The " := rfl
    rw [e]
    decide
  have e2 : substrFrom ⟨'T' :: 'h' :: 'e' :: ' ' :: l⟩ 4 = ⟨l⟩ := rfl
  simp only [cleanName, e0, e1, e2, if_true, if_neg h1]

theorem the_suffix_head (l : List Char)
    (h1 : toLowerCase (substr0 ⟨l⟩ 4) ≠ "the ") :
    toLowerCase (substr0 ⟨l ++ [',', ' ', 'T', 'h', 'e']⟩ 4) ≠ "the " := by
  have hc : ¬ (Char.toLower ',' = ' ') := by decide
  have hc2 : ¬ (Char.toLower ',' = 'e') := by decide
  have hc3 : ¬ (Char.toLower ',' = 'h') := by decide
  have hc4 : ¬ (Char.toLower ',' = 't') := by decide
  match l, h1 with
  | [], _ =>
    intro h
    have hd := congrArg String.data h
    simp only [toLowerCase, substr0, List.nil_append, List.take, List.map] at hd
    exact hc4 (List.cons.inj hd).1
  | [a], _ =>
    intro h
    have hd := congrArg String.data h
    simp only [toLowerCase, substr0, List.cons_append, List.nil_append, List.take,
      List.map] at hd
    exact hc3 (List.cons.inj (List.cons.inj hd).2).1
  | [a, b], _ =>
    intro h
    have hd := congrArg String.data h
    simp only [toLowerCase, substr0, List.cons_append, List.nil_append, List.take,
      List.map] at hd
    exact hc2 (List.cons.inj (List.cons.inj (List.cons.inj hd).2).2).1
  | [a, b, c], _ =>
    intro h
    have hd := congrArg String.data h
    simp only [toLowerCase, substr0, List.cons_append, List.nil_append, List.take,
      List.map] at hd
    exact hc (List.cons.inj (List.cons.inj (List.cons.inj (List.cons.inj hd).2).2).2).1
  | a :: b :: c :: d :: rest, h1 => exact h1

theorem cleanName_article_last (n : String) (h1 : toLowerCase (substr0 n 4) ≠ "the ")
    (h2 : toLowerCase (substrLast n 5) ≠ ", the") :
    cleanName (n ++ ", The") = cleanName n := by
  obtain ⟨l⟩ := n
  have e0 : ((⟨l⟩ : String) ++ ", The") = ⟨l ++ [',', ' ', 'T', 'h', 'e']⟩ := rfl
  have b1 := the_suffix_head l h1
  have b2 : substrLast ⟨l ++ [',', ' ', 'T', 'h', 'e']⟩ 5 = ", The" := by
    simp only [substrLast, List.length_append, List.length_cons, List.length_nil]
    have : l.length + (0 + 1 + 1 + 1 + 1 + 1) - 5 = l.length := by omega
    rw [this, List.drop_left]
  have b3 : toLowerCase ", The" = ", the" := by decide
  have b4 : dropLast ⟨l ++ [',', ' ', 'T', 'h', 'e']⟩ 5 = ⟨l⟩ := by
    simp only [dropLast, List.length_append, List.length_cons, List.length_nil]
    have : l.length + (0 + 1 + 1 + 1 + 1 + 1) - 5 = l.length := by omega
    rw [this, List.take_left]
  simp only [cleanName, e0, if_neg b1, b2, b3, b4, if_true, if_neg h1, if_neg h2]

/-- Claim C12.  With the built-in country data, `findIdByName` resolves `The Bahamas` and
`Bahamas, The` to `BS`; and for every country data and every name `n` that neither begins
with `the ` nor ends with `, the` (letters compared without case), `findIdByName` returns
for `The ` + `n` and for `n` + `, The` what it returns for `n`. -/
theorem findIdByName_article (data : Obj (Obj String)) (n : String)
    (h1 : toLowerCase (substr0 n 4) ≠ "the ")
    (h2 : toLowerCase (substrLast n 5) ≠ ", the") :
    findIdByName builtinCountryData "The Bahamas" = some "BS" ∧
    findIdByName builtinCountryData "Bahamas, The" = some "BS" ∧
    findIdByName data ("The " ++ n) = findIdByName data n ∧
    findIdByName data (n ++ ", The") = findIdByName data n := by
  refine ⟨?_, ?_, ?_, ?_⟩
  · set_option maxRecDepth 20000 in decide
  · set_option maxRecDepth 20000 in decide
  · unfold findIdByName
    rw [cleanName_article_first n h1]
  · unfold findIdByName
    rw [cleanName_article_last n h1 h2]

theorem findIdByName_article_witness :
    findIdByName builtinCountryData ("The " ++ "Bahamas") =
      findIdByName builtinCountryData "Bahamas" ∧
    findIdByName builtinCountryData ("Bahamas" ++ ", The") =
      findIdByName builtinCountryData "Bahamas" :=
  (findIdByName_article builtinCountryData "Bahamas" (by decide) (by decide)).2.2
/-! ## Name lookup on the built-in table -/

/-- Claim C30 fails on the code.  The built-in record of CD is named `Congo (Rep. Dem.)`;
`findIdByName` removes the part in brackets and resolves the name to CG, the record named
`Congo`.  The names of CC, MF, SX and TL hold a part in brackets too and resolve to no
identifier. -/
theorem findIdByName_bracket_name_lost :
    (objGet builtinCountryData "CD").map (fun r => objGet r "name") =
      some (some "Congo (Rep. Dem.)") ∧
    findIdByName builtinCountryData "Congo (Rep. Dem.)" = some "CG" ∧
    (objGet builtinCountryData "CC").map (fun r => objGet r "name") =
      some (some "Ilhas Cocos (Keeling)") ∧
    findIdByName builtinCountryData "Ilhas Cocos (Keeling)" = none := by
  decide!

/-- The names of the built-in records MF, SX and TL hold a part in brackets as well, and
`findIdByName` resolves them to no identifier. -/
theorem findIdByName_other_bracket_names :
    (objGet builtinCountryData "MF").map (fun r => objGet r "name") =
      some (some "São Martinho (parte francesa)") ∧
    findIdByName builtinCountryData "São Martinho (parte francesa)" = none ∧
    (objGet builtinCountryData "SX").map (fun r => objGet r "name") =
      some (some "São Martinho (parte holandesa)") ∧
    findIdByName builtinCountryData "São Martinho (parte holandesa)" = none ∧
    (objGet builtinCountryData "TL").map (fun r => objGet r "name") =
      some (some "Timor-Leste (Timor-Leste)") ∧
    findIdByName builtinCountryData "Timor-Leste (Timor-Leste)" = none := by
  decide!

theorem builtin_names_resolve_0 :
    ∀ e ∈ (builtinCountryData.drop 0).take 10, e.1 ∉ ["CC", "CD", "MF", "SX", "TL"] →
      (objGet e.2 "name").map (findIdByName builtinCountryData) = some (some e.1) := by
  decide!

theorem builtin_names_resolve_1 :
    ∀ e ∈ (builtinCountryData.drop 10).take 10, e.1 ∉ ["CC", "CD", "MF", "SX", "TL"] →
      (objGet e.2 "name").map (findIdByName builtinCountryData) = some (some e.1) := by
  decide!

theorem builtin_names_resolve_2 :
    ∀ e ∈ (builtinCountryData.drop 20).take 10, e.1 ∉ ["CC", "CD", "MF", "SX", "TL"] →
      (objGet e.2 "name").map (findIdByName builtinCountryData) = some (some e.1) := by
  decide!

theorem builtin_names_resolve_3 :
    ∀ e ∈ (builtinCountryData.drop 30).take 10, e.1 ∉ ["CC", "CD", "MF", "SX", "TL"] →
      (objGet e.2 "name").map (findIdByName builtinCountryData) = some (some e.1) := by
  decide!

theorem builtin_names_resolve_4 :
    ∀ e ∈ (builtinCountryData.drop 40).take 10, e.1 ∉ ["CC", "CD", "MF", "SX", "TL"] →
      (objGet e.2 "name").map (findIdByName builtinCountryData) = some (some e.1) := by
  decide!

theorem builtin_names_resolve_5 :
    ∀ e ∈ (builtinCountryData.drop 50).take 10, e.1 ∉ ["CC", "CD", "MF", "SX", "TL"] →
      (objGet e.2 "name").map (findIdByName builtinCountryData) = some (some e.1) := by
  decide!

theorem builtin_names_resolve_6 :
    ∀ e ∈ (builtinCountryData.drop 60).take 10, e.1 ∉ ["CC", "CD", "MF", "SX", "TL"] →
      (objGet e.2 "name").map (findIdByName builtinCountryData) = some (some e.1) := by
  decide!

theorem builtin_names_resolve_7 :
    ∀ e ∈ (builtinCountryData.drop 70).take 10, e.1 ∉ ["CC", "CD", "MF", "SX", "TL"] →
      (objGet e.2 "name").map (findIdByName builtinCountryData) = some (some e.1) := by
  decide!

theorem builtin_names_resolve_8 :
    ∀ e ∈ (builtinCountryData.drop 80).take 10, e.1 ∉ ["CC", "CD", "MF", "SX", "TL"] →
      (objGet e.2 "name").map (findIdByName builtinCountryData) = some (some e.1) := by
  decide!

theorem builtin_names_resolve_9 :
    ∀ e ∈ (builtinCountryData.drop 90).take 10, e.1 ∉ ["CC", "CD", "MF", "SX", "TL"] →
      (objGet e.2 "name").map (findIdByName builtinCountryData) = some (some e.1) := by
  decide!

theorem builtin_names_resolve_10 :
    ∀ e ∈ (builtinCountryData.drop 100).take 10, e.1 ∉ ["CC", "CD", "MF", "SX", "TL"] →
      (objGet e.2 "name").map (findIdByName builtinCountryData) = some (some e.1) := by
  decide!

theorem builtin_names_resolve_11 :
    ∀ e ∈ (builtinCountryData.drop 110).take 10, e.1 ∉ ["CC", "CD", "MF", "SX", "TL"] →
      (objGet e.2 "name").map (findIdByName builtinCountryData) = some (some e.1) := by
  decide!

theorem builtin_names_resolve_12 :
    ∀ e ∈ (builtinCountryData.drop 120).take 10, e.1 ∉ ["CC", "CD", "MF", "SX", "TL"] →
      (objGet e.2 "name").map (findIdByName builtinCountryData) = some (some e.1) := by
  decide!

theorem builtin_names_resolve_13 :
    ∀ e ∈ (builtinCountryData.drop 130).take 10, e.1 ∉ ["CC", "CD", "MF", "SX", "TL"] →
      (objGet e.2 "name").map (findIdByName builtinCountryData) = some (some e.1) := by
  decide!

theorem builtin_names_resolve_14 :
    ∀ e ∈ (builtinCountryData.drop 140).take 10, e.1 ∉ ["CC", "CD", "MF", "SX", "TL"] →
      (objGet e.2 "name").map (findIdByName builtinCountryData) = some (some e.1) := by
  decide!

theorem builtin_names_resolve_15 :
    ∀ e ∈ (builtinCountryData.drop 150).take 10, e.1 ∉ ["CC", "CD", "MF", "SX", "TL"] →
      (objGet e.2 "name").map (findIdByName builtinCountryData) = some (some e.1) := by
  decide!

theorem builtin_names_resolve_16 :
    ∀ e ∈ (builtinCountryData.drop 160).take 10, e.1 ∉ ["CC", "CD", "MF", "SX", "TL"] →
      (objGet e.2 "name").map (findIdByName builtinCountryData) = some (some e.1) := by
  decide!

theorem builtin_names_resolve_17 :
    ∀ e ∈ (builtinCountryData.drop 170).take 10, e.1 ∉ ["CC", "CD", "MF", "SX", "TL"] →
      (objGet e.2 "name").map (findIdByName builtinCountryData) = some (some e.1) := by
  decide!

theorem builtin_names_resolve_18 :
    ∀ e ∈ (builtinCountryData.drop 180).take 10, e.1 ∉ ["CC", "CD", "MF", "SX", "TL"] →
      (objGet e.2 "name").map (findIdByName builtinCountryData) = some (some e.1) := by
  decide!

theorem builtin_names_resolve_19 :
    ∀ e ∈ (builtinCountryData.drop 190).take 10, e.1 ∉ ["CC", "CD", "MF", "SX", "TL"] →
      (objGet e.2 "name").map (findIdByName builtinCountryData) = some (some e.1) := by
  decide!

theorem builtin_names_resolve_20 :
    ∀ e ∈ (builtinCountryData.drop 200).take 10, e.1 ∉ ["CC", "CD", "MF", "SX", "TL"] →
      (objGet e.2 "name").map (findIdByName builtinCountryData) = some (some e.1) := by
  decide!

theorem builtin_names_resolve_21 :
    ∀ e ∈ (builtinCountryData.drop 210).take 10, e.1 ∉ ["CC", "CD", "MF", "SX", "TL"] →
      (objGet e.2 "name").map (findIdByName builtinCountryData) = some (some e.1) := by
  decide!

theorem builtin_names_resolve_22 :
    ∀ e ∈ (builtinCountryData.drop 220).take 10, e.1 ∉ ["CC", "CD", "MF", "SX", "TL"] →
      (objGet e.2 "name").map (findIdByName builtinCountryData) = some (some e.1) := by
  decide!

theorem builtin_names_resolve_23 :
    ∀ e ∈ (builtinCountryData.drop 230).take 10, e.1 ∉ ["CC", "CD", "MF", "SX", "TL"] →
      (objGet e.2 "name").map (findIdByName builtinCountryData) = some (some e.1) := by
  decide!

theorem builtin_names_resolve_24 :
    ∀ e ∈ (builtinCountryData.drop 240).take 10, e.1 ∉ ["CC", "CD", "MF", "SX", "TL"] →
      (objGet e.2 "name").map (findIdByName builtinCountryData) = some (some e.1) := by
  decide!

theorem mem_take_or_drop {α : Type} (n : Nat) {l : List α} {e : α} (h : e ∈ l) :
    e ∈ l.take n ∨ e ∈ l.drop n :=
  List.mem_append.mp (by rwa [List.take_append_drop])

theorem builtin_drop_all : builtinCountryData.drop 250 = [] := by
  set_option maxRecDepth 100000 in decide

/-- Every record of the built-in table other than CC, CD, MF, SX and TL has a name that
`findIdByName` resolves to the key of the record; the table is checked ten records at a
time. -/
theorem builtin_names_resolve :
    ∀ e ∈ builtinCountryData, e.1 ∉ ["CC", "CD", "MF", "SX", "TL"] →
      (objGet e.2 "name").map (findIdByName builtinCountryData) = some (some e.1) := by
  intro e he
  have h0 : e ∈ builtinCountryData.drop 0 := by simpa using he
  rcases mem_take_or_drop 10 h0 with h | h
  · exact builtin_names_resolve_0 e h
  have h1 : e ∈ builtinCountryData.drop 10 := by simpa [List.drop_drop] using h
  clear h
  rcases mem_take_or_drop 10 h1 with h | h
  · exact builtin_names_resolve_1 e h
  have h2 : e ∈ builtinCountryData.drop 20 := by simpa [List.drop_drop] using h
  clear h
  rcases mem_take_or_drop 10 h2 with h | h
  · exact builtin_names_resolve_2 e h
  have h3 : e ∈ builtinCountryData.drop 30 := by simpa [List.drop_drop] using h
  clear h
  rcases mem_take_or_drop 10 h3 with h | h
  · exact builtin_names_resolve_3 e h
  have h4 : e ∈ builtinCountryData.drop 40 := by simpa [List.drop_drop] using h
  clear h
  rcases mem_take_or_drop 10 h4 with h | h
  · exact builtin_names_resolve_4 e h
  have h5 : e ∈ builtinCountryData.drop 50 := by simpa [List.drop_drop] using h
  clear h
  rcases mem_take_or_drop 10 h5 with h | h
  · exact builtin_names_resolve_5 e h
  have h6 : e ∈ builtinCountryData.drop 60 := by simpa [List.drop_drop] using h
  clear h
  rcases mem_take_or_drop 10 h6 with h | h
  · exact builtin_names_resolve_6 e h
  have h7 : e ∈ builtinCountryData.drop 70 := by simpa [List.drop_drop] using h
  clear h
  rcases mem_take_or_drop 10 h7 with h | h
  · exact builtin_names_resolve_7 e h
  have h8 : e ∈ builtinCountryData.drop 80 := by simpa [List.drop_drop] using h
  clear h
  rcases mem_take_or_drop 10 h8 with h | h
  · exact builtin_names_resolve_8 e h
  have h9 : e ∈ builtinCountryData.drop 90 := by simpa [List.drop_drop] using h
  clear h
  rcases mem_take_or_drop 10 h9 with h | h
  · exact builtin_names_resolve_9 e h
  have h10 : e ∈ builtinCountryData.drop 100 := by simpa [List.drop_drop] using h
  clear h
  rcases mem_take_or_drop 10 h10 with h | h
  · exact builtin_names_resolve_10 e h
  have h11 : e ∈ builtinCountryData.drop 110 := by simpa [List.drop_drop] using h
  clear h
  rcases mem_take_or_drop 10 h11 with h | h
  · exact builtin_names_resolve_11 e h
  have h12 : e ∈ builtinCountryData.drop 120 := by simpa [List.drop_drop] using h
  clear h
  rcases mem_take_or_drop 10 h12 with h | h
  · exact builtin_names_resolve_12 e h
  have h13 : e ∈ builtinCountryData.drop 130 := by simpa [List.drop_drop] using h
  clear h
  rcases mem_take_or_drop 10 h13 with h | h
  · exact builtin_names_resolve_13 e h
  have h14 : e ∈ builtinCountryData.drop 140 := by simpa [List.drop_drop] using h
  clear h
  rcases mem_take_or_drop 10 h14 with h | h
  · exact builtin_names_resolve_14 e h
  have h15 : e ∈ builtinCountryData.drop 150 := by simpa [List.drop_drop] using h
  clear h
  rcases mem_take_or_drop 10 h15 with h | h
  · exact builtin_names_resolve_15 e h
  have h16 : e ∈ builtinCountryData.drop 160 := by simpa [List.drop_drop] using h
  clear h
  rcases mem_take_or_drop 10 h16 with h | h
  · exact builtin_names_resolve_16 e h
  have h17 : e ∈ builtinCountryData.drop 170 := by simpa [List.drop_drop] using h
  clear h
  rcases mem_take_or_drop 10 h17 with h | h
  · exact builtin_names_resolve_17 e h
  have h18 : e ∈ builtinCountryData.drop 180 := by simpa [List.drop_drop] using h
  clear h
  rcases mem_take_or_drop 10 h18 with h | h
  · exact builtin_names_resolve_18 e h
  have h19 : e ∈ builtinCountryData.drop 190 := by simpa [List.drop_drop] using h
  clear h
  rcases mem_take_or_drop 10 h19 with h | h
  · exact builtin_names_resolve_19 e h
  have h20 : e ∈ builtinCountryData.drop 200 := by simpa [List.drop_drop] using h
  clear h
  rcases mem_take_or_drop 10 h20 with h | h
  · exact builtin_names_resolve_20 e h
  have h21 : e ∈ builtinCountryData.drop 210 := by simpa [List.drop_drop] using h
  clear h
  rcases mem_take_or_drop 10 h21 with h | h
  · exact builtin_names_resolve_21 e h
  have h22 : e ∈ builtinCountryData.drop 220 := by simpa [List.drop_drop] using h
  clear h
  rcases mem_take_or_drop 10 h22 with h | h
  · exact builtin_names_resolve_22 e h
  have h23 : e ∈ builtinCountryData.drop 230 := by simpa [List.drop_drop] using h
  clear h
  rcases mem_take_or_drop 10 h23 with h | h
  · exact builtin_names_resolve_23 e h
  have h24 : e ∈ builtinCountryData.drop 240 := by simpa [List.drop_drop] using h
  clear h
  rcases mem_take_or_drop 10 h24 with h | h
  · exact builtin_names_resolve_24 e h
  have h25 : e ∈ builtinCountryData.drop 250 := by simpa [List.drop_drop] using h
  clear h
  rw [builtin_drop_all] at h25
  exact absurd h25 (List.not_mem_nil e)

/-- Claim C30, amended.  For every identifier `id` of the built-in country data other than
CC, CD, MF, SX and TL, the record has a name and `findIdByName` resolves that name to
`id`. -/
theorem findIdByName_inverts_builtin (id : String) (record : Obj String)
    (hrec : objGet builtinCountryData id = some record)
    (hid : id ∉ ["CC", "CD", "MF", "SX", "TL"]) :
    ∃ name, objGet record "name" = some name ∧
      findIdByName builtinCountryData name = some id := by
  have h := builtin_names_resolve (id, record) (objGet_mem hrec) hid
  simp only at h
  cases hn : objGet record "name" with
  | none => simp [hn] at h
  | some name =>
    rw [hn] at h
    exact ⟨name, rfl, Option.some.inj h⟩

theorem findIdByName_inverts_builtin_witness :
    ∃ name, objGet [("name", "Bahamas"), ("region", "NA"), ("population", "396,913"),
        ("GDP", "$12.14 billion")] "name" = some name ∧
      findIdByName builtinCountryData name = some "BS" :=
  findIdByName_inverts_builtin "BS" _ (by set_option maxRecDepth 100000 in decide)
    (by decide)
/-! ## Table parser: numeric cells and row keys -/

theorem digits_of_filtered (l : List Char)
    (h : ∀ c ∈ l, c.isDigit = true ∨ c = ',') :
    ∀ c ∈ l.filter (fun c => c != ','), c.isDigit = true := by
  intro c hc
  obtain ⟨h1, h2⟩ := List.mem_filter.mp hc
  rcases h c h1 with e | e
  · exact e
  · simp [e] at h2

theorem numberOfCell_digits (t : String)
    (h : ∀ c ∈ t.data, c.isDigit = true ∨ c = ',')
    (hlt : digitsValue (t.data.filter (fun c => c != ',')) < 2 ^ 53) :
    numberOfCell t = JsNum.int (digitsValue (t.data.filter (fun c => c != ','))) := by
  have hd := digits_of_filtered t.data h
  have e1 : (t.data.filter (fun c => c != ',')).dropWhile Char.isDigit = [] :=
    List.dropWhile_eq_nil_iff.mpr hd
  have e2 : (t.data.filter (fun c => c != ',')).takeWhile Char.isDigit =
      t.data.filter (fun c => c != ',') :=
    List.takeWhile_eq_self_iff.mpr hd
  simp only [numberOfCell, e1, e2, roundToDouble, if_pos hlt]

theorem isNumberCell_digits (t : String)
    (h : ∀ c ∈ t.data, c.isDigit = true ∨ c = ',') : isNumberCell t = true := by
  unfold isNumberCell
  rw [List.all_eq_true]
  intro c hc
  rcases h c hc with e | e
  · simp [e]
  · simp [e]

theorem sortObject_single {α : Type} (k : String) (v : α) :
    sortObject [(k, v)] = [(k, v)] := by
  simp [sortObject, sortKeys, objKeys, insertKey, copyKey, objGet, objSet]

theorem parseTable_isoValue (data : Obj (Obj String)) (k v : String)
    (hk1 : stripHTML k ≠ "") (hk2 : isNumberCell (stripHTML k) = false)
    (hk3 : isNaNText (stripHTML k) = true) (hk4 : stripHTML k ≠ "undefined")
    (hv1 : stripHTML v ≠ "")
    (hv2 : ∀ c ∈ (stripHTML v).data, c.isDigit = true ∨ c = ',')
    (hv3 : digitsValue ((stripHTML v).data.filter (fun c => c != ',')) < 2 ^ 53) :
    parseTable data true [isoValueTable k v] =
      [(stripHTML k, TableVal.row
        [("ISO", CellVal.plain (CellText.text (stripHTML k))),
         ("Value", CellVal.plain (CellText.num (JsNum.int
            (digitsValue ((stripHTML v).data.filter (fun c => c != ','))))))])] := by
  have h1 : findTableKey ["ISO", "Value"] = some "iso" := by decide
  have hT : findTable [isoValueTable k v] = some (isoValueTable k v, "iso") := by
    simp only [findTable, isoValueTable, h1]
  have hH : headerKeyOf "iso" ["ISO", "Value"] = "ISO" := by decide
  have hC : columnKeysOf ["ISO", "Value"] = ["ISO", "Value"] := by decide
  have hTT : isTimeTable ["ISO", "Value"] = false := by decide
  have hc0 : cellText { innerHTML := k } = CellText.text (stripHTML k) := by
    simp [cellText, hk2]
  have hc1 : cellText { innerHTML := v } = CellText.num (JsNum.int
      (digitsValue ((stripHTML v).data.filter (fun c => c != ',')))) := by
    simp only [cellText, isNumberCell_digits _ hv2, if_true, numberOfCell_digits _ hv2 hv3]
  have hne : ¬ ("ISO" = "Value") := by decide
  have hloop : columnLoop data true false ["ISO", "Value"] []
      [{ innerHTML := k }, { innerHTML := v }] =
      ([], [("ISO", CellVal.plain (CellText.text (stripHTML k))),
        ("Value", CellVal.plain (CellText.num (JsNum.int
          (digitsValue ((stripHTML v).data.filter (fun c => c != ','))))))]) := by
    simp [columnLoop, columnStep, List.enum, List.enumFrom, hk1, hv1, hc0, hc1, idKey,
      objSet, hne]
  have hrow0 : rowStep data true false "iso" "ISO" ["ISO", "Value"] [] [] = [] := by
    simp [rowStep, columnLoop, objGet]
  have hrow1 : rowStep data true false "iso" "ISO" ["ISO", "Value"] []
      [{ innerHTML := k }, { innerHTML := v }] =
      [(stripHTML k, TableVal.row
        [("ISO", CellVal.plain (CellText.text (stripHTML k))),
         ("Value", CellVal.plain (CellText.num (JsNum.int
            (digitsValue ((stripHTML v).data.filter (fun c => c != ','))))))])] := by
    simp [rowStep, hloop, objGet, countryKeyOf, isNaNVal, hk3, propertyKey, objSet]
  unfold parseTable
  rw [hT]
  simp only [isoValueTable, hC, hTT, hH, List.foldl_cons, List.foldl_nil, hrow0, hrow1]
  simp [objKeys, hk4, sortObject_single]

/-- Claim C13 fails on the code.  In a table with the header cells `ISO` and `Value` and
the single data row `12`, `42`, called through the map handle, no cell is stored: the key
cell is a number, and the row is skipped.  With the data row `US`,
`9007199254740993` the value is stored as 9007199254740992, the nearest double. -/
theorem parseHTMLTable_numeric_cells_lost :
    parseTable demoData true [isoValueTable "12" "42"] = [] ∧
    parseTable demoData true [isoValueTable "US" "9007199254740993"] =
      [("US", TableVal.row
        [("ISO", CellVal.plain (CellText.text "US")),
         ("Value", CellVal.plain (CellText.num (JsNum.int 9007199254740992)))])] := by
  set_option maxRecDepth 100000 in decide!

/-- Claim C13, amended.  For a table whose header cells are `ISO` and `Value` and whose
single data row has the key cell `k` and the value cell `v`, both without background
colour, `parseHTMLTable` called through the map handle passes to the table callback a map
with one entry, under the text of `k`, whose `Value` is the integer written by the digits
of `v`: provided the text of `k` is not empty, is not made of digits, commas and dots, is
no numeric literal and is neither `undefined` nor `__proto__` (an assignment to that key
sets the prototype and adds no entry), and the text of `v` is made of digits and commas
only and its digits write an integer below `2^53`. -/
theorem parseHTMLTable_iso_value (s : MapState) (k v : String)
    (hfn : isFunction s s.opts.mapTable = true)
    (hk1 : stripHTML k ≠ "") (hk2 : isNumberCell (stripHTML k) = false)
    (hk3 : isNaNText (stripHTML k) = true) (hk4 : stripHTML k ≠ "undefined")
    (_hk5 : stripHTML k ≠ "__proto__")
    (hv1 : stripHTML v ≠ "")
    (hv2 : ∀ c ∈ (stripHTML v).data, c.isDigit = true ∨ c = ',')
    (hv3 : digitsValue ((stripHTML v).data.filter (fun c => c != ',')) < 2 ^ 53) :
    (parseHTMLTable s true [isoValueTable k v]).log = s.log ++
      [(s.opts.mapTable, JsArg.table
        [(stripHTML k, TableVal.row
          [("ISO", CellVal.plain (CellText.text (stripHTML k))),
           ("Value", CellVal.plain (CellText.num (JsNum.int
              (digitsValue ((stripHTML v).data.filter (fun c => c != ','))))))])])] := by
  unfold parseHTMLTable
  rw [parseTable_isoValue s.countryData k v hk1 hk2 hk3 hk4 hv1 hv2 hv3]
  simp [callBack, hfn]

theorem parseHTMLTable_iso_value_witness :
    (parseHTMLTable (after (svgWorldMap demoDoc {} demoData ["mapTable"])) true
      [isoValueTable "US" "42"]).log =
      [("mapTable", JsArg.table
        [("US", TableVal.row
          [("ISO", CellVal.plain (CellText.text "US")),
           ("Value", CellVal.plain (CellText.num (JsNum.int 42)))])])] :=
  (parseHTMLTable_iso_value (after (svgWorldMap demoDoc {} demoData ["mapTable"])) "US" "42"
    (by decide) (by decide) (by decide) (by decide) (by decide) (by decide) (by decide)
    (by decide) (by decide)).trans (by decide)

/-- Claim C14 fails on the code.  With the sample country data, a table with the header
cells `Country` and `Value` and the data rows `Germany`, `1` and `Atlantis`, `2` is no
time table; `findIdByName` resolves `Atlantis` to nothing, and the map passed to the
table callback has the keys `DE` and `undefined`, the second holding the row of
Atlantis, though the country data has no identifier `undefined`. -/
theorem parseHTMLTable_unresolved_name_kept :
    isTimeTable (columnKeysOf atlantisTable.headers) = false ∧
    findTable [atlantisTable] = some (atlantisTable, "country") ∧
    findIdByName demoData "Atlantis" = none ∧
    objGet demoData "undefined" = none ∧
    (parseHTMLTable (after (svgWorldMap demoDoc {} demoData ["mapTable"])) true
      [atlantisTable]).log =
      [("mapTable", JsArg.table
        [("DE", TableVal.row
          [("Country", CellVal.plain (CellText.text "Germany")),
           ("Value", CellVal.plain (CellText.num (JsNum.int 1)))]),
         ("undefined", TableVal.row
          [("Country", CellVal.plain (CellText.text "Atlantis")),
           ("Value", CellVal.plain (CellText.num (JsNum.int 2)))])])] := by
  decide
end SvgWorldMap
